import Mathlib

/-!
# Phase 5 of the Mathlingua front end

A shallow embedding of `internal/frontend/phase5/parser.go`, of `GetChars` and `CloneNode` from
`internal/ast/util.go`, of `join` from `cmd/completions.go`, of the workspace of
`internal/backend/workspace.go` and of `printCheckStats` from `internal/mlg/mlg.go`.

* The diagnostic tracker is threaded explicitly: a Go method `p.toX(a)` that may call
  `p.tracker.Append` becomes `toX ... a t`, returning its result together with the tracker
  contents after the call.
* A Go result `(T, bool)` becomes `T × Bool`; a zero value `T{}` becomes `default`.
* A Go pointer that may be `nil` becomes an `Option`; an interface value gets a `nil` constructor.
* `MetaData.Start` of a phase-4 node is kept as the field `Start`.
* The packages `phase4`, `ast`, `formulation` and the section identifier are not among the
  sources; what the parser needs of them is stated below, each at its place.
-/

namespace Mathlingua

/-! ## Positions and diagnostics -/

/-- Source position `ast.Position`. -/
structure Position where
  Offset : Nat
  Row : Nat
  Column : Nat
deriving DecidableEq, Repr, Inhabited

/-- Severity of a diagnostic, `frontend.DiagnosticType`. -/
inductive DiagnosticType where
  | Error
  | Warning
deriving DecidableEq, Repr, Inhabited

/-- Origin tag of a diagnostic, `frontend.DiagnosticOrigin`. -/
inductive DiagnosticOrigin where
  | Phase1LexerOrigin
  | Phase2LexerOrigin
  | Phase3LexerOrigin
  | Phase4ParserOrigin
  | Phase5ParserOrigin
  | FormulationLexerOrigin
  | FormulationParserOrigin
deriving DecidableEq, Repr, Inhabited

/-- A diagnostic as built by `newError`: `frontend.Diagnostic`. The Go field `Type` is a
keyword here and is called `Severity`. -/
structure Diagnostic where
  Severity : DiagnosticType
  Origin : DiagnosticOrigin
  Message : String
  Position : Position
deriving DecidableEq, Repr, Inhabited

/-- Modelled from the spec: the diagnostic tracker `frontend.DiagnosticTracker` is not in the
sources. It is "a monotonic, append-only log" with the operations `append` and `length`; its
contents are the list of diagnostics in insertion order. -/
abbrev DiagnosticTracker := List Diagnostic

/-- Tracker operation `tracker.Append(diag)`. -/
def DiagnosticTracker.Append (t : DiagnosticTracker) (d : Diagnostic) : DiagnosticTracker :=
  t ++ [d]

/-- Tracker operation `tracker.Length()`. -/
def DiagnosticTracker.Length (t : DiagnosticTracker) : Nat :=
  List.length t

/-! ## The phase-4 tree -/

mutual
/-- Phase-4 group `phase4.Group`: optional bracketed id, sections, start position. -/
inductive Group where
  | mk (Id : Option String) (Sections : List Section) (Start : Position)
/-- Phase-4 section `phase4.Section`: name, arguments, start position. -/
inductive Section where
  | mk (Name : String) (Args : List Argument) (Start : Position)
/-- Phase-4 argument `phase4.Argument`: payload and start position. -/
inductive Argument where
  | mk (Arg : ArgumentDataType) (Start : Position)
/-- Payload of an argument, `phase4.ArgumentDataType`. -/
inductive ArgumentDataType where
  | FormulationArgumentData (Text : String)
  | ArgumentTextArgumentData (Text : String)
  | TextArgumentData (Text : String)
  | Group (g : Group)
end

/-- Field `group.Id`. -/
def Group.Id : Group → Option String
  | .mk id _ _ => id

/-- Field `group.Sections`. -/
def Group.Sections : Group → List Section
  | .mk _ sections _ => sections

/-- Field `group.MetaData.Start`, also the result of `group.Start()`. -/
def Group.Start : Group → Position
  | .mk _ _ start => start

/-- Field `section.Name`. -/
def Section.Name : Section → String
  | .mk name _ _ => name

/-- Field `section.Args`. -/
def Section.Args : Section → List Argument
  | .mk _ args _ => args

/-- Field `section.MetaData.Start`. -/
def Section.Start : Section → Position
  | .mk _ _ start => start

/-- Field `arg.Arg`. -/
def Argument.Arg : Argument → ArgumentDataType
  | .mk arg _ => arg

/-- Field `arg.MetaData.Start`. -/
def Argument.Start : Argument → Position
  | .mk _ start => start

instance : Inhabited Section := ⟨.mk "" [] default⟩

/-- Phase-4 text block `phase4.TextBlock`. -/
structure TextBlock where
  Text : String
  Start : Position
deriving Inhabited

/-- Top-level node `phase4.TopLevelNodeType`: a text block or a group. -/
inductive TopLevelNodeType where
  | TextBlock (block : TextBlock)
  | Group (group : Group)

/-- Method `item.Start()` of a top-level node. -/
def TopLevelNodeType.Start : TopLevelNodeType → Position
  | .TextBlock block => block.Start
  | .Group group => group.Start

/-- Phase-4 root `phase4.Root`. -/
structure Root where
  Nodes : List TopLevelNodeType

mutual
/-- Nesting depth of the groups below a group. -/
def Group.depth : Group → Nat
  | .mk _ sections _ => depthSections sections
/-- Largest nesting depth among the sections of a list. -/
def depthSections : List Section → Nat
  | [] => 0
  | s :: ss => max (Section.depth s) (depthSections ss)
/-- Nesting depth of the groups below a section. -/
def Section.depth : Section → Nat
  | .mk _ args _ => depthArgs args
/-- Largest nesting depth among the arguments of a list. -/
def depthArgs : List Argument → Nat
  | [] => 0
  | a :: as => max (Argument.depth a) (depthArgs as)
/-- Nesting depth of an argument: `0` for a literal, one more than its group otherwise. -/
def Argument.depth : Argument → Nat
  | .mk (.Group g) _ => Group.depth g + 1
  | .mk _ _ => 0
end

/-! ## The typed AST

The `ast` package is not in the sources. Each node below has the fields that the parser's
composite literals assign. A node that can hold clauses takes the clause type as a parameter,
so that `Clause` can be declared afterwards. -/

/-- Modelled from the spec: the tree built by the formulation sub-parser. That parser is not in
the sources, and phase 5 only stores the tree it returns, so a tree is an uninterpreted code. -/
structure FormulationNode where
  code : Nat
deriving DecidableEq, Repr, Inhabited

/-- Node `ast.Formulation[T]`, for both `ast.NodeType` and `ast.Signature`. -/
structure Formulation where
  RawText : String
  Root : Option FormulationNode
  Label : Option String
deriving DecidableEq, Repr, Inhabited

/-- Node `ast.Spec`. -/
structure Spec where
  RawText : String
  Root : Option FormulationNode
  Label : Option String
deriving DecidableEq, Repr, Inhabited

/-- Node `ast.Alias`. -/
structure Alias where
  RawText : String
  Root : Option FormulationNode
  Label : Option String
deriving DecidableEq, Repr, Inhabited

/-- Node `ast.Target`. -/
structure Target where
  RawText : String
  Root : Option FormulationNode
  Label : Option String
deriving DecidableEq, Repr, Inhabited

/-- Node `ast.IdItem`. -/
structure IdItem where
  RawText : String
  Root : Option FormulationNode
  Label : Option String
deriving DecidableEq, Repr, Inhabited

/-- Node `ast.TextItem`. -/
structure TextItem where
  RawText : String
deriving DecidableEq, Repr, Inhabited

/-- Section `ast.GivenSection`. -/
structure GivenSection where
  Given : List Target
deriving Inhabited

/-- Section `ast.WhereSection`. -/
structure WhereSection where
  Specs : List Spec
deriving Inhabited

/-- Section `ast.ExistsSection`. -/
structure ExistsSection where
  Targets : List Target
deriving Inhabited

/-- Section `ast.ExistsUniqueSection`. -/
structure ExistsUniqueSection where
  Targets : List Target
deriving Inhabited

/-- Section `ast.ForAllSection`. -/
structure ForAllSection where
  Targets : List Target
deriving Inhabited

/-- Section `ast.PiecewiseSection`, which has no field. -/
structure PiecewiseSection where
deriving Inhabited

/-- Section `ast.AllOfSection`. -/
structure AllOfSection (C : Type) where
  Clauses : List C
deriving Inhabited

/-- Section `ast.NotSection`. -/
structure NotSection (C : Type) where
  Clause : C
deriving Inhabited

/-- Section `ast.AnyOfSection`. -/
structure AnyOfSection (C : Type) where
  Clauses : List C
deriving Inhabited

/-- Section `ast.OneOfSection`. -/
structure OneOfSection (C : Type) where
  Clauses : List C
deriving Inhabited

/-- Section `ast.SuchThatSection`. -/
structure SuchThatSection (C : Type) where
  Clauses : List C
deriving Inhabited

/-- Section `ast.ThenSection`. -/
structure ThenSection (C : Type) where
  Clauses : List C
deriving Inhabited

/-- Section `ast.IfSection`. -/
structure IfSection (C : Type) where
  Clauses : List C
deriving Inhabited

/-- Section `ast.IffSection`. -/
structure IffSection (C : Type) where
  Clauses : List C
deriving Inhabited

/-- Section `ast.WhenSection`. -/
structure WhenSection (C : Type) where
  When : List C
deriving Inhabited

/-- Section `ast.ElseSection`. -/
structure ElseSection (C : Type) where
  Items : List C
deriving Inhabited

/-- Group `ast.GivenGroup`. -/
structure GivenGroup (C : Type) where
  Given : GivenSection
  Where : Option WhereSection
  SuchThat : Option (SuchThatSection C)
  Then : ThenSection C
deriving Inhabited

/-- Group `ast.AllOfGroup`. -/
structure AllOfGroup (C : Type) where
  AllOf : AllOfSection C
deriving Inhabited

/-- Group `ast.NotGroup`. -/
structure NotGroup (C : Type) where
  Not : NotSection C
deriving Inhabited

/-- Group `ast.AnyOfGroup`. -/
structure AnyOfGroup (C : Type) where
  AnyOf : AnyOfSection C
deriving Inhabited

/-- Group `ast.OneOfGroup`. -/
structure OneOfGroup (C : Type) where
  OneOf : OneOfSection C
deriving Inhabited

/-- Group `ast.ExistsGroup`. -/
structure ExistsGroup (C : Type) where
  Exists : ExistsSection
  Where : Option WhereSection
  SuchThat : Option (SuchThatSection C)
deriving Inhabited

/-- Group `ast.ExistsUniqueGroup`. -/
structure ExistsUniqueGroup (C : Type) where
  ExistsUnique : ExistsUniqueSection
  Where : Option WhereSection
  SuchThat : SuchThatSection C
deriving Inhabited

/-- Group `ast.ForAllGroup`. -/
structure ForAllGroup (C : Type) where
  ForAll : ForAllSection
  Where : Option WhereSection
  SuchThat : Option (SuchThatSection C)
  Then : ThenSection C
deriving Inhabited

/-- Group `ast.IfGroup`. -/
structure IfGroup (C : Type) where
  If : IfSection C
  Then : ThenSection C
deriving Inhabited

/-- Group `ast.IffGroup`. -/
structure IffGroup (C : Type) where
  Iff : IffSection C
  Then : ThenSection C
deriving Inhabited

/-- Group `ast.WhenGroup`. -/
structure WhenGroup (C : Type) where
  When : WhenSection C
  Then : ThenSection C
deriving Inhabited

/-- Pair `ast.IfThen` of a piecewise group. -/
structure IfThen (C : Type) where
  If : IfSection C
  Then : ThenSection C
deriving Inhabited

/-- Group `ast.PiecewiseGroup`. -/
structure PiecewiseGroup (C : Type) where
  Piecewise : PiecewiseSection
  IfThen : List (IfThen C)
  Else : Option (ElseSection C)
deriving Inhabited

/-- Interface `ast.Clause`: a formulation or one of the twelve clause groups; `nil` is the
zero value of the interface. -/
inductive Clause where
  | nil
  | Formulation (f : Formulation)
  | AllOfGroup (grp : AllOfGroup Clause)
  | NotGroup (grp : NotGroup Clause)
  | AnyOfGroup (grp : AnyOfGroup Clause)
  | OneOfGroup (grp : OneOfGroup Clause)
  | ForAllGroup (grp : ForAllGroup Clause)
  | ExistsGroup (grp : ExistsGroup Clause)
  | ExistsUniqueGroup (grp : ExistsUniqueGroup Clause)
  | IfGroup (grp : IfGroup Clause)
  | IffGroup (grp : IffGroup Clause)
  | WhenGroup (grp : WhenGroup Clause)
  | PiecewiseGroup (grp : PiecewiseGroup Clause)
  | GivenGroup (grp : GivenGroup Clause)

instance : Inhabited Clause := ⟨Clause.nil⟩

/-- Section `ast.SymbolSection`. -/
structure SymbolSection where
  Symbol : Alias
deriving Inhabited

/-- Section `ast.WrittenSection`. -/
structure WrittenSection where
  Written : List TextItem
deriving Inhabited

/-- Group `ast.SymbolWrittenGroup`. -/
structure SymbolWrittenGroup where
  Symbol : SymbolSection
  Written : Option WrittenSection
deriving Inhabited

/-- Section `ast.ConnectionSection`, which has no field. -/
structure ConnectionSection where
deriving Inhabited

/-- Section `ast.UsingSection`. -/
structure UsingSection where
  Using : List Target
deriving Inhabited

/-- Section `ast.MeansSection`. -/
structure MeansSection where
  Means : Clause
deriving Inhabited

/-- Section `ast.SignifiesSection`. -/
structure SignifiesSection where
  Signifies : Spec
deriving Inhabited

/-- Section `ast.ConnectionViewableSection`, which has no field. -/
structure ConnectionViewableSection where
deriving Inhabited

/-- Section `ast.ConnectionThroughSection`. -/
structure ConnectionThroughSection where
  Through : Formulation
deriving Inhabited

/-- Group `ast.ConnectionGroup`. -/
structure ConnectionGroup where
  Connection : ConnectionSection
  Using : Option UsingSection
  Means : MeansSection
  Signfies : Option SignifiesSection
  Viewable : Option ConnectionViewableSection
  Through : Option ConnectionThroughSection
deriving Inhabited

/-- Interface `ast.ProvidesType`: an alias, a symbol group or a connection group; `nil` is the zero value of the interface. -/
inductive ProvidesType where
  | nil
  | Alias (a : Alias)
  | SymbolWrittenGroup (grp : SymbolWrittenGroup)
  | ConnectionGroup (grp : ConnectionGroup)

instance : Inhabited ProvidesType := ⟨ProvidesType.nil⟩

/-- Section `ast.ProvidesSection`. -/
structure ProvidesSection where
  Provides : List ProvidesType
deriving Inhabited

/-- Group `ast.WrittenGroup`. -/
structure WrittenGroup where
  Written : WrittenSection
deriving Inhabited

/-- Section `ast.CalledSection`. -/
structure CalledSection where
  Called : List TextItem
deriving Inhabited

/-- Group `ast.CalledGroup`. -/
structure CalledGroup where
  Called : CalledSection
deriving Inhabited

/-- Section `ast.WritingSection`. -/
structure WritingSection where
  Writing : Target
deriving Inhabited

/-- Section `ast.WritingAsSection`. -/
structure WritingAsSection where
  As : List TextItem
deriving Inhabited

/-- Group `ast.WritingGroup`. -/
structure WritingGroup where
  Writing : WritingSection
  As : WritingAsSection
deriving Inhabited

/-- Section `ast.OverviewSection`. -/
structure OverviewSection where
  Overview : TextItem
deriving Inhabited

/-- Group `ast.OverviewGroup`. -/
structure OverviewGroup where
  Overview : OverviewSection
deriving Inhabited

/-- Section `ast.MotivationSection`. -/
structure MotivationSection where
  Motivation : TextItem
deriving Inhabited

/-- Group `ast.MotivationGroup`. -/
structure MotivationGroup where
  Motivation : MotivationSection
deriving Inhabited

/-- Section `ast.HistorySection`. -/
structure HistorySection where
  History : TextItem
deriving Inhabited

/-- Group `ast.HistoryGroup`. -/
structure HistoryGroup where
  History : HistorySection
deriving Inhabited

/-- Section `ast.ExampleSection`. -/
structure ExampleSection where
  Examples : List TextItem
deriving Inhabited

/-- Group `ast.ExampleGroup`. -/
structure ExampleGroup where
  Examples : ExampleSection
deriving Inhabited

/-- Section `ast.RelatedSection`. -/
structure RelatedSection where
  Related : List Formulation
deriving Inhabited

/-- Group `ast.RelatedGroup`. -/
structure RelatedGroup where
  Related : RelatedSection
deriving Inhabited

/-- Section `ast.DiscovererSection`. -/
structure DiscovererSection where
  Discoverer : List TextItem
deriving Inhabited

/-- Group `ast.DiscovererGroup`. -/
structure DiscovererGroup where
  Discoverer : DiscovererSection
deriving Inhabited

/-- Section `ast.DescribingSection`. -/
structure DescribingSection where
  Describing : TextItem
deriving Inhabited

/-- Section `ast.ContentSection`. -/
structure ContentSection where
  Content : TextItem
deriving Inhabited

/-- Group `ast.DescribingGroup`. -/
structure DescribingGroup where
  Describing : DescribingSection
  Content : ContentSection
deriving Inhabited

/-- Interface `ast.NoteType`: a describing group or a text item; `nil` is the zero value of the interface. -/
inductive NoteType where
  | nil
  | DescribingGroup (grp : DescribingGroup)
  | TextItem (item : TextItem)

instance : Inhabited NoteType := ⟨NoteType.nil⟩

/-- Section `ast.NoteSection`. -/
structure NoteSection where
  Note : List NoteType
deriving Inhabited

/-- Group `ast.NoteGroup`. -/
structure NoteGroup where
  Note : NoteSection
deriving Inhabited

/-- Interface `ast.DocumentedType`: one of the documentation groups; `nil` is the zero value of the interface. -/
inductive DocumentedType where
  | nil
  | OverviewGroup (grp : OverviewGroup)
  | MotivationGroup (grp : MotivationGroup)
  | HistoryGroup (grp : HistoryGroup)
  | ExampleGroup (grp : ExampleGroup)
  | RelatedGroup (grp : RelatedGroup)
  | DiscovererGroup (grp : DiscovererGroup)
  | NoteGroup (grp : NoteGroup)
  | WrittenGroup (grp : WrittenGroup)
  | WritingGroup (grp : WritingGroup)
  | CalledGroup (grp : CalledGroup)

instance : Inhabited DocumentedType := ⟨DocumentedType.nil⟩

/-- Section `ast.DocumentedSection`. -/
structure DocumentedSection where
  Documented : List DocumentedType
deriving Inhabited

/-- Section `ast.AliasesSection`. -/
structure AliasesSection where
  Aliases : List Alias
deriving Inhabited

/-- Section `ast.LabelSection`. -/
structure LabelSection where
  Label : TextItem
deriving Inhabited

/-- Section `ast.BySection`. -/
structure BySection where
  By : List TextItem
deriving Inhabited

/-- Group `ast.LabelGroup`. -/
structure LabelGroup where
  Label : LabelSection
  By : BySection
deriving Inhabited

/-- Group `ast.ByGroup`. -/
structure ByGroup where
  By : BySection
deriving Inhabited

/-- Interface `ast.JustifiedType`: a label group or a by group; `nil` is the zero value of the interface. -/
inductive JustifiedType where
  | nil
  | LabelGroup (grp : LabelGroup)
  | ByGroup (grp : ByGroup)

instance : Inhabited JustifiedType := ⟨JustifiedType.nil⟩

/-- Section `ast.JustifiedSection`. -/
structure JustifiedSection where
  Justified : List JustifiedType
deriving Inhabited

/-- Section `ast.ReferencesSection`. -/
structure ReferencesSection where
  References : List TextItem
deriving Inhabited

/-- Section `ast.MetaIdSection`. -/
structure MetaIdSection where
  Id : TextItem
deriving Inhabited

/-- Section `ast.DescribesSection`. -/
structure DescribesSection where
  Describes : Target
deriving Inhabited

/-- Section `ast.WithSection`. -/
structure WithSection where
  With : List Target
deriving Inhabited

/-- Section `ast.ExtendsSection`. -/
structure ExtendsSection where
  Extends : List Clause
deriving Inhabited

/-- Section `ast.SatisfiesSection`. -/
structure SatisfiesSection where
  Satisfies : List Clause
deriving Inhabited

/-- Group `ast.DescribesGroup`. -/
structure DescribesGroup where
  Id : IdItem
  Describes : DescribesSection
  With : Option WithSection
  Using : Option UsingSection
  When : Option (WhenSection Clause)
  SuchThat : Option (SuchThatSection Clause)
  Extends : Option ExtendsSection
  Satisfies : Option SatisfiesSection
  Provides : Option ProvidesSection
  Justified : Option JustifiedSection
  Documented : Option DocumentedSection
  References : Option ReferencesSection
  Aliases : Option AliasesSection
  MetaId : Option MetaIdSection
deriving Inhabited

/-- Section `ast.DefinesSection`. -/
structure DefinesSection where
  Defines : Target
deriving Inhabited

/-- Section `ast.SpecifiesSection`. -/
structure SpecifiesSection where
  Specifies : List Clause
deriving Inhabited

/-- Group `ast.DefinesGroup`. -/
structure DefinesGroup where
  Id : IdItem
  Defines : DefinesSection
  With : Option WithSection
  Using : Option UsingSection
  When : Option (WhenSection Clause)
  SuchThat : Option (SuchThatSection Clause)
  Means : Option MeansSection
  Specifies : Option SpecifiesSection
  Provides : Option ProvidesSection
  Justified : Option JustifiedSection
  Documented : Option DocumentedSection
  References : Option ReferencesSection
  Aliases : Option AliasesSection
  MetaId : Option MetaIdSection
deriving Inhabited

/-- Section `ast.StatesSection`, which has no field. -/
structure StatesSection where
deriving Inhabited

/-- Section `ast.ThatSection`. -/
structure ThatSection where
  That : List Clause
deriving Inhabited

/-- Group `ast.StatesGroup`. -/
structure StatesGroup where
  Id : IdItem
  States : StatesSection
  With : Option WithSection
  Using : Option UsingSection
  When : Option (WhenSection Clause)
  SuchThat : Option (SuchThatSection Clause)
  That : ThatSection
  Documented : Option DocumentedSection
  Justified : Option JustifiedSection
  References : Option ReferencesSection
  Aliases : Option AliasesSection
  MetaId : Option MetaIdSection
deriving Inhabited

/-- Section `ast.AxiomSection`. -/
structure AxiomSection where
  Axiom : List TextItem
deriving Inhabited

/-- Group `ast.AxiomGroup`. -/
structure AxiomGroup where
  Id : Option IdItem
  Axiom : AxiomSection
  Given : Option GivenSection
  Where : Option WhereSection
  If : Option (IfSection Clause)
  Iff : Option (IffSection Clause)
  Then : ThenSection Clause
  Documented : Option DocumentedSection
  References : Option ReferencesSection
  Aliases : Option AliasesSection
  MetaId : Option MetaIdSection
deriving Inhabited

/-- Section `ast.ConjectureSection`. -/
structure ConjectureSection where
  Conjecture : List TextItem
deriving Inhabited

/-- Group `ast.ConjectureGroup`. -/
structure ConjectureGroup where
  Id : Option IdItem
  Conjecture : ConjectureSection
  Given : Option GivenSection
  Where : Option WhereSection
  If : Option (IfSection Clause)
  Iff : Option (IffSection Clause)
  Then : ThenSection Clause
  Documented : Option DocumentedSection
  References : Option ReferencesSection
  Aliases : Option AliasesSection
  MetaId : Option MetaIdSection
deriving Inhabited

/-- Section `ast.TheoremSection`. -/
structure TheoremSection where
  Theorem : List TextItem
deriving Inhabited

/-- Section `ast.ProofSection`. -/
structure ProofSection where
  Proof : TextItem
deriving Inhabited

/-- Group `ast.TheoremGroup`. -/
structure TheoremGroup where
  Id : Option IdItem
  Theorem : TheoremSection
  Given : Option GivenSection
  Where : Option WhereSection
  If : Option (IfSection Clause)
  Iff : Option (IffSection Clause)
  Then : ThenSection Clause
  Proof : Option ProofSection
  Documented : Option DocumentedSection
  References : Option ReferencesSection
  Aliases : Option AliasesSection
  MetaId : Option MetaIdSection
deriving Inhabited

/-- Node `ast.TextBlockItem`. -/
structure TextBlockItem where
  Text : String
deriving Inhabited

/-- Section `ast.ZeroSection`, which has no field. -/
structure ZeroSection where
deriving Inhabited

/-- Group `ast.ZeroGroup`. -/
structure ZeroGroup where
  Zero : ZeroSection
  Means : MeansSection
deriving Inhabited

/-- Section `ast.PositiveIntSection`. -/
structure PositiveIntSection where
  PositiveInt : Target
deriving Inhabited

/-- Group `ast.PositiveIntGroup`. -/
structure PositiveIntGroup where
  PositiveInt : PositiveIntSection
  Means : MeansSection
deriving Inhabited

/-- Section `ast.NegativeIntSection`. -/
structure NegativeIntSection where
  NegativeInt : Target
deriving Inhabited

/-- Group `ast.NegativeIntGroup`. -/
structure NegativeIntGroup where
  NegativeInt : NegativeIntSection
  Means : MeansSection
deriving Inhabited

/-- Section `ast.PositiveFloatSection`. -/
structure PositiveFloatSection where
  PositiveFloat : Target
deriving Inhabited

/-- Group `ast.PositiveFloatGroup`. -/
structure PositiveFloatGroup where
  PositiveFloat : PositiveFloatSection
  Means : MeansSection
deriving Inhabited

/-- Section `ast.NegativeFloatSection`. -/
structure NegativeFloatSection where
  NegativeFloat : Target
deriving Inhabited

/-- Group `ast.NegativeFloatGroup`. -/
structure NegativeFloatGroup where
  NegativeFloat : NegativeFloatSection
  Means : MeansSection
deriving Inhabited

/-- Interface `ast.SpecifyType`: one of the five number-literal groups; `nil` is the zero value of the interface. -/
inductive SpecifyType where
  | nil
  | ZeroGroup (grp : ZeroGroup)
  | PositiveIntGroup (grp : PositiveIntGroup)
  | NegativeIntGroup (grp : NegativeIntGroup)
  | PositiveFloatGroup (grp : PositiveFloatGroup)
  | NegativeFloatGroup (grp : NegativeFloatGroup)

instance : Inhabited SpecifyType := ⟨SpecifyType.nil⟩

/-- Section `ast.TopLevelSpecifySection`. -/
structure TopLevelSpecifySection where
  Specify : List SpecifyType
deriving Inhabited

/-- Group `ast.SpecifyGroup`. -/
structure SpecifyGroup where
  Specify : TopLevelSpecifySection
  MetaId : Option MetaIdSection
deriving Inhabited

/-- Section `ast.TopicSection`, which has no field. -/
structure TopicSection where
deriving Inhabited

/-- Group `ast.TopicGroup`. -/
structure TopicGroup where
  Id : IdItem
  Topic : TopicSection
  Content : ContentSection
  References : Option ReferencesSection
  MetaId : Option MetaIdSection
deriving Inhabited

/-- Section `ast.TitleSection`. -/
structure TitleSection where
  Title : TextItem
deriving Inhabited

/-- Group `ast.TitleGroup`. -/
structure TitleGroup where
  Title : TitleSection
deriving Inhabited

/-- Section `ast.AuthorSection`. -/
structure AuthorSection where
  Author : List TextItem
deriving Inhabited

/-- Group `ast.AuthorGroup`. -/
structure AuthorGroup where
  Author : AuthorSection
deriving Inhabited

/-- Section `ast.OffsetSection`. -/
structure OffsetSection where
  Offset : TextItem
deriving Inhabited

/-- Group `ast.OffsetGroup`. -/
structure OffsetGroup where
  Offset : OffsetSection
deriving Inhabited

/-- Section `ast.UrlSection`. -/
structure UrlSection where
  Url : TextItem
deriving Inhabited

/-- Group `ast.UrlGroup`. -/
structure UrlGroup where
  Url : UrlSection
deriving Inhabited

/-- Section `ast.HomepageSection`. -/
structure HomepageSection where
  Homepage : TextItem
deriving Inhabited

/-- Group `ast.HomepageGroup`. -/
structure HomepageGroup where
  Homepage : HomepageSection
deriving Inhabited

/-- Section `ast.TypeSection`; the Go field `Type` is a keyword here and is called `Kind`. -/
structure TypeSection where
  Kind : TextItem
deriving Inhabited

/-- Group `ast.TypeGroup`; the Go field `Type` is a keyword here and is called `Kind`. -/
structure TypeGroup where
  Kind : TypeSection
deriving Inhabited

/-- Section `ast.EditionSection`. -/
structure EditionSection where
  Edition : TextItem
deriving Inhabited

/-- Group `ast.EditionGroup`. -/
structure EditionGroup where
  Edition : EditionSection
deriving Inhabited

/-- Section `ast.EditorSection`. -/
structure EditorSection where
  Editor : List TextItem
deriving Inhabited

/-- Group `ast.EditorGroup`. -/
structure EditorGroup where
  Editor : EditorSection
deriving Inhabited

/-- Section `ast.InstitutionSection`. -/
structure InstitutionSection where
  Institution : List TextItem
deriving Inhabited

/-- Group `ast.InstitutionGroup`. -/
structure InstitutionGroup where
  Institution : InstitutionSection
deriving Inhabited

/-- Section `ast.JournalSection`. -/
structure JournalSection where
  Journal : List TextItem
deriving Inhabited

/-- Group `ast.JournalGroup`. -/
structure JournalGroup where
  Journal : JournalSection
deriving Inhabited

/-- Section `ast.PublisherSection`. -/
structure PublisherSection where
  Publisher : List TextItem
deriving Inhabited

/-- Group `ast.PublisherGroup`. -/
structure PublisherGroup where
  Publisher : PublisherSection
deriving Inhabited

/-- Section `ast.VolumeSection`. -/
structure VolumeSection where
  Volume : TextItem
deriving Inhabited

/-- Group `ast.VolumeGroup`. -/
structure VolumeGroup where
  Volume : VolumeSection
deriving Inhabited

/-- Section `ast.MonthSection`. -/
structure MonthSection where
  Month : TextItem
deriving Inhabited

/-- Group `ast.MonthGroup`. -/
structure MonthGroup where
  Month : MonthSection
deriving Inhabited

/-- Section `ast.YearSection`. -/
structure YearSection where
  Year : TextItem
deriving Inhabited

/-- Group `ast.YearGroup`. -/
structure YearGroup where
  Year : YearSection
deriving Inhabited

/-- Section `ast.DescriptionSection`. -/
structure DescriptionSection where
  Description : TextItem
deriving Inhabited

/-- Group `ast.DescriptionGroup`. -/
structure DescriptionGroup where
  Description : DescriptionSection
deriving Inhabited

/-- Interface `ast.ResourceType`: one of the fifteen resource descriptor groups; `nil` is the zero value of the interface. -/
inductive ResourceType where
  | nil
  | TitleGroup (grp : TitleGroup)
  | AuthorGroup (grp : AuthorGroup)
  | OffsetGroup (grp : OffsetGroup)
  | UrlGroup (grp : UrlGroup)
  | HomepageGroup (grp : HomepageGroup)
  | TypeGroup (grp : TypeGroup)
  | EditionGroup (grp : EditionGroup)
  | EditorGroup (grp : EditorGroup)
  | InstitutionGroup (grp : InstitutionGroup)
  | JournalGroup (grp : JournalGroup)
  | PublisherGroup (grp : PublisherGroup)
  | VolumeGroup (grp : VolumeGroup)
  | MonthGroup (grp : MonthGroup)
  | YearGroup (grp : YearGroup)
  | DescriptionGroup (grp : DescriptionGroup)

instance : Inhabited ResourceType := ⟨ResourceType.nil⟩

/-- Section `ast.ResourceSection`. -/
structure ResourceSection where
  Items : List ResourceType
deriving Inhabited

/-- Group `ast.ResourceGroup`. -/
structure ResourceGroup where
  Id : String
  Resource : ResourceSection
  MetaId : Option MetaIdSection
deriving Inhabited

/-- Section `ast.NameSection`. -/
structure NameSection where
  Name : List TextItem
deriving Inhabited

/-- Group `ast.NameGroup`. -/
structure NameGroup where
  Name : NameSection
deriving Inhabited

/-- Section `ast.BiographySection`. -/
structure BiographySection where
  Biography : TextItem
deriving Inhabited

/-- Group `ast.BiographyGroup`. -/
structure BiographyGroup where
  Biography : BiographySection
deriving Inhabited

/-- Interface `ast.PersonType`: a name group or a biography group; `nil` is the zero value of the interface. -/
inductive PersonType where
  | nil
  | NameGroup (grp : NameGroup)
  | BiographyGroup (grp : BiographyGroup)

instance : Inhabited PersonType := ⟨PersonType.nil⟩

/-- Section `ast.PersonSection`. -/
structure PersonSection where
  Items : List PersonType
deriving Inhabited

/-- Group `ast.PersonGroup`. -/
structure PersonGroup where
  Id : String
  Person : PersonSection
  MetaId : Option MetaIdSection
deriving Inhabited

/-- Interface `ast.TopLevelItemType`: a text block or one of the ten top-level groups; `nil` is the zero value of the interface. -/
inductive TopLevelItemType where
  | nil
  | TextBlockItem (item : TextBlockItem)
  | DefinesGroup (grp : DefinesGroup)
  | DescribesGroup (grp : DescribesGroup)
  | StatesGroup (grp : StatesGroup)
  | AxiomGroup (grp : AxiomGroup)
  | ConjectureGroup (grp : ConjectureGroup)
  | TheoremGroup (grp : TheoremGroup)
  | SpecifyGroup (grp : SpecifyGroup)
  | TopicGroup (grp : TopicGroup)
  | PersonGroup (grp : PersonGroup)
  | ResourceGroup (grp : ResourceGroup)

instance : Inhabited TopLevelItemType := ⟨TopLevelItemType.nil⟩

/-- Root `ast.Document` of the typed AST. -/
structure Document where
  Items : List TopLevelItemType
deriving Inhabited

/-! ## Section names

Modelled from the spec: the constants `ast.LowerXName` / `ast.UpperXName` are not in the
sources. Each one is the section name that its identifier spells (`ast.LowerPiecewiseName` is
`piecewise`, `ast.UpperTheoremName` is `Theorem`), which are the names the spec uses; a
`QuestionName` is the name followed by a question mark. -/

/-- Constant `ast.LowerAllOfName`. -/
def LowerAllOfName : String := "allOf"

/-- Constant `ast.LowerAnyOfName`. -/
def LowerAnyOfName : String := "anyOf"

/-- Constant `ast.LowerAsName`. -/
def LowerAsName : String := "as"

/-- Constant `ast.LowerAuthorName`. -/
def LowerAuthorName : String := "author"

/-- Constant `ast.LowerBiographyName`. -/
def LowerBiographyName : String := "biography"

/-- Constant `ast.LowerByName`. -/
def LowerByName : String := "by"

/-- Constant `ast.LowerCalledName`. -/
def LowerCalledName : String := "called"

/-- Constant `ast.LowerConnectionName`. -/
def LowerConnectionName : String := "connection"

/-- Constant `ast.LowerContentName`. -/
def LowerContentName : String := "content"

/-- Constant `ast.LowerDescribingName`. -/
def LowerDescribingName : String := "describing"

/-- Constant `ast.LowerDescriptionName`. -/
def LowerDescriptionName : String := "description"

/-- Constant `ast.LowerDetailsName`. -/
def LowerDetailsName : String := "details"

/-- Constant `ast.LowerDiscovererName`. -/
def LowerDiscovererName : String := "discoverer"

/-- Constant `ast.LowerEditionName`. -/
def LowerEditionName : String := "edition"

/-- Constant `ast.LowerEditorName`. -/
def LowerEditorName : String := "editor"

/-- Constant `ast.LowerElseName`. -/
def LowerElseName : String := "else"

/-- Constant `ast.LowerExampleName`. -/
def LowerExampleName : String := "example"

/-- Constant `ast.LowerExistsName`. -/
def LowerExistsName : String := "exists"

/-- Constant `ast.LowerExistsUniqueName`. -/
def LowerExistsUniqueName : String := "existsUnique"

/-- Constant `ast.LowerExtendsName`. -/
def LowerExtendsName : String := "extends"

/-- Constant `ast.LowerForAllName`. -/
def LowerForAllName : String := "forAll"

/-- Constant `ast.LowerGivenName`. -/
def LowerGivenName : String := "given"

/-- Constant `ast.LowerHistoryName`. -/
def LowerHistoryName : String := "history"

/-- Constant `ast.LowerHomepageName`. -/
def LowerHomepageName : String := "homepage"

/-- Constant `ast.LowerIfName`. -/
def LowerIfName : String := "if"

/-- Constant `ast.LowerIffName`. -/
def LowerIffName : String := "iff"

/-- Constant `ast.LowerInstitutionName`. -/
def LowerInstitutionName : String := "institution"

/-- Constant `ast.LowerJournalName`. -/
def LowerJournalName : String := "journal"

/-- Constant `ast.LowerLabelName`. -/
def LowerLabelName : String := "label"

/-- Constant `ast.LowerMeansName`. -/
def LowerMeansName : String := "means"

/-- Constant `ast.LowerMembersName`. -/
def LowerMembersName : String := "members"

/-- Constant `ast.LowerMonthName`. -/
def LowerMonthName : String := "month"

/-- Constant `ast.LowerMotivationName`. -/
def LowerMotivationName : String := "motivation"

/-- Constant `ast.LowerNameName`. -/
def LowerNameName : String := "name"

/-- Constant `ast.LowerNegativeFloatName`. -/
def LowerNegativeFloatName : String := "negativeFloat"

/-- Constant `ast.LowerNegativeIntName`. -/
def LowerNegativeIntName : String := "negativeInt"

/-- Constant `ast.LowerNotName`. -/
def LowerNotName : String := "not"

/-- Constant `ast.LowerNoteName`. -/
def LowerNoteName : String := "note"

/-- Constant `ast.LowerOffsetName`. -/
def LowerOffsetName : String := "offset"

/-- Constant `ast.LowerOneOfName`. -/
def LowerOneOfName : String := "oneOf"

/-- Constant `ast.LowerOperationsName`. -/
def LowerOperationsName : String := "operations"

/-- Constant `ast.LowerOverviewName`. -/
def LowerOverviewName : String := "overview"

/-- Constant `ast.LowerPiecewiseName`. -/
def LowerPiecewiseName : String := "piecewise"

/-- Constant `ast.LowerPositiveFloatName`. -/
def LowerPositiveFloatName : String := "positiveFloat"

/-- Constant `ast.LowerPositiveIntName`. -/
def LowerPositiveIntName : String := "positiveInt"

/-- Constant `ast.LowerPublisherName`. -/
def LowerPublisherName : String := "publisher"

/-- Constant `ast.LowerRelatedName`. -/
def LowerRelatedName : String := "related"

/-- Constant `ast.LowerSatisfiesName`. -/
def LowerSatisfiesName : String := "satisfies"

/-- Constant `ast.LowerSignifiesName`. -/
def LowerSignifiesName : String := "signifies"

/-- Constant `ast.LowerSpecifiesName`. -/
def LowerSpecifiesName : String := "specifies"

/-- Constant `ast.LowerSuchThatName`. -/
def LowerSuchThatName : String := "suchThat"

/-- Constant `ast.LowerSymbolName`. -/
def LowerSymbolName : String := "symbol"

/-- Constant `ast.LowerThatName`. -/
def LowerThatName : String := "that"

/-- Constant `ast.LowerThenName`. -/
def LowerThenName : String := "then"

/-- Constant `ast.LowerThroughName`. -/
def LowerThroughName : String := "through"

/-- Constant `ast.LowerTitleName`. -/
def LowerTitleName : String := "title"

/-- Constant `ast.LowerTypeName`. -/
def LowerTypeName : String := "type"

/-- Constant `ast.LowerUrlName`. -/
def LowerUrlName : String := "url"

/-- Constant `ast.LowerUsingName`. -/
def LowerUsingName : String := "using"

/-- Constant `ast.LowerViewableName`. -/
def LowerViewableName : String := "viewable"

/-- Constant `ast.LowerVolumeName`. -/
def LowerVolumeName : String := "volume"

/-- Constant `ast.LowerWhenName`. -/
def LowerWhenName : String := "when"

/-- Constant `ast.LowerWhereName`. -/
def LowerWhereName : String := "where"

/-- Constant `ast.LowerWithName`. -/
def LowerWithName : String := "with"

/-- Constant `ast.LowerWritingName`. -/
def LowerWritingName : String := "writing"

/-- Constant `ast.LowerWrittenName`. -/
def LowerWrittenName : String := "written"

/-- Constant `ast.LowerYearName`. -/
def LowerYearName : String := "year"

/-- Constant `ast.LowerZeroName`. -/
def LowerZeroName : String := "zero"

/-- Constant `ast.UpperAliasesName`. -/
def UpperAliasesName : String := "Aliases"

/-- Constant `ast.UpperAxiomName`. -/
def UpperAxiomName : String := "Axiom"

/-- Constant `ast.UpperConjectureName`. -/
def UpperConjectureName : String := "Conjecture"

/-- Constant `ast.UpperDefinesName`. -/
def UpperDefinesName : String := "Defines"

/-- Constant `ast.UpperDescribesName`. -/
def UpperDescribesName : String := "Describes"

/-- Constant `ast.UpperDocumentedName`. -/
def UpperDocumentedName : String := "Documented"

/-- Constant `ast.UpperIdQuestionName`. -/
def UpperIdQuestionName : String := "Id?"

/-- Constant `ast.UpperJustifiedName`. -/
def UpperJustifiedName : String := "Justified"

/-- Constant `ast.UpperPersonName`. -/
def UpperPersonName : String := "Person"

/-- Constant `ast.UpperProofName`. -/
def UpperProofName : String := "Proof"

/-- Constant `ast.UpperProvidesName`. -/
def UpperProvidesName : String := "Provides"

/-- Constant `ast.UpperReferencesName`. -/
def UpperReferencesName : String := "References"

/-- Constant `ast.UpperResourceName`. -/
def UpperResourceName : String := "Resource"

/-- Constant `ast.UpperSpecifyName`. -/
def UpperSpecifyName : String := "Specify"

/-- Constant `ast.UpperStatesName`. -/
def UpperStatesName : String := "States"

/-- Constant `ast.UpperTheoremName`. -/
def UpperTheoremName : String := "Theorem"

/-- Constant `ast.UpperTopicName`. -/
def UpperTopicName : String := "Topic"

/-! ## What phase 5 calls outside its own file -/

/-- The collaborators of the parser that are not in the sources.

* `ParseExpression`, `ParseForm`, `ParseId`, `ParseSignature` are the entry points of the
  formulation sub-parser. Each receives the text, its start position and the tracker; the result
  is the tree on success (`none` for `ok = false`) and the diagnostics it appends, which may depend
  on the tracker contents (the tracker can only be appended to and measured).
* `IdentifySections` is the section identifier `IdentifySections(sections, tracker, names...)`.
  On success it yields the Go map from slot names to sections, given here as the index in
  `sections` of the section stored under each key; it also yields the diagnostics it appends.
* The remaining fields are the schema tables `ast.XSections` handed to the identifier. -/
structure Env where
  ParseExpression : String → Position → DiagnosticTracker → Option FormulationNode × List Diagnostic
  ParseForm : String → Position → DiagnosticTracker → Option FormulationNode × List Diagnostic
  ParseId : String → Position → DiagnosticTracker → Option FormulationNode × List Diagnostic
  ParseSignature : String → Position → DiagnosticTracker → Option FormulationNode × List Diagnostic
  IdentifySections :
    List Section → DiagnosticTracker → List String → Option (List (String × Nat)) × List Diagnostic
  AllOfSections : List String
  AnyOfSections : List String
  AxiomSections : List String
  BiographySections : List String
  CalledSections : List String
  ConjectureSections : List String
  ConnectionSections : List String
  DefinesSections : List String
  DescribesSections : List String
  DescribingSections : List String
  DiscovererSections : List String
  ExampleSections : List String
  ExistsSections : List String
  ExistsUniqueSections : List String
  ForAllSections : List String
  GivenSections : List String
  HistorySections : List String
  IfSections : List String
  IffSections : List String
  MotivationSections : List String
  NameSections : List String
  NegativeFloatSections : List String
  NegativeIntSections : List String
  NotSections : List String
  NoteSections : List String
  OneOfSections : List String
  OverviewSections : List String
  PersonSections : List String
  PositiveFloatSections : List String
  PositiveIntSections : List String
  RelatedSections : List String
  ResourceSections : List String
  SpecifySections : List String
  StatesSections : List String
  SymbolSections : List String
  TheoremSections : List String
  TopicSections : List String
  WhenSections : List String
  WritingSections : List String
  WrittenSections : List String
  ZeroSections : List String

/-! ## Parser methods as tracker transformers -/

/-- A method of the parser: from the tracker contents before the call to the result and the
tracker contents after it. -/
def P (α : Type) : Type := DiagnosticTracker → α × DiagnosticTracker

instance : Monad P where
  pure a := fun t => (a, t)
  bind m f := fun t => f (m t).1 (m t).2

/-- Statement `p.tracker.Append(diag)`. -/
def Append (diag : Diagnostic) : P Unit :=
  fun t => ((), DiagnosticTracker.Append t diag)

/-- Expression `p.tracker.Length()`. -/
def Length : P Nat :=
  fun t => (DiagnosticTracker.Length t, t)

/-- Call of a collaborator that returns the diagnostics it appends. -/
def callExternal {α : Type} (f : DiagnosticTracker → α × List Diagnostic) : P α :=
  fun t => ((f t).1, t ++ (f t).2)

/-- Call `formulation.ParseExpression(text, position, p.tracker)`. -/
def ParseExpression (env : Env) (text : String) (position : Position) : P (Option FormulationNode) :=
  callExternal (env.ParseExpression text position)

/-- Call `formulation.ParseForm(text, position, p.tracker)`. -/
def ParseForm (env : Env) (text : String) (position : Position) : P (Option FormulationNode) :=
  callExternal (env.ParseForm text position)

/-- Call `formulation.ParseId(text, position, p.tracker)`. -/
def ParseId (env : Env) (text : String) (position : Position) : P (Option FormulationNode) :=
  callExternal (env.ParseId text position)

/-- Call `formulation.ParseSignature(text, position, p.tracker)`. -/
def ParseSignature (env : Env) (text : String) (position : Position) : P (Option FormulationNode) :=
  callExternal (env.ParseSignature text position)

/-- The Go map `map[string]phase4.Section` that the section identifier returns. -/
abbrev SectionMap := List (String × Section)

/-- Lookup `sec, ok := sections[key]`. -/
def SectionMap.find (sections : SectionMap) (key : String) : Option Section :=
  List.lookup key sections

/-- Lookup `sections[key]`, the zero section when the key is absent. -/
def SectionMap.get (sections : SectionMap) (key : String) : Section :=
  (SectionMap.find sections key).getD default

/-- The map denoted by the indices that the identifier returns. -/
def resolveSections (sections : List Section) (picks : List (String × Nat)) : SectionMap :=
  picks.filterMap (fun pick => (sections.get? pick.2).map (fun sec => (pick.1, sec)))

/-- Call `IdentifySections(sections, p.tracker, names...)`; `none` stands for `ok = false`. -/
def IdentifySections (env : Env) (sections : List Section) (names : List String) :
    P (Option SectionMap) :=
  callExternal (fun t =>
    ((env.IdentifySections sections t names).1.map (resolveSections sections),
      (env.IdentifySections sections t names).2))

/-! ## Support functions -/

/-- Function `newError`. -/
def newError (message : String) (position : Position) : Diagnostic :=
  { Severity := DiagnosticType.Error
    Origin := DiagnosticOrigin.Phase5ParserOrigin
    Message := message
    Position := position }

/-- Function `oneOrMore`. -/
def oneOrMore {T : Type} (items : List T) (position : Position) : P (List T) :=
  if items.length = 0 then do
    Append (newError "Expected at least one item" position)
    pure []
  else
    pure items

/-- Function `exactlyOne`. -/
def exactlyOne {T : Type} (items : List T) (defaultItem : T) (position : Position) : P T := do
  (if items.length ≠ 1 then
    Append (newError "Expected at exactly one item" position)
  else
    pure ())
  (match items with
  | [] => pure defaultItem
  | item :: _ => pure item)

/-- Function `startsWithSections`: `names[i]` is compared with `group.Sections[i].Name` for
every `i < len(names)`, after the length check. -/
def startsWithSections (group : Group) (names : List String) : Bool :=
  if names.length > group.Sections.length then
    false
  else
    (List.zip group.Sections names).all (fun pair => pair.1.Name == pair.2)

/-- Method `verifyNoArgs`. -/
def verifyNoArgs (sec : Section) : P Unit :=
  if sec.Args.length > 0 then
    Append (newError "Expected no arguments" sec.Start)
  else
    pure ()

/-- The loop `for _, arg := range args { result = append(result, f(arg)) }`. -/
def forEachArg {T : Type} (f : Argument → P T) : List Argument → P (List T)
  | [] => pure []
  | arg :: args => do
    let item ← f arg
    let rest ← forEachArg f args
    pure (item :: rest)

/-- The loop `for _, arg := range args { if x, ok := f(arg); ok { result = append(result, x) } }`. -/
def forEachArgIfOk {T : Type} (f : Argument → P (T × Bool)) : List Argument → P (List T)
  | [] => pure []
  | arg :: args => do
    let item ← f arg
    let rest ← forEachArgIfOk f args
    pure (if item.2 then item.1 :: rest else rest)

/-- The idiom `var x *T; if sec, ok := sections[key]; ok { x = p.toX(sec) }`. -/
def ifPresent {T : Type} (sec : Option Section) (toX : Section → P T) : P (Option T) :=
  match sec with
  | some sec => do
    let x ← toX sec
    pure (some x)
  | none => pure none

/-- The chain `if grp, ok := p.toA(x); ok { return grp } else if grp, ok := p.toB(x); ok ...`:
the alternatives run in order until one returns `ok = true`; when none does, the chain falls
through, which is reported here as `ok = false`. -/
def firstOk {T : Type} [Inhabited T] : List (P (T × Bool)) → P (T × Bool)
  | [] => pure (default, false)
  | alt :: alts => do
    let r ← alt
    if r.2 then pure r else firstOk alts

/-- The conversion of a group to the interface type at `return grp, ok`. -/
def asItem {G T : Type} (wrap : G → T) (m : P (G × Bool)) : P (T × Bool) := do
  let r ← m
  pure (wrap r.1, r.2)

/-! ## Arguments -/

/-- Method `toFormulation`. -/
def toFormulation (env : Env) (arg : Argument) : P Formulation :=
  match arg.Arg with
  | ArgumentDataType.FormulationArgumentData text => do
    let node ← ParseExpression env text arg.Start
    match node with
    | some node => pure { RawText := text, Root := some node, Label := none }
    | none => do
      Append (newError "Expected a formulation" arg.Start)
      pure default
  | _ => do
    Append (newError "Expected a formulation" arg.Start)
    pure default

/-- Method `toSpec`. -/
def toSpec (env : Env) (arg : Argument) : P Spec :=
  match arg.Arg with
  | ArgumentDataType.FormulationArgumentData text => do
    let node ← ParseExpression env text arg.Start
    match node with
    | some node => pure { RawText := text, Root := some node, Label := none }
    | none => pure default
  | _ => do
    Append (newError "Expected a '... is ...' or a '... <op> ...' item" arg.Start)
    pure default

/-- Method `toAlias`. -/
def toAlias (env : Env) (arg : Argument) : P Alias :=
  match arg.Arg with
  | ArgumentDataType.FormulationArgumentData text => do
    let node ← ParseExpression env text arg.Start
    match node with
    | some node => pure { RawText := text, Root := some node, Label := none }
    | none => do
      Append (newError "Expected a '... :=> ...' item" arg.Start)
      pure default
  | _ => do
    Append (newError "Expected a '... :=> ...' item" arg.Start)
    pure default

/-- Method `toTarget`. -/
def toTarget (env : Env) (arg : Argument) : P Target :=
  match arg.Arg with
  | ArgumentDataType.ArgumentTextArgumentData text => do
    let node ← ParseForm env text arg.Start
    match node with
    | some node => pure { RawText := text, Root := some node, Label := none }
    | none => pure default
  | _ => do
    Append (newError "Expected a name, function, set, tuple, or ':=' declaration" arg.Start)
    pure default

/-- Method `toTextItem`. -/
def toTextItem (arg : Argument) : P TextItem :=
  match arg.Arg with
  | ArgumentDataType.TextArgumentData text => pure { RawText := text }
  | _ => do
    Append (newError "Expected a \"...\" item" arg.Start)
    pure default

/-- Method `toSignatureItem`. -/
def toSignatureItem (env : Env) (arg : Argument) : P Formulation :=
  match arg.Arg with
  | ArgumentDataType.FormulationArgumentData text => do
    let node ← ParseSignature env text arg.Start
    match node with
    | some node => pure { RawText := text, Root := some node, Label := none }
    | none => pure default
  | _ => do
    Append (newError "Expected a signature" arg.Start)
    pure default

/-- Method `toIdItem`. -/
def toIdItem (env : Env) (text : String) (position : Position) : P (Option IdItem) := do
  let node ← ParseId env text position
  match node with
  | some node => pure (some { RawText := text, Root := some node, Label := none })
  | none => pure none

/-- Method `getId`. -/
def getId (env : Env) (group : Group) (required : Bool) : P (Option IdItem) :=
  match group.Id with
  | none =>
    if required then do
      Append (newError "Expected a [...] item" group.Start)
      pure none
    else
      pure none
  | some id => toIdItem env id group.Start

/-- Method `getStringId`. -/
def getStringId (group : Group) (required : Bool) : P (Option String) :=
  match group.Id with
  | none =>
    if required then do
      Append (newError "Expected a [...] item" group.Start)
      pure none
    else
      pure none
  | some id => pure (some id)

/-! ## Argument lists and cardinalities -/

/-- Method `toFormulations`. -/
def toFormulations (env : Env) (args : List Argument) : P (List Formulation) :=
  forEachArg (toFormulation env) args

/-- Method `toClauses`; `toClause` is the method `p.toClause`. -/
def toClauses (toClause : Argument → P Clause) (args : List Argument) : P (List Clause) :=
  forEachArg toClause args

/-- Method `toSpecs`. -/
def toSpecs (env : Env) (args : List Argument) : P (List Spec) :=
  forEachArg (toSpec env) args

/-- Method `toAliases`. -/
def toAliases (env : Env) (args : List Argument) : P (List Alias) :=
  forEachArg (toAlias env) args

/-- Method `toTargets`. -/
def toTargets (env : Env) (args : List Argument) : P (List Target) :=
  forEachArg (toTarget env) args

/-- Method `toTextItems`. -/
def toTextItems (args : List Argument) : P (List TextItem) :=
  forEachArg toTextItem args

/-- Method `toSignaturesItems`. -/
def toSignaturesItems (env : Env) (args : List Argument) : P (List Formulation) :=
  forEachArg (toSignatureItem env) args

/-- Method `oneOrMoreClauses`. -/
def oneOrMoreClauses (toClause : Argument → P Clause) (sec : Section) : P (List Clause) := do
  let items ← toClauses toClause sec.Args
  oneOrMore items sec.Start

/-- Method `exactlyOneClause`. -/
def exactlyOneClause (toClause : Argument → P Clause) (sec : Section) : P Clause := do
  let items ← toClauses toClause sec.Args
  exactlyOne items (Clause.Formulation default) sec.Start

/-- Method `exactlyOneFormulation`. -/
def exactlyOneFormulation (env : Env) (sec : Section) : P Formulation := do
  let items ← toFormulations env sec.Args
  exactlyOne items default sec.Start

/-- Method `oneOrMoreSpecs`. -/
def oneOrMoreSpecs (env : Env) (sec : Section) : P (List Spec) := do
  let items ← toSpecs env sec.Args
  oneOrMore items sec.Start

/-- Method `oneOrMoreAliases`. -/
def oneOrMoreAliases (env : Env) (sec : Section) : P (List Alias) := do
  let items ← toAliases env sec.Args
  oneOrMore items sec.Start

/-- Method `exactlyOneAlias`. -/
def exactlyOneAlias (env : Env) (sec : Section) : P Alias := do
  let items ← toAliases env sec.Args
  exactlyOne items default sec.Start

/-- Method `exactlyOneSpec`. -/
def exactlyOneSpec (env : Env) (sec : Section) : P Spec := do
  let items ← toSpecs env sec.Args
  exactlyOne items default sec.Start

/-- Method `oneOrMoreTargets`. -/
def oneOrMoreTargets (env : Env) (sec : Section) : P (List Target) := do
  let items ← toTargets env sec.Args
  oneOrMore items sec.Start

/-- Method `oneOrMoreTextItems`. -/
def oneOrMoreTextItems (sec : Section) : P (List TextItem) := do
  let items ← toTextItems sec.Args
  oneOrMore items sec.Start

/-- Method `zeroOrMoreTextItems`. -/
def zeroOrMoreTextItems (sec : Section) : P (List TextItem) :=
  toTextItems sec.Args

/-- Method `exactlyOneTarget`. -/
def exactlyOneTarget (env : Env) (sec : Section) : P Target := do
  let items ← toTargets env sec.Args
  exactlyOne items default sec.Start

/-- Method `oneOrMoreSignatureItems`. -/
def oneOrMoreSignatureItems (env : Env) (sec : Section) : P (List Formulation) := do
  let items ← toSignaturesItems env sec.Args
  oneOrMore items sec.Start

/-- Method `exactlyOneTextItem`. -/
def exactlyOneTextItem (sec : Section) : P TextItem := do
  let items ← toTextItems sec.Args
  exactlyOne items default sec.Start

/-! ## Clause groups

The group parsers below reach `p.toClause` again through their sections; that method is the
parameter `toClause`. -/

/-- Method `toAllOfSection`. -/
def toAllOfSection (toClause : Argument → P Clause) (sec : Section) : P (AllOfSection Clause) := do
  let clauses ← oneOrMoreClauses toClause sec
  pure { Clauses := clauses }

/-- Method `toNotSection`. -/
def toNotSection (toClause : Argument → P Clause) (sec : Section) : P (NotSection Clause) := do
  let clause ← exactlyOneClause toClause sec
  pure { Clause := clause }

/-- Method `toAnyOfSection`. -/
def toAnyOfSection (toClause : Argument → P Clause) (sec : Section) : P (AnyOfSection Clause) := do
  let clauses ← oneOrMoreClauses toClause sec
  pure { Clauses := clauses }

/-- Method `toOneOfSection`. -/
def toOneOfSection (toClause : Argument → P Clause) (sec : Section) : P (OneOfSection Clause) := do
  let clauses ← oneOrMoreClauses toClause sec
  pure { Clauses := clauses }

/-- Method `toExistsSection`. -/
def toExistsSection (env : Env) (sec : Section) : P ExistsSection := do
  let targets ← oneOrMoreTargets env sec
  pure { Targets := targets }

/-- Method `toWhereSection`. -/
def toWhereSection (env : Env) (sec : Section) : P WhereSection := do
  let specs ← oneOrMoreSpecs env sec
  pure { Specs := specs }

/-- Method `toSuchThatSection`. -/
def toSuchThatSection (toClause : Argument → P Clause) (sec : Section) :
    P (SuchThatSection Clause) := do
  let clauses ← oneOrMoreClauses toClause sec
  pure { Clauses := clauses }

/-- Method `toExistsUniqueSection`. -/
def toExistsUniqueSection (env : Env) (sec : Section) : P ExistsUniqueSection := do
  let targets ← oneOrMoreTargets env sec
  pure { Targets := targets }

/-- Method `toForAllSection`. -/
def toForAllSection (env : Env) (sec : Section) : P ForAllSection := do
  let targets ← oneOrMoreTargets env sec
  pure { Targets := targets }

/-- Method `toThenSection`. -/
def toThenSection (toClause : Argument → P Clause) (sec : Section) : P (ThenSection Clause) := do
  let clauses ← oneOrMoreClauses toClause sec
  pure { Clauses := clauses }

/-- Method `toIfSection`. -/
def toIfSection (toClause : Argument → P Clause) (sec : Section) : P (IfSection Clause) := do
  let clauses ← oneOrMoreClauses toClause sec
  pure { Clauses := clauses }

/-- Method `toIffSection`. -/
def toIffSection (toClause : Argument → P Clause) (sec : Section) : P (IffSection Clause) := do
  let clauses ← oneOrMoreClauses toClause sec
  pure { Clauses := clauses }

/-- Method `toWhenSection`. -/
def toWhenSection (toClause : Argument → P Clause) (sec : Section) : P (WhenSection Clause) := do
  let clauses ← oneOrMoreClauses toClause sec
  pure { When := clauses }

/-- Method `toPiecewiseSection`. -/
def toPiecewiseSection (sec : Section) : P PiecewiseSection := do
  verifyNoArgs sec
  pure {}

/-- Method `toElseSection`. -/
def toElseSection (toClause : Argument → P Clause) (sec : Section) : P (ElseSection Clause) := do
  let clauses ← oneOrMoreClauses toClause sec
  pure { Items := clauses }

/-- Method `toGivenSection`. -/
def toGivenSection (env : Env) (sec : Section) : P GivenSection := do
  let targets ← oneOrMoreTargets env sec
  pure { Given := targets }

/-- Method `toGivenGroup`. -/
def toGivenGroup (env : Env) (toClause : Argument → P Clause) (group : Group) :
    P (GivenGroup Clause × Bool) :=
  if !startsWithSections group [LowerGivenName] then
    pure (default, false)
  else do
    let identified ← IdentifySections env group.Sections env.GivenSections
    match identified with
    | none => pure (default, false)
    | some sections => do
      let given ← toGivenSection env (sections.get LowerGivenName)
      let where_ ← ifPresent (sections.find LowerWhereName) (toWhereSection env)
      let suchThat ← ifPresent (sections.find LowerSuchThatName) (toSuchThatSection toClause)
      let then_ ← toThenSection toClause (sections.get LowerThenName)
      pure ({ Given := given, Where := where_, SuchThat := suchThat, Then := then_ }, true)

/-- Method `toAllOfGroup`. -/
def toAllOfGroup (env : Env) (toClause : Argument → P Clause) (group : Group) :
    P (AllOfGroup Clause × Bool) :=
  if !startsWithSections group [LowerAllOfName] then
    pure (default, false)
  else do
    let identified ← IdentifySections env group.Sections env.AllOfSections
    match identified with
    | none => pure (default, false)
    | some sections => do
      let allOf ← toAllOfSection toClause (sections.get LowerAllOfName)
      pure ({ AllOf := allOf }, true)

/-- Method `toNotGroup`. -/
def toNotGroup (env : Env) (toClause : Argument → P Clause) (group : Group) :
    P (NotGroup Clause × Bool) :=
  if !startsWithSections group [LowerNotName] then
    pure (default, false)
  else do
    let identified ← IdentifySections env group.Sections env.NotSections
    match identified with
    | none => pure (default, false)
    | some sections => do
      let not ← toNotSection toClause (sections.get LowerNotName)
      pure ({ Not := not }, true)

/-- Method `toAnyOfGroup`. -/
def toAnyOfGroup (env : Env) (toClause : Argument → P Clause) (group : Group) :
    P (AnyOfGroup Clause × Bool) :=
  if !startsWithSections group [LowerAnyOfName] then
    pure (default, false)
  else do
    let identified ← IdentifySections env group.Sections env.AnyOfSections
    match identified with
    | none => pure (default, false)
    | some sections => do
      let anyOf ← toAnyOfSection toClause (sections.get LowerAnyOfName)
      pure ({ AnyOf := anyOf }, true)

/-- Method `toOneOfGroup`. -/
def toOneOfGroup (env : Env) (toClause : Argument → P Clause) (group : Group) :
    P (OneOfGroup Clause × Bool) :=
  if !startsWithSections group [LowerOneOfName] then
    pure (default, false)
  else do
    let identified ← IdentifySections env group.Sections env.OneOfSections
    match identified with
    | none => pure (default, false)
    | some sections => do
      let oneOf ← toOneOfSection toClause (sections.get LowerOneOfName)
      pure ({ OneOf := oneOf }, true)

/-- Method `toExistsGroup`. -/
def toExistsGroup (env : Env) (toClause : Argument → P Clause) (group : Group) :
    P (ExistsGroup Clause × Bool) :=
  if !startsWithSections group [LowerExistsName] then
    pure (default, false)
  else do
    let identified ← IdentifySections env group.Sections env.ExistsSections
    match identified with
    | none => pure (default, false)
    | some sections => do
      let exists_ ← toExistsSection env (sections.get LowerExistsName)
      let where_ ← ifPresent (sections.find LowerWhereName) (toWhereSection env)
      let suchThat ← ifPresent (sections.find LowerSuchThatName) (toSuchThatSection toClause)
      pure ({ Exists := exists_, Where := where_, SuchThat := suchThat }, true)

/-- Method `toExistsUniqueGroup`. -/
def toExistsUniqueGroup (env : Env) (toClause : Argument → P Clause) (group : Group) :
    P (ExistsUniqueGroup Clause × Bool) :=
  if !startsWithSections group [LowerExistsUniqueName] then
    pure (default, false)
  else do
    let identified ← IdentifySections env group.Sections env.ExistsUniqueSections
    match identified with
    | none => pure (default, false)
    | some sections => do
      let existsUnique ← toExistsUniqueSection env (sections.get LowerExistsUniqueName)
      let where_ ← ifPresent (sections.find LowerWhereName) (toWhereSection env)
      let suchThat ← toSuchThatSection toClause (sections.get LowerSuchThatName)
      pure ({ ExistsUnique := existsUnique, Where := where_, SuchThat := suchThat }, true)

/-- Method `toForAllGroup`. -/
def toForAllGroup (env : Env) (toClause : Argument → P Clause) (group : Group) :
    P (ForAllGroup Clause × Bool) :=
  if !startsWithSections group [LowerForAllName] then
    pure (default, false)
  else do
    let identified ← IdentifySections env group.Sections env.ForAllSections
    match identified with
    | none => pure (default, false)
    | some sections => do
      let forAll ← toForAllSection env (sections.get LowerForAllName)
      let where_ ← ifPresent (sections.find LowerWhereName) (toWhereSection env)
      let suchThat ← ifPresent (sections.find LowerSuchThatName) (toSuchThatSection toClause)
      let then_ ← toThenSection toClause (sections.get LowerThenName)
      pure ({ ForAll := forAll, Where := where_, SuchThat := suchThat, Then := then_ }, true)

/-- Method `toIfGroup`. -/
def toIfGroup (env : Env) (toClause : Argument → P Clause) (group : Group) :
    P (IfGroup Clause × Bool) :=
  if !startsWithSections group [LowerIfName] then
    pure (default, false)
  else do
    let identified ← IdentifySections env group.Sections env.IfSections
    match identified with
    | none => pure (default, false)
    | some sections => do
      let if_ ← toIfSection toClause (sections.get LowerIfName)
      let then_ ← toThenSection toClause (sections.get LowerThenName)
      pure ({ If := if_, Then := then_ }, true)

/-- Method `toIffGroup`. -/
def toIffGroup (env : Env) (toClause : Argument → P Clause) (group : Group) :
    P (IffGroup Clause × Bool) :=
  if !startsWithSections group [LowerIffName] then
    pure (default, false)
  else do
    let identified ← IdentifySections env group.Sections env.IffSections
    match identified with
    | none => pure (default, false)
    | some sections => do
      let iff ← toIffSection toClause (sections.get LowerIffName)
      let then_ ← toThenSection toClause (sections.get LowerThenName)
      pure ({ Iff := iff, Then := then_ }, true)

/-- Method `toWhenGroup`. -/
def toWhenGroup (env : Env) (toClause : Argument → P Clause) (group : Group) :
    P (WhenGroup Clause × Bool) :=
  if !startsWithSections group [LowerWhenName] then
    pure (default, false)
  else do
    let identified ← IdentifySections env group.Sections env.WhenSections
    match identified with
    | none => pure (default, false)
    | some sections => do
      let when ← toWhenSection toClause (sections.get LowerWhenName)
      let then_ ← toThenSection toClause (sections.get LowerThenName)
      pure ({ When := when, Then := then_ }, true)

/-- The first loop of `toPiecewiseGroup`, `for i < len(sections)`, started at index `i` with
`rest = sections[i:]` and the pairs collected so far. It ends with `none` where the method
returns `ast.PiecewiseGroup{}, false` from inside the loop, and otherwise with the collected
pairs and the sections left at the index where the loop stopped. -/
def piecewiseIfThens (toClause : Argument → P Clause) :
    List Section → List (IfThen Clause) → P (Option (List (IfThen Clause) × List Section))
  | [], ifThens => pure (some (ifThens, []))
  | [section1], ifThens =>
    if section1.Name == LowerElseName then
      pure (some (ifThens, [section1]))
    else if section1.Name != LowerIfName then do
      Append (newError ("Expected section '" ++ LowerIfName ++ "' but found '" ++
        section1.Name ++ "'") section1.Start)
      pure none
    else do
      Append (newError ("Expected section '" ++ LowerThenName ++ "' to follow an '" ++
        LowerIfName ++ "' section") section1.Start)
      pure none
  | section1 :: section2 :: rest, ifThens =>
    if section1.Name == LowerElseName then
      pure (some (ifThens, section1 :: section2 :: rest))
    else if section1.Name != LowerIfName then do
      Append (newError ("Expected section '" ++ LowerIfName ++ "' but found '" ++
        section1.Name ++ "'") section1.Start)
      pure none
    else if section2.Name != LowerThenName then do
      Append (newError ("Expected section '" ++ LowerThenName ++ "' but found '" ++
        section2.Name ++ "'") section2.Start)
      pure none
    else do
      let if_ ← toIfSection toClause section1
      let then_ ← toThenSection toClause section2
      piecewiseIfThens toClause rest (ifThens ++ [{ If := if_, Then := then_ }])

/-- The second loop of `toPiecewiseGroup`, which reports every section left over. -/
def piecewiseUnexpected : List Section → P Unit
  | [] => pure ()
  | sec :: rest => do
    Append (newError ("Unexpected section '" ++ sec.Name ++ "'") sec.Start)
    piecewiseUnexpected rest

/-- Method `toPiecewiseGroup`. The index `i` of the method is kept as the list of sections from
`i` on. -/
def toPiecewiseGroup (toClause : Argument → P Clause) (group : Group) :
    P (PiecewiseGroup Clause × Bool) :=
  if !startsWithSections group [LowerPiecewiseName] then
    pure (default, false)
  else
    match group.Sections with
    | [] => pure (default, false)
    | section0 :: rest =>
      if section0.Name != LowerPiecewiseName then
        pure (default, false)
      else do
        let piecewise ← toPiecewiseSection section0
        let looped ← piecewiseIfThens toClause rest []
        match looped with
        | none => pure (default, false)
        | some (ifThens, rest) => do
          let elseAndRest ← (match rest with
            | [] => pure (none, [])
            | sec :: after =>
              if sec.Name == LowerElseName then do
                let elseSec ← toElseSection toClause sec
                pure (some elseSec, after)
              else
                pure (none, sec :: after) : P (Option (ElseSection Clause) × List Section))
          let invalid := decide (elseAndRest.2.length > 0)
          piecewiseUnexpected elseAndRest.2
          if invalid then
            pure (default, false)
          else
            pure ({ Piecewise := piecewise, IfThen := ifThens, Else := elseAndRest.1 }, true)

/-- The diagnostic that `toClause` appends when no clause kind matches. -/
def toClauseError (arg : Argument) : Diagnostic :=
  newError ("Expected a '...', `...`, " ++ LowerExistsName ++ ":, " ++ LowerExistsUniqueName ++
    ":, " ++ LowerForAllName ++ ":, " ++ LowerIfName ++ ":, or " ++ LowerIffName ++ ": item")
    arg.Start

/-- Body of the method `toClause`, with the method itself as the parameter `toClause` for the
clauses nested in a group. -/
def toClauseBody (env : Env) (toClause : Argument → P Clause) (arg : Argument) : P Clause :=
  match arg.Arg with
  | ArgumentDataType.FormulationArgumentData text => do
    let node ← ParseExpression env text arg.Start
    match node with
    | some node => pure (Clause.Formulation { RawText := text, Root := some node, Label := none })
    | none => pure (Clause.Formulation default)
  | ArgumentDataType.Group data => do
    let r ← firstOk [
      asItem Clause.AllOfGroup (toAllOfGroup env toClause data),
      asItem Clause.NotGroup (toNotGroup env toClause data),
      asItem Clause.AnyOfGroup (toAnyOfGroup env toClause data),
      asItem Clause.OneOfGroup (toOneOfGroup env toClause data),
      asItem Clause.ForAllGroup (toForAllGroup env toClause data),
      asItem Clause.ExistsGroup (toExistsGroup env toClause data),
      asItem Clause.ExistsUniqueGroup (toExistsUniqueGroup env toClause data),
      asItem Clause.IfGroup (toIfGroup env toClause data),
      asItem Clause.IffGroup (toIffGroup env toClause data),
      asItem Clause.WhenGroup (toWhenGroup env toClause data),
      asItem Clause.PiecewiseGroup (toPiecewiseGroup toClause data),
      asItem Clause.GivenGroup (toGivenGroup env toClause data)]
    if r.2 then
      pure r.1
    else do
      Append (toClauseError arg)
      pure (Clause.Formulation default)
  | _ => do
    Append (toClauseError arg)
    pure (Clause.Formulation default)

/-- The method `toClause` unrolled `fuel` times: a group nested more than `fuel` deep is not
entered. -/
def toClauseFuel (env : Env) : Nat → Argument → P Clause
  | 0 => fun _ => pure (Clause.Formulation default)
  | fuel + 1 => toClauseBody env (toClauseFuel env fuel)

/-- Method `toClause`. The recursion of the method descends one nested group per call, so it is
unrolled once more than the argument is deep; `toClause_unfold` below shows that this is the
recursive method: `toClause env arg = toClauseBody env (toClause env) arg`. -/
def toClause (env : Env) (arg : Argument) : P Clause :=
  toClauseFuel env (arg.depth + 1) arg

/-! ## Groups of a `Provides` section

From here on the parsers are not entered again from `toClause`; they call the method itself. -/

/-- Method `toSymbolSection`. -/
def toSymbolSection (env : Env) (sec : Section) : P SymbolSection := do
  let x ← exactlyOneAlias env sec
  pure { Symbol := x }

/-- Method `toWrittenSection`. -/
def toWrittenSection (sec : Section) : P WrittenSection := do
  let x ← oneOrMoreTextItems sec
  pure { Written := x }

/-- Method `toSymbolWrittenGroup`. -/
def toSymbolWrittenGroup (env : Env) (group : Group) : P (SymbolWrittenGroup × Bool) :=
  if !startsWithSections group [LowerSymbolName] then
    pure (default, false)
  else do
    let identified ← IdentifySections env group.Sections env.SymbolSections
    match identified with
    | none => pure (default, false)
    | some sections => do
      let symbol_ ← toSymbolSection env (sections.get LowerSymbolName)
      let written_ ← ifPresent (sections.find LowerWrittenName) (toWrittenSection)
      pure ({ Symbol := symbol_, Written := written_ }, true)

/-- Method `toConnectionSection`. -/
def toConnectionSection (sec : Section) : P ConnectionSection := do
  verifyNoArgs sec
  pure {}

/-- Method `toUsingSection`. -/
def toUsingSection (env : Env) (sec : Section) : P UsingSection := do
  let x ← oneOrMoreTargets env sec
  pure { Using := x }

/-- Method `toMeansSection`. -/
def toMeansSection (toClause : Argument → P Clause) (sec : Section) : P MeansSection := do
  let x ← exactlyOneClause toClause sec
  pure { Means := x }

/-- Method `toSignifiesSection`. -/
def toSignifiesSection (env : Env) (sec : Section) : P SignifiesSection := do
  let x ← exactlyOneSpec env sec
  pure { Signifies := x }

/-- Method `toConnectionViewableSection`. -/
def toConnectionViewableSection (sec : Section) : P ConnectionViewableSection := do
  verifyNoArgs sec
  pure {}

/-- Method `toConnectionThroughSection`. -/
def toConnectionThroughSection (env : Env) (sec : Section) : P ConnectionThroughSection := do
  let x ← exactlyOneFormulation env sec
  pure { Through := x }

/-- Method `toConnectionGroup`. -/
def toConnectionGroup (env : Env) (group : Group) : P (ConnectionGroup × Bool) :=
  if !startsWithSections group [LowerConnectionName] then
    pure (default, false)
  else do
    let identified ← IdentifySections env group.Sections env.ConnectionSections
    match identified with
    | none => pure (default, false)
    | some sections => do
      let connection_ ← toConnectionSection (sections.get LowerConnectionName)
      let using_ ← ifPresent (sections.find LowerUsingName) (toUsingSection env)
      let means_ ← toMeansSection (toClause env) (sections.get LowerMeansName)
      let signfies_ ← ifPresent (sections.find LowerSignifiesName) (toSignifiesSection env)
      let viewable_ ← ifPresent (sections.find LowerViewableName) (toConnectionViewableSection)
      let through_ ← ifPresent (sections.find LowerThroughName) (toConnectionThroughSection env)
      pure ({
        Connection := connection_
        Using := using_
        Means := means_
        Signfies := signfies_
        Viewable := viewable_
        Through := through_
      }, true)

/-- Method `toProvidesTypeFromGroup`. -/
def toProvidesTypeFromGroup (env : Env) (group : Group) : P (ProvidesType × Bool) := do
  let r ← firstOk [
    asItem ProvidesType.SymbolWrittenGroup (toSymbolWrittenGroup env group),
    asItem ProvidesType.ConnectionGroup (toConnectionGroup env group)]
  if r.2 then
    pure r
  else do
    Append (newError ("Unrecognized argument for " ++ UpperProvidesName ++ ":\n" ++
      "Expected one of:\n\n" ++ LowerOperationsName ++ ":\n\n" ++ LowerMembersName ++ ":\n")
      group.Start)
    pure (ProvidesType.nil, false)

/-- Method `toProvidesTypeFromArg`. -/
def toProvidesTypeFromArg (env : Env) (arg : Argument) : P (ProvidesType × Bool) :=
  match arg.Arg with
  | ArgumentDataType.FormulationArgumentData _ => do
    let a ← toAlias env arg
    pure (ProvidesType.Alias a, true)
  | ArgumentDataType.Group group => toProvidesTypeFromGroup env group
  | _ => pure (ProvidesType.nil, false)

/-- Method `toProvidesTypes`. -/
def toProvidesTypes (env : Env) (args : List Argument) : P (List ProvidesType) :=
  forEachArgIfOk (toProvidesTypeFromArg env) args

/-- Method `oneOrMoreProvidesType`. -/
def oneOrMoreProvidesType (env : Env) (sec : Section) : P (List ProvidesType) := do
  let items ← toProvidesTypes env sec.Args
  oneOrMore items sec.Start

/-- Method `toProvidesSection`. -/
def toProvidesSection (env : Env) (sec : Section) : P ProvidesSection := do
  let x ← oneOrMoreProvidesType env sec
  pure { Provides := x }

/-! ## Groups of a `Documented` section -/

/-- Method `toWrittenGroup`. -/
def toWrittenGroup (env : Env) (group : Group) : P (WrittenGroup × Bool) :=
  if !startsWithSections group [LowerWrittenName] then
    pure (default, false)
  else do
    let identified ← IdentifySections env group.Sections env.WrittenSections
    match identified with
    | none => pure (default, false)
    | some sections => do
      let written_ ← toWrittenSection (sections.get LowerWrittenName)
      pure ({ Written := written_ }, true)

/-- Method `toCalledSection`. -/
def toCalledSection (sec : Section) : P CalledSection := do
  let x ← oneOrMoreTextItems sec
  pure { Called := x }

/-- Method `toCalledGroup`. -/
def toCalledGroup (env : Env) (group : Group) : P (CalledGroup × Bool) :=
  if !startsWithSections group [LowerCalledName] then
    pure (default, false)
  else do
    let identified ← IdentifySections env group.Sections env.CalledSections
    match identified with
    | none => pure (default, false)
    | some sections => do
      let called_ ← toCalledSection (sections.get LowerCalledName)
      pure ({ Called := called_ }, true)

/-- Method `toWritingSection`. -/
def toWritingSection (env : Env) (sec : Section) : P WritingSection := do
  let x ← exactlyOneTarget env sec
  pure { Writing := x }

/-- Method `toWritingAsSection`. -/
def toWritingAsSection (sec : Section) : P WritingAsSection := do
  let x ← oneOrMoreTextItems sec
  pure { As := x }

/-- Method `toWritingGroup`. -/
def toWritingGroup (env : Env) (group : Group) : P (WritingGroup × Bool) :=
  if !startsWithSections group [LowerWritingName] then
    pure (default, false)
  else do
    let identified ← IdentifySections env group.Sections env.WritingSections
    match identified with
    | none => pure (default, false)
    | some sections => do
      let writing_ ← toWritingSection env (sections.get LowerWritingName)
      let as_ ← toWritingAsSection (sections.get LowerAsName)
      pure ({ Writing := writing_, As := as_ }, true)

/-- Method `toOverviewSection`. -/
def toOverviewSection (sec : Section) : P OverviewSection := do
  let x ← exactlyOneTextItem sec
  pure { Overview := x }

/-- Method `toOverviewGroup`. -/
def toOverviewGroup (env : Env) (group : Group) : P (OverviewGroup × Bool) :=
  if !startsWithSections group [LowerOverviewName] then
    pure (default, false)
  else do
    let identified ← IdentifySections env group.Sections env.OverviewSections
    match identified with
    | none => pure (default, false)
    | some sections => do
      let overview_ ← toOverviewSection (sections.get LowerOverviewName)
      pure ({ Overview := overview_ }, true)

/-- Method `toMotivationSection`. -/
def toMotivationSection (sec : Section) : P MotivationSection := do
  let x ← exactlyOneTextItem sec
  pure { Motivation := x }

/-- Method `toMotivationGroup`. -/
def toMotivationGroup (env : Env) (group : Group) : P (MotivationGroup × Bool) :=
  if !startsWithSections group [LowerMotivationName] then
    pure (default, false)
  else do
    let identified ← IdentifySections env group.Sections env.MotivationSections
    match identified with
    | none => pure (default, false)
    | some sections => do
      let motivation_ ← toMotivationSection (sections.get LowerMotivationName)
      pure ({ Motivation := motivation_ }, true)

/-- Method `toHistorySection`. -/
def toHistorySection (sec : Section) : P HistorySection := do
  let x ← exactlyOneTextItem sec
  pure { History := x }

/-- Method `toHistoryGroup`. -/
def toHistoryGroup (env : Env) (group : Group) : P (HistoryGroup × Bool) :=
  if !startsWithSections group [LowerHistoryName] then
    pure (default, false)
  else do
    let identified ← IdentifySections env group.Sections env.HistorySections
    match identified with
    | none => pure (default, false)
    | some sections => do
      let history_ ← toHistorySection (sections.get LowerHistoryName)
      pure ({ History := history_ }, true)

/-- Method `toExampleSection`. -/
def toExampleSection (sec : Section) : P ExampleSection := do
  let x ← oneOrMoreTextItems sec
  pure { Examples := x }

/-- Method `toExampleGroup`. -/
def toExampleGroup (env : Env) (group : Group) : P (ExampleGroup × Bool) :=
  if !startsWithSections group [LowerExampleName] then
    pure (default, false)
  else do
    let identified ← IdentifySections env group.Sections env.ExampleSections
    match identified with
    | none => pure (default, false)
    | some sections => do
      let examples_ ← toExampleSection (sections.get LowerExampleName)
      pure ({ Examples := examples_ }, true)

/-- Method `toRelatedSection`. -/
def toRelatedSection (env : Env) (sec : Section) : P RelatedSection := do
  let x ← oneOrMoreSignatureItems env sec
  pure { Related := x }

/-- Method `toRelatedGroup`. -/
def toRelatedGroup (env : Env) (group : Group) : P (RelatedGroup × Bool) :=
  if !startsWithSections group [LowerRelatedName] then
    pure (default, false)
  else do
    let identified ← IdentifySections env group.Sections env.RelatedSections
    match identified with
    | none => pure (default, false)
    | some sections => do
      let related_ ← toRelatedSection env (sections.get LowerRelatedName)
      pure ({ Related := related_ }, true)

/-- Method `toDiscovererSection`. -/
def toDiscovererSection (sec : Section) : P DiscovererSection := do
  let x ← oneOrMoreTextItems sec
  pure { Discoverer := x }

/-- Method `toDiscovererGroup`. -/
def toDiscovererGroup (env : Env) (group : Group) : P (DiscovererGroup × Bool) :=
  if !startsWithSections group [LowerDiscovererName] then
    pure (default, false)
  else do
    let identified ← IdentifySections env group.Sections env.DiscovererSections
    match identified with
    | none => pure (default, false)
    | some sections => do
      let discoverer_ ← toDiscovererSection (sections.get LowerDiscovererName)
      pure ({ Discoverer := discoverer_ }, true)

/-- Method `toDescribingSection`. -/
def toDescribingSection (sec : Section) : P DescribingSection := do
  let x ← exactlyOneTextItem sec
  pure { Describing := x }

/-- Method `toContentSection`. -/
def toContentSection (sec : Section) : P ContentSection := do
  let x ← exactlyOneTextItem sec
  pure { Content := x }

/-- Method `toDescribingGroup`. -/
def toDescribingGroup (env : Env) (group : Group) : P (DescribingGroup × Bool) :=
  if !startsWithSections group [LowerDescribingName] then
    pure (default, false)
  else do
    let identified ← IdentifySections env group.Sections env.DescribingSections
    match identified with
    | none => pure (default, false)
    | some sections => do
      let describing_ ← toDescribingSection (sections.get LowerDescribingName)
      let content_ ← toContentSection (sections.get LowerContentName)
      pure ({ Describing := describing_, Content := content_ }, true)

/-- Method `toNoteType`. -/
def toNoteType (env : Env) (arg : Argument) : P (NoteType × Bool) :=
  match arg.Arg with
  | ArgumentDataType.Group group => asItem NoteType.DescribingGroup (toDescribingGroup env group)
  | _ => do
    let item ← toTextItem arg
    pure (NoteType.TextItem item, true)

/-- Method `toNoteTypes`. -/
def toNoteTypes (env : Env) (args : List Argument) : P (List NoteType) :=
  forEachArgIfOk (toNoteType env) args

/-- Method `oneOrMoreNoteTypes`. -/
def oneOrMoreNoteTypes (env : Env) (sec : Section) : P (List NoteType) := do
  let items ← toNoteTypes env sec.Args
  oneOrMore items sec.Start

/-- Method `toNoteSection`. -/
def toNoteSection (env : Env) (sec : Section) : P NoteSection := do
  let x ← oneOrMoreNoteTypes env sec
  pure { Note := x }

/-- Method `toNoteGroup`. -/
def toNoteGroup (env : Env) (group : Group) : P (NoteGroup × Bool) :=
  if !startsWithSections group [LowerNoteName] then
    pure (default, false)
  else do
    let identified ← IdentifySections env group.Sections env.NoteSections
    match identified with
    | none => pure (default, false)
    | some sections => do
      let note_ ← toNoteSection env (sections.get LowerNoteName)
      pure ({ Note := note_ }, true)

/-- Method `toDocumentedType`. -/
def toDocumentedType (env : Env) (arg : Argument) : P (DocumentedType × Bool) :=
  match arg.Arg with
  | ArgumentDataType.Group group =>
    firstOk [
      asItem DocumentedType.OverviewGroup (toOverviewGroup env group),
      asItem DocumentedType.MotivationGroup (toMotivationGroup env group),
      asItem DocumentedType.HistoryGroup (toHistoryGroup env group),
      asItem DocumentedType.ExampleGroup (toExampleGroup env group),
      asItem DocumentedType.RelatedGroup (toRelatedGroup env group),
      asItem DocumentedType.DiscovererGroup (toDiscovererGroup env group),
      asItem DocumentedType.NoteGroup (toNoteGroup env group),
      asItem DocumentedType.WrittenGroup (toWrittenGroup env group),
      asItem DocumentedType.WritingGroup (toWritingGroup env group),
      asItem DocumentedType.CalledGroup (toCalledGroup env group)]
  | _ => pure (default, false)

/-- The loop `for _, arg := range args` of `toDocumentedTypes` and `toSpecifyTypes`: a converted
argument is appended to the result, any other one is reported with the diagnostic `orElse arg`. -/
def forEachArgOrError {T : Type} (f : Argument → P (T × Bool)) (orElse : Argument → Diagnostic) :
    List Argument → P (List T)
  | [] => pure []
  | arg :: args => do
    let item ← f arg
    if item.2 then do
      let rest ← forEachArgOrError f orElse args
      pure (item.1 :: rest)
    else do
      Append (orElse arg)
      forEachArgOrError f orElse args

/-- Method `toDocumentedTypes`. -/
def toDocumentedTypes (env : Env) (args : List Argument) : P (List DocumentedType) :=
  forEachArgOrError (toDocumentedType env) (fun arg =>
    newError ("Expected a " ++ LowerDetailsName ++ ":, " ++ LowerOverviewName ++ ":, " ++
      LowerMotivationName ++ ":, " ++ LowerHistoryName ++ ":, " ++ LowerExampleName ++ ":, " ++
      LowerRelatedName ++ ":, " ++ LowerDiscovererName ++ ":, " ++ LowerNoteName ++ ":, " ++
      LowerWrittenName ++ ":, " ++ LowerWritingName ++ ":, or " ++ LowerCalledName ++ ": item")
      arg.Start) args

/-- Method `oneOrMoreDocumentedTypes`. -/
def oneOrMoreDocumentedTypes (env : Env) (sec : Section) : P (List DocumentedType) := do
  let items ← toDocumentedTypes env sec.Args
  oneOrMore items sec.Start

/-- Method `toDocumentedSection`. -/
def toDocumentedSection (env : Env) (sec : Section) : P DocumentedSection := do
  let x ← oneOrMoreDocumentedTypes env sec
  pure { Documented := x }

/-! ## Aliases, justifications, references, meta id -/

/-- Method `toAliasesSection`. -/
def toAliasesSection (env : Env) (sec : Section) : P AliasesSection := do
  let x ← oneOrMoreAliases env sec
  pure { Aliases := x }

/-- Method `toLabelSection`. -/
def toLabelSection (sec : Section) : P LabelSection := do
  let x ← exactlyOneTextItem sec
  pure { Label := x }

/-- Method `toBySection`. -/
def toBySection (sec : Section) : P BySection := do
  let x ← oneOrMoreTextItems sec
  pure { By := x }

/-- Method `toLabelGroup`. -/
def toLabelGroup (env : Env) (group : Group) : P (LabelGroup × Bool) :=
  if !startsWithSections group [LowerLabelName] then
    pure (default, false)
  else do
    let identified ← IdentifySections env group.Sections [LowerLabelName, LowerByName]
    match identified with
    | none => pure (default, false)
    | some sections => do
      let label_ ← toLabelSection (sections.get LowerLabelName)
      let by_ ← toBySection (sections.get LowerByName)
      pure ({ Label := label_, By := by_ }, true)

/-- Method `toByGroup`. -/
def toByGroup (env : Env) (group : Group) : P (ByGroup × Bool) :=
  if !startsWithSections group [LowerByName] then
    pure (default, false)
  else do
    let identified ← IdentifySections env group.Sections [LowerByName]
    match identified with
    | none => pure (default, false)
    | some sections => do
      let by_ ← toBySection (sections.get LowerByName)
      pure ({ By := by_ }, true)

/-- Method `toJustifiedTypeFromGroup`. -/
def toJustifiedTypeFromGroup (env : Env) (group : Group) : P (JustifiedType × Bool) :=
  firstOk [
    asItem JustifiedType.LabelGroup (toLabelGroup env group),
    asItem JustifiedType.ByGroup (toByGroup env group)]

/-- Method `toJustifiedTypeFromArg`. -/
def toJustifiedTypeFromArg (env : Env) (arg : Argument) : P (JustifiedType × Bool) :=
  match arg.Arg with
  | ArgumentDataType.Group group => toJustifiedTypeFromGroup env group
  | _ => pure (JustifiedType.nil, false)

/-- Method `toJustifiedTypes`. -/
def toJustifiedTypes (env : Env) (args : List Argument) : P (List JustifiedType) :=
  forEachArgIfOk (toJustifiedTypeFromArg env) args

/-- Method `oneOrMoreJustifiedType`. -/
def oneOrMoreJustifiedType (env : Env) (sec : Section) : P (List JustifiedType) := do
  let items ← toJustifiedTypes env sec.Args
  oneOrMore items sec.Start

/-- Method `toJustifiedSection`. -/
def toJustifiedSection (env : Env) (sec : Section) : P JustifiedSection := do
  let x ← oneOrMoreJustifiedType env sec
  pure { Justified := x }

/-- Method `toReferencesSection`. -/
def toReferencesSection (sec : Section) : P ReferencesSection := do
  let x ← oneOrMoreTextItems sec
  pure { References := x }

/-- Method `toMetaIdSection`. -/
def toMetaIdSection (sec : Section) : P MetaIdSection := do
  let x ← exactlyOneTextItem sec
  pure { Id := x }

/-! ## Describes, Defines, States -/

/-- Method `toDescribesSection`. -/
def toDescribesSection (env : Env) (sec : Section) : P DescribesSection := do
  let x ← exactlyOneTarget env sec
  pure { Describes := x }

/-- Method `toWithSection`. -/
def toWithSection (env : Env) (sec : Section) : P WithSection := do
  let x ← oneOrMoreTargets env sec
  pure { With := x }

/-- Method `toExtendsSection`. -/
def toExtendsSection (toClause : Argument → P Clause) (sec : Section) : P ExtendsSection := do
  let x ← oneOrMoreClauses toClause sec
  pure { Extends := x }

/-- Method `toSatisfiesSection`. -/
def toSatisfiesSection (toClause : Argument → P Clause) (sec : Section) : P SatisfiesSection := do
  let x ← oneOrMoreClauses toClause sec
  pure { Satisfies := x }

/-- Method `toDescribesGroup`. -/
def toDescribesGroup (env : Env) (group : Group) : P (DescribesGroup × Bool) :=
  if !startsWithSections group [UpperDescribesName] then
    pure (default, false)
  else do
    let id ← getId env group true
    let identified ← IdentifySections env group.Sections env.DescribesSections
    match identified, id with
    | some sections, some id => do
      let describes_ ← toDescribesSection env (sections.get UpperDescribesName)
      let with_ ← ifPresent (sections.find LowerWithName) (toWithSection env)
      let using_ ← ifPresent (sections.find LowerUsingName) (toUsingSection env)
      let when_ ← ifPresent (sections.find LowerWhenName) (toWhenSection (toClause env))
      let suchThat_ ← ifPresent (sections.find LowerSuchThatName) (toSuchThatSection (toClause env))
      let extends_ ← ifPresent (sections.find LowerExtendsName) (toExtendsSection (toClause env))
      let satisfies_ ← ifPresent (sections.find LowerSatisfiesName) (toSatisfiesSection (toClause env))
      let provides_ ← ifPresent (sections.find UpperProvidesName) (toProvidesSection env)
      let justified_ ← ifPresent (sections.find UpperJustifiedName) (toJustifiedSection env)
      let documented_ ← ifPresent (sections.find UpperDocumentedName) (toDocumentedSection env)
      let references_ ← ifPresent (sections.find UpperReferencesName) (toReferencesSection)
      let aliases_ ← ifPresent (sections.find UpperAliasesName) (toAliasesSection env)
      let metaId_ ← ifPresent (sections.find UpperIdQuestionName) (toMetaIdSection)
      pure ({
        Id := id
        Describes := describes_
        With := with_
        Using := using_
        When := when_
        SuchThat := suchThat_
        Extends := extends_
        Satisfies := satisfies_
        Provides := provides_
        Justified := justified_
        Documented := documented_
        References := references_
        Aliases := aliases_
        MetaId := metaId_
      }, true)
    | _, _ => pure (default, false)

/-- Method `toDefinesSection`. -/
def toDefinesSection (env : Env) (sec : Section) : P DefinesSection := do
  let x ← exactlyOneTarget env sec
  pure { Defines := x }

/-- Method `toSpecifiesSection`. -/
def toSpecifiesSection (toClause : Argument → P Clause) (sec : Section) : P SpecifiesSection := do
  let x ← oneOrMoreClauses toClause sec
  pure { Specifies := x }

/-- Method `toDefinesGroup`. -/
def toDefinesGroup (env : Env) (group : Group) : P (DefinesGroup × Bool) :=
  if !startsWithSections group [UpperDefinesName] then
    pure (default, false)
  else do
    let id ← getId env group true
    let identified ← IdentifySections env group.Sections env.DefinesSections
    match identified, id with
    | some sections, some id => do
      let defines_ ← toDefinesSection env (sections.get UpperDefinesName)
      let with_ ← ifPresent (sections.find LowerWithName) (toWithSection env)
      let using_ ← ifPresent (sections.find LowerUsingName) (toUsingSection env)
      let when_ ← ifPresent (sections.find LowerWhenName) (toWhenSection (toClause env))
      let suchThat_ ← ifPresent (sections.find LowerSuchThatName) (toSuchThatSection (toClause env))
      let means_ ← ifPresent (sections.find LowerMeansName) (toMeansSection (toClause env))
      let specifies_ ← ifPresent (sections.find LowerSpecifiesName) (toSpecifiesSection (toClause env))
      let provides_ ← ifPresent (sections.find UpperProvidesName) (toProvidesSection env)
      let justified_ ← ifPresent (sections.find UpperJustifiedName) (toJustifiedSection env)
      let documented_ ← ifPresent (sections.find UpperDocumentedName) (toDocumentedSection env)
      let references_ ← ifPresent (sections.find UpperReferencesName) (toReferencesSection)
      let aliases_ ← ifPresent (sections.find UpperAliasesName) (toAliasesSection env)
      let metaId_ ← ifPresent (sections.find UpperIdQuestionName) (toMetaIdSection)
      pure ({
        Id := id
        Defines := defines_
        With := with_
        Using := using_
        When := when_
        SuchThat := suchThat_
        Means := means_
        Specifies := specifies_
        Provides := provides_
        Justified := justified_
        Documented := documented_
        References := references_
        Aliases := aliases_
        MetaId := metaId_
      }, true)
    | _, _ => pure (default, false)

/-- Method `toStatesSection`. -/
def toStatesSection (sec : Section) : P StatesSection := do
  verifyNoArgs sec
  pure {}

/-- Method `toThatSection`. -/
def toThatSection (toClause : Argument → P Clause) (sec : Section) : P ThatSection := do
  let x ← oneOrMoreClauses toClause sec
  pure { That := x }

/-- Method `toStatesGroup`. -/
def toStatesGroup (env : Env) (group : Group) : P (StatesGroup × Bool) :=
  if !startsWithSections group [UpperStatesName] then
    pure (default, false)
  else do
    let id ← getId env group true
    let identified ← IdentifySections env group.Sections env.StatesSections
    match identified, id with
    | some sections, some id => do
      let states_ ← toStatesSection (sections.get UpperStatesName)
      let with_ ← ifPresent (sections.find LowerWithName) (toWithSection env)
      let using_ ← ifPresent (sections.find LowerUsingName) (toUsingSection env)
      let when_ ← ifPresent (sections.find LowerWhenName) (toWhenSection (toClause env))
      let suchThat_ ← ifPresent (sections.find LowerSuchThatName) (toSuchThatSection (toClause env))
      let that_ ← toThatSection (toClause env) (sections.get LowerThatName)
      let documented_ ← ifPresent (sections.find UpperDocumentedName) (toDocumentedSection env)
      let justified_ ← ifPresent (sections.find UpperJustifiedName) (toJustifiedSection env)
      let references_ ← ifPresent (sections.find UpperReferencesName) (toReferencesSection)
      let aliases_ ← ifPresent (sections.find UpperAliasesName) (toAliasesSection env)
      let metaId_ ← ifPresent (sections.find UpperIdQuestionName) (toMetaIdSection)
      pure ({
        Id := id
        States := states_
        With := with_
        Using := using_
        When := when_
        SuchThat := suchThat_
        That := that_
        Documented := documented_
        Justified := justified_
        References := references_
        Aliases := aliases_
        MetaId := metaId_
      }, true)
    | _, _ => pure (default, false)

/-! ## Axiom, Conjecture, Theorem -/

/-- Method `toAxiomSection`. -/
def toAxiomSection (sec : Section) : P AxiomSection := do
  let x ← zeroOrMoreTextItems sec
  pure { Axiom := x }

/-- Method `toAxiomGroup`. -/
def toAxiomGroup (env : Env) (group : Group) : P (AxiomGroup × Bool) :=
  if !startsWithSections group [UpperAxiomName] then
    pure (default, false)
  else do
    let id ← getId env group false
    let identified ← IdentifySections env group.Sections env.AxiomSections
    match identified with
    | none => pure (default, false)
    | some sections => do
      let axiom_ ← toAxiomSection (sections.get UpperAxiomName)
      let given_ ← ifPresent (sections.find LowerGivenName) (toGivenSection env)
      let where_ ← ifPresent (sections.find LowerWhereName) (toWhereSection env)
      let if_ ← ifPresent (sections.find LowerIfName) (toIfSection (toClause env))
      let iff_ ← ifPresent (sections.find LowerIffName) (toIffSection (toClause env))
      let then_ ← toThenSection (toClause env) (sections.get LowerThenName)
      let documented_ ← ifPresent (sections.find UpperDocumentedName) (toDocumentedSection env)
      let references_ ← ifPresent (sections.find UpperReferencesName) (toReferencesSection)
      let aliases_ ← ifPresent (sections.find UpperAliasesName) (toAliasesSection env)
      let metaId_ ← ifPresent (sections.find UpperIdQuestionName) (toMetaIdSection)
      pure ({
        Id := id
        Axiom := axiom_
        Given := given_
        Where := where_
        If := if_
        Iff := iff_
        Then := then_
        Documented := documented_
        References := references_
        Aliases := aliases_
        MetaId := metaId_
      }, true)

/-- Method `toConjectureSection`. -/
def toConjectureSection (sec : Section) : P ConjectureSection := do
  let x ← zeroOrMoreTextItems sec
  pure { Conjecture := x }

/-- Method `toConjectureGroup`. -/
def toConjectureGroup (env : Env) (group : Group) : P (ConjectureGroup × Bool) :=
  if !startsWithSections group [UpperConjectureName] then
    pure (default, false)
  else do
    let id ← getId env group false
    let identified ← IdentifySections env group.Sections env.ConjectureSections
    match identified with
    | none => pure (default, false)
    | some sections => do
      let conjecture_ ← toConjectureSection (sections.get UpperConjectureName)
      let given_ ← ifPresent (sections.find LowerGivenName) (toGivenSection env)
      let where_ ← ifPresent (sections.find LowerWhereName) (toWhereSection env)
      let if_ ← ifPresent (sections.find LowerIfName) (toIfSection (toClause env))
      let iff_ ← ifPresent (sections.find LowerIffName) (toIffSection (toClause env))
      let then_ ← toThenSection (toClause env) (sections.get LowerThenName)
      let documented_ ← ifPresent (sections.find UpperDocumentedName) (toDocumentedSection env)
      let references_ ← ifPresent (sections.find UpperReferencesName) (toReferencesSection)
      let aliases_ ← ifPresent (sections.find UpperAliasesName) (toAliasesSection env)
      let metaId_ ← ifPresent (sections.find UpperIdQuestionName) (toMetaIdSection)
      pure ({
        Id := id
        Conjecture := conjecture_
        Given := given_
        Where := where_
        If := if_
        Iff := iff_
        Then := then_
        Documented := documented_
        References := references_
        Aliases := aliases_
        MetaId := metaId_
      }, true)

/-- Method `toTheoremSection`. -/
def toTheoremSection (sec : Section) : P TheoremSection := do
  let x ← zeroOrMoreTextItems sec
  pure { Theorem := x }

/-- Method `toProofSection`. -/
def toProofSection (sec : Section) : P ProofSection := do
  let x ← exactlyOneTextItem sec
  pure { Proof := x }

/-- Method `toTheoremGroup`. -/
def toTheoremGroup (env : Env) (group : Group) : P (TheoremGroup × Bool) :=
  if !startsWithSections group [UpperTheoremName] then
    pure (default, false)
  else do
    let id ← getId env group false
    let identified ← IdentifySections env group.Sections env.TheoremSections
    match identified with
    | none => pure (default, false)
    | some sections => do
      let theorem_ ← toTheoremSection (sections.get UpperTheoremName)
      let given_ ← ifPresent (sections.find LowerGivenName) (toGivenSection env)
      let where_ ← ifPresent (sections.find LowerWhereName) (toWhereSection env)
      let if_ ← ifPresent (sections.find LowerIfName) (toIfSection (toClause env))
      let iff_ ← ifPresent (sections.find LowerIffName) (toIffSection (toClause env))
      let then_ ← toThenSection (toClause env) (sections.get LowerThenName)
      let proof_ ← ifPresent (sections.find UpperProofName) (toProofSection)
      let documented_ ← ifPresent (sections.find UpperDocumentedName) (toDocumentedSection env)
      let references_ ← ifPresent (sections.find UpperReferencesName) (toReferencesSection)
      let aliases_ ← ifPresent (sections.find UpperAliasesName) (toAliasesSection env)
      let metaId_ ← ifPresent (sections.find UpperIdQuestionName) (toMetaIdSection)
      pure ({
        Id := id
        Theorem := theorem_
        Given := given_
        Where := where_
        If := if_
        Iff := iff_
        Then := then_
        Proof := proof_
        Documented := documented_
        References := references_
        Aliases := aliases_
        MetaId := metaId_
      }, true)

/-- Method `toTextBlockItem`. -/
def toTextBlockItem (block : TextBlock) : TextBlockItem :=
  { Text := block.Text }

/-! ## Specify -/

/-- Method `toZeroSection`. -/
def toZeroSection (sec : Section) : P ZeroSection := do
  verifyNoArgs sec
  pure {}

/-- Method `toZeroGroup`. -/
def toZeroGroup (env : Env) (group : Group) : P (ZeroGroup × Bool) :=
  if !startsWithSections group [LowerZeroName] then
    pure (default, false)
  else do
    let identified ← IdentifySections env group.Sections env.ZeroSections
    match identified with
    | none => pure (default, false)
    | some sections => do
      let zero_ ← toZeroSection (sections.get LowerZeroName)
      let means_ ← toMeansSection (toClause env) (sections.get LowerMeansName)
      pure ({ Zero := zero_, Means := means_ }, true)

/-- Method `toPositiveIntSection`. -/
def toPositiveIntSection (env : Env) (sec : Section) : P PositiveIntSection := do
  let x ← exactlyOneTarget env sec
  pure { PositiveInt := x }

/-- Method `toPositiveIntGroup`. -/
def toPositiveIntGroup (env : Env) (group : Group) : P (PositiveIntGroup × Bool) :=
  if !startsWithSections group [LowerPositiveIntName] then
    pure (default, false)
  else do
    let identified ← IdentifySections env group.Sections env.PositiveIntSections
    match identified with
    | none => pure (default, false)
    | some sections => do
      let positiveInt_ ← toPositiveIntSection env (sections.get LowerPositiveIntName)
      let means_ ← toMeansSection (toClause env) (sections.get LowerMeansName)
      pure ({ PositiveInt := positiveInt_, Means := means_ }, true)

/-- Method `toNegativeIntSection`. -/
def toNegativeIntSection (env : Env) (sec : Section) : P NegativeIntSection := do
  let x ← exactlyOneTarget env sec
  pure { NegativeInt := x }

/-- Method `toNegativeIntGroup`. -/
def toNegativeIntGroup (env : Env) (group : Group) : P (NegativeIntGroup × Bool) :=
  if !startsWithSections group [LowerNegativeIntName] then
    pure (default, false)
  else do
    let identified ← IdentifySections env group.Sections env.NegativeIntSections
    match identified with
    | none => pure (default, false)
    | some sections => do
      let negativeInt_ ← toNegativeIntSection env (sections.get LowerNegativeIntName)
      let means_ ← toMeansSection (toClause env) (sections.get LowerMeansName)
      pure ({ NegativeInt := negativeInt_, Means := means_ }, true)

/-- Method `toPositiveFloatSection`. -/
def toPositiveFloatSection (env : Env) (sec : Section) : P PositiveFloatSection := do
  let x ← exactlyOneTarget env sec
  pure { PositiveFloat := x }

/-- Method `toPositiveFloatGroup`. -/
def toPositiveFloatGroup (env : Env) (group : Group) : P (PositiveFloatGroup × Bool) :=
  if !startsWithSections group [LowerPositiveFloatName] then
    pure (default, false)
  else do
    let identified ← IdentifySections env group.Sections env.PositiveFloatSections
    match identified with
    | none => pure (default, false)
    | some sections => do
      let positiveFloat_ ← toPositiveFloatSection env (sections.get LowerPositiveFloatName)
      let means_ ← toMeansSection (toClause env) (sections.get LowerMeansName)
      pure ({ PositiveFloat := positiveFloat_, Means := means_ }, true)

/-- Method `toNegativeFloatSection`. -/
def toNegativeFloatSection (env : Env) (sec : Section) : P NegativeFloatSection := do
  let x ← exactlyOneTarget env sec
  pure { NegativeFloat := x }

/-- Method `toNegativeFloatGroup`. -/
def toNegativeFloatGroup (env : Env) (group : Group) : P (NegativeFloatGroup × Bool) :=
  if !startsWithSections group [LowerNegativeFloatName] then
    pure (default, false)
  else do
    let identified ← IdentifySections env group.Sections env.NegativeFloatSections
    match identified with
    | none => pure (default, false)
    | some sections => do
      let negativeFloat_ ← toNegativeFloatSection env (sections.get LowerNegativeFloatName)
      let means_ ← toMeansSection (toClause env) (sections.get LowerMeansName)
      pure ({ NegativeFloat := negativeFloat_, Means := means_ }, true)

/-- Method `toSpecifyType`. -/
def toSpecifyType (env : Env) (arg : Argument) : P (SpecifyType × Bool) :=
  match arg.Arg with
  | ArgumentDataType.Group group =>
    firstOk [
      asItem SpecifyType.ZeroGroup (toZeroGroup env group),
      asItem SpecifyType.PositiveIntGroup (toPositiveIntGroup env group),
      asItem SpecifyType.NegativeIntGroup (toNegativeIntGroup env group),
      asItem SpecifyType.PositiveFloatGroup (toPositiveFloatGroup env group),
      asItem SpecifyType.NegativeFloatGroup (toNegativeFloatGroup env group)]
  | _ => pure (default, false)

/-- Method `toSpecifyTypes`. -/
def toSpecifyTypes (env : Env) (args : List Argument) : P (List SpecifyType) :=
  forEachArgOrError (toSpecifyType env) (fun arg =>
    newError ("Expected a " ++ LowerZeroName ++ ":, " ++ LowerPositiveIntName ++ ":, " ++
      LowerNegativeIntName ++ ":, " ++ LowerPositiveFloatName ++ ":, or " ++
      LowerNegativeFloatName ++ ": item") arg.Start) args

/-- Method `oneOrMoreSpecifyTypes`. -/
def oneOrMoreSpecifyTypes (env : Env) (sec : Section) : P (List SpecifyType) := do
  let items ← toSpecifyTypes env sec.Args
  oneOrMore items sec.Start

/-- Method `toTopLevelSpecifySection`. -/
def toTopLevelSpecifySection (env : Env) (sec : Section) : P TopLevelSpecifySection := do
  let x ← oneOrMoreSpecifyTypes env sec
  pure { Specify := x }

/-- Method `toSpecifyGroup`. -/
def toSpecifyGroup (env : Env) (group : Group) : P (SpecifyGroup × Bool) :=
  if !startsWithSections group [UpperSpecifyName] then
    pure (default, false)
  else do
    let identified ← IdentifySections env group.Sections env.SpecifySections
    match identified with
    | none => pure (default, false)
    | some sections => do
      let metaId_ ← ifPresent (sections.find UpperIdQuestionName) (toMetaIdSection)
      let specify_ ← toTopLevelSpecifySection env (sections.get UpperSpecifyName)
      pure ({ Specify := specify_, MetaId := metaId_ }, true)

/-! ## Topic -/

/-- Method `toTopicSection`. -/
def toTopicSection (sec : Section) : P TopicSection := do
  verifyNoArgs sec
  pure {}

/-- Method `toTopicGroup`. -/
def toTopicGroup (env : Env) (group : Group) : P (TopicGroup × Bool) :=
  if !startsWithSections group [UpperTopicName] then
    pure (default, false)
  else do
    let id ← getId env group true
    let identified ← IdentifySections env group.Sections env.TopicSections
    match identified, id with
    | some sections, some id => do
      let topic_ ← toTopicSection (sections.get UpperTopicName)
      let content_ ← toContentSection (sections.get LowerContentName)
      let references_ ← ifPresent (sections.find UpperJustifiedName) (toReferencesSection)
      let metaId_ ← ifPresent (sections.find UpperIdQuestionName) (toMetaIdSection)
      pure ({
        Id := id
        Topic := topic_
        Content := content_
        References := references_
        MetaId := metaId_
      }, true)
    | _, _ => pure (default, false)

/-! ## Resource -/

/-- Method `toTitleSection`. -/
def toTitleSection (sec : Section) : P TitleSection := do
  let x ← exactlyOneTextItem sec
  pure { Title := x }

/-- Method `toTitleGroup`. -/
def toTitleGroup (env : Env) (group : Group) : P (TitleGroup × Bool) :=
  if !startsWithSections group [LowerTitleName] then
    pure (default, false)
  else do
    let identified ← IdentifySections env group.Sections [LowerTitleName]
    match identified with
    | none => pure (default, false)
    | some sections => do
      let title_ ← toTitleSection (sections.get LowerTitleName)
      pure ({ Title := title_ }, true)

/-- Method `toAuthorSection`. -/
def toAuthorSection (sec : Section) : P AuthorSection := do
  let x ← oneOrMoreTextItems sec
  pure { Author := x }

/-- Method `toAuthorGroup`. -/
def toAuthorGroup (env : Env) (group : Group) : P (AuthorGroup × Bool) :=
  if !startsWithSections group [LowerAuthorName] then
    pure (default, false)
  else do
    let identified ← IdentifySections env group.Sections [LowerAuthorName]
    match identified with
    | none => pure (default, false)
    | some sections => do
      let author_ ← toAuthorSection (sections.get LowerAuthorName)
      pure ({ Author := author_ }, true)

/-- Method `toOffsetSection`. -/
def toOffsetSection (sec : Section) : P OffsetSection := do
  let x ← exactlyOneTextItem sec
  pure { Offset := x }

/-- Method `toOffsetGroup`. -/
def toOffsetGroup (env : Env) (group : Group) : P (OffsetGroup × Bool) :=
  if !startsWithSections group [LowerOffsetName] then
    pure (default, false)
  else do
    let identified ← IdentifySections env group.Sections [LowerOffsetName]
    match identified with
    | none => pure (default, false)
    | some sections => do
      let offset_ ← toOffsetSection (sections.get LowerOffsetName)
      pure ({ Offset := offset_ }, true)

/-- Method `toUlrSection`. -/
def toUlrSection (sec : Section) : P UrlSection := do
  let x ← exactlyOneTextItem sec
  pure { Url := x }

/-- Method `toUrlGroup`. -/
def toUrlGroup (env : Env) (group : Group) : P (UrlGroup × Bool) :=
  if !startsWithSections group [LowerUrlName] then
    pure (default, false)
  else do
    let identified ← IdentifySections env group.Sections [LowerUrlName]
    match identified with
    | none => pure (default, false)
    | some sections => do
      let url_ ← toUlrSection (sections.get LowerUrlName)
      pure ({ Url := url_ }, true)

/-- Method `toHomepageSection`. -/
def toHomepageSection (sec : Section) : P HomepageSection := do
  let x ← exactlyOneTextItem sec
  pure { Homepage := x }

/-- Method `toHomepageGroup`. -/
def toHomepageGroup (env : Env) (group : Group) : P (HomepageGroup × Bool) :=
  if !startsWithSections group [LowerHomepageName] then
    pure (default, false)
  else do
    let identified ← IdentifySections env group.Sections [LowerHomepageName]
    match identified with
    | none => pure (default, false)
    | some sections => do
      let homepage_ ← toHomepageSection (sections.get LowerHomepageName)
      pure ({ Homepage := homepage_ }, true)

/-- Method `toTypeSection`. -/
def toTypeSection (sec : Section) : P TypeSection := do
  let x ← exactlyOneTextItem sec
  pure { Kind := x }

/-- Method `toTypeGroup`. -/
def toTypeGroup (env : Env) (group : Group) : P (TypeGroup × Bool) :=
  if !startsWithSections group [LowerTypeName] then
    pure (default, false)
  else do
    let identified ← IdentifySections env group.Sections [LowerTypeName]
    match identified with
    | none => pure (default, false)
    | some sections => do
      let kind_ ← toTypeSection (sections.get LowerTypeName)
      pure ({ Kind := kind_ }, true)

/-- Method `toEditionSection`. -/
def toEditionSection (sec : Section) : P EditionSection := do
  let x ← exactlyOneTextItem sec
  pure { Edition := x }

/-- Method `toEditionGroup`. -/
def toEditionGroup (env : Env) (group : Group) : P (EditionGroup × Bool) :=
  if !startsWithSections group [LowerEditionName] then
    pure (default, false)
  else do
    let identified ← IdentifySections env group.Sections [LowerEditionName]
    match identified with
    | none => pure (default, false)
    | some sections => do
      let edition_ ← toEditionSection (sections.get LowerEditionName)
      pure ({ Edition := edition_ }, true)

/-- Method `toEditorSection`. -/
def toEditorSection (sec : Section) : P EditorSection := do
  let x ← oneOrMoreTextItems sec
  pure { Editor := x }

/-- Method `toEditorGroup`. -/
def toEditorGroup (env : Env) (group : Group) : P (EditorGroup × Bool) :=
  if !startsWithSections group [LowerEditorName] then
    pure (default, false)
  else do
    let identified ← IdentifySections env group.Sections [LowerEditorName]
    match identified with
    | none => pure (default, false)
    | some sections => do
      let editor_ ← toEditorSection (sections.get LowerEditorName)
      pure ({ Editor := editor_ }, true)

/-- Method `toInstitutionSection`. -/
def toInstitutionSection (sec : Section) : P InstitutionSection := do
  let x ← oneOrMoreTextItems sec
  pure { Institution := x }

/-- Method `toInstitutionGroup`. -/
def toInstitutionGroup (env : Env) (group : Group) : P (InstitutionGroup × Bool) :=
  if !startsWithSections group [LowerInstitutionName] then
    pure (default, false)
  else do
    let identified ← IdentifySections env group.Sections [LowerInstitutionName]
    match identified with
    | none => pure (default, false)
    | some sections => do
      let institution_ ← toInstitutionSection (sections.get LowerInstitutionName)
      pure ({ Institution := institution_ }, true)

/-- Method `toJournalSection`. -/
def toJournalSection (sec : Section) : P JournalSection := do
  let x ← oneOrMoreTextItems sec
  pure { Journal := x }

/-- Method `toJournalGroup`. -/
def toJournalGroup (env : Env) (group : Group) : P (JournalGroup × Bool) :=
  if !startsWithSections group [LowerJournalName] then
    pure (default, false)
  else do
    let identified ← IdentifySections env group.Sections [LowerJournalName]
    match identified with
    | none => pure (default, false)
    | some sections => do
      let journal_ ← toJournalSection (sections.get LowerJournalName)
      pure ({ Journal := journal_ }, true)

/-- Method `toPublisherSection`. -/
def toPublisherSection (sec : Section) : P PublisherSection := do
  let x ← oneOrMoreTextItems sec
  pure { Publisher := x }

/-- Method `toPublisherGroup`. -/
def toPublisherGroup (env : Env) (group : Group) : P (PublisherGroup × Bool) :=
  if !startsWithSections group [LowerPublisherName] then
    pure (default, false)
  else do
    let identified ← IdentifySections env group.Sections [LowerPublisherName]
    match identified with
    | none => pure (default, false)
    | some sections => do
      let publisher_ ← toPublisherSection (sections.get LowerPublisherName)
      pure ({ Publisher := publisher_ }, true)

/-- Method `toVolumeSection`. -/
def toVolumeSection (sec : Section) : P VolumeSection := do
  let x ← exactlyOneTextItem sec
  pure { Volume := x }

/-- Method `toVolumeGroup`. -/
def toVolumeGroup (env : Env) (group : Group) : P (VolumeGroup × Bool) :=
  if !startsWithSections group [LowerVolumeName] then
    pure (default, false)
  else do
    let identified ← IdentifySections env group.Sections [LowerVolumeName]
    match identified with
    | none => pure (default, false)
    | some sections => do
      let volume_ ← toVolumeSection (sections.get LowerVolumeName)
      pure ({ Volume := volume_ }, true)

/-- Method `toMonthSection`. -/
def toMonthSection (sec : Section) : P MonthSection := do
  let x ← exactlyOneTextItem sec
  pure { Month := x }

/-- Method `toMonthGroup`. -/
def toMonthGroup (env : Env) (group : Group) : P (MonthGroup × Bool) :=
  if !startsWithSections group [LowerMonthName] then
    pure (default, false)
  else do
    let identified ← IdentifySections env group.Sections [LowerMonthName]
    match identified with
    | none => pure (default, false)
    | some sections => do
      let month_ ← toMonthSection (sections.get LowerMonthName)
      pure ({ Month := month_ }, true)

/-- Method `toYearSection`. -/
def toYearSection (sec : Section) : P YearSection := do
  let x ← exactlyOneTextItem sec
  pure { Year := x }

/-- Method `toYearGroup`. -/
def toYearGroup (env : Env) (group : Group) : P (YearGroup × Bool) :=
  if !startsWithSections group [LowerYearName] then
    pure (default, false)
  else do
    let identified ← IdentifySections env group.Sections [LowerYearName]
    match identified with
    | none => pure (default, false)
    | some sections => do
      let year_ ← toYearSection (sections.get LowerYearName)
      pure ({ Year := year_ }, true)

/-- Method `toDescriptionSection`. -/
def toDescriptionSection (sec : Section) : P DescriptionSection := do
  let x ← exactlyOneTextItem sec
  pure { Description := x }

/-- Method `toDescriptionGroup`. -/
def toDescriptionGroup (env : Env) (group : Group) : P (DescriptionGroup × Bool) :=
  if !startsWithSections group [LowerDescriptionName] then
    pure (default, false)
  else do
    let identified ← IdentifySections env group.Sections [LowerDescriptionName]
    match identified with
    | none => pure (default, false)
    | some sections => do
      let description_ ← toDescriptionSection (sections.get LowerDescriptionName)
      pure ({ Description := description_ }, true)

/-- Method `toResourceType`. -/
def toResourceType (env : Env) (arg : Argument) : P (ResourceType × Bool) :=
  match arg.Arg with
  | ArgumentDataType.Group group =>
    firstOk [
      asItem ResourceType.TitleGroup (toTitleGroup env group),
      asItem ResourceType.AuthorGroup (toAuthorGroup env group),
      asItem ResourceType.OffsetGroup (toOffsetGroup env group),
      asItem ResourceType.UrlGroup (toUrlGroup env group),
      asItem ResourceType.HomepageGroup (toHomepageGroup env group),
      asItem ResourceType.TypeGroup (toTypeGroup env group),
      asItem ResourceType.EditionGroup (toEditionGroup env group),
      asItem ResourceType.EditorGroup (toEditorGroup env group),
      asItem ResourceType.InstitutionGroup (toInstitutionGroup env group),
      asItem ResourceType.JournalGroup (toJournalGroup env group),
      asItem ResourceType.PublisherGroup (toPublisherGroup env group),
      asItem ResourceType.VolumeGroup (toVolumeGroup env group),
      asItem ResourceType.MonthGroup (toMonthGroup env group),
      asItem ResourceType.YearGroup (toYearGroup env group),
      asItem ResourceType.DescriptionGroup (toDescriptionGroup env group)]
  | _ => pure (default, false)

/-- Method `toResourceTypes`. -/
def toResourceTypes (env : Env) (args : List Argument) : P (List ResourceType) :=
  forEachArgIfOk (toResourceType env) args

/-- Method `oneOrMoreResourceTypes`. -/
def oneOrMoreResourceTypes (env : Env) (sec : Section) : P (List ResourceType) := do
  let items ← toResourceTypes env sec.Args
  oneOrMore items sec.Start

/-- Method `toResourceSection`. -/
def toResourceSection (env : Env) (sec : Section) : P ResourceSection := do
  let x ← oneOrMoreResourceTypes env sec
  pure { Items := x }

/-- Method `toResourceGroup`. -/
def toResourceGroup (env : Env) (group : Group) : P (ResourceGroup × Bool) :=
  if !startsWithSections group [UpperResourceName] then
    pure (default, false)
  else do
    let id ← getStringId group true
    let identified ← IdentifySections env group.Sections env.ResourceSections
    match identified, id with
    | some sections, some id => do
      let metaId_ ← ifPresent (sections.find UpperIdQuestionName) (toMetaIdSection)
      let resource_ ← toResourceSection env (sections.get UpperResourceName)
      pure ({ Id := id, Resource := resource_, MetaId := metaId_ }, true)
    | _, _ => pure (default, false)

/-! ## Person -/

/-- Method `toNameSection`. -/
def toNameSection (sec : Section) : P NameSection := do
  let x ← oneOrMoreTextItems sec
  pure { Name := x }

/-- Method `toNameGroup`. -/
def toNameGroup (env : Env) (group : Group) : P (NameGroup × Bool) :=
  if !startsWithSections group [LowerNameName] then
    pure (default, false)
  else do
    let identified ← IdentifySections env group.Sections env.NameSections
    match identified with
    | none => pure (default, false)
    | some sections => do
      let name_ ← toNameSection (sections.get LowerNameName)
      pure ({ Name := name_ }, true)

/-- Method `toBiographySection`. -/
def toBiographySection (sec : Section) : P BiographySection := do
  let x ← exactlyOneTextItem sec
  pure { Biography := x }

/-- Method `toBiographyGroup`. -/
def toBiographyGroup (env : Env) (group : Group) : P (BiographyGroup × Bool) :=
  if !startsWithSections group [LowerBiographyName] then
    pure (default, false)
  else do
    let identified ← IdentifySections env group.Sections env.BiographySections
    match identified with
    | none => pure (default, false)
    | some sections => do
      let biography_ ← toBiographySection (sections.get LowerBiographyName)
      pure ({ Biography := biography_ }, true)

/-- Method `toPersonType`. -/
def toPersonType (env : Env) (arg : Argument) : P (PersonType × Bool) :=
  match arg.Arg with
  | ArgumentDataType.Group group =>
    firstOk [
      asItem PersonType.NameGroup (toNameGroup env group),
      asItem PersonType.BiographyGroup (toBiographyGroup env group)]
  | _ => pure (default, false)

/-- Method `toPersonTypes`. -/
def toPersonTypes (env : Env) (args : List Argument) : P (List PersonType) :=
  forEachArgIfOk (toPersonType env) args

/-- Method `oneOrMorePersonTypes`. -/
def oneOrMorePersonTypes (env : Env) (sec : Section) : P (List PersonType) := do
  let items ← toPersonTypes env sec.Args
  oneOrMore items sec.Start

/-- Method `toPersonSection`. -/
def toPersonSection (env : Env) (sec : Section) : P PersonSection := do
  let x ← oneOrMorePersonTypes env sec
  pure { Items := x }

/-- Method `toPersonGroup`. -/
def toPersonGroup (env : Env) (group : Group) : P (PersonGroup × Bool) :=
  if !startsWithSections group [UpperPersonName] then
    pure (default, false)
  else do
    let id ← getStringId group true
    let identified ← IdentifySections env group.Sections env.PersonSections
    match identified, id with
    | some sections, some id => do
      let metaId_ ← ifPresent (sections.find UpperIdQuestionName) (toMetaIdSection)
      let person_ ← toPersonSection env (sections.get UpperPersonName)
      pure ({ Id := id, Person := person_, MetaId := metaId_ }, true)
    | _, _ => pure (default, false)

/-! ## Top-level items and the document -/

/-- Method `toTopLevelItemType`. -/
def toTopLevelItemType (env : Env) (item : TopLevelNodeType) : P (TopLevelItemType × Bool) := do
  let r ← (match item with
    | TopLevelNodeType.TextBlock block =>
      pure (TopLevelItemType.TextBlockItem (toTextBlockItem block), true)
    | TopLevelNodeType.Group group =>
      firstOk [
        asItem TopLevelItemType.DefinesGroup (toDefinesGroup env group),
        asItem TopLevelItemType.DescribesGroup (toDescribesGroup env group),
        asItem TopLevelItemType.StatesGroup (toStatesGroup env group),
        asItem TopLevelItemType.AxiomGroup (toAxiomGroup env group),
        asItem TopLevelItemType.ConjectureGroup (toConjectureGroup env group),
        asItem TopLevelItemType.TheoremGroup (toTheoremGroup env group),
        asItem TopLevelItemType.SpecifyGroup (toSpecifyGroup env group),
        asItem TopLevelItemType.TopicGroup (toTopicGroup env group),
        asItem TopLevelItemType.PersonGroup (toPersonGroup env group),
        asItem TopLevelItemType.ResourceGroup (toResourceGroup env group)] :
      P (TopLevelItemType × Bool))
  if r.2 then
    pure r
  else do
    Append (newError "Invalid top level item" item.Start)
    pure (TopLevelItemType.nil, false)

/-- The loop of `toDocument` over `root.Nodes`. -/
def toDocumentItems (env : Env) : List TopLevelNodeType → P (List TopLevelItemType)
  | [] => pure []
  | node :: nodes => do
    let item ← toTopLevelItemType env node
    let rest ← toDocumentItems env nodes
    pure (if item.2 then item.1 :: rest else rest)

/-- Method `toDocument`. -/
def toDocument (env : Env) (root : Root) : P (Document × Bool) := do
  let countBefore ← Length
  let items ← toDocumentItems env root.Nodes
  let countAfter ← Length
  pure ({ Items := items }, decide (countAfter = countBefore))

/-- Function `Parse`: the document, the success flag, and the tracker contents after the call. -/
def Parse (env : Env) (root : Root) (tracker : DiagnosticTracker) :
    (Document × Bool) × DiagnosticTracker :=
  toDocument env root tracker

/-! ## Reference definitions for the statements -/

/-- Section names of a well-formed piecewise group: `piecewise`, then `pairs` times `if` and
`then`, then `else` when `withElse`. -/
def piecewiseNames (pairs : Nat) (withElse : Bool) : List String :=
  LowerPiecewiseName :: ((List.replicate pairs [LowerIfName, LowerThenName]).flatten ++
    (if withElse then [LowerElseName] else []))

/-- The `if`/`then` pairs of a piecewise body converted one after the other, in order. -/
def convertIfThens (toClause : Argument → P Clause) : List Section → P (List (IfThen Clause))
  | section1 :: section2 :: rest => do
    let if_ ← toIfSection toClause section1
    let then_ ← toThenSection toClause section2
    let more ← convertIfThens toClause rest
    pure ({ If := if_, Then := then_ } :: more)
  | _ => pure []

/-- The text item that `toTextItem` returns for an argument. -/
def textItemOf (arg : Argument) : TextItem :=
  match arg.Arg with
  | ArgumentDataType.TextArgumentData text => { RawText := text }
  | _ => default

/-- The diagnostics that `toTextItem` appends for an argument: none for a text argument. -/
def textItemErrors (arg : Argument) : List Diagnostic :=
  match arg.Arg with
  | ArgumentDataType.TextArgumentData _ => []
  | _ => [newError "Expected a \"...\" item" arg.Start]

/-! ## The section identifier of the spec -/

/-- Modelled from the spec: a schema is "an ordered list of section-name tokens, each marked
required or optional". The function `IdentifySections` and the tables are not in the sources; the
mark is taken to be a trailing question mark on the token, the form the sources name
`QuestionName`. This is whether a token is marked optional. -/
def slotOptional (token : String) : Bool :=
  token.data.getLast? == some '?'

/-- Modelled from the spec: the section name of a schema token, the token without its mark. -/
def slotName (token : String) : String :=
  if slotOptional token then String.mk token.data.dropLast else token

/-- Modelled from the spec: the diagnostic of step 2 of the matching algorithm, "diagnostic
`Phase5ParserOrigin` with the missing name and the group start position". -/
def missingSection (name : String) (start : Position) : Diagnostic :=
  newError ("Expected section '" ++ name ++ "'") start

/-- Modelled from the spec: the diagnostic of step 4 of the matching algorithm, "diagnostic
`Unexpected section X` at section start". -/
def unexpectedSection (sec : Section) : Diagnostic :=
  newError ("Unexpected section '" ++ sec.Name ++ "'") sec.Start

/-- Modelled from the spec: whether a section "matches no remaining slot". -/
def matchesNoSlot (tokens : List String) (sec : Section) : Bool :=
  !tokens.any (fun token => slotName token == sec.Name)

/-- Modelled from the spec: the matching algorithm of section 4.7, which walks the sections and
the schema slots in parallel. `index` is the position of the next section in the group. The
result is the slots filled so far (slot name and index of its section), the diagnostics in the
order they arise, and whether no unexpected section was met.

* Step 4: a next section that matches no remaining slot is reported as unexpected and passed
  over.
* Step 3: a next section that matches the next slot is consumed; otherwise an optional slot is
  skipped.
* Step 2: a required slot that the next section does not match is missing: it is reported at
  the group start and left unfilled. -/
def identifyWalk (start : Position) :
    List String → Nat → List Section → (List (String × Nat) × List Diagnostic) × Bool
  | [], _, sections => (([], sections.map unexpectedSection), sections.isEmpty)
  | token :: tokens, index, sections =>
    let passed := sections.takeWhile (matchesNoSlot (token :: tokens))
    let sections := sections.dropWhile (matchesNoSlot (token :: tokens))
    let index := index + passed.length
    let consumed := match sections with
      | sec :: _ => sec.Name == slotName token
      | [] => false
    let r := if consumed then identifyWalk start tokens (index + 1) sections.tail
      else identifyWalk start tokens index sections
    let filled := if consumed then (slotName token, index) :: r.1.1 else r.1.1
    let missing := if consumed || slotOptional token then []
      else [missingSection (slotName token) start]
    ((filled, passed.map unexpectedSection ++ missing ++ r.1.2), passed.isEmpty && r.2)

/-- Modelled from the spec: the section identifier `IdentifySections`, as the matching algorithm
of section 4.7. It is given the sections only; the group start it reports for a missing slot is
the start of the first section. It fails (`none`) when it met an unexpected section and
otherwise returns the filled slots: a missing required slot leaves "a default/zero value in that
slot". -/
def IdentifySectionsSpec (sections : List Section) (_tracker : DiagnosticTracker)
    (names : List String) : Option (List (String × Nat)) × List Diagnostic :=
  let start := match sections with
    | sec :: _ => sec.Start
    | [] => default
  let r := identifyWalk start names 0 sections
  (if r.2 then some r.1.1 else none, r.1.2)

/-- An environment in which every formulation, form, id and signature parses to the tree `node`
without a diagnostic and the section identifier is the one of the spec. Its tables are, for
`ForAll`, the schema the spec states, for `Theorem`, the slots of scenarios S1, S2 and S6
(optional `given`, required `then`), and for every other group its head alone. -/
def scenarioEnv (node : FormulationNode) : Env :=
  { ParseExpression := fun _ _ _ => (some node, [])
    ParseForm := fun _ _ _ => (some node, [])
    ParseId := fun _ _ _ => (some node, [])
    ParseSignature := fun _ _ _ => (some node, [])
    IdentifySections := IdentifySectionsSpec
    AllOfSections := [LowerAllOfName]
    AnyOfSections := [LowerAnyOfName]
    AxiomSections := [UpperAxiomName]
    BiographySections := [LowerBiographyName]
    CalledSections := [LowerCalledName]
    ConjectureSections := [UpperConjectureName]
    ConnectionSections := [LowerConnectionName]
    DefinesSections := [UpperDefinesName]
    DescribesSections := [UpperDescribesName]
    DescribingSections := [LowerDescribingName]
    DiscovererSections := [LowerDiscovererName]
    ExampleSections := [LowerExampleName]
    ExistsSections := [LowerExistsName]
    ExistsUniqueSections := [LowerExistsUniqueName]
    ForAllSections := [LowerForAllName, LowerWhereName ++ "?", LowerSuchThatName ++ "?", LowerThenName]
    GivenSections := [LowerGivenName]
    HistorySections := [LowerHistoryName]
    IfSections := [LowerIfName]
    IffSections := [LowerIffName]
    MotivationSections := [LowerMotivationName]
    NameSections := [LowerNameName]
    NegativeFloatSections := [LowerNegativeFloatName]
    NegativeIntSections := [LowerNegativeIntName]
    NotSections := [LowerNotName]
    NoteSections := [LowerNoteName]
    OneOfSections := [LowerOneOfName]
    OverviewSections := [LowerOverviewName]
    PersonSections := [UpperPersonName]
    PositiveFloatSections := [LowerPositiveFloatName]
    PositiveIntSections := [LowerPositiveIntName]
    RelatedSections := [LowerRelatedName]
    ResourceSections := [UpperResourceName]
    SpecifySections := [UpperSpecifyName]
    StatesSections := [UpperStatesName]
    SymbolSections := [LowerSymbolName]
    TheoremSections := [UpperTheoremName, LowerGivenName ++ "?", LowerThenName]
    TopicSections := [UpperTopicName]
    WhenSections := [LowerWhenName]
    WritingSections := [LowerWritingName]
    WrittenSections := [LowerWrittenName]
    ZeroSections := [LowerZeroName] }

/-! ## The scenarios of the spec as phase-4 trees -/

/-- Scenario S3: the group `piecewise:`, `if:` with one formulation, `then:` with one
formulation, `else:` with one formulation. -/
def piecewiseScenario : Group :=
  Group.mk none [
    Section.mk "piecewise" [] ⟨0, 0, 0⟩,
    Section.mk "if" [Argument.mk (ArgumentDataType.FormulationArgumentData "x > 0") ⟨17, 2, 2⟩]
      ⟨11, 1, 0⟩,
    Section.mk "then" [Argument.mk (ArgumentDataType.FormulationArgumentData "x") ⟨32, 4, 2⟩]
      ⟨25, 3, 0⟩,
    Section.mk "else" [Argument.mk (ArgumentDataType.FormulationArgumentData "-x") ⟨43, 6, 2⟩]
      ⟨36, 5, 0⟩]
    ⟨0, 0, 0⟩

/-- Scenario S2: the group `Theorem:` followed by just `given: x`, which starts at `start`. -/
def theoremWithoutThen (start : Position) : Group :=
  Group.mk none [
    Section.mk "Theorem" [] start,
    Section.mk "given" [Argument.mk (ArgumentDataType.ArgumentTextArgumentData "x") ⟨16, 1, 7⟩]
      ⟨9, 1, 0⟩]
    start

/-- Scenario S1: the group `Theorem:` with the text `Pythagoras`, `given: a, b, c` and `then:`
with one formulation. -/
def pythagorasScenario : Group :=
  Group.mk none [
    Section.mk "Theorem" [Argument.mk (ArgumentDataType.TextArgumentData "Pythagoras") ⟨11, 1, 2⟩]
      ⟨0, 0, 0⟩,
    Section.mk "given" [
      Argument.mk (ArgumentDataType.ArgumentTextArgumentData "a") ⟨31, 2, 7⟩,
      Argument.mk (ArgumentDataType.ArgumentTextArgumentData "b") ⟨34, 2, 10⟩,
      Argument.mk (ArgumentDataType.ArgumentTextArgumentData "c") ⟨37, 2, 13⟩] ⟨24, 2, 0⟩,
    Section.mk "then" [Argument.mk (ArgumentDataType.FormulationArgumentData "a^2 + b^2 = c^2")
      ⟨47, 4, 2⟩] ⟨39, 3, 0⟩]
    ⟨0, 0, 0⟩

/-- A piecewise group whose `if` section has no `then` after it. -/
def piecewiseIfWithoutThen : Group :=
  Group.mk none [Section.mk "piecewise" [] ⟨0, 0, 0⟩, Section.mk "if" [] ⟨11, 1, 0⟩] ⟨0, 0, 0⟩

/-- A group without bracketed id that consists of one section without arguments. -/
def headOnlyGroup (name : String) : Group :=
  Group.mk none [Section.mk name [] ⟨0, 0, 0⟩] ⟨0, 0, 0⟩

/-- Two clause converters agree on every argument nested at most `d` deep. -/
def AgreeBelow (d : Nat) (f g : Argument → P Clause) : Prop :=
  ∀ arg : Argument, arg.depth ≤ d → f arg = g arg

/-- The group `forAll: x`, `where: 'x is \real'`, `then:` with one formulation; it has no
`suchThat` section. -/
def forAllScenario : Group :=
  Group.mk none [
    Section.mk "forAll" [Argument.mk (ArgumentDataType.ArgumentTextArgumentData "x") ⟨8, 0, 8⟩]
      ⟨0, 0, 0⟩,
    Section.mk "where" [Argument.mk (ArgumentDataType.FormulationArgumentData "x is \\real")
      ⟨17, 1, 7⟩] ⟨10, 1, 0⟩,
    Section.mk "then" [Argument.mk (ArgumentDataType.FormulationArgumentData "x^2 >= 0")
      ⟨38, 3, 2⟩] ⟨31, 2, 0⟩]
    ⟨0, 0, 0⟩

/-- The twelve heads that the dispatch of `toClause` tries, in its order. -/
def clauseHeads : List String :=
  [LowerAllOfName, LowerNotName, LowerAnyOfName, LowerOneOfName, LowerForAllName,
    LowerExistsName, LowerExistsUniqueName, LowerIfName, LowerIffName, LowerWhenName,
    LowerPiecewiseName, LowerGivenName]

/-- Whether the text `message` contains the text `name`. -/
def mentions (message name : String) : Bool :=
  message.data.tails.any (fun rest => name.data.isPrefixOf rest)

/-- The ten heads that the dispatch of `toTopLevelItemType` tries, in its order. -/
def topLevelHeads : List String :=
  [UpperDefinesName, UpperDescribesName, UpperStatesName, UpperAxiomName, UpperConjectureName,
    UpperTheoremName, UpperSpecifyName, UpperTopicName, UpperPersonName, UpperResourceName]

/-- The ten group parsers that `toTopLevelItemType` tries on a group, in its order, each with
the head name of its `startsWithSections` check and with its result reduced to the flag. -/
def topLevelAlternatives (env : Env) (group : Group) : List (String × P (Unit × Bool)) :=
  [(UpperDefinesName, asItem (fun _ => ()) (toDefinesGroup env group)),
    (UpperDescribesName, asItem (fun _ => ()) (toDescribesGroup env group)),
    (UpperStatesName, asItem (fun _ => ()) (toStatesGroup env group)),
    (UpperAxiomName, asItem (fun _ => ()) (toAxiomGroup env group)),
    (UpperConjectureName, asItem (fun _ => ()) (toConjectureGroup env group)),
    (UpperTheoremName, asItem (fun _ => ()) (toTheoremGroup env group)),
    (UpperSpecifyName, asItem (fun _ => ()) (toSpecifyGroup env group)),
    (UpperTopicName, asItem (fun _ => ()) (toTopicGroup env group)),
    (UpperPersonName, asItem (fun _ => ()) (toPersonGroup env group)),
    (UpperResourceName, asItem (fun _ => ()) (toResourceGroup env group))]

/-- The twelve group parsers that `toClause` tries on a group, in its order, each with the head
name of its `startsWithSections` check and with its result reduced to the flag. -/
def clauseAlternatives (env : Env) (toClause : Argument → P Clause) (group : Group) :
    List (String × P (Unit × Bool)) :=
  [(LowerAllOfName, asItem (fun _ => ()) (toAllOfGroup env toClause group)),
    (LowerNotName, asItem (fun _ => ()) (toNotGroup env toClause group)),
    (LowerAnyOfName, asItem (fun _ => ()) (toAnyOfGroup env toClause group)),
    (LowerOneOfName, asItem (fun _ => ()) (toOneOfGroup env toClause group)),
    (LowerForAllName, asItem (fun _ => ()) (toForAllGroup env toClause group)),
    (LowerExistsName, asItem (fun _ => ()) (toExistsGroup env toClause group)),
    (LowerExistsUniqueName, asItem (fun _ => ()) (toExistsUniqueGroup env toClause group)),
    (LowerIfName, asItem (fun _ => ()) (toIfGroup env toClause group)),
    (LowerIffName, asItem (fun _ => ()) (toIffGroup env toClause group)),
    (LowerWhenName, asItem (fun _ => ()) (toWhenGroup env toClause group)),
    (LowerPiecewiseName, asItem (fun _ => ()) (toPiecewiseGroup toClause group)),
    (LowerGivenName, asItem (fun _ => ()) (toGivenGroup env toClause group))]

/-- A `Justified` section with two arguments: the group `by: "ref"` and the stray text
`"stray"`. -/
def justifiedWithStray : Section :=
  Section.mk "Justified" [
    Argument.mk (ArgumentDataType.Group (Group.mk none [
      Section.mk "by" [Argument.mk (ArgumentDataType.TextArgumentData "ref") ⟨17, 1, 6⟩]
        ⟨13, 1, 2⟩] ⟨13, 1, 2⟩)) ⟨13, 1, 2⟩,
    Argument.mk (ArgumentDataType.TextArgumentData "stray") ⟨25, 2, 2⟩]
    ⟨0, 0, 0⟩

/-- The effect of a method on the tracker alone: its result is dropped. -/
def discard {α : Type} (m : P α) : P Unit := do
  let _ ← m
  pure ()

/-- The conversions of `sec` by the eighteen descriptor sections that call
`exactlyOneTextItem`, each with the name of its section. -/
def exactlyOneDescriptors (sec : Section) : List (String × P Unit) :=
  [(LowerTitleName, discard (toTitleSection sec)),
    (LowerUrlName, discard (toUlrSection sec)),
    (LowerYearName, discard (toYearSection sec)),
    (LowerMonthName, discard (toMonthSection sec)),
    (LowerEditionName, discard (toEditionSection sec)),
    (LowerVolumeName, discard (toVolumeSection sec)),
    (LowerTypeName, discard (toTypeSection sec)),
    (LowerHomepageName, discard (toHomepageSection sec)),
    (LowerDescriptionName, discard (toDescriptionSection sec)),
    (LowerOffsetName, discard (toOffsetSection sec)),
    (LowerOverviewName, discard (toOverviewSection sec)),
    (LowerMotivationName, discard (toMotivationSection sec)),
    (LowerHistoryName, discard (toHistorySection sec)),
    (LowerBiographyName, discard (toBiographySection sec)),
    (LowerContentName, discard (toContentSection sec)),
    (LowerDescribingName, discard (toDescribingSection sec)),
    (UpperProofName, discard (toProofSection sec)),
    (LowerLabelName, discard (toLabelSection sec))]

/-- The conversions of `sec` by the four descriptor sections of the claim that call
`oneOrMoreTextItems`, each with the name of its section. -/
def oneOrMoreDescriptors (sec : Section) : List (String × P Unit) :=
  [(LowerJournalName, discard (toJournalSection sec)),
    (LowerPublisherName, discard (toPublisherSection sec)),
    (LowerInstitutionName, discard (toInstitutionSection sec)),
    (LowerEditorName, discard (toEditorSection sec))]

/-- An `editor` section with two text arguments. -/
def editorWithTwo : Section :=
  Section.mk "editor" [
    Argument.mk (ArgumentDataType.TextArgumentData "A. Editor") ⟨10, 1, 2⟩,
    Argument.mk (ArgumentDataType.TextArgumentData "B. Editor") ⟨24, 2, 2⟩]
    ⟨0, 0, 0⟩

/-- The scenario environment with the slots `Topic`, `content` for a Topic group and with the
formulation id parser `parseId`. -/
def topicEnv
    (parseId : String → Position → DiagnosticTracker → Option FormulationNode × List Diagnostic) :
    Env :=
  { scenarioEnv ⟨0⟩ with
    ParseId := parseId
    TopicSections := [UpperTopicName, LowerContentName] }

/-- A formulation id parser that rejects every text with one diagnostic of its own. -/
def rejectId (_text : String) (position : Position) (_tracker : DiagnosticTracker) :
    Option FormulationNode × List Diagnostic :=
  (none, [{ Severity := DiagnosticType.Error
            Origin := DiagnosticOrigin.FormulationParserOrigin
            Message := "not an id"
            Position := position }])

/-- The group `[a topic]`, `Topic:`, `content: "text"`. -/
def topicScenario : Group :=
  Group.mk (some "a topic") [
    Section.mk "Topic" [] ⟨10, 1, 0⟩,
    Section.mk "content" [Argument.mk (ArgumentDataType.TextArgumentData "text") ⟨26, 2, 9⟩]
      ⟨17, 2, 0⟩]
    ⟨0, 0, 0⟩

/-- The group `[a person]`, `Person:` with the item `name: "N"`. -/
def personScenario : Group :=
  Group.mk (some "a person") [
    Section.mk "Person" [
      Argument.mk (ArgumentDataType.Group (Group.mk none [
        Section.mk "name" [Argument.mk (ArgumentDataType.TextArgumentData "N") ⟨28, 2, 8⟩]
          ⟨22, 2, 2⟩] ⟨22, 2, 2⟩)) ⟨22, 2, 2⟩]
      ⟨11, 1, 0⟩]
    ⟨0, 0, 0⟩

/-! ## Characters with positions: `ast.GetChars` from `internal/ast/util.go` -/

/-- The Go type `rune`: a code point. -/
abbrev rune : Type := Char

/-- The number of bytes of the UTF-8 encoding of a code point. The Go loop
`for pos, c := range text` decodes one code point per iteration and `pos` is the byte index at
which it starts, so `pos` advances by this number. -/
def runeLen (c : rune) : Nat :=
  if c.toNat < 0x80 then 1
  else if c.toNat < 0x800 then 2
  else if c.toNat < 0x10000 then 3
  else 4

/-- Type `ast.Char`: a code point with its position. -/
structure ast.Char where
  Symbol : rune
  Position : Position
deriving DecidableEq, Inhabited

/-- The loop of `GetChars` from the byte index `pos` on, with the values of the variables
`curRow`, `curColumn` and `prevPos` at the start of the iteration. In `pos - prevPos` the
index `pos` is never below `prevPos`, the index of the iteration before. -/
def GetCharsLoop : List rune → Nat → Nat → Nat → Nat → List ast.Char
  | [], _, _, _, _ => []
  | c :: rest, pos, curRow, curColumn, prevPos =>
    let row := if c = '\n' then curRow + 1 else curRow
    let column := if c = '\n' then 0 else curColumn + (pos - prevPos)
    { Symbol := c, Position := { Offset := pos, Row := row, Column := column } } ::
      GetCharsLoop rest (pos + runeLen c) row column pos

/-- Function `GetChars` on a text that is well-formed UTF-8, given by its code points. It is
`ast.GetChars` on the bytes of the text (`GetChars_eq_on_well_formed`), which also covers bytes
that are not well-formed. -/
def GetChars (text : String) : List ast.Char :=
  GetCharsLoop text.data 0 0 0 0

/-- A parser method does not read the tracker when, from every tracker contents `t`, it returns
what it returns from the empty tracker and leaves `t` followed by what it appends there. -/
class Oblivious {α : Type} (m : P α) : Prop where
  out : ∀ t : DiagnosticTracker, m t = ((m []).1, t ++ (m []).2)

/-- The collaborators of the parser (the formulation parser and the section identifier) do not
read the tracker: what they return and append does not depend on its contents. -/
class ObliviousEnv (env : Env) : Prop where
  parseExpression : ∀ text position t,
    env.ParseExpression text position t = env.ParseExpression text position []
  parseForm : ∀ text position t, env.ParseForm text position t = env.ParseForm text position []
  parseId : ∀ text position t, env.ParseId text position t = env.ParseId text position []
  parseSignature : ∀ text position t,
    env.ParseSignature text position t = env.ParseSignature text position []
  identifySections : ∀ sections t names,
    env.IdentifySections sections t names = env.IdentifySections sections [] names

/-- The group of scenario S3 followed by the two sections `foo` and `if`. -/
def piecewiseWithTrailing : Group :=
  Group.mk none [
    Section.mk "piecewise" [] ⟨0, 0, 0⟩,
    Section.mk "if" [Argument.mk (ArgumentDataType.FormulationArgumentData "x > 0") ⟨17, 2, 2⟩]
      ⟨11, 1, 0⟩,
    Section.mk "then" [Argument.mk (ArgumentDataType.FormulationArgumentData "x") ⟨32, 4, 2⟩]
      ⟨25, 3, 0⟩,
    Section.mk "else" [Argument.mk (ArgumentDataType.FormulationArgumentData "-x") ⟨43, 6, 2⟩]
      ⟨36, 5, 0⟩,
    Section.mk "foo" [] ⟨48, 7, 0⟩,
    Section.mk "if" [] ⟨53, 8, 0⟩]
    ⟨0, 0, 0⟩

/-- A parser method stamps its diagnostics when every diagnostic it appends either satisfies
`Q` (the diagnostics of the collaborators) or was built by `newError`. -/
class Stamps (Q : Diagnostic → Prop) {α : Type} (m : P α) : Prop where
  out : ∀ t : DiagnosticTracker, ∃ appended : List Diagnostic,
    (m t).2 = t ++ appended ∧
      ∀ d ∈ appended, Q d ∨ ∃ message position, d = newError message position

/-- Every diagnostic that the collaborators of the parser (the formulation parser and the
section identifier) append satisfies `Q`. -/
class StampsEnv (Q : Diagnostic → Prop) (env : Env) : Prop where
  parseExpression : ∀ text position t, ∀ d ∈ (env.ParseExpression text position t).2, Q d
  parseForm : ∀ text position t, ∀ d ∈ (env.ParseForm text position t).2, Q d
  parseId : ∀ text position t, ∀ d ∈ (env.ParseId text position t).2, Q d
  parseSignature : ∀ text position t, ∀ d ∈ (env.ParseSignature text position t).2, Q d
  identifySections : ∀ sections t names, ∀ d ∈ (env.IdentifySections sections t names).2, Q d

/-! ## Index-checked models

The models above replace each slice access and each pointer dereference of the source by a
total operation (a pattern match). The models below keep them as the source has them: `xs[i]`
may be out of range, `*p` may meet `nil`, and a `for` loop is run with fuel. -/

/-- How a run of the index-checked models can end other than with a result: the two run-time
panics of Go that the parser could raise, and a loop that has not ended when its fuel is
spent. -/
inductive Abort where
  | indexOutOfRange
  | nilDereference
  | outOfFuel
deriving DecidableEq, Repr

/-- A parser method that may abort. -/
def Checked (α : Type) : Type := DiagnosticTracker → Except Abort (α × DiagnosticTracker)

instance : Monad Checked where
  pure a := fun t => Except.ok (a, t)
  bind m f := fun t =>
    match m t with
    | Except.ok r => f r.1 r.2
    | Except.error e => Except.error e

/-- A method without slice access or dereference, run as it is. -/
def Checked.lift {α : Type} (m : P α) : Checked α :=
  fun t => Except.ok (m t)

/-- The slice access `xs[i]`. -/
def sliceIndex {α : Type} (xs : List α) (i : Nat) : Except Abort α :=
  match xs[i]? with
  | some x => Except.ok x
  | none => Except.error Abort.indexOutOfRange

/-- The slice access `xs[i]` inside a method. -/
def index {α : Type} (xs : List α) (i : Nat) : Checked α :=
  fun t => (sliceIndex xs i).map (fun x => (x, t))

/-- The dereference `*p`. -/
def deref {α : Type} (p : Option α) : Checked α :=
  fun t =>
    match p with
    | some x => Except.ok (x, t)
    | none => Except.error Abort.nilDereference

/-- One iteration of a loop either goes on with a new state or leaves the loop with a result. -/
inductive Iteration (σ ρ : Type) where
  | again (state : σ)
  | done (result : ρ)

/-- A `for` loop run for at most `fuel` iterations. -/
def iterate {σ ρ : Type} (step : σ → Checked (Iteration σ ρ)) : Nat → σ → Checked ρ
  | 0, _ => fun _ => Except.error Abort.outOfFuel
  | fuel + 1, state => do
    let r ← step state
    match r with
    | Iteration.again next => iterate step fuel next
    | Iteration.done result => pure result

/-- Function `exactlyOne` with the access `items[0]`. -/
def exactlyOneChecked {T : Type} (items : List T) (defaultItem : T) (position : Position) :
    Checked T := do
  Checked.lift (if items.length ≠ 1 then
    Append (newError "Expected at exactly one item" position)
  else
    pure ())
  (if items.length = 0 then
    pure defaultItem
  else
    index items 0)

/-- The loop `for i, name := range names` of `startsWithSections` from index `i` on, with the
access `group.Sections[i]`. -/
def startsWithSectionsLoop (group : Group) : Nat → List String → Except Abort Bool
  | _, [] => Except.ok true
  | i, name :: names =>
    match sliceIndex group.Sections i with
    | Except.error e => Except.error e
    | Except.ok sec =>
      if sec.Name != name then
        Except.ok false
      else
        startsWithSectionsLoop group (i + 1) names

/-- Function `startsWithSections` with the access `group.Sections[i]`. -/
def startsWithSectionsChecked (group : Group) (names : List String) : Except Abort Bool :=
  if names.length > group.Sections.length then
    Except.ok false
  else
    startsWithSectionsLoop group 0 names

/-- One iteration of the first loop of `toPiecewiseGroup`, `for i < len(sections)`, from the
state `(i, ifThens)`. The loop is left with `none` where the method returns from inside it and
with the state otherwise (loop condition false, or `break`). -/
def piecewiseIteration (toClause : Argument → P Clause) (sections : List Section)
    (state : Nat × List (IfThen Clause)) :
    Checked (Iteration (Nat × List (IfThen Clause)) (Option (Nat × List (IfThen Clause)))) :=
  if !(state.1 < sections.length) then
    pure (Iteration.done (some state))
  else do
    let section1 ← index sections state.1
    if section1.Name == LowerElseName then
      pure (Iteration.done (some state))
    else if section1.Name != LowerIfName then do
      Checked.lift (Append (newError ("Expected section '" ++ LowerIfName ++ "' but found '" ++
        section1.Name ++ "'") section1.Start))
      pure (Iteration.done none)
    else if state.1 + 1 ≥ sections.length then do
      Checked.lift (Append (newError ("Expected section '" ++ LowerThenName ++
        "' to follow an '" ++ LowerIfName ++ "' section") section1.Start))
      pure (Iteration.done none)
    else do
      let section2 ← index sections (state.1 + 1)
      if section2.Name != LowerThenName then do
        Checked.lift (Append (newError ("Expected section '" ++ LowerThenName ++
          "' but found '" ++ section2.Name ++ "'") section2.Start))
        pure (Iteration.done none)
      else do
        let if_ ← Checked.lift (toIfSection toClause section1)
        let then_ ← Checked.lift (toThenSection toClause section2)
        pure (Iteration.again (state.1 + 1 + 1, state.2 ++ [{ If := if_, Then := then_ }]))

/-- One iteration of the second loop of `toPiecewiseGroup`, from the index `i`. -/
def unexpectedIteration (sections : List Section) (i : Nat) : Checked (Iteration Nat Unit) :=
  if !(i < sections.length) then
    pure (Iteration.done ())
  else do
    let sec ← index sections i
    Checked.lift (Append (newError ("Unexpected section '" ++ sec.Name ++ "'") sec.Start))
    pure (Iteration.again (i + 1))

/-- The statement `if i < len(sections) && sections[i].Name == ast.LowerElseName` of
`toPiecewiseGroup` with its body: the `else` section, if any, and the index after it. -/
def piecewiseElseChecked (toClause : Argument → P Clause) (sections : List Section) (i : Nat) :
    Checked (Option (ElseSection Clause) × Nat) :=
  if !(i < sections.length) then
    pure (none, i)
  else do
    let sec ← index sections i
    if sec.Name == LowerElseName then do
      let sec ← index sections i
      let elseSec ← Checked.lift (toElseSection toClause sec)
      pure (some elseSec, i + 1)
    else
      pure (none, i)

/-- Method `toPiecewiseGroup` with its slice accesses `sections[0]` and `sections[i]`, each
loop run for at most `fuel` iterations. -/
def toPiecewiseGroupChecked (fuel : Nat) (toClause : Argument → P Clause) (group : Group) :
    Checked (PiecewiseGroup Clause × Bool) :=
  match startsWithSectionsChecked group [LowerPiecewiseName] with
  | Except.error e => fun _ => Except.error e
  | Except.ok starts =>
    if !starts then
      pure (default, false)
    else if group.Sections.length = 0 then
      pure (default, false)
    else do
      let section0 ← index group.Sections 0
      if section0.Name != LowerPiecewiseName then
        pure (default, false)
      else do
        let section0 ← index group.Sections 0
        let piecewise ← Checked.lift (toPiecewiseSection section0)
        let looped ← iterate (piecewiseIteration toClause group.Sections) fuel (1, [])
        match looped with
        | none => pure (default, false)
        | some (i, ifThens) => do
          let elseAndIndex ← piecewiseElseChecked toClause group.Sections i
          let invalid := decide (elseAndIndex.2 < group.Sections.length)
          iterate (unexpectedIteration group.Sections) fuel elseAndIndex.2
          if invalid then
            pure (default, false)
          else
            pure ({ Piecewise := piecewise, IfThen := ifThens, Else := elseAndIndex.1 }, true)

/-- Method `getId` with the dereference `*group.Id`. -/
def getIdChecked (env : Env) (group : Group) (required : Bool) : Checked (Option IdItem) :=
  if required && group.Id.isNone then do
    Checked.lift (Append (newError "Expected a [...] item" group.Start))
    pure none
  else if group.Id.isNone then
    pure none
  else do
    let text ← deref group.Id
    Checked.lift (toIdItem env text group.Start)

/-- Method `toDescribesGroup` with its head check as in `startsWithSectionsChecked` and with the
dereference `*id` of its result. -/
def toDescribesGroupChecked (env : Env) (group : Group) : Checked (DescribesGroup × Bool) :=
  match startsWithSectionsChecked group [UpperDescribesName] with
  | Except.error e => fun _ => Except.error e
  | Except.ok starts =>
    if !starts then
      pure (default, false)
    else do
      let id ← getIdChecked env group true
      let identified ← Checked.lift (IdentifySections env group.Sections env.DescribesSections)
      match identified with
      | none => pure (default, false)
      | some sections =>
        if id.isNone then
          pure (default, false)
        else do
          let describes_ ← Checked.lift (toDescribesSection env (sections.get UpperDescribesName))
          let with_ ← Checked.lift (ifPresent (sections.find LowerWithName) (toWithSection env))
          let using_ ← Checked.lift (ifPresent (sections.find LowerUsingName) (toUsingSection env))
          let when_ ← Checked.lift (ifPresent (sections.find LowerWhenName) (toWhenSection (toClause env)))
          let suchThat_ ← Checked.lift (ifPresent (sections.find LowerSuchThatName) (toSuchThatSection (toClause env)))
          let extends_ ← Checked.lift (ifPresent (sections.find LowerExtendsName) (toExtendsSection (toClause env)))
          let satisfies_ ← Checked.lift (ifPresent (sections.find LowerSatisfiesName) (toSatisfiesSection (toClause env)))
          let provides_ ← Checked.lift (ifPresent (sections.find UpperProvidesName) (toProvidesSection env))
          let justified_ ← Checked.lift (ifPresent (sections.find UpperJustifiedName) (toJustifiedSection env))
          let documented_ ← Checked.lift (ifPresent (sections.find UpperDocumentedName) (toDocumentedSection env))
          let references_ ← Checked.lift (ifPresent (sections.find UpperReferencesName) (toReferencesSection))
          let aliases_ ← Checked.lift (ifPresent (sections.find UpperAliasesName) (toAliasesSection env))
          let metaId_ ← Checked.lift (ifPresent (sections.find UpperIdQuestionName) (toMetaIdSection))
          let id ← deref id
          pure ({
            Id := id
            Describes := describes_
            With := with_
            Using := using_
            When := when_
            SuchThat := suchThat_
            Extends := extends_
            Satisfies := satisfies_
            Provides := provides_
            Justified := justified_
            Documented := documented_
            References := references_
            Aliases := aliases_
            MetaId := metaId_
          }, true)

/-- Method `toDefinesGroup` with its head check as in `startsWithSectionsChecked` and with the
dereference `*id` of its result. -/
def toDefinesGroupChecked (env : Env) (group : Group) : Checked (DefinesGroup × Bool) :=
  match startsWithSectionsChecked group [UpperDefinesName] with
  | Except.error e => fun _ => Except.error e
  | Except.ok starts =>
    if !starts then
      pure (default, false)
    else do
      let id ← getIdChecked env group true
      let identified ← Checked.lift (IdentifySections env group.Sections env.DefinesSections)
      match identified with
      | none => pure (default, false)
      | some sections =>
        if id.isNone then
          pure (default, false)
        else do
          let defines_ ← Checked.lift (toDefinesSection env (sections.get UpperDefinesName))
          let with_ ← Checked.lift (ifPresent (sections.find LowerWithName) (toWithSection env))
          let using_ ← Checked.lift (ifPresent (sections.find LowerUsingName) (toUsingSection env))
          let when_ ← Checked.lift (ifPresent (sections.find LowerWhenName) (toWhenSection (toClause env)))
          let suchThat_ ← Checked.lift (ifPresent (sections.find LowerSuchThatName) (toSuchThatSection (toClause env)))
          let means_ ← Checked.lift (ifPresent (sections.find LowerMeansName) (toMeansSection (toClause env)))
          let specifies_ ← Checked.lift (ifPresent (sections.find LowerSpecifiesName) (toSpecifiesSection (toClause env)))
          let provides_ ← Checked.lift (ifPresent (sections.find UpperProvidesName) (toProvidesSection env))
          let justified_ ← Checked.lift (ifPresent (sections.find UpperJustifiedName) (toJustifiedSection env))
          let documented_ ← Checked.lift (ifPresent (sections.find UpperDocumentedName) (toDocumentedSection env))
          let references_ ← Checked.lift (ifPresent (sections.find UpperReferencesName) (toReferencesSection))
          let aliases_ ← Checked.lift (ifPresent (sections.find UpperAliasesName) (toAliasesSection env))
          let metaId_ ← Checked.lift (ifPresent (sections.find UpperIdQuestionName) (toMetaIdSection))
          let id ← deref id
          pure ({
            Id := id
            Defines := defines_
            With := with_
            Using := using_
            When := when_
            SuchThat := suchThat_
            Means := means_
            Specifies := specifies_
            Provides := provides_
            Justified := justified_
            Documented := documented_
            References := references_
            Aliases := aliases_
            MetaId := metaId_
          }, true)

/-- Method `toStatesGroup` with its head check as in `startsWithSectionsChecked` and with the
dereference `*id` of its result. -/
def toStatesGroupChecked (env : Env) (group : Group) : Checked (StatesGroup × Bool) :=
  match startsWithSectionsChecked group [UpperStatesName] with
  | Except.error e => fun _ => Except.error e
  | Except.ok starts =>
    if !starts then
      pure (default, false)
    else do
      let id ← getIdChecked env group true
      let identified ← Checked.lift (IdentifySections env group.Sections env.StatesSections)
      match identified with
      | none => pure (default, false)
      | some sections =>
        if id.isNone then
          pure (default, false)
        else do
          let states_ ← Checked.lift (toStatesSection (sections.get UpperStatesName))
          let with_ ← Checked.lift (ifPresent (sections.find LowerWithName) (toWithSection env))
          let using_ ← Checked.lift (ifPresent (sections.find LowerUsingName) (toUsingSection env))
          let when_ ← Checked.lift (ifPresent (sections.find LowerWhenName) (toWhenSection (toClause env)))
          let suchThat_ ← Checked.lift (ifPresent (sections.find LowerSuchThatName) (toSuchThatSection (toClause env)))
          let that_ ← Checked.lift (toThatSection (toClause env) (sections.get LowerThatName))
          let documented_ ← Checked.lift (ifPresent (sections.find UpperDocumentedName) (toDocumentedSection env))
          let justified_ ← Checked.lift (ifPresent (sections.find UpperJustifiedName) (toJustifiedSection env))
          let references_ ← Checked.lift (ifPresent (sections.find UpperReferencesName) (toReferencesSection))
          let aliases_ ← Checked.lift (ifPresent (sections.find UpperAliasesName) (toAliasesSection env))
          let metaId_ ← Checked.lift (ifPresent (sections.find UpperIdQuestionName) (toMetaIdSection))
          let id ← deref id
          pure ({
            Id := id
            States := states_
            With := with_
            Using := using_
            When := when_
            SuchThat := suchThat_
            That := that_
            Documented := documented_
            Justified := justified_
            References := references_
            Aliases := aliases_
            MetaId := metaId_
          }, true)

/-- Method `toTopicGroup` with its head check as in `startsWithSectionsChecked` and with the
dereference `*id` of its result. -/
def toTopicGroupChecked (env : Env) (group : Group) : Checked (TopicGroup × Bool) :=
  match startsWithSectionsChecked group [UpperTopicName] with
  | Except.error e => fun _ => Except.error e
  | Except.ok starts =>
    if !starts then
      pure (default, false)
    else do
      let id ← getIdChecked env group true
      let identified ← Checked.lift (IdentifySections env group.Sections env.TopicSections)
      match identified with
      | none => pure (default, false)
      | some sections =>
        if id.isNone then
          pure (default, false)
        else do
          let topic_ ← Checked.lift (toTopicSection (sections.get UpperTopicName))
          let content_ ← Checked.lift (toContentSection (sections.get LowerContentName))
          let references_ ← Checked.lift (ifPresent (sections.find UpperJustifiedName) (toReferencesSection))
          let metaId_ ← Checked.lift (ifPresent (sections.find UpperIdQuestionName) (toMetaIdSection))
          let id ← deref id
          pure ({
            Id := id
            Topic := topic_
            Content := content_
            References := references_
            MetaId := metaId_
          }, true)

/-- Method `toResourceGroup` with its head check as in `startsWithSectionsChecked` and with the
dereference `*id` of its result. -/
def toResourceGroupChecked (env : Env) (group : Group) : Checked (ResourceGroup × Bool) :=
  match startsWithSectionsChecked group [UpperResourceName] with
  | Except.error e => fun _ => Except.error e
  | Except.ok starts =>
    if !starts then
      pure (default, false)
    else do
      let id ← Checked.lift (getStringId group true)
      let identified ← Checked.lift (IdentifySections env group.Sections env.ResourceSections)
      match identified with
      | none => pure (default, false)
      | some sections =>
        if id.isNone then
          pure (default, false)
        else do
          let metaId_ ← Checked.lift (ifPresent (sections.find UpperIdQuestionName) (toMetaIdSection))
          let resource_ ← Checked.lift (toResourceSection env (sections.get UpperResourceName))
          let id ← deref id
          pure ({ Id := id, Resource := resource_, MetaId := metaId_ }, true)

/-- Method `toPersonGroup` with its head check as in `startsWithSectionsChecked` and with the
dereference `*id` of its result. -/
def toPersonGroupChecked (env : Env) (group : Group) : Checked (PersonGroup × Bool) :=
  match startsWithSectionsChecked group [UpperPersonName] with
  | Except.error e => fun _ => Except.error e
  | Except.ok starts =>
    if !starts then
      pure (default, false)
    else do
      let id ← Checked.lift (getStringId group true)
      let identified ← Checked.lift (IdentifySections env group.Sections env.PersonSections)
      match identified with
      | none => pure (default, false)
      | some sections =>
        if id.isNone then
          pure (default, false)
        else do
          let metaId_ ← Checked.lift (ifPresent (sections.find UpperIdQuestionName) (toMetaIdSection))
          let person_ ← Checked.lift (toPersonSection env (sections.get UpperPersonName))
          let id ← deref id
          pure ({ Id := id, Person := person_, MetaId := metaId_ }, true)

/-! ## Cloning: `CloneNode` from `internal/ast/util.go`

`CloneNode` and `cloneScopes` are in the sources; the interface `MlgNodeKind` with its methods
`ForEach` and `GetCommonMetaData`, and the type `Scope` with its method `Clone`, are not. -/

/-- Modelled from the spec: the scope objects allocated so far, each with its contents (an
uninterpreted code). A scope is reached through "an opaque handle (index into a scope
arena)"; two handles share a scope object exactly when they are equal. -/
abbrev ScopeArena : Type := List Nat

/-- Modelled from the spec: an AST node as far as cloning sees it. It carries the "common
metadata" with its "scope handle", its non-scope fields (an uninterpreted code) and its owned
children in source order, which are what `ForEach` visits ("visits every direct child exactly
once, in source order"). A node owns its children, so that the assignment `copy := node`
gives the copy children of its own; this is the reading most favourable to the claim. -/
inductive MlgNode where
  | mk (Scope : Nat) (Fields : Nat) (Children : List MlgNode)

/-- Modelled from the spec: the method `Scope.Clone`, which allocates a fresh scope object with
the contents of the given one ("deep-clone the scope") and returns its handle. -/
def ScopeClone (scope : Nat) (arena : ScopeArena) : Nat × ScopeArena :=
  (arena.length, arena ++ [arena.getD scope 0])

mutual
/-- Function `cloneScopes`: the node with the scopes below it replaced, and the arena after the
call. -/
def cloneScopes : MlgNode → ScopeArena → MlgNode × ScopeArena
  | .mk scope fields children, arena =>
    let cloned := ScopeClone scope arena
    let visited := forEachCloneScopes children cloned.2
    (.mk cloned.1 fields visited.1, visited.2)
/-- The call `n.ForEach(cloneScopes)` on the children of a node. -/
def forEachCloneScopes : List MlgNode → ScopeArena → List MlgNode × ScopeArena
  | [], arena => ([], arena)
  | child :: rest, arena =>
    let first := cloneScopes child arena
    let others := forEachCloneScopes rest first.2
    (first.1 :: others.1, others.2)
end

/-- Function `CloneNode`: `copy := node`, then `copy.ForEach(cloneScopes)`. -/
def CloneNode (node : MlgNode) (arena : ScopeArena) : MlgNode × ScopeArena :=
  match node with
  | .mk scope fields children =>
    let visited := forEachCloneScopes children arena
    (.mk scope fields visited.1, visited.2)

/-- The scope handle of a node. -/
def MlgNode.Scope : MlgNode → Nat
  | .mk scope _ _ => scope

/-- The children of a node. -/
def MlgNode.Children : MlgNode → List MlgNode
  | .mk _ _ children => children

mutual
/-- The scope handles of a node and of every node below it, the node first. -/
def MlgNode.scopes : MlgNode → List Nat
  | .mk scope _ children => scope :: scopesOfAll children
/-- The scope handles of the nodes of a list and of every node below them. -/
def scopesOfAll : List MlgNode → List Nat
  | [] => []
  | node :: rest => node.scopes ++ scopesOfAll rest
end

mutual
/-- A node with every scope handle set to `0`: its non-scope content. -/
def MlgNode.withoutScopes : MlgNode → MlgNode
  | .mk _ fields children => .mk 0 fields (withoutScopesAll children)
/-- The nodes of a list with every scope handle set to `0`. -/
def withoutScopesAll : List MlgNode → List MlgNode
  | [] => []
  | node :: rest => node.withoutScopes :: withoutScopesAll rest
end

/-! ## The last section of a group -/

/-- Function `endsWithSection`: the name of `sections[len(sections)-1]` is compared with `name`
when the group has a section. -/
def endsWithSection (group : Group) (name : String) : Bool :=
  let sections := group.Sections
  if h : sections.length = 0 then
    false
  else
    (sections.get ⟨sections.length - 1, by omega⟩).Name == name

/-! ## Renderings of a list of section names

`join` is from `cmd/completions.go`, `sectionNamesToString` from the phase-5 parser. -/

/-- Go's `strings.Join(elems, sep)`: the elements concatenated with `sep` between neighbours;
the empty string for no element and the element itself for one. -/
def strings.Join : List String → String → String
  | [], _ => ""
  | [elem], _ => elem
  | elem :: next :: elems, sep => elem ++ sep ++ strings.Join (next :: elems) sep

/-- Function `join` of `cmd/completions.go`. -/
def join (parts : List String) : String :=
  strings.Join parts ":\n" ++ ":"

/-- Function `sectionNamesToString`: the loop `for i, name := range names` over the names with
their indices, with the accumulator `result`. -/
def sectionNamesToString (names : List String) : String :=
  names.enum.foldl (fun result entry =>
    let result := result ++ (entry.2 ++ ":")
    if (entry.1 : Int) ≠ (names.length : Int) - 1 then result ++ "\n" else result) ""

/-! ## The check summary: `printCheckStats` from `internal/mlg/mlg.go` -/

/-- The text of an origin tag: `frontend.DiagnosticOrigin` is a string type and each constant
holds its own name. -/
def DiagnosticOrigin.text : DiagnosticOrigin → String
  | .Phase1LexerOrigin => "Phase1LexerOrigin"
  | .Phase2LexerOrigin => "Phase2LexerOrigin"
  | .Phase3LexerOrigin => "Phase3LexerOrigin"
  | .Phase4ParserOrigin => "Phase4ParserOrigin"
  | .Phase5ParserOrigin => "Phase5ParserOrigin"
  | .FormulationLexerOrigin => "FormulationLexerOrigin"
  | .FormulationParserOrigin => "FormulationParserOrigin"

/-- The diagnostic as `printCheckStats` reads it: the fields of `frontend.Diagnostic` that the
parser sets, and the field `Path` of the file the diagnostic is about. -/
structure FileDiagnostic extends Diagnostic where
  Path : String
deriving DecidableEq, Repr, Inhabited

/-- A call of a method of the logger `logger.Logger`, with the text it is given. The logger is
not in the sources; `printCheckStats` is modelled by the calls it makes on it, in order. -/
inductive LoggerCall where
  | Log (text : String)
  | Error (text : String)
  | Warning (text : String)
  | Failure (text : String)
  | Success (text : String)
deriving DecidableEq, Repr

/-- Whether a logger call is one of the two summary calls `Failure` and `Success`. -/
def LoggerCall.isSummary : LoggerCall → Bool
  | .Failure _ => true
  | .Success _ => true
  | _ => false

/-- The body of the loop `for index, diag := range diagnostics` of `printCheckStats`: the
calls of one iteration. The format `"%s (%d, %d)%s\n%s"` is written out. -/
def printDiagnostic (debug : Bool) (index : Nat) (diag : FileDiagnostic) : List LoggerCall :=
  let separator := if index > 0 then [LoggerCall.Log ""] else []
  let debugInfo := if debug then " [" ++ diag.Origin.text ++ "]" else ""
  let text := diag.Path ++ " (" ++ toString (diag.Position.Row + 1) ++ ", " ++
    toString (diag.Position.Column + 1) ++ ")" ++ debugInfo ++ "\n" ++ diag.Message
  separator ++
    [if diag.Severity = DiagnosticType.Error then LoggerCall.Error text
      else LoggerCall.Warning text]

/-- The format `"Processed %d %s and found %d %s and %d %s"` of the summary. -/
def summaryText (numFilesProcessed : Int) (filesText : String) (numErrors : Int)
    (errorText : String) (numWarnings : Int) (warningText : String) : String :=
  "Processed " ++ toString numFilesProcessed ++ " " ++ filesText ++ " and found " ++
    toString numErrors ++ " " ++ errorText ++ " and " ++ toString numWarnings ++ " " ++ warningText

/-- Method `printCheckStats`: the calls it makes on the logger, in order. The three counts are
Go `int` values, which are only compared and printed. -/
def printCheckStats (numErrors numWarnings numFilesProcessed : Int) (debug : Bool)
    (diagnostics : List FileDiagnostic) : List LoggerCall :=
  let printed := (diagnostics.enum.map (fun entry => printDiagnostic debug entry.1 entry.2)).flatten
  let errorText := if numErrors = 1 then "error" else "errors"
  let warningText := if numWarnings = 1 then "warning" else "warnings"
  let filesText := if numFilesProcessed = 1 then "file" else "files"
  let blank := if numErrors > 0 then [LoggerCall.Log ""] else []
  let summary :=
    if numErrors > 0 then
      LoggerCall.Failure
        (summaryText numFilesProcessed filesText numErrors errorText numWarnings warningText)
    else
      LoggerCall.Success
        (summaryText numFilesProcessed filesText numErrors errorText numWarnings warningText)
  printed ++ blank ++ [summary]

/-- Method `exactlyOneSignatureItem`. -/
def exactlyOneSignatureItem (env : Env) (sec : Section) : P Formulation := do
  let items ← toSignaturesItems env sec.Args
  exactlyOne items default sec.Start

/-- The method `convert` returns one element per argument, in order: on no argument it returns
the empty list and leaves the tracker as it is, its result is as long as the list of arguments,
and its element `i` is what `item` returns for argument `i`, run on the tracker as the
conversion of the arguments before it leaves it. -/
def OnePerArgument {T : Type} (item : Argument → P T) (convert : List Argument → P (List T)) :
    Prop :=
  ∀ (args : List Argument) (t : DiagnosticTracker),
    convert [] t = ([], t)
    ∧ (convert args t).1.length = args.length
    ∧ ∀ i : Nat, (convert args t).1[i]? =
        (args[i]?).map (fun arg => (item arg (convert (args.take i) t).2).1)

/-- The method of a one-or-more section, `method`, leaves the tracker as the conversion
`convert` of the arguments of the section leaves it, followed by the error
`Expected at least one item` at the start of the section when the section has zero arguments,
and by nothing otherwise. -/
def AtLeastOneCheck {T R : Type} (convert : List Argument → P (List T))
    (method : Section → P R) : Prop :=
  ∀ (sec : Section) (t : DiagnosticTracker),
    (method sec t).2 = (convert sec.Args t).2 ++
      (if sec.Args.length = 0 then [newError "Expected at least one item" sec.Start] else [])

/-- The method of an exactly-one section, `method`, leaves the tracker as the conversion
`convert` of the arguments of the section leaves it, followed by nothing when the section has
exactly one argument, and by the error `Expected at exactly one item` at the start of the
section otherwise. -/
def ExactlyOneCheck {T R : Type} (convert : List Argument → P (List T))
    (method : Section → P R) : Prop :=
  ∀ (sec : Section) (t : DiagnosticTracker),
    (method sec t).2 = (convert sec.Args t).2 ++
      (if sec.Args.length = 1 then [] else [newError "Expected at exactly one item" sec.Start])

/-- The group of scenario S3 with one argument on the head section: `piecewise: x`, `if:`,
`then:` and `else:` with one formulation each. -/
def piecewiseWithHeadArgument : Group :=
  Group.mk none [
    Section.mk "piecewise" [Argument.mk (ArgumentDataType.FormulationArgumentData "x") ⟨11, 0, 11⟩]
      ⟨0, 0, 0⟩,
    Section.mk "if" [Argument.mk (ArgumentDataType.FormulationArgumentData "x > 0") ⟨19, 2, 2⟩]
      ⟨13, 1, 0⟩,
    Section.mk "then" [Argument.mk (ArgumentDataType.FormulationArgumentData "x") ⟨34, 4, 2⟩]
      ⟨27, 3, 0⟩,
    Section.mk "else" [Argument.mk (ArgumentDataType.FormulationArgumentData "-x") ⟨45, 6, 2⟩]
      ⟨38, 5, 0⟩]
    ⟨0, 0, 0⟩

/-- The scenario environment with the slots `Topic`, `content` and the optional slot
`References` for a Topic group. -/
def topicReferencesEnv : Env :=
  { scenarioEnv ⟨0⟩ with
    TopicSections := [UpperTopicName, LowerContentName, UpperReferencesName ++ "?"] }

/-- The group `[a topic]`, `Topic:`, `content: "text"`, `References: "a reference"`. -/
def topicWithReferences : Group :=
  Group.mk (some "a topic") [
    Section.mk "Topic" [] ⟨10, 1, 0⟩,
    Section.mk "content" [Argument.mk (ArgumentDataType.TextArgumentData "text") ⟨26, 2, 9⟩]
      ⟨17, 2, 0⟩,
    Section.mk "References"
      [Argument.mk (ArgumentDataType.TextArgumentData "a reference") ⟨45, 3, 12⟩] ⟨33, 3, 0⟩]
    ⟨0, 0, 0⟩

/-! ## The workspace: `internal/backend/workspace.go` -/

/-- A Go map `map[K]V` as the list of its entries, each key at most once. The order of the
entries is not observable in Go: `len`, lookup and assignment do not depend on it, and `range`
visits the entries in an order that the language leaves open. -/
structure GoMap (K V : Type) where
  entries : List (K × V)

/-- The assignment `m[key] = value` on the entries: the value of an entry with the key is
replaced, and a new entry is added when there is none. -/
def storeEntry {K V : Type} [DecidableEq K] (key : K) (value : V) : List (K × V) → List (K × V)
  | [] => [(key, value)]
  | entry :: rest =>
    if entry.1 = key then (key, value) :: rest else entry :: storeEntry key value rest

/-- The lookup `value, ok := m[key]` on the entries. -/
def loadEntry {K V : Type} [DecidableEq K] (key : K) : List (K × V) → Option V
  | [] => none
  | entry :: rest => if entry.1 = key then some entry.2 else loadEntry key rest

/-- The empty map `make(map[K]V)`. -/
def GoMap.make {K V : Type} : GoMap K V :=
  { entries := [] }

/-- The assignment `m[key] = value`. -/
def GoMap.store {K V : Type} [DecidableEq K] (m : GoMap K V) (key : K) (value : V) : GoMap K V :=
  { entries := storeEntry key value m.entries }

/-- The lookup `value, ok := m[key]`; `none` stands for `ok = false`. -/
def GoMap.load {K V : Type} [DecidableEq K] (m : GoMap K V) (key : K) : Option V :=
  loadEntry key m.entries

/-- The number of entries `len(m)`. -/
def GoMap.len {K V : Type} (m : GoMap K V) : Nat :=
  m.entries.length

/-- The keys of a map. -/
def GoMap.keys {K V : Type} (m : GoMap K V) : List K :=
  m.entries.map Prod.fst

/-- The type `ast.Path`, a string type; the workspace only uses paths as map keys. -/
abbrev ast.Path : Type := String

/-- The struct `workspace`. The types `ast.Context` and `ast.Scope` are not in the sources; the
two pointers are `nil` in a new workspace and no method of the file assigns to them. -/
structure workspace where
  diagnosticsAtAdd : GoMap ast.Path (List Diagnostic)
  documents : GoMap ast.Path Document
  context : Option Unit
  scope : Option Unit

/-- The struct `CheckResult`. -/
structure CheckResult where
  Diagnostics : GoMap ast.Path (List Diagnostic)

/-- Function `NewWorkspace`. -/
def NewWorkspace : workspace :=
  { diagnosticsAtAdd := GoMap.make
    documents := GoMap.make
    context := none
    scope := none }

/-- Method `AddDocument`, with the workspace after the call as its result. The function
`ParseDocument` is not in the sources; it is a parameter. -/
def workspace.AddDocument (ParseDocument : String → Document × List Diagnostic) (w : workspace)
    (path : ast.Path) (content : String) : workspace :=
  let parsed := ParseDocument content
  let w := { w with documents := w.documents.store path parsed.1 }
  { w with diagnosticsAtAdd := w.diagnosticsAtAdd.store path parsed.2 }

/-- Method `DocumentCount`. -/
def workspace.DocumentCount (w : workspace) : Nat :=
  w.documents.len

/-- Method `Check`, with the workspace after the call next to its result. The loop
`for p, diags := range w.diagnosticsAtAdd` visits every entry of the map once, in an order that
Go leaves open: `visit` is the entries in the order of the visit. -/
def workspace.Check (w : workspace) (visit : List (ast.Path × List Diagnostic)) :
    CheckResult × workspace :=
  let diagnostics := visit.foldl
    (fun (diagnostics : GoMap ast.Path (List Diagnostic)) entry =>
      diagnostics.store entry.1 entry.2) GoMap.make
  ({ Diagnostics := diagnostics }, w)

/-- A sequence of `AddDocument` calls on a new workspace, one call per pair of a path and a
content, in order. -/
def addDocuments (ParseDocument : String → Document × List Diagnostic)
    (adds : List (ast.Path × String)) : workspace :=
  adds.foldl (fun w add => w.AddDocument ParseDocument add.1 add.2) NewWorkspace

/-- A stand-in for `ParseDocument`: the empty document and one diagnostic that carries the
content. -/
def echoDocument (content : String) : Document × List Diagnostic :=
  ({ Items := [] }, [newError content ⟨0, 0, 0⟩])

/-- Three `AddDocument` calls: `a.math`, `b.math`, and `a.math` again with a new content. -/
def addTwice : List (ast.Path × String) :=
  [("a.math", "first"), ("b.math", "other"), ("a.math", "second")]

/-- The entries of the stored diagnostics after `addTwice`, `b.math` before `a.math`. -/
def visitBackwards : List (ast.Path × List Diagnostic) :=
  [("b.math", [newError "other" ⟨0, 0, 0⟩]), ("a.math", [newError "second" ⟨0, 0, 0⟩])]

/-! ## `GetChars` on the bytes of a text

A Go string is a sequence of bytes, which need not be well-formed UTF-8. The bytes are numbers
below 256. -/

/-- The code point U+FFFD, `utf8.RuneError`. -/
def RuneError : rune := Char.ofNat 0xFFFD

/-- One step of the Go loop `for pos, c := range text` on the bytes from `pos` on: the code
point `c` and the number of bytes by which `pos` advances. A valid UTF-8 sequence (shortest
form, no surrogate, at most U+10FFFF) gives its code point and its length; otherwise the step
gives U+FFFD and advances one byte. The result on no bytes is not used. -/
def decodeRune : List Nat → rune × Nat
  | [] => (RuneError, 0)
  | b0 :: rest =>
    if b0 < 0x80 then
      (Char.ofNat b0, 1)
    else if 0xC2 ≤ b0 ∧ b0 ≤ 0xDF then
      match rest with
      | b1 :: _ =>
        if 0x80 ≤ b1 ∧ b1 ≤ 0xBF then
          (Char.ofNat (b0 % 32 * 64 + b1 % 64), 2)
        else
          (RuneError, 1)
      | [] => (RuneError, 1)
    else if 0xE0 ≤ b0 ∧ b0 ≤ 0xEF then
      match rest with
      | b1 :: b2 :: _ =>
        if (if b0 = 0xE0 then 0xA0 else 0x80) ≤ b1 ∧ b1 ≤ (if b0 = 0xED then 0x9F else 0xBF)
            ∧ 0x80 ≤ b2 ∧ b2 ≤ 0xBF then
          (Char.ofNat (b0 % 16 * 4096 + b1 % 64 * 64 + b2 % 64), 3)
        else
          (RuneError, 1)
      | _ => (RuneError, 1)
    else if 0xF0 ≤ b0 ∧ b0 ≤ 0xF4 then
      match rest with
      | b1 :: b2 :: b3 :: _ =>
        if (if b0 = 0xF0 then 0x90 else 0x80) ≤ b1 ∧ b1 ≤ (if b0 = 0xF4 then 0x8F else 0xBF)
            ∧ 0x80 ≤ b2 ∧ b2 ≤ 0xBF ∧ 0x80 ≤ b3 ∧ b3 ≤ 0xBF then
          (Char.ofNat (b0 % 8 * 262144 + b1 % 64 * 4096 + b2 % 64 * 64 + b3 % 64), 4)
        else
          (RuneError, 1)
      | _ => (RuneError, 1)
    else
      (RuneError, 1)

/-- The loop of `GetChars` on the bytes `text` that are left from the byte index `pos` on, with
the values of the variables `curRow`, `curColumn` and `prevPos` at the start of the iteration.
Every iteration consumes at least one byte; the first argument bounds the number of
iterations. -/
def GetCharsBytesLoop : Nat → List Nat → Nat → Nat → Nat → Nat → List ast.Char
  | 0, _, _, _, _, _ => []
  | fuel + 1, text, pos, curRow, curColumn, prevPos =>
    if text = [] then
      []
    else
      let c := (decodeRune text).1
      let row := if c = '\n' then curRow + 1 else curRow
      let column := if c = '\n' then 0 else curColumn + (pos - prevPos)
      { Symbol := c, Position := { Offset := pos, Row := row, Column := column } } ::
        GetCharsBytesLoop fuel (text.drop (decodeRune text).2) (pos + (decodeRune text).2)
          row column pos

/-- Function `GetChars` of package `ast`, on the bytes of the text. -/
def ast.GetChars (text : List Nat) : List ast.Char :=
  GetCharsBytesLoop text.length text 0 0 0 0

/-- A section identifier that reports as the one of section 4.7 of the spec does and rejects
the group whenever it reports something: a stand-in for an identifier that fails on a missing
required section. -/
def IdentifySectionsStrict (sections : List Section) (tracker : DiagnosticTracker)
    (names : List String) : Option (List (String × Nat)) × List Diagnostic :=
  let r := IdentifySectionsSpec sections tracker names
  (if r.2.isEmpty then r.1 else none, r.2)

/-- The scenario environment with the identifier that rejects a group with a missing required
section. -/
def strictEnv : Env :=
  { scenarioEnv ⟨0⟩ with IdentifySections := IdentifySectionsStrict }

/-! ## The append-only discipline -/

/-- A parser method is append-only when, from every tracker contents `t`, it leaves the tracker
holding `t` followed by the diagnostics it appended. -/
class AppendOnly {α : Type} (m : P α) : Prop where
  out : ∀ t : DiagnosticTracker, ∃ appended : List Diagnostic, (m t).2 = t ++ appended

/-! # Theorems -/

/-! ## Every method only appends to the tracker -/

@[instance] theorem AppendOnly.pure {α : Type} (a : α) : AppendOnly (Pure.pure a : P α) :=
  ⟨fun t => ⟨[], (List.append_nil t).symm⟩⟩

@[instance] theorem AppendOnly.bind {α β : Type} {m : P α} {f : α → P β}
    [hm : AppendOnly m] [hf : ∀ a, AppendOnly (f a)] : AppendOnly (m >>= f) :=
  ⟨fun t => by
    obtain ⟨d1, h1⟩ := hm.out t
    obtain ⟨d2, h2⟩ := (hf (m t).1).out (m t).2
    refine ⟨d1 ++ d2, ?_⟩
    show (f (m t).1 (m t).2).2 = t ++ (d1 ++ d2)
    rw [h2, h1, List.append_assoc]⟩

@[instance] theorem AppendOnly.ite {α : Type} (c : Prop) [Decidable c] (a b : P α)
    [AppendOnly a] [AppendOnly b] : AppendOnly (if c then a else b) := by
  split <;> assumption

@[instance] theorem Append_appendOnly (diag : Diagnostic) : AppendOnly (Append diag) :=
  ⟨fun _ => ⟨[diag], rfl⟩⟩

@[instance] theorem Length_appendOnly : AppendOnly Length :=
  ⟨fun t => ⟨[], (List.append_nil t).symm⟩⟩

@[instance] theorem callExternal_appendOnly {α : Type}
    (f : DiagnosticTracker → α × List Diagnostic) : AppendOnly (callExternal f) :=
  ⟨fun t => ⟨(f t).2, rfl⟩⟩

@[instance] theorem ParseExpression_appendOnly (env : Env) (text : String) (position : Position) :
    AppendOnly (ParseExpression env text position) := by
  unfold ParseExpression; infer_instance

@[instance] theorem ParseForm_appendOnly (env : Env) (text : String) (position : Position) :
    AppendOnly (ParseForm env text position) := by
  unfold ParseForm; infer_instance

@[instance] theorem ParseId_appendOnly (env : Env) (text : String) (position : Position) :
    AppendOnly (ParseId env text position) := by
  unfold ParseId; infer_instance

@[instance] theorem ParseSignature_appendOnly (env : Env) (text : String) (position : Position) :
    AppendOnly (ParseSignature env text position) := by
  unfold ParseSignature; infer_instance

@[instance] theorem IdentifySections_appendOnly (env : Env) (sections : List Section)
    (names : List String) : AppendOnly (IdentifySections env sections names) := by
  unfold IdentifySections; infer_instance

@[instance] theorem forEachArg_appendOnly {T : Type} (f : Argument → P T)
    [hf : ∀ arg, AppendOnly (f arg)] (args : List Argument) : AppendOnly (forEachArg f args) := by
  induction args with
  | nil => unfold forEachArg; infer_instance
  | cons arg args ih => unfold forEachArg; infer_instance

@[instance] theorem forEachArgIfOk_appendOnly {T : Type} (f : Argument → P (T × Bool))
    [hf : ∀ arg, AppendOnly (f arg)] (args : List Argument) :
    AppendOnly (forEachArgIfOk f args) := by
  induction args with
  | nil => unfold forEachArgIfOk; infer_instance
  | cons arg args ih => unfold forEachArgIfOk; infer_instance

@[instance] theorem forEachArgOrError_appendOnly {T : Type} (f : Argument → P (T × Bool))
    (orElse : Argument → Diagnostic) [hf : ∀ arg, AppendOnly (f arg)] (args : List Argument) :
    AppendOnly (forEachArgOrError f orElse args) := by
  induction args with
  | nil => unfold forEachArgOrError; infer_instance
  | cons arg args ih => unfold forEachArgOrError; infer_instance

@[instance] theorem ifPresent_appendOnly {T : Type} (sec : Option Section) (toX : Section → P T)
    [hf : ∀ s, AppendOnly (toX s)] : AppendOnly (ifPresent sec toX) := by
  unfold ifPresent
  split <;> infer_instance

@[instance] theorem firstOk_nil_appendOnly {T : Type} [Inhabited T] :
    AppendOnly (firstOk ([] : List (P (T × Bool)))) := by
  unfold firstOk; infer_instance

@[instance] theorem firstOk_cons_appendOnly {T : Type} [Inhabited T] (alt : P (T × Bool))
    (alts : List (P (T × Bool))) [AppendOnly alt] [AppendOnly (firstOk alts)] :
    AppendOnly (firstOk (alt :: alts)) := by
  unfold firstOk; infer_instance

@[instance] theorem oneOrMore_appendOnly {T : Type} (items : List T) (position : Position) :
    AppendOnly (oneOrMore items position) := by
  unfold oneOrMore
  repeat (first | infer_instance | refine @AppendOnly.bind _ _ _ _ ?_ ?_ | intro _ | split)

@[instance] theorem exactlyOne_appendOnly {T : Type} (items : List T) (defaultItem : T) (position : Position) :
    AppendOnly (exactlyOne items defaultItem position) := by
  unfold exactlyOne
  repeat (first | infer_instance | refine @AppendOnly.bind _ _ _ _ ?_ ?_ | intro _ | split)

@[instance] theorem verifyNoArgs_appendOnly (sec : Section) :
    AppendOnly (verifyNoArgs sec) := by
  unfold verifyNoArgs
  repeat (first | infer_instance | refine @AppendOnly.bind _ _ _ _ ?_ ?_ | intro _ | split)

@[instance] theorem asItem_appendOnly {G T : Type} (wrap : G → T) (m : P (G × Bool))
    [AppendOnly m] : AppendOnly (asItem wrap m) := by
  unfold asItem; infer_instance

@[instance] theorem toFormulation_appendOnly (env : Env) (arg : Argument) :
    AppendOnly (toFormulation env arg) := by
  unfold toFormulation
  repeat (first | infer_instance | refine @AppendOnly.bind _ _ _ _ ?_ ?_ | intro _ | split)

@[instance] theorem toSpec_appendOnly (env : Env) (arg : Argument) :
    AppendOnly (toSpec env arg) := by
  unfold toSpec
  repeat (first | infer_instance | refine @AppendOnly.bind _ _ _ _ ?_ ?_ | intro _ | split)

@[instance] theorem toAlias_appendOnly (env : Env) (arg : Argument) :
    AppendOnly (toAlias env arg) := by
  unfold toAlias
  repeat (first | infer_instance | refine @AppendOnly.bind _ _ _ _ ?_ ?_ | intro _ | split)

@[instance] theorem toTarget_appendOnly (env : Env) (arg : Argument) :
    AppendOnly (toTarget env arg) := by
  unfold toTarget
  repeat (first | infer_instance | refine @AppendOnly.bind _ _ _ _ ?_ ?_ | intro _ | split)

@[instance] theorem toTextItem_appendOnly (arg : Argument) :
    AppendOnly (toTextItem arg) := by
  unfold toTextItem
  repeat (first | infer_instance | refine @AppendOnly.bind _ _ _ _ ?_ ?_ | intro _ | split)

@[instance] theorem toSignatureItem_appendOnly (env : Env) (arg : Argument) :
    AppendOnly (toSignatureItem env arg) := by
  unfold toSignatureItem
  repeat (first | infer_instance | refine @AppendOnly.bind _ _ _ _ ?_ ?_ | intro _ | split)

@[instance] theorem toIdItem_appendOnly (env : Env) (text : String) (position : Position) :
    AppendOnly (toIdItem env text position) := by
  unfold toIdItem
  repeat (first | infer_instance | refine @AppendOnly.bind _ _ _ _ ?_ ?_ | intro _ | split)

@[instance] theorem getId_appendOnly (env : Env) (group : Group) (required : Bool) :
    AppendOnly (getId env group required) := by
  unfold getId
  repeat (first | infer_instance | refine @AppendOnly.bind _ _ _ _ ?_ ?_ | intro _ | split)

@[instance] theorem getStringId_appendOnly (group : Group) (required : Bool) :
    AppendOnly (getStringId group required) := by
  unfold getStringId
  repeat (first | infer_instance | refine @AppendOnly.bind _ _ _ _ ?_ ?_ | intro _ | split)

@[instance] theorem toFormulations_appendOnly (env : Env) (args : List Argument) :
    AppendOnly (toFormulations env args) := by
  unfold toFormulations
  repeat (first | infer_instance | refine @AppendOnly.bind _ _ _ _ ?_ ?_ | intro _ | split)

@[instance] theorem toClauses_appendOnly (toClause : Argument → P Clause) (args : List Argument) [∀ arg, AppendOnly (toClause arg)] :
    AppendOnly (toClauses toClause args) := by
  unfold toClauses
  repeat (first | infer_instance | refine @AppendOnly.bind _ _ _ _ ?_ ?_ | intro _ | split)

@[instance] theorem toSpecs_appendOnly (env : Env) (args : List Argument) :
    AppendOnly (toSpecs env args) := by
  unfold toSpecs
  repeat (first | infer_instance | refine @AppendOnly.bind _ _ _ _ ?_ ?_ | intro _ | split)

@[instance] theorem toAliases_appendOnly (env : Env) (args : List Argument) :
    AppendOnly (toAliases env args) := by
  unfold toAliases
  repeat (first | infer_instance | refine @AppendOnly.bind _ _ _ _ ?_ ?_ | intro _ | split)

@[instance] theorem toTargets_appendOnly (env : Env) (args : List Argument) :
    AppendOnly (toTargets env args) := by
  unfold toTargets
  repeat (first | infer_instance | refine @AppendOnly.bind _ _ _ _ ?_ ?_ | intro _ | split)

@[instance] theorem toTextItems_appendOnly (args : List Argument) :
    AppendOnly (toTextItems args) := by
  unfold toTextItems
  repeat (first | infer_instance | refine @AppendOnly.bind _ _ _ _ ?_ ?_ | intro _ | split)

@[instance] theorem toSignaturesItems_appendOnly (env : Env) (args : List Argument) :
    AppendOnly (toSignaturesItems env args) := by
  unfold toSignaturesItems
  repeat (first | infer_instance | refine @AppendOnly.bind _ _ _ _ ?_ ?_ | intro _ | split)

@[instance] theorem oneOrMoreClauses_appendOnly (toClause : Argument → P Clause) (sec : Section) [∀ arg, AppendOnly (toClause arg)] :
    AppendOnly (oneOrMoreClauses toClause sec) := by
  unfold oneOrMoreClauses
  repeat (first | infer_instance | refine @AppendOnly.bind _ _ _ _ ?_ ?_ | intro _ | split)

@[instance] theorem exactlyOneClause_appendOnly (toClause : Argument → P Clause) (sec : Section) [∀ arg, AppendOnly (toClause arg)] :
    AppendOnly (exactlyOneClause toClause sec) := by
  unfold exactlyOneClause
  repeat (first | infer_instance | refine @AppendOnly.bind _ _ _ _ ?_ ?_ | intro _ | split)

@[instance] theorem exactlyOneFormulation_appendOnly (env : Env) (sec : Section) :
    AppendOnly (exactlyOneFormulation env sec) := by
  unfold exactlyOneFormulation
  repeat (first | infer_instance | refine @AppendOnly.bind _ _ _ _ ?_ ?_ | intro _ | split)

@[instance] theorem oneOrMoreSpecs_appendOnly (env : Env) (sec : Section) :
    AppendOnly (oneOrMoreSpecs env sec) := by
  unfold oneOrMoreSpecs
  repeat (first | infer_instance | refine @AppendOnly.bind _ _ _ _ ?_ ?_ | intro _ | split)

@[instance] theorem oneOrMoreAliases_appendOnly (env : Env) (sec : Section) :
    AppendOnly (oneOrMoreAliases env sec) := by
  unfold oneOrMoreAliases
  repeat (first | infer_instance | refine @AppendOnly.bind _ _ _ _ ?_ ?_ | intro _ | split)

@[instance] theorem exactlyOneAlias_appendOnly (env : Env) (sec : Section) :
    AppendOnly (exactlyOneAlias env sec) := by
  unfold exactlyOneAlias
  repeat (first | infer_instance | refine @AppendOnly.bind _ _ _ _ ?_ ?_ | intro _ | split)

@[instance] theorem exactlyOneSpec_appendOnly (env : Env) (sec : Section) :
    AppendOnly (exactlyOneSpec env sec) := by
  unfold exactlyOneSpec
  repeat (first | infer_instance | refine @AppendOnly.bind _ _ _ _ ?_ ?_ | intro _ | split)

@[instance] theorem oneOrMoreTargets_appendOnly (env : Env) (sec : Section) :
    AppendOnly (oneOrMoreTargets env sec) := by
  unfold oneOrMoreTargets
  repeat (first | infer_instance | refine @AppendOnly.bind _ _ _ _ ?_ ?_ | intro _ | split)

@[instance] theorem oneOrMoreTextItems_appendOnly (sec : Section) :
    AppendOnly (oneOrMoreTextItems sec) := by
  unfold oneOrMoreTextItems
  repeat (first | infer_instance | refine @AppendOnly.bind _ _ _ _ ?_ ?_ | intro _ | split)

@[instance] theorem zeroOrMoreTextItems_appendOnly (sec : Section) :
    AppendOnly (zeroOrMoreTextItems sec) := by
  unfold zeroOrMoreTextItems
  repeat (first | infer_instance | refine @AppendOnly.bind _ _ _ _ ?_ ?_ | intro _ | split)

@[instance] theorem exactlyOneTarget_appendOnly (env : Env) (sec : Section) :
    AppendOnly (exactlyOneTarget env sec) := by
  unfold exactlyOneTarget
  repeat (first | infer_instance | refine @AppendOnly.bind _ _ _ _ ?_ ?_ | intro _ | split)

@[instance] theorem oneOrMoreSignatureItems_appendOnly (env : Env) (sec : Section) :
    AppendOnly (oneOrMoreSignatureItems env sec) := by
  unfold oneOrMoreSignatureItems
  repeat (first | infer_instance | refine @AppendOnly.bind _ _ _ _ ?_ ?_ | intro _ | split)

@[instance] theorem exactlyOneTextItem_appendOnly (sec : Section) :
    AppendOnly (exactlyOneTextItem sec) := by
  unfold exactlyOneTextItem
  repeat (first | infer_instance | refine @AppendOnly.bind _ _ _ _ ?_ ?_ | intro _ | split)

@[instance] theorem toAllOfSection_appendOnly (toClause : Argument → P Clause) (sec : Section) [∀ arg, AppendOnly (toClause arg)] :
    AppendOnly (toAllOfSection toClause sec) := by
  unfold toAllOfSection
  repeat (first | infer_instance | refine @AppendOnly.bind _ _ _ _ ?_ ?_ | intro _ | split)

@[instance] theorem toNotSection_appendOnly (toClause : Argument → P Clause) (sec : Section) [∀ arg, AppendOnly (toClause arg)] :
    AppendOnly (toNotSection toClause sec) := by
  unfold toNotSection
  repeat (first | infer_instance | refine @AppendOnly.bind _ _ _ _ ?_ ?_ | intro _ | split)

@[instance] theorem toAnyOfSection_appendOnly (toClause : Argument → P Clause) (sec : Section) [∀ arg, AppendOnly (toClause arg)] :
    AppendOnly (toAnyOfSection toClause sec) := by
  unfold toAnyOfSection
  repeat (first | infer_instance | refine @AppendOnly.bind _ _ _ _ ?_ ?_ | intro _ | split)

@[instance] theorem toOneOfSection_appendOnly (toClause : Argument → P Clause) (sec : Section) [∀ arg, AppendOnly (toClause arg)] :
    AppendOnly (toOneOfSection toClause sec) := by
  unfold toOneOfSection
  repeat (first | infer_instance | refine @AppendOnly.bind _ _ _ _ ?_ ?_ | intro _ | split)

@[instance] theorem toExistsSection_appendOnly (env : Env) (sec : Section) :
    AppendOnly (toExistsSection env sec) := by
  unfold toExistsSection
  repeat (first | infer_instance | refine @AppendOnly.bind _ _ _ _ ?_ ?_ | intro _ | split)

@[instance] theorem toWhereSection_appendOnly (env : Env) (sec : Section) :
    AppendOnly (toWhereSection env sec) := by
  unfold toWhereSection
  repeat (first | infer_instance | refine @AppendOnly.bind _ _ _ _ ?_ ?_ | intro _ | split)

@[instance] theorem toSuchThatSection_appendOnly (toClause : Argument → P Clause) (sec : Section) [∀ arg, AppendOnly (toClause arg)] :
    AppendOnly (toSuchThatSection toClause sec) := by
  unfold toSuchThatSection
  repeat (first | infer_instance | refine @AppendOnly.bind _ _ _ _ ?_ ?_ | intro _ | split)

@[instance] theorem toExistsUniqueSection_appendOnly (env : Env) (sec : Section) :
    AppendOnly (toExistsUniqueSection env sec) := by
  unfold toExistsUniqueSection
  repeat (first | infer_instance | refine @AppendOnly.bind _ _ _ _ ?_ ?_ | intro _ | split)

@[instance] theorem toForAllSection_appendOnly (env : Env) (sec : Section) :
    AppendOnly (toForAllSection env sec) := by
  unfold toForAllSection
  repeat (first | infer_instance | refine @AppendOnly.bind _ _ _ _ ?_ ?_ | intro _ | split)

@[instance] theorem toThenSection_appendOnly (toClause : Argument → P Clause) (sec : Section) [∀ arg, AppendOnly (toClause arg)] :
    AppendOnly (toThenSection toClause sec) := by
  unfold toThenSection
  repeat (first | infer_instance | refine @AppendOnly.bind _ _ _ _ ?_ ?_ | intro _ | split)

@[instance] theorem toIfSection_appendOnly (toClause : Argument → P Clause) (sec : Section) [∀ arg, AppendOnly (toClause arg)] :
    AppendOnly (toIfSection toClause sec) := by
  unfold toIfSection
  repeat (first | infer_instance | refine @AppendOnly.bind _ _ _ _ ?_ ?_ | intro _ | split)

@[instance] theorem toIffSection_appendOnly (toClause : Argument → P Clause) (sec : Section) [∀ arg, AppendOnly (toClause arg)] :
    AppendOnly (toIffSection toClause sec) := by
  unfold toIffSection
  repeat (first | infer_instance | refine @AppendOnly.bind _ _ _ _ ?_ ?_ | intro _ | split)

@[instance] theorem toWhenSection_appendOnly (toClause : Argument → P Clause) (sec : Section) [∀ arg, AppendOnly (toClause arg)] :
    AppendOnly (toWhenSection toClause sec) := by
  unfold toWhenSection
  repeat (first | infer_instance | refine @AppendOnly.bind _ _ _ _ ?_ ?_ | intro _ | split)

@[instance] theorem toPiecewiseSection_appendOnly (sec : Section) :
    AppendOnly (toPiecewiseSection sec) := by
  unfold toPiecewiseSection
  repeat (first | infer_instance | refine @AppendOnly.bind _ _ _ _ ?_ ?_ | intro _ | split)

@[instance] theorem toElseSection_appendOnly (toClause : Argument → P Clause) (sec : Section) [∀ arg, AppendOnly (toClause arg)] :
    AppendOnly (toElseSection toClause sec) := by
  unfold toElseSection
  repeat (first | infer_instance | refine @AppendOnly.bind _ _ _ _ ?_ ?_ | intro _ | split)

@[instance] theorem piecewiseUnexpected_appendOnly (rest : List Section) :
    AppendOnly (piecewiseUnexpected rest) := by
  induction rest with
  | nil => unfold piecewiseUnexpected; infer_instance
  | cons sec rest ih => unfold piecewiseUnexpected; infer_instance

theorem piecewiseIfThens_appendOnly_aux (toClause : Argument → P Clause)
    [∀ arg, AppendOnly (toClause arg)] (n : Nat) :
    ∀ (rest : List Section) (ifThens : List (IfThen Clause)), rest.length ≤ n →
      AppendOnly (piecewiseIfThens toClause rest ifThens) := by
  induction n with
  | zero =>
    intro rest ifThens h
    match rest, h with
    | [], _ => unfold piecewiseIfThens; infer_instance
  | succ n ih =>
    intro rest ifThens h
    match rest, h with
    | [], _ => unfold piecewiseIfThens; infer_instance
    | [section1], _ => unfold piecewiseIfThens; infer_instance
    | section1 :: section2 :: rest, h =>
      have hrest : rest.length ≤ n := by
        simp only [List.length_cons] at h; omega
      have := fun ifThens => ih rest ifThens hrest
      unfold piecewiseIfThens
      infer_instance

@[instance] theorem piecewiseIfThens_appendOnly (toClause : Argument → P Clause)
    [∀ arg, AppendOnly (toClause arg)] (rest : List Section) (ifThens : List (IfThen Clause)) :
    AppendOnly (piecewiseIfThens toClause rest ifThens) :=
  piecewiseIfThens_appendOnly_aux toClause rest.length rest ifThens (Nat.le_refl _)

@[instance] theorem toPiecewiseGroup_appendOnly (toClause : Argument → P Clause) (group : Group)
    [∀ arg, AppendOnly (toClause arg)] : AppendOnly (toPiecewiseGroup toClause group) := by
  unfold toPiecewiseGroup
  repeat (first | infer_instance | refine @AppendOnly.bind _ _ _ _ ?_ ?_ | intro _ | split)

@[instance] theorem toGivenSection_appendOnly (env : Env) (sec : Section) :
    AppendOnly (toGivenSection env sec) := by
  unfold toGivenSection
  repeat (first | infer_instance | refine @AppendOnly.bind _ _ _ _ ?_ ?_ | intro _ | split)

@[instance] theorem toGivenGroup_appendOnly (env : Env) (toClause : Argument → P Clause) (group : Group) [∀ arg, AppendOnly (toClause arg)] :
    AppendOnly (toGivenGroup env toClause group) := by
  unfold toGivenGroup
  repeat (first | infer_instance | refine @AppendOnly.bind _ _ _ _ ?_ ?_ | intro _ | split)

@[instance] theorem toAllOfGroup_appendOnly (env : Env) (toClause : Argument → P Clause) (group : Group) [∀ arg, AppendOnly (toClause arg)] :
    AppendOnly (toAllOfGroup env toClause group) := by
  unfold toAllOfGroup
  repeat (first | infer_instance | refine @AppendOnly.bind _ _ _ _ ?_ ?_ | intro _ | split)

@[instance] theorem toNotGroup_appendOnly (env : Env) (toClause : Argument → P Clause) (group : Group) [∀ arg, AppendOnly (toClause arg)] :
    AppendOnly (toNotGroup env toClause group) := by
  unfold toNotGroup
  repeat (first | infer_instance | refine @AppendOnly.bind _ _ _ _ ?_ ?_ | intro _ | split)

@[instance] theorem toAnyOfGroup_appendOnly (env : Env) (toClause : Argument → P Clause) (group : Group) [∀ arg, AppendOnly (toClause arg)] :
    AppendOnly (toAnyOfGroup env toClause group) := by
  unfold toAnyOfGroup
  repeat (first | infer_instance | refine @AppendOnly.bind _ _ _ _ ?_ ?_ | intro _ | split)

@[instance] theorem toOneOfGroup_appendOnly (env : Env) (toClause : Argument → P Clause) (group : Group) [∀ arg, AppendOnly (toClause arg)] :
    AppendOnly (toOneOfGroup env toClause group) := by
  unfold toOneOfGroup
  repeat (first | infer_instance | refine @AppendOnly.bind _ _ _ _ ?_ ?_ | intro _ | split)

@[instance] theorem toExistsGroup_appendOnly (env : Env) (toClause : Argument → P Clause) (group : Group) [∀ arg, AppendOnly (toClause arg)] :
    AppendOnly (toExistsGroup env toClause group) := by
  unfold toExistsGroup
  repeat (first | infer_instance | refine @AppendOnly.bind _ _ _ _ ?_ ?_ | intro _ | split)

@[instance] theorem toExistsUniqueGroup_appendOnly (env : Env) (toClause : Argument → P Clause) (group : Group) [∀ arg, AppendOnly (toClause arg)] :
    AppendOnly (toExistsUniqueGroup env toClause group) := by
  unfold toExistsUniqueGroup
  repeat (first | infer_instance | refine @AppendOnly.bind _ _ _ _ ?_ ?_ | intro _ | split)

@[instance] theorem toForAllGroup_appendOnly (env : Env) (toClause : Argument → P Clause) (group : Group) [∀ arg, AppendOnly (toClause arg)] :
    AppendOnly (toForAllGroup env toClause group) := by
  unfold toForAllGroup
  repeat (first | infer_instance | refine @AppendOnly.bind _ _ _ _ ?_ ?_ | intro _ | split)

@[instance] theorem toIfGroup_appendOnly (env : Env) (toClause : Argument → P Clause) (group : Group) [∀ arg, AppendOnly (toClause arg)] :
    AppendOnly (toIfGroup env toClause group) := by
  unfold toIfGroup
  repeat (first | infer_instance | refine @AppendOnly.bind _ _ _ _ ?_ ?_ | intro _ | split)

@[instance] theorem toIffGroup_appendOnly (env : Env) (toClause : Argument → P Clause) (group : Group) [∀ arg, AppendOnly (toClause arg)] :
    AppendOnly (toIffGroup env toClause group) := by
  unfold toIffGroup
  repeat (first | infer_instance | refine @AppendOnly.bind _ _ _ _ ?_ ?_ | intro _ | split)

@[instance] theorem toWhenGroup_appendOnly (env : Env) (toClause : Argument → P Clause) (group : Group) [∀ arg, AppendOnly (toClause arg)] :
    AppendOnly (toWhenGroup env toClause group) := by
  unfold toWhenGroup
  repeat (first | infer_instance | refine @AppendOnly.bind _ _ _ _ ?_ ?_ | intro _ | split)

@[instance] theorem toClauseBody_appendOnly (env : Env) (toClause : Argument → P Clause) (arg : Argument) [∀ arg, AppendOnly (toClause arg)] :
    AppendOnly (toClauseBody env toClause arg) := by
  unfold toClauseBody
  repeat (first | infer_instance | refine @AppendOnly.bind _ _ _ _ ?_ ?_ | intro _ | split)

@[instance] theorem toClauseFuel_appendOnly (env : Env) (fuel : Nat) (arg : Argument) :
    AppendOnly (toClauseFuel env fuel arg) := by
  induction fuel generalizing arg with
  | zero => unfold toClauseFuel; infer_instance
  | succ fuel ih => unfold toClauseFuel; infer_instance

@[instance] theorem toClause_appendOnly (env : Env) (arg : Argument) :
    AppendOnly (toClause env arg) := by
  unfold toClause; infer_instance

@[instance] theorem toSymbolSection_appendOnly (env : Env) (sec : Section) :
    AppendOnly (toSymbolSection env sec) := by
  unfold toSymbolSection
  repeat (first | infer_instance | refine @AppendOnly.bind _ _ _ _ ?_ ?_ | intro _ | split)

@[instance] theorem toWrittenSection_appendOnly (sec : Section) :
    AppendOnly (toWrittenSection sec) := by
  unfold toWrittenSection
  repeat (first | infer_instance | refine @AppendOnly.bind _ _ _ _ ?_ ?_ | intro _ | split)

@[instance] theorem toSymbolWrittenGroup_appendOnly (env : Env) (group : Group) :
    AppendOnly (toSymbolWrittenGroup env group) := by
  unfold toSymbolWrittenGroup
  repeat (first | infer_instance | refine @AppendOnly.bind _ _ _ _ ?_ ?_ | intro _ | split)

@[instance] theorem toConnectionSection_appendOnly (sec : Section) :
    AppendOnly (toConnectionSection sec) := by
  unfold toConnectionSection
  repeat (first | infer_instance | refine @AppendOnly.bind _ _ _ _ ?_ ?_ | intro _ | split)

@[instance] theorem toUsingSection_appendOnly (env : Env) (sec : Section) :
    AppendOnly (toUsingSection env sec) := by
  unfold toUsingSection
  repeat (first | infer_instance | refine @AppendOnly.bind _ _ _ _ ?_ ?_ | intro _ | split)

@[instance] theorem toMeansSection_appendOnly (toClause : Argument → P Clause) (sec : Section) [∀ arg, AppendOnly (toClause arg)] :
    AppendOnly (toMeansSection toClause sec) := by
  unfold toMeansSection
  repeat (first | infer_instance | refine @AppendOnly.bind _ _ _ _ ?_ ?_ | intro _ | split)

@[instance] theorem toSignifiesSection_appendOnly (env : Env) (sec : Section) :
    AppendOnly (toSignifiesSection env sec) := by
  unfold toSignifiesSection
  repeat (first | infer_instance | refine @AppendOnly.bind _ _ _ _ ?_ ?_ | intro _ | split)

@[instance] theorem toConnectionViewableSection_appendOnly (sec : Section) :
    AppendOnly (toConnectionViewableSection sec) := by
  unfold toConnectionViewableSection
  repeat (first | infer_instance | refine @AppendOnly.bind _ _ _ _ ?_ ?_ | intro _ | split)

@[instance] theorem toConnectionThroughSection_appendOnly (env : Env) (sec : Section) :
    AppendOnly (toConnectionThroughSection env sec) := by
  unfold toConnectionThroughSection
  repeat (first | infer_instance | refine @AppendOnly.bind _ _ _ _ ?_ ?_ | intro _ | split)

@[instance] theorem toConnectionGroup_appendOnly (env : Env) (group : Group) :
    AppendOnly (toConnectionGroup env group) := by
  unfold toConnectionGroup
  repeat (first | infer_instance | refine @AppendOnly.bind _ _ _ _ ?_ ?_ | intro _ | split)

@[instance] theorem toProvidesTypeFromGroup_appendOnly (env : Env) (group : Group) :
    AppendOnly (toProvidesTypeFromGroup env group) := by
  unfold toProvidesTypeFromGroup
  repeat (first | infer_instance | refine @AppendOnly.bind _ _ _ _ ?_ ?_ | intro _ | split)

@[instance] theorem toProvidesTypeFromArg_appendOnly (env : Env) (arg : Argument) :
    AppendOnly (toProvidesTypeFromArg env arg) := by
  unfold toProvidesTypeFromArg
  repeat (first | infer_instance | refine @AppendOnly.bind _ _ _ _ ?_ ?_ | intro _ | split)

@[instance] theorem toProvidesTypes_appendOnly (env : Env) (args : List Argument) :
    AppendOnly (toProvidesTypes env args) := by
  unfold toProvidesTypes
  repeat (first | infer_instance | refine @AppendOnly.bind _ _ _ _ ?_ ?_ | intro _ | split)

@[instance] theorem oneOrMoreProvidesType_appendOnly (env : Env) (sec : Section) :
    AppendOnly (oneOrMoreProvidesType env sec) := by
  unfold oneOrMoreProvidesType
  repeat (first | infer_instance | refine @AppendOnly.bind _ _ _ _ ?_ ?_ | intro _ | split)

@[instance] theorem toProvidesSection_appendOnly (env : Env) (sec : Section) :
    AppendOnly (toProvidesSection env sec) := by
  unfold toProvidesSection
  repeat (first | infer_instance | refine @AppendOnly.bind _ _ _ _ ?_ ?_ | intro _ | split)

@[instance] theorem toWrittenGroup_appendOnly (env : Env) (group : Group) :
    AppendOnly (toWrittenGroup env group) := by
  unfold toWrittenGroup
  repeat (first | infer_instance | refine @AppendOnly.bind _ _ _ _ ?_ ?_ | intro _ | split)

@[instance] theorem toCalledSection_appendOnly (sec : Section) :
    AppendOnly (toCalledSection sec) := by
  unfold toCalledSection
  repeat (first | infer_instance | refine @AppendOnly.bind _ _ _ _ ?_ ?_ | intro _ | split)

@[instance] theorem toCalledGroup_appendOnly (env : Env) (group : Group) :
    AppendOnly (toCalledGroup env group) := by
  unfold toCalledGroup
  repeat (first | infer_instance | refine @AppendOnly.bind _ _ _ _ ?_ ?_ | intro _ | split)

@[instance] theorem toWritingSection_appendOnly (env : Env) (sec : Section) :
    AppendOnly (toWritingSection env sec) := by
  unfold toWritingSection
  repeat (first | infer_instance | refine @AppendOnly.bind _ _ _ _ ?_ ?_ | intro _ | split)

@[instance] theorem toWritingAsSection_appendOnly (sec : Section) :
    AppendOnly (toWritingAsSection sec) := by
  unfold toWritingAsSection
  repeat (first | infer_instance | refine @AppendOnly.bind _ _ _ _ ?_ ?_ | intro _ | split)

@[instance] theorem toWritingGroup_appendOnly (env : Env) (group : Group) :
    AppendOnly (toWritingGroup env group) := by
  unfold toWritingGroup
  repeat (first | infer_instance | refine @AppendOnly.bind _ _ _ _ ?_ ?_ | intro _ | split)

@[instance] theorem toOverviewSection_appendOnly (sec : Section) :
    AppendOnly (toOverviewSection sec) := by
  unfold toOverviewSection
  repeat (first | infer_instance | refine @AppendOnly.bind _ _ _ _ ?_ ?_ | intro _ | split)

@[instance] theorem toOverviewGroup_appendOnly (env : Env) (group : Group) :
    AppendOnly (toOverviewGroup env group) := by
  unfold toOverviewGroup
  repeat (first | infer_instance | refine @AppendOnly.bind _ _ _ _ ?_ ?_ | intro _ | split)

@[instance] theorem toMotivationSection_appendOnly (sec : Section) :
    AppendOnly (toMotivationSection sec) := by
  unfold toMotivationSection
  repeat (first | infer_instance | refine @AppendOnly.bind _ _ _ _ ?_ ?_ | intro _ | split)

@[instance] theorem toMotivationGroup_appendOnly (env : Env) (group : Group) :
    AppendOnly (toMotivationGroup env group) := by
  unfold toMotivationGroup
  repeat (first | infer_instance | refine @AppendOnly.bind _ _ _ _ ?_ ?_ | intro _ | split)

@[instance] theorem toHistorySection_appendOnly (sec : Section) :
    AppendOnly (toHistorySection sec) := by
  unfold toHistorySection
  repeat (first | infer_instance | refine @AppendOnly.bind _ _ _ _ ?_ ?_ | intro _ | split)

@[instance] theorem toHistoryGroup_appendOnly (env : Env) (group : Group) :
    AppendOnly (toHistoryGroup env group) := by
  unfold toHistoryGroup
  repeat (first | infer_instance | refine @AppendOnly.bind _ _ _ _ ?_ ?_ | intro _ | split)

@[instance] theorem toExampleSection_appendOnly (sec : Section) :
    AppendOnly (toExampleSection sec) := by
  unfold toExampleSection
  repeat (first | infer_instance | refine @AppendOnly.bind _ _ _ _ ?_ ?_ | intro _ | split)

@[instance] theorem toExampleGroup_appendOnly (env : Env) (group : Group) :
    AppendOnly (toExampleGroup env group) := by
  unfold toExampleGroup
  repeat (first | infer_instance | refine @AppendOnly.bind _ _ _ _ ?_ ?_ | intro _ | split)

@[instance] theorem toRelatedSection_appendOnly (env : Env) (sec : Section) :
    AppendOnly (toRelatedSection env sec) := by
  unfold toRelatedSection
  repeat (first | infer_instance | refine @AppendOnly.bind _ _ _ _ ?_ ?_ | intro _ | split)

@[instance] theorem toRelatedGroup_appendOnly (env : Env) (group : Group) :
    AppendOnly (toRelatedGroup env group) := by
  unfold toRelatedGroup
  repeat (first | infer_instance | refine @AppendOnly.bind _ _ _ _ ?_ ?_ | intro _ | split)

@[instance] theorem toDiscovererSection_appendOnly (sec : Section) :
    AppendOnly (toDiscovererSection sec) := by
  unfold toDiscovererSection
  repeat (first | infer_instance | refine @AppendOnly.bind _ _ _ _ ?_ ?_ | intro _ | split)

@[instance] theorem toDiscovererGroup_appendOnly (env : Env) (group : Group) :
    AppendOnly (toDiscovererGroup env group) := by
  unfold toDiscovererGroup
  repeat (first | infer_instance | refine @AppendOnly.bind _ _ _ _ ?_ ?_ | intro _ | split)

@[instance] theorem toDescribingSection_appendOnly (sec : Section) :
    AppendOnly (toDescribingSection sec) := by
  unfold toDescribingSection
  repeat (first | infer_instance | refine @AppendOnly.bind _ _ _ _ ?_ ?_ | intro _ | split)

@[instance] theorem toContentSection_appendOnly (sec : Section) :
    AppendOnly (toContentSection sec) := by
  unfold toContentSection
  repeat (first | infer_instance | refine @AppendOnly.bind _ _ _ _ ?_ ?_ | intro _ | split)

@[instance] theorem toDescribingGroup_appendOnly (env : Env) (group : Group) :
    AppendOnly (toDescribingGroup env group) := by
  unfold toDescribingGroup
  repeat (first | infer_instance | refine @AppendOnly.bind _ _ _ _ ?_ ?_ | intro _ | split)

@[instance] theorem toNoteType_appendOnly (env : Env) (arg : Argument) :
    AppendOnly (toNoteType env arg) := by
  unfold toNoteType
  repeat (first | infer_instance | refine @AppendOnly.bind _ _ _ _ ?_ ?_ | intro _ | split)

@[instance] theorem toNoteTypes_appendOnly (env : Env) (args : List Argument) :
    AppendOnly (toNoteTypes env args) := by
  unfold toNoteTypes
  repeat (first | infer_instance | refine @AppendOnly.bind _ _ _ _ ?_ ?_ | intro _ | split)

@[instance] theorem oneOrMoreNoteTypes_appendOnly (env : Env) (sec : Section) :
    AppendOnly (oneOrMoreNoteTypes env sec) := by
  unfold oneOrMoreNoteTypes
  repeat (first | infer_instance | refine @AppendOnly.bind _ _ _ _ ?_ ?_ | intro _ | split)

@[instance] theorem toNoteSection_appendOnly (env : Env) (sec : Section) :
    AppendOnly (toNoteSection env sec) := by
  unfold toNoteSection
  repeat (first | infer_instance | refine @AppendOnly.bind _ _ _ _ ?_ ?_ | intro _ | split)

@[instance] theorem toNoteGroup_appendOnly (env : Env) (group : Group) :
    AppendOnly (toNoteGroup env group) := by
  unfold toNoteGroup
  repeat (first | infer_instance | refine @AppendOnly.bind _ _ _ _ ?_ ?_ | intro _ | split)

@[instance] theorem toDocumentedType_appendOnly (env : Env) (arg : Argument) :
    AppendOnly (toDocumentedType env arg) := by
  unfold toDocumentedType
  repeat (first | infer_instance | refine @AppendOnly.bind _ _ _ _ ?_ ?_ | intro _ | split)

@[instance] theorem toDocumentedTypes_appendOnly (env : Env) (args : List Argument) :
    AppendOnly (toDocumentedTypes env args) := by
  unfold toDocumentedTypes; infer_instance

@[instance] theorem oneOrMoreDocumentedTypes_appendOnly (env : Env) (sec : Section) :
    AppendOnly (oneOrMoreDocumentedTypes env sec) := by
  unfold oneOrMoreDocumentedTypes
  repeat (first | infer_instance | refine @AppendOnly.bind _ _ _ _ ?_ ?_ | intro _ | split)

@[instance] theorem toDocumentedSection_appendOnly (env : Env) (sec : Section) :
    AppendOnly (toDocumentedSection env sec) := by
  unfold toDocumentedSection
  repeat (first | infer_instance | refine @AppendOnly.bind _ _ _ _ ?_ ?_ | intro _ | split)

@[instance] theorem toAliasesSection_appendOnly (env : Env) (sec : Section) :
    AppendOnly (toAliasesSection env sec) := by
  unfold toAliasesSection
  repeat (first | infer_instance | refine @AppendOnly.bind _ _ _ _ ?_ ?_ | intro _ | split)

@[instance] theorem toLabelSection_appendOnly (sec : Section) :
    AppendOnly (toLabelSection sec) := by
  unfold toLabelSection
  repeat (first | infer_instance | refine @AppendOnly.bind _ _ _ _ ?_ ?_ | intro _ | split)

@[instance] theorem toBySection_appendOnly (sec : Section) :
    AppendOnly (toBySection sec) := by
  unfold toBySection
  repeat (first | infer_instance | refine @AppendOnly.bind _ _ _ _ ?_ ?_ | intro _ | split)

@[instance] theorem toLabelGroup_appendOnly (env : Env) (group : Group) :
    AppendOnly (toLabelGroup env group) := by
  unfold toLabelGroup
  repeat (first | infer_instance | refine @AppendOnly.bind _ _ _ _ ?_ ?_ | intro _ | split)

@[instance] theorem toByGroup_appendOnly (env : Env) (group : Group) :
    AppendOnly (toByGroup env group) := by
  unfold toByGroup
  repeat (first | infer_instance | refine @AppendOnly.bind _ _ _ _ ?_ ?_ | intro _ | split)

@[instance] theorem toJustifiedTypeFromGroup_appendOnly (env : Env) (group : Group) :
    AppendOnly (toJustifiedTypeFromGroup env group) := by
  unfold toJustifiedTypeFromGroup
  repeat (first | infer_instance | refine @AppendOnly.bind _ _ _ _ ?_ ?_ | intro _ | split)

@[instance] theorem toJustifiedTypeFromArg_appendOnly (env : Env) (arg : Argument) :
    AppendOnly (toJustifiedTypeFromArg env arg) := by
  unfold toJustifiedTypeFromArg
  repeat (first | infer_instance | refine @AppendOnly.bind _ _ _ _ ?_ ?_ | intro _ | split)

@[instance] theorem toJustifiedTypes_appendOnly (env : Env) (args : List Argument) :
    AppendOnly (toJustifiedTypes env args) := by
  unfold toJustifiedTypes
  repeat (first | infer_instance | refine @AppendOnly.bind _ _ _ _ ?_ ?_ | intro _ | split)

@[instance] theorem oneOrMoreJustifiedType_appendOnly (env : Env) (sec : Section) :
    AppendOnly (oneOrMoreJustifiedType env sec) := by
  unfold oneOrMoreJustifiedType
  repeat (first | infer_instance | refine @AppendOnly.bind _ _ _ _ ?_ ?_ | intro _ | split)

@[instance] theorem toJustifiedSection_appendOnly (env : Env) (sec : Section) :
    AppendOnly (toJustifiedSection env sec) := by
  unfold toJustifiedSection
  repeat (first | infer_instance | refine @AppendOnly.bind _ _ _ _ ?_ ?_ | intro _ | split)

@[instance] theorem toReferencesSection_appendOnly (sec : Section) :
    AppendOnly (toReferencesSection sec) := by
  unfold toReferencesSection
  repeat (first | infer_instance | refine @AppendOnly.bind _ _ _ _ ?_ ?_ | intro _ | split)

@[instance] theorem toMetaIdSection_appendOnly (sec : Section) :
    AppendOnly (toMetaIdSection sec) := by
  unfold toMetaIdSection
  repeat (first | infer_instance | refine @AppendOnly.bind _ _ _ _ ?_ ?_ | intro _ | split)

@[instance] theorem toDescribesSection_appendOnly (env : Env) (sec : Section) :
    AppendOnly (toDescribesSection env sec) := by
  unfold toDescribesSection
  repeat (first | infer_instance | refine @AppendOnly.bind _ _ _ _ ?_ ?_ | intro _ | split)

@[instance] theorem toWithSection_appendOnly (env : Env) (sec : Section) :
    AppendOnly (toWithSection env sec) := by
  unfold toWithSection
  repeat (first | infer_instance | refine @AppendOnly.bind _ _ _ _ ?_ ?_ | intro _ | split)

@[instance] theorem toExtendsSection_appendOnly (toClause : Argument → P Clause) (sec : Section) [∀ arg, AppendOnly (toClause arg)] :
    AppendOnly (toExtendsSection toClause sec) := by
  unfold toExtendsSection
  repeat (first | infer_instance | refine @AppendOnly.bind _ _ _ _ ?_ ?_ | intro _ | split)

@[instance] theorem toSatisfiesSection_appendOnly (toClause : Argument → P Clause) (sec : Section) [∀ arg, AppendOnly (toClause arg)] :
    AppendOnly (toSatisfiesSection toClause sec) := by
  unfold toSatisfiesSection
  repeat (first | infer_instance | refine @AppendOnly.bind _ _ _ _ ?_ ?_ | intro _ | split)

@[instance] theorem toDescribesGroup_appendOnly (env : Env) (group : Group) :
    AppendOnly (toDescribesGroup env group) := by
  unfold toDescribesGroup
  repeat (first | infer_instance | refine @AppendOnly.bind _ _ _ _ ?_ ?_ | intro _ | split)

@[instance] theorem toDefinesSection_appendOnly (env : Env) (sec : Section) :
    AppendOnly (toDefinesSection env sec) := by
  unfold toDefinesSection
  repeat (first | infer_instance | refine @AppendOnly.bind _ _ _ _ ?_ ?_ | intro _ | split)

@[instance] theorem toSpecifiesSection_appendOnly (toClause : Argument → P Clause) (sec : Section) [∀ arg, AppendOnly (toClause arg)] :
    AppendOnly (toSpecifiesSection toClause sec) := by
  unfold toSpecifiesSection
  repeat (first | infer_instance | refine @AppendOnly.bind _ _ _ _ ?_ ?_ | intro _ | split)

@[instance] theorem toDefinesGroup_appendOnly (env : Env) (group : Group) :
    AppendOnly (toDefinesGroup env group) := by
  unfold toDefinesGroup
  repeat (first | infer_instance | refine @AppendOnly.bind _ _ _ _ ?_ ?_ | intro _ | split)

@[instance] theorem toStatesSection_appendOnly (sec : Section) :
    AppendOnly (toStatesSection sec) := by
  unfold toStatesSection
  repeat (first | infer_instance | refine @AppendOnly.bind _ _ _ _ ?_ ?_ | intro _ | split)

@[instance] theorem toThatSection_appendOnly (toClause : Argument → P Clause) (sec : Section) [∀ arg, AppendOnly (toClause arg)] :
    AppendOnly (toThatSection toClause sec) := by
  unfold toThatSection
  repeat (first | infer_instance | refine @AppendOnly.bind _ _ _ _ ?_ ?_ | intro _ | split)

@[instance] theorem toStatesGroup_appendOnly (env : Env) (group : Group) :
    AppendOnly (toStatesGroup env group) := by
  unfold toStatesGroup
  repeat (first | infer_instance | refine @AppendOnly.bind _ _ _ _ ?_ ?_ | intro _ | split)

@[instance] theorem toAxiomSection_appendOnly (sec : Section) :
    AppendOnly (toAxiomSection sec) := by
  unfold toAxiomSection
  repeat (first | infer_instance | refine @AppendOnly.bind _ _ _ _ ?_ ?_ | intro _ | split)

@[instance] theorem toAxiomGroup_appendOnly (env : Env) (group : Group) :
    AppendOnly (toAxiomGroup env group) := by
  unfold toAxiomGroup
  repeat (first | infer_instance | refine @AppendOnly.bind _ _ _ _ ?_ ?_ | intro _ | split)

@[instance] theorem toConjectureSection_appendOnly (sec : Section) :
    AppendOnly (toConjectureSection sec) := by
  unfold toConjectureSection
  repeat (first | infer_instance | refine @AppendOnly.bind _ _ _ _ ?_ ?_ | intro _ | split)

@[instance] theorem toConjectureGroup_appendOnly (env : Env) (group : Group) :
    AppendOnly (toConjectureGroup env group) := by
  unfold toConjectureGroup
  repeat (first | infer_instance | refine @AppendOnly.bind _ _ _ _ ?_ ?_ | intro _ | split)

@[instance] theorem toTheoremSection_appendOnly (sec : Section) :
    AppendOnly (toTheoremSection sec) := by
  unfold toTheoremSection
  repeat (first | infer_instance | refine @AppendOnly.bind _ _ _ _ ?_ ?_ | intro _ | split)

@[instance] theorem toProofSection_appendOnly (sec : Section) :
    AppendOnly (toProofSection sec) := by
  unfold toProofSection
  repeat (first | infer_instance | refine @AppendOnly.bind _ _ _ _ ?_ ?_ | intro _ | split)

@[instance] theorem toTheoremGroup_appendOnly (env : Env) (group : Group) :
    AppendOnly (toTheoremGroup env group) := by
  unfold toTheoremGroup
  repeat (first | infer_instance | refine @AppendOnly.bind _ _ _ _ ?_ ?_ | intro _ | split)

@[instance] theorem toZeroSection_appendOnly (sec : Section) :
    AppendOnly (toZeroSection sec) := by
  unfold toZeroSection
  repeat (first | infer_instance | refine @AppendOnly.bind _ _ _ _ ?_ ?_ | intro _ | split)

@[instance] theorem toZeroGroup_appendOnly (env : Env) (group : Group) :
    AppendOnly (toZeroGroup env group) := by
  unfold toZeroGroup
  repeat (first | infer_instance | refine @AppendOnly.bind _ _ _ _ ?_ ?_ | intro _ | split)

@[instance] theorem toPositiveIntSection_appendOnly (env : Env) (sec : Section) :
    AppendOnly (toPositiveIntSection env sec) := by
  unfold toPositiveIntSection
  repeat (first | infer_instance | refine @AppendOnly.bind _ _ _ _ ?_ ?_ | intro _ | split)

@[instance] theorem toPositiveIntGroup_appendOnly (env : Env) (group : Group) :
    AppendOnly (toPositiveIntGroup env group) := by
  unfold toPositiveIntGroup
  repeat (first | infer_instance | refine @AppendOnly.bind _ _ _ _ ?_ ?_ | intro _ | split)

@[instance] theorem toNegativeIntSection_appendOnly (env : Env) (sec : Section) :
    AppendOnly (toNegativeIntSection env sec) := by
  unfold toNegativeIntSection
  repeat (first | infer_instance | refine @AppendOnly.bind _ _ _ _ ?_ ?_ | intro _ | split)

@[instance] theorem toNegativeIntGroup_appendOnly (env : Env) (group : Group) :
    AppendOnly (toNegativeIntGroup env group) := by
  unfold toNegativeIntGroup
  repeat (first | infer_instance | refine @AppendOnly.bind _ _ _ _ ?_ ?_ | intro _ | split)

@[instance] theorem toPositiveFloatSection_appendOnly (env : Env) (sec : Section) :
    AppendOnly (toPositiveFloatSection env sec) := by
  unfold toPositiveFloatSection
  repeat (first | infer_instance | refine @AppendOnly.bind _ _ _ _ ?_ ?_ | intro _ | split)

@[instance] theorem toPositiveFloatGroup_appendOnly (env : Env) (group : Group) :
    AppendOnly (toPositiveFloatGroup env group) := by
  unfold toPositiveFloatGroup
  repeat (first | infer_instance | refine @AppendOnly.bind _ _ _ _ ?_ ?_ | intro _ | split)

@[instance] theorem toNegativeFloatSection_appendOnly (env : Env) (sec : Section) :
    AppendOnly (toNegativeFloatSection env sec) := by
  unfold toNegativeFloatSection
  repeat (first | infer_instance | refine @AppendOnly.bind _ _ _ _ ?_ ?_ | intro _ | split)

@[instance] theorem toNegativeFloatGroup_appendOnly (env : Env) (group : Group) :
    AppendOnly (toNegativeFloatGroup env group) := by
  unfold toNegativeFloatGroup
  repeat (first | infer_instance | refine @AppendOnly.bind _ _ _ _ ?_ ?_ | intro _ | split)

@[instance] theorem toSpecifyType_appendOnly (env : Env) (arg : Argument) :
    AppendOnly (toSpecifyType env arg) := by
  unfold toSpecifyType
  repeat (first | infer_instance | refine @AppendOnly.bind _ _ _ _ ?_ ?_ | intro _ | split)

@[instance] theorem toSpecifyTypes_appendOnly (env : Env) (args : List Argument) :
    AppendOnly (toSpecifyTypes env args) := by
  unfold toSpecifyTypes
  repeat (first | infer_instance | refine @AppendOnly.bind _ _ _ _ ?_ ?_ | intro _ | split)

@[instance] theorem oneOrMoreSpecifyTypes_appendOnly (env : Env) (sec : Section) :
    AppendOnly (oneOrMoreSpecifyTypes env sec) := by
  unfold oneOrMoreSpecifyTypes
  repeat (first | infer_instance | refine @AppendOnly.bind _ _ _ _ ?_ ?_ | intro _ | split)

@[instance] theorem toTopLevelSpecifySection_appendOnly (env : Env) (sec : Section) :
    AppendOnly (toTopLevelSpecifySection env sec) := by
  unfold toTopLevelSpecifySection
  repeat (first | infer_instance | refine @AppendOnly.bind _ _ _ _ ?_ ?_ | intro _ | split)

@[instance] theorem toSpecifyGroup_appendOnly (env : Env) (group : Group) :
    AppendOnly (toSpecifyGroup env group) := by
  unfold toSpecifyGroup
  repeat (first | infer_instance | refine @AppendOnly.bind _ _ _ _ ?_ ?_ | intro _ | split)

@[instance] theorem toTopicSection_appendOnly (sec : Section) :
    AppendOnly (toTopicSection sec) := by
  unfold toTopicSection
  repeat (first | infer_instance | refine @AppendOnly.bind _ _ _ _ ?_ ?_ | intro _ | split)

@[instance] theorem toTopicGroup_appendOnly (env : Env) (group : Group) :
    AppendOnly (toTopicGroup env group) := by
  unfold toTopicGroup
  repeat (first | infer_instance | refine @AppendOnly.bind _ _ _ _ ?_ ?_ | intro _ | split)

@[instance] theorem toTitleSection_appendOnly (sec : Section) :
    AppendOnly (toTitleSection sec) := by
  unfold toTitleSection
  repeat (first | infer_instance | refine @AppendOnly.bind _ _ _ _ ?_ ?_ | intro _ | split)

@[instance] theorem toTitleGroup_appendOnly (env : Env) (group : Group) :
    AppendOnly (toTitleGroup env group) := by
  unfold toTitleGroup
  repeat (first | infer_instance | refine @AppendOnly.bind _ _ _ _ ?_ ?_ | intro _ | split)

@[instance] theorem toAuthorSection_appendOnly (sec : Section) :
    AppendOnly (toAuthorSection sec) := by
  unfold toAuthorSection
  repeat (first | infer_instance | refine @AppendOnly.bind _ _ _ _ ?_ ?_ | intro _ | split)

@[instance] theorem toAuthorGroup_appendOnly (env : Env) (group : Group) :
    AppendOnly (toAuthorGroup env group) := by
  unfold toAuthorGroup
  repeat (first | infer_instance | refine @AppendOnly.bind _ _ _ _ ?_ ?_ | intro _ | split)

@[instance] theorem toOffsetSection_appendOnly (sec : Section) :
    AppendOnly (toOffsetSection sec) := by
  unfold toOffsetSection
  repeat (first | infer_instance | refine @AppendOnly.bind _ _ _ _ ?_ ?_ | intro _ | split)

@[instance] theorem toOffsetGroup_appendOnly (env : Env) (group : Group) :
    AppendOnly (toOffsetGroup env group) := by
  unfold toOffsetGroup
  repeat (first | infer_instance | refine @AppendOnly.bind _ _ _ _ ?_ ?_ | intro _ | split)

@[instance] theorem toUlrSection_appendOnly (sec : Section) :
    AppendOnly (toUlrSection sec) := by
  unfold toUlrSection
  repeat (first | infer_instance | refine @AppendOnly.bind _ _ _ _ ?_ ?_ | intro _ | split)

@[instance] theorem toUrlGroup_appendOnly (env : Env) (group : Group) :
    AppendOnly (toUrlGroup env group) := by
  unfold toUrlGroup
  repeat (first | infer_instance | refine @AppendOnly.bind _ _ _ _ ?_ ?_ | intro _ | split)

@[instance] theorem toHomepageSection_appendOnly (sec : Section) :
    AppendOnly (toHomepageSection sec) := by
  unfold toHomepageSection
  repeat (first | infer_instance | refine @AppendOnly.bind _ _ _ _ ?_ ?_ | intro _ | split)

@[instance] theorem toHomepageGroup_appendOnly (env : Env) (group : Group) :
    AppendOnly (toHomepageGroup env group) := by
  unfold toHomepageGroup
  repeat (first | infer_instance | refine @AppendOnly.bind _ _ _ _ ?_ ?_ | intro _ | split)

@[instance] theorem toTypeSection_appendOnly (sec : Section) :
    AppendOnly (toTypeSection sec) := by
  unfold toTypeSection
  repeat (first | infer_instance | refine @AppendOnly.bind _ _ _ _ ?_ ?_ | intro _ | split)

@[instance] theorem toTypeGroup_appendOnly (env : Env) (group : Group) :
    AppendOnly (toTypeGroup env group) := by
  unfold toTypeGroup
  repeat (first | infer_instance | refine @AppendOnly.bind _ _ _ _ ?_ ?_ | intro _ | split)

@[instance] theorem toEditionSection_appendOnly (sec : Section) :
    AppendOnly (toEditionSection sec) := by
  unfold toEditionSection
  repeat (first | infer_instance | refine @AppendOnly.bind _ _ _ _ ?_ ?_ | intro _ | split)

@[instance] theorem toEditionGroup_appendOnly (env : Env) (group : Group) :
    AppendOnly (toEditionGroup env group) := by
  unfold toEditionGroup
  repeat (first | infer_instance | refine @AppendOnly.bind _ _ _ _ ?_ ?_ | intro _ | split)

@[instance] theorem toEditorSection_appendOnly (sec : Section) :
    AppendOnly (toEditorSection sec) := by
  unfold toEditorSection
  repeat (first | infer_instance | refine @AppendOnly.bind _ _ _ _ ?_ ?_ | intro _ | split)

@[instance] theorem toEditorGroup_appendOnly (env : Env) (group : Group) :
    AppendOnly (toEditorGroup env group) := by
  unfold toEditorGroup
  repeat (first | infer_instance | refine @AppendOnly.bind _ _ _ _ ?_ ?_ | intro _ | split)

@[instance] theorem toInstitutionSection_appendOnly (sec : Section) :
    AppendOnly (toInstitutionSection sec) := by
  unfold toInstitutionSection
  repeat (first | infer_instance | refine @AppendOnly.bind _ _ _ _ ?_ ?_ | intro _ | split)

@[instance] theorem toInstitutionGroup_appendOnly (env : Env) (group : Group) :
    AppendOnly (toInstitutionGroup env group) := by
  unfold toInstitutionGroup
  repeat (first | infer_instance | refine @AppendOnly.bind _ _ _ _ ?_ ?_ | intro _ | split)

@[instance] theorem toJournalSection_appendOnly (sec : Section) :
    AppendOnly (toJournalSection sec) := by
  unfold toJournalSection
  repeat (first | infer_instance | refine @AppendOnly.bind _ _ _ _ ?_ ?_ | intro _ | split)

@[instance] theorem toJournalGroup_appendOnly (env : Env) (group : Group) :
    AppendOnly (toJournalGroup env group) := by
  unfold toJournalGroup
  repeat (first | infer_instance | refine @AppendOnly.bind _ _ _ _ ?_ ?_ | intro _ | split)

@[instance] theorem toPublisherSection_appendOnly (sec : Section) :
    AppendOnly (toPublisherSection sec) := by
  unfold toPublisherSection
  repeat (first | infer_instance | refine @AppendOnly.bind _ _ _ _ ?_ ?_ | intro _ | split)

@[instance] theorem toPublisherGroup_appendOnly (env : Env) (group : Group) :
    AppendOnly (toPublisherGroup env group) := by
  unfold toPublisherGroup
  repeat (first | infer_instance | refine @AppendOnly.bind _ _ _ _ ?_ ?_ | intro _ | split)

@[instance] theorem toVolumeSection_appendOnly (sec : Section) :
    AppendOnly (toVolumeSection sec) := by
  unfold toVolumeSection
  repeat (first | infer_instance | refine @AppendOnly.bind _ _ _ _ ?_ ?_ | intro _ | split)

@[instance] theorem toVolumeGroup_appendOnly (env : Env) (group : Group) :
    AppendOnly (toVolumeGroup env group) := by
  unfold toVolumeGroup
  repeat (first | infer_instance | refine @AppendOnly.bind _ _ _ _ ?_ ?_ | intro _ | split)

@[instance] theorem toMonthSection_appendOnly (sec : Section) :
    AppendOnly (toMonthSection sec) := by
  unfold toMonthSection
  repeat (first | infer_instance | refine @AppendOnly.bind _ _ _ _ ?_ ?_ | intro _ | split)

@[instance] theorem toMonthGroup_appendOnly (env : Env) (group : Group) :
    AppendOnly (toMonthGroup env group) := by
  unfold toMonthGroup
  repeat (first | infer_instance | refine @AppendOnly.bind _ _ _ _ ?_ ?_ | intro _ | split)

@[instance] theorem toYearSection_appendOnly (sec : Section) :
    AppendOnly (toYearSection sec) := by
  unfold toYearSection
  repeat (first | infer_instance | refine @AppendOnly.bind _ _ _ _ ?_ ?_ | intro _ | split)

@[instance] theorem toYearGroup_appendOnly (env : Env) (group : Group) :
    AppendOnly (toYearGroup env group) := by
  unfold toYearGroup
  repeat (first | infer_instance | refine @AppendOnly.bind _ _ _ _ ?_ ?_ | intro _ | split)

@[instance] theorem toDescriptionSection_appendOnly (sec : Section) :
    AppendOnly (toDescriptionSection sec) := by
  unfold toDescriptionSection
  repeat (first | infer_instance | refine @AppendOnly.bind _ _ _ _ ?_ ?_ | intro _ | split)

@[instance] theorem toDescriptionGroup_appendOnly (env : Env) (group : Group) :
    AppendOnly (toDescriptionGroup env group) := by
  unfold toDescriptionGroup
  repeat (first | infer_instance | refine @AppendOnly.bind _ _ _ _ ?_ ?_ | intro _ | split)

@[instance] theorem toResourceType_appendOnly (env : Env) (arg : Argument) :
    AppendOnly (toResourceType env arg) := by
  unfold toResourceType
  repeat (first | infer_instance | refine @AppendOnly.bind _ _ _ _ ?_ ?_ | intro _ | split)

@[instance] theorem toResourceTypes_appendOnly (env : Env) (args : List Argument) :
    AppendOnly (toResourceTypes env args) := by
  unfold toResourceTypes
  repeat (first | infer_instance | refine @AppendOnly.bind _ _ _ _ ?_ ?_ | intro _ | split)

@[instance] theorem oneOrMoreResourceTypes_appendOnly (env : Env) (sec : Section) :
    AppendOnly (oneOrMoreResourceTypes env sec) := by
  unfold oneOrMoreResourceTypes
  repeat (first | infer_instance | refine @AppendOnly.bind _ _ _ _ ?_ ?_ | intro _ | split)

@[instance] theorem toResourceSection_appendOnly (env : Env) (sec : Section) :
    AppendOnly (toResourceSection env sec) := by
  unfold toResourceSection
  repeat (first | infer_instance | refine @AppendOnly.bind _ _ _ _ ?_ ?_ | intro _ | split)

@[instance] theorem toResourceGroup_appendOnly (env : Env) (group : Group) :
    AppendOnly (toResourceGroup env group) := by
  unfold toResourceGroup
  repeat (first | infer_instance | refine @AppendOnly.bind _ _ _ _ ?_ ?_ | intro _ | split)

@[instance] theorem toNameSection_appendOnly (sec : Section) :
    AppendOnly (toNameSection sec) := by
  unfold toNameSection
  repeat (first | infer_instance | refine @AppendOnly.bind _ _ _ _ ?_ ?_ | intro _ | split)

@[instance] theorem toNameGroup_appendOnly (env : Env) (group : Group) :
    AppendOnly (toNameGroup env group) := by
  unfold toNameGroup
  repeat (first | infer_instance | refine @AppendOnly.bind _ _ _ _ ?_ ?_ | intro _ | split)

@[instance] theorem toBiographySection_appendOnly (sec : Section) :
    AppendOnly (toBiographySection sec) := by
  unfold toBiographySection
  repeat (first | infer_instance | refine @AppendOnly.bind _ _ _ _ ?_ ?_ | intro _ | split)

@[instance] theorem toBiographyGroup_appendOnly (env : Env) (group : Group) :
    AppendOnly (toBiographyGroup env group) := by
  unfold toBiographyGroup
  repeat (first | infer_instance | refine @AppendOnly.bind _ _ _ _ ?_ ?_ | intro _ | split)

@[instance] theorem toPersonType_appendOnly (env : Env) (arg : Argument) :
    AppendOnly (toPersonType env arg) := by
  unfold toPersonType
  repeat (first | infer_instance | refine @AppendOnly.bind _ _ _ _ ?_ ?_ | intro _ | split)

@[instance] theorem toPersonTypes_appendOnly (env : Env) (args : List Argument) :
    AppendOnly (toPersonTypes env args) := by
  unfold toPersonTypes
  repeat (first | infer_instance | refine @AppendOnly.bind _ _ _ _ ?_ ?_ | intro _ | split)

@[instance] theorem oneOrMorePersonTypes_appendOnly (env : Env) (sec : Section) :
    AppendOnly (oneOrMorePersonTypes env sec) := by
  unfold oneOrMorePersonTypes
  repeat (first | infer_instance | refine @AppendOnly.bind _ _ _ _ ?_ ?_ | intro _ | split)

@[instance] theorem toPersonSection_appendOnly (env : Env) (sec : Section) :
    AppendOnly (toPersonSection env sec) := by
  unfold toPersonSection
  repeat (first | infer_instance | refine @AppendOnly.bind _ _ _ _ ?_ ?_ | intro _ | split)

@[instance] theorem toPersonGroup_appendOnly (env : Env) (group : Group) :
    AppendOnly (toPersonGroup env group) := by
  unfold toPersonGroup
  repeat (first | infer_instance | refine @AppendOnly.bind _ _ _ _ ?_ ?_ | intro _ | split)

@[instance] theorem toTopLevelItemType_appendOnly (env : Env) (item : TopLevelNodeType) :
    AppendOnly (toTopLevelItemType env item) := by
  unfold toTopLevelItemType
  repeat (first | infer_instance | refine @AppendOnly.bind _ _ _ _ ?_ ?_ | intro _ | split)

@[instance] theorem toDocumentItems_appendOnly (env : Env) (nodes : List TopLevelNodeType) :
    AppendOnly (toDocumentItems env nodes) := by
  induction nodes with
  | nil => unfold toDocumentItems; infer_instance
  | cons node nodes ih => unfold toDocumentItems; infer_instance

@[instance] theorem toDocument_appendOnly (env : Env) (root : Root) :
    AppendOnly (toDocument env root) := by
  unfold toDocument; infer_instance

/-! ## Running a method on a tracker -/

theorem bind_apply {α β : Type} (m : P α) (f : α → P β) (t : DiagnosticTracker) :
    (m >>= f) t = f (m t).1 (m t).2 := rfl

theorem pure_apply {α : Type} (a : α) (t : DiagnosticTracker) : (pure a : P α) t = (a, t) := rfl

theorem Append_apply (diag : Diagnostic) (t : DiagnosticTracker) :
    Append diag t = ((), t ++ [diag]) := rfl

theorem ite_apply_tracker {α : Type} (c : Prop) [Decidable c] (a b : P α)
    (t : DiagnosticTracker) : (if c then a else b) t = if c then a t else b t := by
  split <;> rfl

theorem toDocument_apply (env : Env) (root : Root) (t : DiagnosticTracker) :
    toDocument env root t =
      (({ Items := (toDocumentItems env root.Nodes t).1 },
        decide ((toDocumentItems env root.Nodes t).2.length = t.length)),
        (toDocumentItems env root.Nodes t).2) := rfl

/-! ## Parse as a whole -/

/-- C1: `Parse` returns a document and a flag for every phase-4 root and every tracker contents,
and the flag is `true` exactly when the tracker holds as many entries after the call as before
it, which is exactly when the call appended no diagnostic. -/
theorem Parse_ok_iff_tracker_did_not_grow (env : Env) (root : Root)
    (tracker : DiagnosticTracker) :
    (∃ doc ok after, Parse env root tracker = ((doc, ok), after)) ∧
    ((Parse env root tracker).1.2 = true ↔
      (Parse env root tracker).2.length = tracker.length) ∧
    (∃ appended, (Parse env root tracker).2 = tracker ++ appended ∧
      ((Parse env root tracker).1.2 = true ↔ appended = [])) := by
  obtain ⟨appended, h⟩ := (toDocumentItems_appendOnly env root.Nodes).out tracker
  refine ⟨⟨_, _, _, rfl⟩, ?_, appended, ?_, ?_⟩
  · simp [Parse, toDocument_apply]
  · simpa [Parse, toDocument_apply] using h
  · simp [Parse, toDocument_apply, h]

/-- C2: phase 5 only appends to the tracker: whatever the root and the tracker contents before
`Parse`, the contents after it are the contents before, unchanged and in the same order,
followed by the diagnostics of the call. -/
theorem Parse_keeps_earlier_diagnostics (env : Env) (root : Root)
    (tracker : DiagnosticTracker) :
    (∃ appended, (Parse env root tracker).2 = tracker ++ appended) ∧
    (Parse env root tracker).2.take tracker.length = tracker := by
  obtain ⟨appended, h⟩ := (toDocument_appendOnly env root).out tracker
  exact ⟨⟨appended, h⟩, by simp [Parse, h]⟩

/-! ## Cardinalities -/

/-- C9: `oneOrMore` on the empty list returns the empty list and appends exactly one diagnostic,
an error of origin `Phase5ParserOrigin` at the supplied position; on a non-empty list it returns
the list as it is and leaves the tracker as it was. -/
theorem oneOrMore_spec {T : Type} (position : Position) (t : DiagnosticTracker) :
    (oneOrMore ([] : List T) position t =
        ([], t ++ [newError "Expected at least one item" position]) ∧
      (newError "Expected at least one item" position).Severity = DiagnosticType.Error ∧
      (newError "Expected at least one item" position).Origin
        = DiagnosticOrigin.Phase5ParserOrigin ∧
      (newError "Expected at least one item" position).Position = position) ∧
    ∀ (item : T) (items : List T), oneOrMore (item :: items) position t = (item :: items, t) := by
  refine ⟨⟨rfl, rfl, rfl, rfl⟩, ?_⟩
  intro item items
  rfl

/-- C8, the claim as stated fails: with two converted arguments the slot holds the first of
them, not the default. -/
theorem exactlyOne_two_items_not_default :
    (exactlyOne [TextItem.mk "a", TextItem.mk "b"] (default : TextItem) default []).1
      = TextItem.mk "a" ∧
    (exactlyOne [TextItem.mk "a", TextItem.mk "b"] (default : TextItem) default []).1
      ≠ (default : TextItem) := by
  decide

/-- C8, amended: `exactlyOne` appends one diagnostic, an error of origin `Phase5ParserOrigin` at
the supplied position, whenever the number of converted arguments is not one; the slot holds the
default when there is no converted argument and the first converted argument when there are two
or more. -/
theorem exactlyOne_not_one {T : Type} (defaultItem : T) (position : Position)
    (t : DiagnosticTracker) :
    exactlyOne ([] : List T) defaultItem position t =
        (defaultItem, t ++ [newError "Expected at exactly one item" position]) ∧
    (∀ (first second : T) (others : List T),
      exactlyOne (first :: second :: others) defaultItem position t =
        (first, t ++ [newError "Expected at exactly one item" position])) ∧
    (newError "Expected at exactly one item" position).Origin
      = DiagnosticOrigin.Phase5ParserOrigin ∧
    (newError "Expected at exactly one item" position).Severity = DiagnosticType.Error := by
  refine ⟨rfl, ?_, rfl, rfl⟩
  intro first second others
  rfl

/-! ## Piecewise groups -/

theorem piecewiseIfThens_pairs (toClause : Argument → P Clause) (pairs : Nat) :
    ∀ (body rest : List Section) (ifThens : List (IfThen Clause)) (t : DiagnosticTracker),
      body.map Section.Name = (List.replicate pairs [LowerIfName, LowerThenName]).flatten →
      (rest = [] ∨ ∃ sec after, rest = sec :: after ∧ sec.Name = LowerElseName) →
      piecewiseIfThens toClause (body ++ rest) ifThens t =
        (some (ifThens ++ (convertIfThens toClause body t).1, rest),
          (convertIfThens toClause body t).2) := by
  induction pairs with
  | zero =>
    intro body rest ifThens t hbody hrest
    have : body = [] := by simpa using hbody
    subst this
    rcases hrest with rfl | ⟨sec, after, rfl, hsec⟩
    · simp [piecewiseIfThens, convertIfThens, pure_apply]
    · cases after with
      | nil => simp [piecewiseIfThens, convertIfThens, pure_apply, hsec]
      | cons a as => simp [piecewiseIfThens, convertIfThens, pure_apply, hsec]
  | succ pairs ih =>
    intro body rest ifThens t hbody hrest
    match body, hbody with
    | [], hbody => simp [List.replicate_succ] at hbody
    | [_], hbody => simp [List.replicate_succ] at hbody
    | section1 :: section2 :: body, hbody =>
      simp only [List.replicate_succ, List.flatten_cons, List.map_cons, List.cons_append,
        List.nil_append, List.cons.injEq] at hbody
      obtain ⟨h1, h2, hbody⟩ := hbody
      have hne : (LowerIfName == LowerElseName) = false := by decide
      have hne2 : (LowerIfName != LowerIfName) = false := by decide
      have hne3 : (LowerThenName != LowerThenName) = false := by decide
      simp [piecewiseIfThens, convertIfThens, h1, h2, hne, hne2, hne3, bind_apply, pure_apply,
        ih body rest _ _ hbody hrest, List.append_assoc]


theorem piecewiseIfThens_some_aux (toClause : Argument → P Clause) (n : Nat) :
    ∀ (rest : List Section) (ifThens : List (IfThen Clause)) (t : DiagnosticTracker)
      (found : List (IfThen Clause)) (left : List Section) (after : DiagnosticTracker),
      rest.length ≤ n →
      piecewiseIfThens toClause rest ifThens t = (some (found, left), after) →
      ∃ pairs body, rest = body ++ left ∧
        body.map Section.Name = (List.replicate pairs [LowerIfName, LowerThenName]).flatten ∧
        (left = [] ∨ ∃ sec others, left = sec :: others ∧ sec.Name = LowerElseName) := by
  induction n with
  | zero =>
    intro rest ifThens t found left after hlen h
    match rest, hlen with
    | [], _ =>
      simp only [piecewiseIfThens, pure_apply, Prod.mk.injEq, Option.some.injEq] at h
      obtain ⟨⟨-, rfl⟩, -⟩ := h
      exact ⟨0, [], rfl, rfl, Or.inl rfl⟩
  | succ n ih =>
    intro rest ifThens t found left after hlen h
    match rest, hlen with
    | [], _ =>
      simp only [piecewiseIfThens, pure_apply, Prod.mk.injEq, Option.some.injEq] at h
      obtain ⟨⟨-, rfl⟩, -⟩ := h
      exact ⟨0, [], rfl, rfl, Or.inl rfl⟩
    | [section1], _ =>
      unfold piecewiseIfThens at h
      by_cases h1 : section1.Name = LowerElseName
      · simp only [h1, beq_self_eq_true, if_true, pure_apply, Prod.mk.injEq,
          Option.some.injEq] at h
        obtain ⟨⟨-, rfl⟩, -⟩ := h
        exact ⟨0, [], rfl, rfl, Or.inr ⟨section1, [], rfl, h1⟩⟩
      · exfalso
        have h1b : (section1.Name == LowerElseName) = false := by simpa using h1
        simp only [h1b, Bool.false_eq_true, if_false] at h
        split at h <;> simp [bind_apply, pure_apply] at h
    | section1 :: section2 :: rest, hlen =>
      unfold piecewiseIfThens at h
      by_cases h1 : section1.Name = LowerElseName
      · simp only [h1, beq_self_eq_true, if_true, pure_apply, Prod.mk.injEq,
          Option.some.injEq] at h
        obtain ⟨⟨-, rfl⟩, -⟩ := h
        exact ⟨0, [], rfl, rfl, Or.inr ⟨section1, section2 :: rest, rfl, h1⟩⟩
      · have h1b : (section1.Name == LowerElseName) = false := by simpa using h1
        simp only [h1b, Bool.false_eq_true, if_false] at h
        by_cases h2 : section1.Name = LowerIfName
        · have h2b : (section1.Name != LowerIfName) = false := by simp [h2]
          simp only [h2b, Bool.false_eq_true, if_false] at h
          by_cases h3 : section2.Name = LowerThenName
          · have h3b : (section2.Name != LowerThenName) = false := by simp [h3]
            simp only [h3b, Bool.false_eq_true, if_false, bind_apply] at h
            have hlen2 : rest.length ≤ n := by
              simp only [List.length_cons] at hlen; omega
            obtain ⟨pairs, body, hrest, hbody, hleft⟩ := ih rest _ _ found left after hlen2 h
            refine ⟨pairs + 1, section1 :: section2 :: body, ?_, ?_, hleft⟩
            · simp [hrest]
            · simp [List.replicate_succ, h2, h3, hbody]
          · exfalso
            have h3b : (section2.Name != LowerThenName) = true := by simp [h3]
            simp [h3b, bind_apply, pure_apply] at h
        · exfalso
          have h2b : (section1.Name != LowerIfName) = true := by simp [h2]
          simp [h2b, bind_apply, pure_apply] at h

theorem piecewiseIfThens_some (toClause : Argument → P Clause)
    (rest : List Section) (ifThens : List (IfThen Clause)) (t : DiagnosticTracker)
    (found : List (IfThen Clause)) (left : List Section) (after : DiagnosticTracker)
    (h : piecewiseIfThens toClause rest ifThens t = (some (found, left), after)) :
    ∃ pairs body, rest = body ++ left ∧
      body.map Section.Name = (List.replicate pairs [LowerIfName, LowerThenName]).flatten ∧
      (left = [] ∨ ∃ sec others, left = sec :: others ∧ sec.Name = LowerElseName) :=
  piecewiseIfThens_some_aux toClause rest.length rest ifThens t found left after (Nat.le_refl _) h


theorem piecewiseUnexpected_apply (rest : List Section) (t : DiagnosticTracker) :
    piecewiseUnexpected rest t =
      ((), t ++ rest.map (fun sec =>
        newError ("Unexpected section '" ++ sec.Name ++ "'") sec.Start)) := by
  induction rest generalizing t with
  | nil => simp [piecewiseUnexpected, pure_apply]
  | cons sec rest ih => simp [piecewiseUnexpected, bind_apply, Append_apply, ih]

theorem startsWithSections_singleton (group : Group) (name : String) :
    startsWithSections group [name] = true ↔
      ∃ head rest, group.Sections = head :: rest ∧ head.Name = name := by
  unfold startsWithSections
  cases h : group.Sections with
  | nil => simp
  | cons head rest => simp

/-- Outcome of `toPiecewiseGroup` when its first loop returns from inside. -/
theorem toPiecewiseGroup_loop_none (toClause : Argument → P Clause) (group : Group)
    (t after : DiagnosticTracker) (section0 : Section) (rest : List Section)
    (hsec : group.Sections = section0 :: rest) (hname : section0.Name = LowerPiecewiseName)
    (hloop : piecewiseIfThens toClause rest [] (toPiecewiseSection section0 t).2 = (none, after)) :
    toPiecewiseGroup toClause group t = ((default, false), after) := by
  have hstart : startsWithSections group [LowerPiecewiseName] = true :=
    (startsWithSections_singleton group _).2 ⟨section0, rest, hsec, hname⟩
  unfold toPiecewiseGroup
  simp only [hstart, hsec, hname, bne_self_eq_false, Bool.not_true, Bool.false_eq_true, if_false]
  simp only [bind_apply, hloop]
  simp [pure_apply]

/-- Outcome of `toPiecewiseGroup` when its first loop runs to its end or to an `else`. -/
theorem toPiecewiseGroup_loop_some (toClause : Argument → P Clause) (group : Group)
    (t after : DiagnosticTracker) (section0 : Section) (rest : List Section)
    (ifThens : List (IfThen Clause)) (left : List Section)
    (hsec : group.Sections = section0 :: rest) (hname : section0.Name = LowerPiecewiseName)
    (hloop : piecewiseIfThens toClause rest [] (toPiecewiseSection section0 t).2
      = (some (ifThens, left), after)) :
    toPiecewiseGroup toClause group t =
      match left with
      | [] => (({ Piecewise := {}, IfThen := ifThens, Else := none }, true), after)
      | [sec] =>
        if sec.Name = LowerElseName then
          (({ Piecewise := {}, IfThen := ifThens,
              Else := some (toElseSection toClause sec after).1 }, true),
            (toElseSection toClause sec after).2)
        else
          ((default, false),
            after ++ [newError ("Unexpected section '" ++ sec.Name ++ "'") sec.Start])
      | sec :: other :: others =>
        if sec.Name = LowerElseName then
          ((default, false), (toElseSection toClause sec after).2 ++
            (other :: others).map (fun sec =>
              newError ("Unexpected section '" ++ sec.Name ++ "'") sec.Start))
        else
          ((default, false), after ++ (sec :: other :: others).map (fun sec =>
              newError ("Unexpected section '" ++ sec.Name ++ "'") sec.Start)) := by
  have hstart : startsWithSections group [LowerPiecewiseName] = true :=
    (startsWithSections_singleton group _).2 ⟨section0, rest, hsec, hname⟩
  unfold toPiecewiseGroup
  simp only [hstart, hsec, hname, bne_self_eq_false, Bool.not_true, Bool.false_eq_true, if_false]
  simp only [bind_apply, hloop]
  match left with
  | [] => simp [pure_apply, piecewiseUnexpected_apply]
  | [sec] =>
    by_cases h : sec.Name = LowerElseName
    · simp [pure_apply, piecewiseUnexpected_apply, h, bind_apply]
    · simp [pure_apply, piecewiseUnexpected_apply, h, bind_apply]
  | sec :: other :: others =>
    by_cases h : sec.Name = LowerElseName
    · simp [pure_apply, piecewiseUnexpected_apply, h, bind_apply]
    · simp [pure_apply, piecewiseUnexpected_apply, h, bind_apply]


theorem piecewiseIfThens_none_aux (toClause : Argument → P Clause)
    [∀ arg, AppendOnly (toClause arg)] (n : Nat) :
    ∀ (rest : List Section) (ifThens : List (IfThen Clause)) (t after : DiagnosticTracker),
      rest.length ≤ n →
      piecewiseIfThens toClause rest ifThens t = (none, after) →
      ∃ appended d, after = t ++ appended ++ [d] ∧
        d.Origin = DiagnosticOrigin.Phase5ParserOrigin := by
  induction n with
  | zero =>
    intro rest ifThens t after hlen h
    match rest, hlen with
    | [], _ => simp [piecewiseIfThens, pure_apply] at h
  | succ n ih =>
    intro rest ifThens t after hlen h
    match rest, hlen with
    | [], _ => simp [piecewiseIfThens, pure_apply] at h
    | [section1], _ =>
      unfold piecewiseIfThens at h
      split at h
      · simp [pure_apply] at h
      · split at h
        · simp only [bind_apply, pure_apply, Append_apply, Prod.mk.injEq, true_and] at h
          exact ⟨[], _, by simpa using h.symm, rfl⟩
        · simp only [bind_apply, pure_apply, Append_apply, Prod.mk.injEq, true_and] at h
          exact ⟨[], _, by simpa using h.symm, rfl⟩
    | section1 :: section2 :: rest, hlen =>
      unfold piecewiseIfThens at h
      split at h
      · simp [pure_apply] at h
      · split at h
        · simp only [bind_apply, pure_apply, Append_apply, Prod.mk.injEq, true_and] at h
          exact ⟨[], _, by simpa using h.symm, rfl⟩
        · split at h
          · simp only [bind_apply, pure_apply, Append_apply, Prod.mk.injEq, true_and] at h
            exact ⟨[], _, by simpa using h.symm, rfl⟩
          · simp only [bind_apply] at h
            have hlen2 : rest.length ≤ n := by
              simp only [List.length_cons] at hlen; omega
            obtain ⟨appended, d, hafter, hd⟩ := ih rest _ _ after hlen2 h
            obtain ⟨a1, h1⟩ := (toIfSection_appendOnly toClause section1).out t
            obtain ⟨a2, h2⟩ := (toThenSection_appendOnly toClause section2).out
              (toIfSection toClause section1 t).2
            refine ⟨a1 ++ a2 ++ appended, d, ?_, hd⟩
            rw [hafter, h2, h1]
            simp [List.append_assoc]

theorem piecewiseIfThens_none (toClause : Argument → P Clause)
    [∀ arg, AppendOnly (toClause arg)] (rest : List Section) (ifThens : List (IfThen Clause))
    (t after : DiagnosticTracker)
    (h : piecewiseIfThens toClause rest ifThens t = (none, after)) :
    ∃ appended d, after = t ++ appended ++ [d] ∧
      d.Origin = DiagnosticOrigin.Phase5ParserOrigin :=
  piecewiseIfThens_none_aux toClause rest.length rest ifThens t after (Nat.le_refl _) h

/-- C4: for a group whose first section is `piecewise`, when `toPiecewiseGroup` returns
`ok = false` the returned group is the empty `PiecewiseGroup` and the call appended at least one
diagnostic of origin `Phase5ParserOrigin`. -/
theorem toPiecewiseGroup_not_ok (toClause : Argument → P Clause)
    [∀ arg, AppendOnly (toClause arg)] (group : Group) (t : DiagnosticTracker)
    (section0 : Section) (rest : List Section)
    (hsec : group.Sections = section0 :: rest) (hname : section0.Name = LowerPiecewiseName)
    (hfail : (toPiecewiseGroup toClause group t).1.2 = false) :
    (toPiecewiseGroup toClause group t).1.1 = default ∧
    ∃ appended, (toPiecewiseGroup toClause group t).2 = t ++ appended ∧
      ∃ d ∈ appended, d.Origin = DiagnosticOrigin.Phase5ParserOrigin := by
  obtain ⟨a0, h0⟩ := (toPiecewiseSection_appendOnly section0).out t
  rcases hloop : piecewiseIfThens toClause rest [] (toPiecewiseSection section0 t).2
    with ⟨_ | ⟨ifThens, left⟩, after⟩
  · rw [toPiecewiseGroup_loop_none toClause group t after section0 rest hsec hname hloop]
    obtain ⟨appended, d, hafter, hd⟩ := piecewiseIfThens_none toClause rest [] _ after hloop
    refine ⟨rfl, a0 ++ appended ++ [d], ?_, d, by simp, hd⟩
    rw [hafter, h0]; simp [List.append_assoc]
  · have hres := toPiecewiseGroup_loop_some toClause group t after section0 rest ifThens left
      hsec hname hloop
    obtain ⟨a1, h1⟩ := (piecewiseIfThens_appendOnly toClause rest []).out
      (toPiecewiseSection section0 t).2
    rw [hloop, h0] at h1
    simp only at h1
    rcases left with _ | ⟨sec, _ | ⟨other, others⟩⟩
    · rw [hres] at hfail
      simp at hfail
    · by_cases h : sec.Name = LowerElseName
      · rw [hres] at hfail
        simp [h] at hfail
      · refine ⟨by rw [hres]; simp [h], a0 ++ a1 ++ [newError ("Unexpected section '" ++
          sec.Name ++ "'") sec.Start], by rw [hres]; simp [h, h1],
          newError ("Unexpected section '" ++ sec.Name ++ "'") sec.Start, by simp, rfl⟩
    · by_cases h : sec.Name = LowerElseName
      · obtain ⟨a2, h2⟩ := (toElseSection_appendOnly toClause sec).out after
        refine ⟨by rw [hres]; simp [h], a0 ++ a1 ++ a2 ++ (other :: others).map (fun sec =>
          newError ("Unexpected section '" ++ sec.Name ++ "'") sec.Start),
          by rw [hres]; simp only [h, if_true]; rw [h2, h1]; simp [List.append_assoc],
          newError ("Unexpected section '" ++ other.Name ++ "'") other.Start, by simp, rfl⟩
      · refine ⟨by rw [hres]; simp [h], a0 ++ a1 ++ (sec :: other :: others).map (fun sec =>
          newError ("Unexpected section '" ++ sec.Name ++ "'") sec.Start),
          by rw [hres]; simp [h, h1],
          newError ("Unexpected section '" ++ sec.Name ++ "'") sec.Start, by simp, rfl⟩


/-- A list of sections named as a well-formed piecewise group splits into the head, the pairs
and the optional `else`. -/
theorem piecewiseNames_split (sections : List Section) (pairs : Nat) (withElse : Bool)
    (h : sections.map Section.Name = piecewiseNames pairs withElse) :
    ∃ section0 body tail, sections = section0 :: (body ++ tail) ∧
      section0.Name = LowerPiecewiseName ∧
      body.map Section.Name = (List.replicate pairs [LowerIfName, LowerThenName]).flatten ∧
      body.length = 2 * pairs ∧
      ((withElse = false ∧ tail = []) ∨
        (withElse = true ∧ ∃ sec, tail = [sec] ∧ sec.Name = LowerElseName)) := by
  unfold piecewiseNames at h
  obtain ⟨section0, rest, rfl, h0, hrest⟩ := List.map_eq_cons_iff.1 h
  obtain ⟨body, tail, rfl, hbody, htail⟩ := List.map_eq_append_iff.1 hrest
  have hlen : body.length = 2 * pairs := by
    have := congrArg List.length hbody
    simpa [Nat.mul_comm] using this
  refine ⟨section0, body, tail, rfl, h0, hbody, hlen, ?_⟩
  cases withElse with
  | false => left; simpa using htail
  | true =>
    right
    refine ⟨rfl, ?_⟩
    simp only [if_true] at htail
    obtain ⟨sec, rest, rfl, hsec, hnil⟩ := List.map_eq_cons_iff.1 htail
    have : rest = [] := by simpa using hnil
    subst this
    exact ⟨sec, rfl, hsec⟩

theorem convertIfThens_length (toClause : Argument → P Clause) (pairs : Nat) :
    ∀ (body : List Section) (t : DiagnosticTracker), body.length = 2 * pairs →
      (convertIfThens toClause body t).1.length = pairs := by
  induction pairs with
  | zero =>
    intro body t h
    have : body = [] := by simpa using h
    subst this
    simp [convertIfThens, pure_apply]
  | succ pairs ih =>
    intro body t h
    match body, h with
    | section1 :: section2 :: body, h =>
      have h2 : body.length = 2 * pairs := by
        simp only [List.length_cons] at h; omega
      simp [convertIfThens, bind_apply, pure_apply, ih body _ h2]

/-- C3: `toPiecewiseGroup` returns `ok = true` exactly when the section names of the group are
`piecewise`, then zero or more pairs `if`, `then`, then optionally one `else`, and nothing else.
On success the result has one `IfThen` entry per pair, namely the pairs converted one after the
other in order, and `Else` is populated exactly when the `else` section is present. -/
theorem toPiecewiseGroup_ok_iff (toClause : Argument → P Clause) (group : Group)
    (t : DiagnosticTracker) :
    ((toPiecewiseGroup toClause group t).1.2 = true ↔
      ∃ pairs withElse, group.Sections.map Section.Name = piecewiseNames pairs withElse) ∧
    ∀ pairs withElse, group.Sections.map Section.Name = piecewiseNames pairs withElse →
      (toPiecewiseGroup toClause group t).1.1.IfThen.length = pairs ∧
      (toPiecewiseGroup toClause group t).1.1.Else.isSome = withElse ∧
      (toPiecewiseGroup toClause group t).1.1.IfThen =
        (convertIfThens toClause ((group.Sections.drop 1).take (2 * pairs))
          (toPiecewiseSection (group.Sections.headD default) t).2).1 := by
  have key : ∀ pairs withElse,
      group.Sections.map Section.Name = piecewiseNames pairs withElse →
      (toPiecewiseGroup toClause group t).1.2 = true ∧
      (toPiecewiseGroup toClause group t).1.1.Else.isSome = withElse ∧
      (toPiecewiseGroup toClause group t).1.1.IfThen =
        (convertIfThens toClause ((group.Sections.drop 1).take (2 * pairs))
          (toPiecewiseSection (group.Sections.headD default) t).2).1 := by
    intro pairs withElse h
    obtain ⟨section0, body, tail, hsec, hname, hbody, hlen, htail⟩ :=
      piecewiseNames_split _ pairs withElse h
    have htail2 : tail = [] ∨ ∃ sec after, tail = sec :: after ∧ sec.Name = LowerElseName := by
      rcases htail with ⟨-, rfl⟩ | ⟨-, sec, rfl, hs⟩
      · exact Or.inl rfl
      · exact Or.inr ⟨sec, [], rfl, hs⟩
    have hloop := piecewiseIfThens_pairs toClause pairs body tail []
      (toPiecewiseSection section0 t).2 hbody htail2
    have hres := toPiecewiseGroup_loop_some toClause group t _ section0 (body ++ tail) _ tail
      hsec hname hloop
    have htake : ((group.Sections.drop 1).take (2 * pairs)) = body := by
      rw [hsec, ← hlen]; simp
    have hhead : group.Sections.headD default = section0 := by rw [hsec]; rfl
    rw [htake, hhead, hres]
    rcases htail with ⟨rfl, rfl⟩ | ⟨rfl, sec, rfl, hs⟩
    · simp
    · simp [hs]
  refine ⟨⟨?_, fun ⟨pairs, withElse, h⟩ => (key pairs withElse h).1⟩, ?_⟩
  · intro hok
    by_cases hstart : startsWithSections group [LowerPiecewiseName] = true
    · obtain ⟨section0, rest, hsec, hname⟩ := (startsWithSections_singleton _ _).1 hstart
      rcases hloop : piecewiseIfThens toClause rest [] (toPiecewiseSection section0 t).2
        with ⟨_ | ⟨ifThens, left⟩, after⟩
      · rw [toPiecewiseGroup_loop_none toClause group t after section0 rest hsec hname hloop]
          at hok
        simp at hok
      · obtain ⟨pairs, body, hrest, hbody, hleft⟩ :=
          piecewiseIfThens_some toClause rest [] _ ifThens left after hloop
        rw [toPiecewiseGroup_loop_some toClause group t after section0 rest ifThens left
          hsec hname hloop] at hok
        rcases left with _ | ⟨sec, _ | ⟨other, others⟩⟩
        · refine ⟨pairs, false, ?_⟩
          simp [hsec, hrest, piecewiseNames, hname, hbody]
        · have hs : sec.Name = LowerElseName := by
            rcases hleft with h | ⟨sec2, others, h, hs⟩
            · simp at h
            · simp only [List.cons.injEq] at h
              rw [h.1]; exact hs
          refine ⟨pairs, true, ?_⟩
          simp [hsec, hrest, piecewiseNames, hname, hbody, hs]
        · exfalso
          by_cases h : sec.Name = LowerElseName <;> simp [h] at hok
    · exfalso
      unfold toPiecewiseGroup at hok
      simp [hstart, pure_apply] at hok
  · intro pairs withElse h
    obtain ⟨-, h2, h3⟩ := key pairs withElse h
    refine ⟨?_, h2, h3⟩
    rw [h3]
    obtain ⟨section0, body, tail, hsec, -, -, hlen, -⟩ := piecewiseNames_split _ pairs withElse h
    apply convertIfThens_length
    rw [hsec, ← hlen]; simp


/-- Witness of C3: the group of scenario S3 has the names of one pair and an `else`. -/
theorem toPiecewiseGroup_ok_iff_witness :
    piecewiseScenario.Sections.map Section.Name = piecewiseNames 1 true ∧
    (toPiecewiseGroup (toClause (scenarioEnv ⟨0⟩)) piecewiseScenario []).1.2 = true ∧
    (toPiecewiseGroup (toClause (scenarioEnv ⟨0⟩)) piecewiseScenario []).1.1.IfThen.length = 1 ∧
    (toPiecewiseGroup (toClause (scenarioEnv ⟨0⟩)) piecewiseScenario []).1.1.Else.isSome = true :=
  ⟨by decide,
    (toPiecewiseGroup_ok_iff (toClause (scenarioEnv ⟨0⟩)) piecewiseScenario []).1.2
      ⟨1, true, by decide⟩,
    ((toPiecewiseGroup_ok_iff (toClause (scenarioEnv ⟨0⟩)) piecewiseScenario []).2 1 true
      (by decide)).1,
    ((toPiecewiseGroup_ok_iff (toClause (scenarioEnv ⟨0⟩)) piecewiseScenario []).2 1 true
      (by decide)).2.1⟩

/-- Witness of C4: an `if` without a `then`. -/
theorem toPiecewiseGroup_not_ok_witness :
    (toPiecewiseGroup (toClause (scenarioEnv ⟨0⟩)) piecewiseIfWithoutThen []).1.2 = false ∧
    (toPiecewiseGroup (toClause (scenarioEnv ⟨0⟩)) piecewiseIfWithoutThen []).1.1 = default ∧
    ∃ appended,
      (toPiecewiseGroup (toClause (scenarioEnv ⟨0⟩)) piecewiseIfWithoutThen []).2
        = [] ++ appended ∧
      ∃ d ∈ appended, d.Origin = DiagnosticOrigin.Phase5ParserOrigin :=
  ⟨by decide,
    toPiecewiseGroup_not_ok (toClause (scenarioEnv ⟨0⟩)) piecewiseIfWithoutThen []
      (Section.mk "piecewise" [] ⟨0, 0, 0⟩) [Section.mk "if" [] ⟨11, 1, 0⟩] rfl rfl (by decide)⟩

/-! ## The recursion of toClause

The method is unrolled by a count in `toClauseFuel`; the count is enough, so that `toClause` obeys
the recursive equation of the source. -/

theorem section_depth_eq (sec : Section) : sec.depth = depthArgs sec.Args := by
  cases sec; rfl

theorem group_depth_eq (group : Group) : group.depth = depthSections group.Sections := by
  cases group; rfl

theorem depth_le_depthArgs (args : List Argument) (arg : Argument) (h : arg ∈ args) :
    arg.depth ≤ depthArgs args := by
  induction args with
  | nil => cases h
  | cons a as ih =>
    simp only [depthArgs]
    rcases List.mem_cons.1 h with rfl | h
    · exact Nat.le_max_left _ _
    · exact Nat.le_trans (ih h) (Nat.le_max_right _ _)

theorem depth_le_depthSections (sections : List Section) (sec : Section) (h : sec ∈ sections) :
    sec.depth ≤ depthSections sections := by
  induction sections with
  | nil => cases h
  | cons s ss ih =>
    simp only [depthSections]
    rcases List.mem_cons.1 h with rfl | h
    · exact Nat.le_max_left _ _
    · exact Nat.le_trans (ih h) (Nat.le_max_right _ _)

theorem argument_depth_group (arg : Argument) (data : Group)
    (h : arg.Arg = ArgumentDataType.Group data) : arg.depth = data.depth + 1 := by
  obtain ⟨a, start⟩ := arg
  simp only [Argument.Arg] at h
  subst h
  rfl

theorem resolveSections_find_mem (sections : List Section) (picks : List (String × Nat))
    (key : String) (sec : Section)
    (h : SectionMap.find (resolveSections sections picks) key = some sec) : sec ∈ sections := by
  unfold SectionMap.find resolveSections at h
  induction picks with
  | nil => simp [List.lookup] at h
  | cons pick picks ih =>
    simp only [List.filterMap_cons] at h
    cases hget : sections.get? pick.2 with
    | none =>
      simp only [hget, Option.map_none'] at h
      exact ih h
    | some s =>
      simp only [hget, Option.map_some'] at h
      simp only [List.lookup] at h
      split at h
      · simp only [Option.some.injEq] at h
        subst h
        exact List.get?_mem hget
      · exact ih h

theorem resolveSections_find_depth (group : Group) (picks : List (String × Nat))
    (key : String) (sec : Section)
    (h : SectionMap.find (resolveSections group.Sections picks) key = some sec) :
    sec.depth ≤ group.depth := by
  rw [group_depth_eq]
  exact depth_le_depthSections _ _ (resolveSections_find_mem _ _ _ _ h)

theorem resolveSections_get_depth (group : Group) (picks : List (String × Nat))
    (key : String) :
    (SectionMap.get (resolveSections group.Sections picks) key).depth ≤ group.depth := by
  unfold SectionMap.get
  cases h : SectionMap.find (resolveSections group.Sections picks) key with
  | none => exact Nat.zero_le _
  | some sec => exact resolveSections_find_depth group picks key sec h


theorem forEachArg_congr {T : Type} (f g : Argument → P T) (args : List Argument)
    (h : ∀ arg ∈ args, f arg = g arg) : forEachArg f args = forEachArg g args := by
  induction args with
  | nil => rfl
  | cons arg args ih =>
    simp only [forEachArg]
    rw [h arg (List.mem_cons_self _ _), ih (fun a ha => h a (List.mem_cons_of_mem _ ha))]

theorem toClauses_congr (d : Nat) (f g : Argument → P Clause) (h : AgreeBelow d f g)
    (sec : Section) (hsec : sec.depth ≤ d) : toClauses f sec.Args = toClauses g sec.Args := by
  unfold toClauses
  apply forEachArg_congr
  intro arg harg
  apply h
  rw [section_depth_eq] at hsec
  exact Nat.le_trans (depth_le_depthArgs _ _ harg) hsec

theorem oneOrMoreClauses_congr (d : Nat) (f g : Argument → P Clause) (h : AgreeBelow d f g)
    (sec : Section) (hsec : sec.depth ≤ d) : oneOrMoreClauses f sec = oneOrMoreClauses g sec := by
  unfold oneOrMoreClauses
  rw [toClauses_congr d f g h sec hsec]

theorem exactlyOneClause_congr (d : Nat) (f g : Argument → P Clause) (h : AgreeBelow d f g)
    (sec : Section) (hsec : sec.depth ≤ d) : exactlyOneClause f sec = exactlyOneClause g sec := by
  unfold exactlyOneClause
  rw [toClauses_congr d f g h sec hsec]

theorem ifPresent_congr {T : Type} (found : Option Section) (toX toY : Section → P T)
    (h : ∀ sec, found = some sec → toX sec = toY sec) :
    ifPresent found toX = ifPresent found toY := by
  cases found with
  | none => rfl
  | some sec => simp only [ifPresent]; rw [h sec rfl]

theorem IdentifySections_resolved (env : Env) (sections : List Section) (names : List String)
    (t after : DiagnosticTracker) (found : SectionMap)
    (h : IdentifySections env sections names t = (some found, after)) :
    ∃ picks, found = resolveSections sections picks := by
  simp only [IdentifySections, callExternal, Prod.mk.injEq] at h
  obtain ⟨h, -⟩ := h
  cases hp : (env.IdentifySections sections t names).1 with
  | none => simp [hp] at h
  | some picks =>
    simp only [hp, Option.map_some', Option.some.injEq] at h
    exact ⟨picks, h.symm⟩

theorem toAllOfSection_congr (d : Nat) (f g : Argument → P Clause) (h : AgreeBelow d f g)
    (sec : Section) (hsec : sec.depth ≤ d) : toAllOfSection f sec = toAllOfSection g sec := by
  unfold toAllOfSection
  rw [oneOrMoreClauses_congr d f g h sec hsec]

theorem toNotSection_congr (d : Nat) (f g : Argument → P Clause) (h : AgreeBelow d f g)
    (sec : Section) (hsec : sec.depth ≤ d) : toNotSection f sec = toNotSection g sec := by
  unfold toNotSection
  rw [exactlyOneClause_congr d f g h sec hsec]

theorem toAnyOfSection_congr (d : Nat) (f g : Argument → P Clause) (h : AgreeBelow d f g)
    (sec : Section) (hsec : sec.depth ≤ d) : toAnyOfSection f sec = toAnyOfSection g sec := by
  unfold toAnyOfSection
  rw [oneOrMoreClauses_congr d f g h sec hsec]

theorem toOneOfSection_congr (d : Nat) (f g : Argument → P Clause) (h : AgreeBelow d f g)
    (sec : Section) (hsec : sec.depth ≤ d) : toOneOfSection f sec = toOneOfSection g sec := by
  unfold toOneOfSection
  rw [oneOrMoreClauses_congr d f g h sec hsec]

theorem toSuchThatSection_congr (d : Nat) (f g : Argument → P Clause) (h : AgreeBelow d f g)
    (sec : Section) (hsec : sec.depth ≤ d) : toSuchThatSection f sec = toSuchThatSection g sec := by
  unfold toSuchThatSection
  rw [oneOrMoreClauses_congr d f g h sec hsec]

theorem toThenSection_congr (d : Nat) (f g : Argument → P Clause) (h : AgreeBelow d f g)
    (sec : Section) (hsec : sec.depth ≤ d) : toThenSection f sec = toThenSection g sec := by
  unfold toThenSection
  rw [oneOrMoreClauses_congr d f g h sec hsec]

theorem toIfSection_congr (d : Nat) (f g : Argument → P Clause) (h : AgreeBelow d f g)
    (sec : Section) (hsec : sec.depth ≤ d) : toIfSection f sec = toIfSection g sec := by
  unfold toIfSection
  rw [oneOrMoreClauses_congr d f g h sec hsec]

theorem toIffSection_congr (d : Nat) (f g : Argument → P Clause) (h : AgreeBelow d f g)
    (sec : Section) (hsec : sec.depth ≤ d) : toIffSection f sec = toIffSection g sec := by
  unfold toIffSection
  rw [oneOrMoreClauses_congr d f g h sec hsec]

theorem toWhenSection_congr (d : Nat) (f g : Argument → P Clause) (h : AgreeBelow d f g)
    (sec : Section) (hsec : sec.depth ≤ d) : toWhenSection f sec = toWhenSection g sec := by
  unfold toWhenSection
  rw [oneOrMoreClauses_congr d f g h sec hsec]

theorem toElseSection_congr (d : Nat) (f g : Argument → P Clause) (h : AgreeBelow d f g)
    (sec : Section) (hsec : sec.depth ≤ d) : toElseSection f sec = toElseSection g sec := by
  unfold toElseSection
  rw [oneOrMoreClauses_congr d f g h sec hsec]

theorem toGivenGroup_congr (env : Env) (f g : Argument → P Clause) (group : Group)
    (h : AgreeBelow group.depth f g) : toGivenGroup env f group = toGivenGroup env g group := by
  unfold toGivenGroup
  split
  · rfl
  · funext t
    simp only [bind_apply]
    rcases hid : IdentifySections env group.Sections env.GivenSections t with ⟨_ | found, after⟩
    · rfl
    · obtain ⟨picks, rfl⟩ := IdentifySections_resolved env _ _ _ _ _ hid
      simp only []
      rw [ifPresent_congr _ (toSuchThatSection f) (toSuchThatSection g) (fun sec hsec =>
          toSuchThatSection_congr _ f g h sec (resolveSections_find_depth group picks _ sec hsec)),
        toThenSection_congr _ f g h _ (resolveSections_get_depth group picks _)]

theorem toAllOfGroup_congr (env : Env) (f g : Argument → P Clause) (group : Group)
    (h : AgreeBelow group.depth f g) : toAllOfGroup env f group = toAllOfGroup env g group := by
  unfold toAllOfGroup
  split
  · rfl
  · funext t
    simp only [bind_apply]
    rcases hid : IdentifySections env group.Sections env.AllOfSections t with ⟨_ | found, after⟩
    · rfl
    · obtain ⟨picks, rfl⟩ := IdentifySections_resolved env _ _ _ _ _ hid
      simp only []
      rw [toAllOfSection_congr _ f g h _ (resolveSections_get_depth group picks _)]

theorem toNotGroup_congr (env : Env) (f g : Argument → P Clause) (group : Group)
    (h : AgreeBelow group.depth f g) : toNotGroup env f group = toNotGroup env g group := by
  unfold toNotGroup
  split
  · rfl
  · funext t
    simp only [bind_apply]
    rcases hid : IdentifySections env group.Sections env.NotSections t with ⟨_ | found, after⟩
    · rfl
    · obtain ⟨picks, rfl⟩ := IdentifySections_resolved env _ _ _ _ _ hid
      simp only []
      rw [toNotSection_congr _ f g h _ (resolveSections_get_depth group picks _)]

theorem toAnyOfGroup_congr (env : Env) (f g : Argument → P Clause) (group : Group)
    (h : AgreeBelow group.depth f g) : toAnyOfGroup env f group = toAnyOfGroup env g group := by
  unfold toAnyOfGroup
  split
  · rfl
  · funext t
    simp only [bind_apply]
    rcases hid : IdentifySections env group.Sections env.AnyOfSections t with ⟨_ | found, after⟩
    · rfl
    · obtain ⟨picks, rfl⟩ := IdentifySections_resolved env _ _ _ _ _ hid
      simp only []
      rw [toAnyOfSection_congr _ f g h _ (resolveSections_get_depth group picks _)]

theorem toOneOfGroup_congr (env : Env) (f g : Argument → P Clause) (group : Group)
    (h : AgreeBelow group.depth f g) : toOneOfGroup env f group = toOneOfGroup env g group := by
  unfold toOneOfGroup
  split
  · rfl
  · funext t
    simp only [bind_apply]
    rcases hid : IdentifySections env group.Sections env.OneOfSections t with ⟨_ | found, after⟩
    · rfl
    · obtain ⟨picks, rfl⟩ := IdentifySections_resolved env _ _ _ _ _ hid
      simp only []
      rw [toOneOfSection_congr _ f g h _ (resolveSections_get_depth group picks _)]

theorem toExistsGroup_congr (env : Env) (f g : Argument → P Clause) (group : Group)
    (h : AgreeBelow group.depth f g) : toExistsGroup env f group = toExistsGroup env g group := by
  unfold toExistsGroup
  split
  · rfl
  · funext t
    simp only [bind_apply]
    rcases hid : IdentifySections env group.Sections env.ExistsSections t with ⟨_ | found, after⟩
    · rfl
    · obtain ⟨picks, rfl⟩ := IdentifySections_resolved env _ _ _ _ _ hid
      simp only []
      rw [ifPresent_congr _ (toSuchThatSection f) (toSuchThatSection g) (fun sec hsec =>
          toSuchThatSection_congr _ f g h sec (resolveSections_find_depth group picks _ sec hsec))]

theorem toExistsUniqueGroup_congr (env : Env) (f g : Argument → P Clause) (group : Group)
    (h : AgreeBelow group.depth f g) : toExistsUniqueGroup env f group = toExistsUniqueGroup env g group := by
  unfold toExistsUniqueGroup
  split
  · rfl
  · funext t
    simp only [bind_apply]
    rcases hid : IdentifySections env group.Sections env.ExistsUniqueSections t with ⟨_ | found, after⟩
    · rfl
    · obtain ⟨picks, rfl⟩ := IdentifySections_resolved env _ _ _ _ _ hid
      simp only []
      rw [toSuchThatSection_congr _ f g h _ (resolveSections_get_depth group picks _)]

theorem toForAllGroup_congr (env : Env) (f g : Argument → P Clause) (group : Group)
    (h : AgreeBelow group.depth f g) : toForAllGroup env f group = toForAllGroup env g group := by
  unfold toForAllGroup
  split
  · rfl
  · funext t
    simp only [bind_apply]
    rcases hid : IdentifySections env group.Sections env.ForAllSections t with ⟨_ | found, after⟩
    · rfl
    · obtain ⟨picks, rfl⟩ := IdentifySections_resolved env _ _ _ _ _ hid
      simp only []
      rw [ifPresent_congr _ (toSuchThatSection f) (toSuchThatSection g) (fun sec hsec =>
          toSuchThatSection_congr _ f g h sec (resolveSections_find_depth group picks _ sec hsec)),
        toThenSection_congr _ f g h _ (resolveSections_get_depth group picks _)]

theorem toIfGroup_congr (env : Env) (f g : Argument → P Clause) (group : Group)
    (h : AgreeBelow group.depth f g) : toIfGroup env f group = toIfGroup env g group := by
  unfold toIfGroup
  split
  · rfl
  · funext t
    simp only [bind_apply]
    rcases hid : IdentifySections env group.Sections env.IfSections t with ⟨_ | found, after⟩
    · rfl
    · obtain ⟨picks, rfl⟩ := IdentifySections_resolved env _ _ _ _ _ hid
      simp only []
      rw [toIfSection_congr _ f g h _ (resolveSections_get_depth group picks _),
        toThenSection_congr _ f g h _ (resolveSections_get_depth group picks _)]

theorem toIffGroup_congr (env : Env) (f g : Argument → P Clause) (group : Group)
    (h : AgreeBelow group.depth f g) : toIffGroup env f group = toIffGroup env g group := by
  unfold toIffGroup
  split
  · rfl
  · funext t
    simp only [bind_apply]
    rcases hid : IdentifySections env group.Sections env.IffSections t with ⟨_ | found, after⟩
    · rfl
    · obtain ⟨picks, rfl⟩ := IdentifySections_resolved env _ _ _ _ _ hid
      simp only []
      rw [toIffSection_congr _ f g h _ (resolveSections_get_depth group picks _),
        toThenSection_congr _ f g h _ (resolveSections_get_depth group picks _)]

theorem toWhenGroup_congr (env : Env) (f g : Argument → P Clause) (group : Group)
    (h : AgreeBelow group.depth f g) : toWhenGroup env f group = toWhenGroup env g group := by
  unfold toWhenGroup
  split
  · rfl
  · funext t
    simp only [bind_apply]
    rcases hid : IdentifySections env group.Sections env.WhenSections t with ⟨_ | found, after⟩
    · rfl
    · obtain ⟨picks, rfl⟩ := IdentifySections_resolved env _ _ _ _ _ hid
      simp only []
      rw [toWhenSection_congr _ f g h _ (resolveSections_get_depth group picks _),
        toThenSection_congr _ f g h _ (resolveSections_get_depth group picks _)]

theorem piecewiseIfThens_congr_aux (d : Nat) (f g : Argument → P Clause) (h : AgreeBelow d f g)
    (n : Nat) :
    ∀ (rest : List Section) (ifThens : List (IfThen Clause)), rest.length ≤ n →
      (∀ sec ∈ rest, sec.depth ≤ d) →
      piecewiseIfThens f rest ifThens = piecewiseIfThens g rest ifThens := by
  induction n with
  | zero =>
    intro rest ifThens hlen _
    match rest, hlen with
    | [], _ => rfl
  | succ n ih =>
    intro rest ifThens hlen hdepth
    match rest, hlen, hdepth with
    | [], _, _ => rfl
    | [section1], _, _ => rfl
    | section1 :: section2 :: rest, hlen, hdepth =>
      have hlen2 : rest.length ≤ n := by
        simp only [List.length_cons] at hlen; omega
      have hrest : ∀ sec ∈ rest, sec.depth ≤ d := fun sec hsec =>
        hdepth sec (List.mem_cons_of_mem _ (List.mem_cons_of_mem _ hsec))
      have h1 := toIfSection_congr d f g h section1 (hdepth _ (List.mem_cons_self _ _))
      have h2 := toThenSection_congr d f g h section2
        (hdepth _ (List.mem_cons_of_mem _ (List.mem_cons_self _ _)))
      simp only [piecewiseIfThens, h1, h2, fun ifThens => ih rest ifThens hlen2 hrest]

theorem piecewiseIfThens_congr (d : Nat) (f g : Argument → P Clause) (h : AgreeBelow d f g)
    (rest : List Section) (ifThens : List (IfThen Clause))
    (hdepth : ∀ sec ∈ rest, sec.depth ≤ d) :
    piecewiseIfThens f rest ifThens = piecewiseIfThens g rest ifThens :=
  piecewiseIfThens_congr_aux d f g h rest.length rest ifThens (Nat.le_refl _) hdepth

theorem toPiecewiseGroup_congr (f g : Argument → P Clause) (group : Group)
    (h : AgreeBelow group.depth f g) : toPiecewiseGroup f group = toPiecewiseGroup g group := by
  have hall : ∀ sec ∈ group.Sections, sec.depth ≤ group.depth := by
    intro sec hsec
    rw [group_depth_eq]
    exact depth_le_depthSections _ _ hsec
  unfold toPiecewiseGroup
  split
  · rfl
  · cases hsections : group.Sections with
    | nil => rfl
    | cons section0 rest =>
      rw [hsections] at hall
      simp only []
      split
      · rfl
      · funext t
        have hrest : ∀ sec ∈ rest, sec.depth ≤ group.depth := fun sec hsec =>
          hall sec (List.mem_cons_of_mem _ hsec)
        simp only [bind_apply, piecewiseIfThens_congr _ f g h rest [] hrest]
        rcases hloop : piecewiseIfThens g rest [] (toPiecewiseSection section0 t).2
          with ⟨_ | ⟨ifThens, left⟩, after⟩
        · rfl
        · obtain ⟨pairs, body, hbody, -, -⟩ :=
            piecewiseIfThens_some g rest [] _ ifThens left after hloop
          cases left with
          | nil => rfl
          | cons sec others =>
            have hsec : sec.depth ≤ group.depth := by
              apply hrest
              rw [hbody]
              exact List.mem_append_right _ (List.mem_cons_self _ _)
            simp only [toElseSection_congr _ f g h sec hsec]

theorem toClauseBody_congr (env : Env) (f g : Argument → P Clause) (arg : Argument)
    (h : ∀ data, arg.Arg = ArgumentDataType.Group data → AgreeBelow data.depth f g) :
    toClauseBody env f arg = toClauseBody env g arg := by
  unfold toClauseBody
  split
  · rfl
  · next data heq =>
    have hd := h data heq
    rw [toAllOfGroup_congr env f g data hd, toNotGroup_congr env f g data hd,
      toAnyOfGroup_congr env f g data hd, toOneOfGroup_congr env f g data hd,
      toForAllGroup_congr env f g data hd, toExistsGroup_congr env f g data hd,
      toExistsUniqueGroup_congr env f g data hd, toIfGroup_congr env f g data hd,
      toIffGroup_congr env f g data hd, toWhenGroup_congr env f g data hd,
      toPiecewiseGroup_congr f g data hd, toGivenGroup_congr env f g data hd]
  · rfl

/-- Fuel beyond the depth of the argument does not change the result. -/
theorem toClauseFuel_enough (env : Env) (fuel : Nat) :
    ∀ arg : Argument, arg.depth < fuel →
      toClauseFuel env fuel arg = toClauseFuel env (arg.depth + 1) arg := by
  induction fuel using Nat.strong_induction_on with
  | _ fuel ih =>
    intro arg harg
    cases fuel with
    | zero => omega
    | succ fuel =>
      show toClauseBody env (toClauseFuel env fuel) arg
        = toClauseBody env (toClauseFuel env arg.depth) arg
      apply toClauseBody_congr
      intro data hdata a ha
      have hdepth := argument_depth_group arg data hdata
      rw [ih fuel (Nat.lt_succ_self _) a (by omega), ih arg.depth (by omega) a (by omega)]

/-- The method `toClause` satisfies the recursion of the source: each call runs the body of the
method with the method itself for the clauses nested in a group. -/
theorem toClause_unfold (env : Env) (arg : Argument) :
    toClause env arg = toClauseBody env (toClause env) arg := by
  show toClauseBody env (toClauseFuel env arg.depth) arg = toClauseBody env (toClause env) arg
  apply toClauseBody_congr
  intro data hdata a ha
  have hdepth := argument_depth_group arg data hdata
  exact toClauseFuel_enough env arg.depth a (by omega)


/-! ## Scenario S3 -/

/-- C5, the claim as stated fails: as the only top-level node of a document the group of S3 is
not converted; the document has no item and one diagnostic is appended. -/
theorem piecewiseScenario_rejected_at_top_level :
    (Parse (scenarioEnv ⟨0⟩) ⟨[TopLevelNodeType.Group piecewiseScenario]⟩ []).1.1.Items.length = 0 ∧
    (Parse (scenarioEnv ⟨0⟩) ⟨[TopLevelNodeType.Group piecewiseScenario]⟩ []).2
      = [newError "Invalid top level item" ⟨0, 0, 0⟩] ∧
    (Parse (scenarioEnv ⟨0⟩) ⟨[TopLevelNodeType.Group piecewiseScenario]⟩ []).1.2 = false := by
  decide

/-- C5, amended: when every formulation parses without a diagnostic, the group of S3 given as a
clause argument is converted by `toClause` to one `PiecewiseGroup` with one if/then pair and a
populated `else`, and nothing is appended; as the only top-level node of a document it yields no
item and exactly one diagnostic, `Invalid top level item` at the start of the group. -/
theorem piecewiseScenario_converted_as_clause (env : Env)
    (parse : String → Position → DiagnosticTracker → FormulationNode)
    (hparse : ∀ text position t,
      env.ParseExpression text position t = (some (parse text position t), []))
    (start : Position) (t : DiagnosticTracker) :
    toClause env (Argument.mk (ArgumentDataType.Group piecewiseScenario) start) t
      = (Clause.PiecewiseGroup
          { Piecewise := {}
            IfThen := [{
              If := { Clauses := [Clause.Formulation
                { RawText := "x > 0", Root := some (parse "x > 0" ⟨17, 2, 2⟩ t), Label := none }] }
              Then := { Clauses := [Clause.Formulation
                { RawText := "x", Root := some (parse "x" ⟨32, 4, 2⟩ t), Label := none }] } }]
            Else := some { Items := [Clause.Formulation
                { RawText := "-x", Root := some (parse "-x" ⟨43, 6, 2⟩ t), Label := none }] } },
        t) ∧
    Parse env ⟨[TopLevelNodeType.Group piecewiseScenario]⟩ t
      = (({ Items := [] }, false),
        t ++ [newError "Invalid top level item" piecewiseScenario.Start]) := by
  constructor
  · have hpe : env.ParseExpression
        = fun text position t => (some (parse text position t), []) := by
      funext text position t
      exact hparse text position t
    cases env
    simp only at hpe
    subst hpe
    refine Eq.trans (b := (Clause.PiecewiseGroup
        { Piecewise := {}
          IfThen := [{
            If := { Clauses := [Clause.Formulation
              { RawText := "x > 0", Root := some (parse "x > 0" ⟨17, 2, 2⟩ t), Label := none }] }
            Then := { Clauses := [Clause.Formulation
              { RawText := "x", Root := some (parse "x" ⟨32, 4, 2⟩ (t ++ [])),
                Label := none }] } }]
          Else := some { Items := [Clause.Formulation
              { RawText := "-x", Root := some (parse "-x" ⟨43, 6, 2⟩ (t ++ [] ++ [])),
                Label := none }] } },
      t ++ [] ++ [] ++ [])) rfl ?_
    simp
  · have hitem : toTopLevelItemType env (TopLevelNodeType.Group piecewiseScenario) t
        = ((TopLevelItemType.nil, false),
          t ++ [newError "Invalid top level item" piecewiseScenario.Start]) := rfl
    simp [Parse, toDocument_apply, toDocumentItems, bind_apply, pure_apply, hitem]

/-- Witness of C5, amended: an environment whose formulations all parse. -/
theorem piecewiseScenario_converted_as_clause_witness :
    (toClause (scenarioEnv ⟨0⟩)
      (Argument.mk (ArgumentDataType.Group piecewiseScenario) ⟨0, 0, 0⟩) []).2 = [] ∧
    (Parse (scenarioEnv ⟨0⟩) ⟨[TopLevelNodeType.Group piecewiseScenario]⟩ []).2
      = [] ++ [newError "Invalid top level item" piecewiseScenario.Start] :=
  ⟨congrArg Prod.snd (piecewiseScenario_converted_as_clause (scenarioEnv ⟨0⟩)
      (fun _ _ _ => ⟨0⟩) (fun _ _ _ => rfl) ⟨0, 0, 0⟩ []).1,
    congrArg Prod.snd (piecewiseScenario_converted_as_clause (scenarioEnv ⟨0⟩)
      (fun _ _ _ => ⟨0⟩) (fun _ _ _ => rfl) ⟨0, 0, 0⟩ []).2⟩

/-! ## Scenario S2 and the section identifier of the spec -/

theorem firstOk_cons_apply {T : Type} [Inhabited T] (alt : P (T × Bool))
    (alts : List (P (T × Bool))) (t : DiagnosticTracker) :
    firstOk (alt :: alts) t = if (alt t).1.2 = true then alt t else firstOk alts (alt t).2 := by
  simp only [firstOk, bind_apply]
  split <;> simp_all [pure_apply]

theorem asItem_apply {G T : Type} (wrap : G → T) (m : P (G × Bool)) (t : DiagnosticTracker) :
    asItem wrap m t = ((wrap (m t).1.1, (m t).1.2), (m t).2) := rfl

theorem identifyWalk_no_sections (start : Position) (tokens : List String) (index : Nat) :
    identifyWalk start tokens index [] =
      (([], (tokens.filter (fun token => !slotOptional token)).map
        (fun token => missingSection (slotName token) start)), true) := by
  induction tokens generalizing index with
  | nil => rfl
  | cons token tokens ih =>
    simp only [identifyWalk, List.takeWhile_nil, List.dropWhile_nil, List.length_nil,
      Nat.add_zero, ih, List.map_nil, List.nil_append, List.isEmpty_nil, Bool.true_and,
      Bool.false_or, Bool.false_eq_true, if_false, List.filter_cons]
    cases h : slotOptional token <;> simp

theorem identify_theoremWithoutThen (start : Position) (t : DiagnosticTracker)
    (rest : List String)
    (hrest : rest.filter (fun token => !slotOptional token) = [LowerThenName]) :
    IdentifySectionsSpec (theoremWithoutThen start).Sections t
        (UpperTheoremName :: (LowerGivenName ++ "?") :: rest) =
      (some [(UpperTheoremName, 0), (LowerGivenName, 1)],
        [missingSection LowerThenName start]) := by
  have h := identifyWalk_no_sections start rest 2
  rw [hrest] at h
  refine Eq.trans (b := (if (identifyWalk start rest 2 []).2 = true
      then some ((UpperTheoremName, 0) :: (LowerGivenName, 1) :: (identifyWalk start rest 2 []).1.1)
      else none, (identifyWalk start rest 2 []).1.2)) rfl ?_
  rw [h]
  rfl

/-- Scenario S2 run through `Parse`, with the section identifier of the spec and a `Theorem`
schema that starts with the head and an optional `given` and whose only other required slot is
`then`. -/
theorem theoremWithoutThen_parse (env : Env) (rest : List String)
    (form : String → Position → DiagnosticTracker → FormulationNode)
    (hident : env.IdentifySections = IdentifySectionsSpec)
    (htable : env.TheoremSections = UpperTheoremName :: (LowerGivenName ++ "?") :: rest)
    (hrest : rest.filter (fun token => !slotOptional token) = [LowerThenName])
    (hform : ∀ text position t, env.ParseForm text position t = (some (form text position t), []))
    (start : Position) (t : DiagnosticTracker) :
    Parse env ⟨[TopLevelNodeType.Group (theoremWithoutThen start)]⟩ t =
      (({ Items := [TopLevelItemType.TheoremGroup
            { Id := none
              Theorem := { Theorem := [] }
              Given := some { Given := [{ RawText := "x", Root := some (form "x" ⟨16, 1, 7⟩
                (t ++ [missingSection LowerThenName start])), Label := none }] }
              Where := none
              If := none
              Iff := none
              Then := { Clauses := [] }
              Proof := none
              Documented := none
              References := none
              Aliases := none
              MetaId := none }] }, false),
        t ++ [missingSection LowerThenName start, newError "Expected at least one item" default])
      := by
  have hpf : env.ParseForm = fun text position t => (some (form text position t), []) := by
    funext text position t
    exact hform text position t
  have hid : IdentifySections env (theoremWithoutThen start).Sections env.TheoremSections t =
      (some [(UpperTheoremName, Section.mk "Theorem" [] start),
        (LowerGivenName, Section.mk "given"
          [Argument.mk (ArgumentDataType.ArgumentTextArgumentData "x") ⟨16, 1, 7⟩] ⟨9, 1, 0⟩)],
        t ++ [missingSection LowerThenName start]) := by
    simp only [IdentifySections, callExternal, hident, htable,
      identify_theoremWithoutThen start t rest hrest]
    rfl
  have hthm : toTheoremGroup env (theoremWithoutThen start) t =
      (({ Id := none
          Theorem := { Theorem := [] }
          Given := some { Given := [{ RawText := "x", Root := some (form "x" ⟨16, 1, 7⟩
            (t ++ [missingSection LowerThenName start])), Label := none }] }
          Where := none
          If := none
          Iff := none
          Then := { Clauses := [] }
          Proof := none
          Documented := none
          References := none
          Aliases := none
          MetaId := none }, true),
        t ++ [missingSection LowerThenName start, newError "Expected at least one item" default])
      := by
    have hstart : startsWithSections (theoremWithoutThen start) [UpperTheoremName] = true := rfl
    have hget : getId env (theoremWithoutThen start) false t = (none, t) := rfl
    unfold toTheoremGroup
    simp only [hstart, Bool.not_true, Bool.false_eq_true, if_false]
    rw [bind_apply, bind_apply, hget, hid]
    cases env
    simp only at hpf
    subst hpf
    apply Prod.ext
    · rfl
    · exact Eq.trans (b := t ++ [missingSection LowerThenName start] ++ [] ++
        [newError "Expected at least one item" default]) rfl (by simp)
  have h1 : toDefinesGroup env (theoremWithoutThen start) t = ((default, false), t) := rfl
  have h2 : toDescribesGroup env (theoremWithoutThen start) t = ((default, false), t) := rfl
  have h3 : toStatesGroup env (theoremWithoutThen start) t = ((default, false), t) := rfl
  have h4 : toAxiomGroup env (theoremWithoutThen start) t = ((default, false), t) := rfl
  have h5 : toConjectureGroup env (theoremWithoutThen start) t = ((default, false), t) := rfl
  have hitem : toTopLevelItemType env (TopLevelNodeType.Group (theoremWithoutThen start)) t =
      ((TopLevelItemType.TheoremGroup (toTheoremGroup env (theoremWithoutThen start) t).1.1, true),
        (toTheoremGroup env (theoremWithoutThen start) t).2) := by
    simp only [toTopLevelItemType, bind_apply, firstOk_cons_apply, asItem_apply, h1, h2, h3, h4,
      h5, hthm]
    simp [pure_apply]
  simp [Parse, toDocument_apply, toDocumentItems, bind_apply, pure_apply, hitem, hthm]


/-- Scenario S2 with the section identifier of the spec: two diagnostics are appended, not
one. -/
theorem theoremWithoutThen_two_diagnostics :
    (Parse (scenarioEnv ⟨0⟩) ⟨[TopLevelNodeType.Group (theoremWithoutThen ⟨0, 0, 0⟩)]⟩ []).2
      = [missingSection LowerThenName ⟨0, 0, 0⟩,
          newError "Expected at least one item" ⟨0, 0, 0⟩] ∧
    (Parse (scenarioEnv ⟨0⟩)
      ⟨[TopLevelNodeType.Group (theoremWithoutThen ⟨0, 0, 0⟩)]⟩ []).2.length ≠ 1 := by
  decide

/-- Scenario S2 with the section identifier of the spec: for a document whose only node is the
group `Theorem:` followed by just `given: x`, phase 5 appends exactly two diagnostics,
both errors of origin `Phase5ParserOrigin`: first the one for the missing section, whose message
names `then` and whose position is the start of the group, then `Expected at least one item` of
the one-or-more check on the absent `then` section, at the zero position. The document holds one
`TheoremGroup`, whose `then` is the default empty value. -/
theorem theoremWithoutThen_diagnostics (env : Env) (rest : List String)
    (form : String → Position → DiagnosticTracker → FormulationNode)
    (hident : env.IdentifySections = IdentifySectionsSpec)
    (htable : env.TheoremSections = UpperTheoremName :: (LowerGivenName ++ "?") :: rest)
    (hrest : rest.filter (fun token => !slotOptional token) = [LowerThenName])
    (hform : ∀ text position t, env.ParseForm text position t = (some (form text position t), []))
    (start : Position) (t : DiagnosticTracker) :
    (Parse env ⟨[TopLevelNodeType.Group (theoremWithoutThen start)]⟩ t).2
      = t ++ [missingSection LowerThenName start,
          newError "Expected at least one item" default] ∧
    (missingSection LowerThenName start).Origin = DiagnosticOrigin.Phase5ParserOrigin ∧
    (missingSection LowerThenName start).Severity = DiagnosticType.Error ∧
    (missingSection LowerThenName start).Position = (theoremWithoutThen start).Start ∧
    (∃ before after,
      (missingSection LowerThenName start).Message.data = before ++ LowerThenName.data ++ after) ∧
    (∃ grp : TheoremGroup,
      (Parse env ⟨[TopLevelNodeType.Group (theoremWithoutThen start)]⟩ t).1.1.Items
        = [TopLevelItemType.TheoremGroup grp] ∧
      grp.Then.Clauses = []) := by
  have h := theoremWithoutThen_parse env rest form hident htable hrest hform start t
  refine ⟨by rw [h], rfl, rfl, rfl, ⟨"Expected section '".data, "'".data, rfl⟩, ?_⟩
  rw [h]
  exact ⟨_, rfl, rfl⟩

/-- Scenario S2 in the environment of the scenarios, whose `Theorem` table is the head, an
optional `given` and `then`. -/
theorem theoremWithoutThen_diagnostics_witness :
    (Parse (scenarioEnv ⟨0⟩) ⟨[TopLevelNodeType.Group (theoremWithoutThen ⟨3, 1, 0⟩)]⟩ []).2
      = [] ++ [missingSection LowerThenName ⟨3, 1, 0⟩,
          newError "Expected at least one item" default] :=
  (theoremWithoutThen_diagnostics (scenarioEnv ⟨0⟩) [LowerThenName] (fun _ _ _ => ⟨0⟩)
    rfl rfl (by decide) (fun _ _ _ => rfl) ⟨3, 1, 0⟩ []).1

/-! ## The head section of a Theorem group -/

theorem toTextItem_apply (arg : Argument) (t : DiagnosticTracker) :
    toTextItem arg t = (textItemOf arg, t ++ textItemErrors arg) := by
  obtain ⟨data, start⟩ := arg
  cases data <;>
    simp [toTextItem, textItemOf, textItemErrors, Argument.Arg, Argument.Start, pure_apply,
      bind_apply, Append_apply]

theorem toTextItems_apply (args : List Argument) (t : DiagnosticTracker) :
    toTextItems args t = (args.map textItemOf, t ++ (args.map textItemErrors).flatten) := by
  unfold toTextItems
  induction args generalizing t with
  | nil => simp [forEachArg, pure_apply]
  | cons arg args ih =>
    simp [forEachArg, bind_apply, pure_apply, toTextItem_apply, ih, List.append_assoc]

theorem toTheoremSection_apply (sec : Section) (t : DiagnosticTracker) :
    toTheoremSection sec t =
      ({ Theorem := sec.Args.map textItemOf }, t ++ (sec.Args.map textItemErrors).flatten) := by
  simp [toTheoremSection, zeroOrMoreTextItems, bind_apply, pure_apply, toTextItems_apply]

/-- The spec identifier files the head section under the head slot. -/
theorem identified_head (env : Env) (head : Section) (others : List Section)
    (name : String) (restTable : List String) (t after : DiagnosticTracker)
    (sections : SectionMap)
    (hident : env.IdentifySections = IdentifySectionsSpec)
    (hslot : slotName name = name)
    (hname : head.Name = name)
    (h : IdentifySections env (head :: others) (name :: restTable) t = (some sections, after)) :
    sections.get name = head := by
  simp only [IdentifySections, callExternal, hident, Prod.mk.injEq] at h
  obtain ⟨h, -⟩ := h
  have hno : matchesNoSlot (name :: restTable) head = false := by
    simp [matchesNoSlot, hslot, hname]
  have hwalk : ∀ start, (identifyWalk start (name :: restTable) 0 (head :: others)).1.1 =
      (name, 0) :: (identifyWalk start restTable 1 others).1.1 := by
    intro start
    simp [identifyWalk, hno, hslot, hname]
  unfold IdentifySectionsSpec at h
  simp only [hwalk] at h
  split at h
  · simp only [Option.map_some', Option.some.injEq] at h
    subst h
    simp [resolveSections, SectionMap.get, SectionMap.find, List.lookup]
  · simp at h


/-- C7: with the section identifier of the spec and a `Theorem` schema whose head slot is
`Theorem`, every `Theorem` group that the identifier accepts gets as its `Theorem` field one
`TextItem` per argument of the head section, in source order, a text argument giving the item
with its text (any other argument the empty item); converting the head section appends the
diagnostics of its arguments, and a text argument has none. -/
theorem toTheoremGroup_theorem_field (env : Env) (group : Group) (t : DiagnosticTracker)
    (head : Section) (others : List Section) (restTable : List String)
    (hident : env.IdentifySections = IdentifySectionsSpec)
    (htable : env.TheoremSections = UpperTheoremName :: restTable)
    (hsec : group.Sections = head :: others) (hname : head.Name = UpperTheoremName)
    (hok : (toTheoremGroup env group t).1.2 = true) :
    (toTheoremGroup env group t).1.1.Theorem.Theorem = head.Args.map textItemOf ∧
    (∀ before, toTheoremSection head before =
      ({ Theorem := head.Args.map textItemOf },
        before ++ (head.Args.map textItemErrors).flatten)) ∧
    (∀ arg text, arg.Arg = ArgumentDataType.TextArgumentData text →
      textItemOf arg = { RawText := text } ∧ textItemErrors arg = []) := by
  refine ⟨?_, fun before => toTheoremSection_apply head before, ?_⟩
  · have hstart : startsWithSections group [UpperTheoremName] = true :=
      (startsWithSections_singleton group _).2 ⟨head, others, hsec, hname⟩
    unfold toTheoremGroup at hok ⊢
    simp only [hstart, Bool.not_true, Bool.false_eq_true, if_false, bind_apply] at hok ⊢
    rcases hid : IdentifySections env group.Sections env.TheoremSections
      (getId env group false t).2 with ⟨_ | sections, after⟩
    · rw [hid] at hok
      simp [pure_apply] at hok
    · rw [hsec, htable] at hid
      have hhead := identified_head env head others UpperTheoremName restTable _ after sections
        hident (by decide) hname hid
      simp only [bind_apply, pure_apply, hhead, toTheoremSection_apply]
  · intro arg text h
    simp [textItemOf, textItemErrors, h]


/-- Witness of C7: scenario S1, whose head holds the single text `Pythagoras`. -/
theorem toTheoremGroup_theorem_field_witness :
    (toTheoremGroup (scenarioEnv ⟨0⟩) pythagorasScenario []).1.2 = true ∧
    (toTheoremGroup (scenarioEnv ⟨0⟩) pythagorasScenario []).1.1.Theorem.Theorem
      = [{ RawText := "Pythagoras" }] ∧
    (toTheoremGroup (scenarioEnv ⟨0⟩) pythagorasScenario []).2 = [] :=
  ⟨by decide,
    (toTheoremGroup_theorem_field (scenarioEnv ⟨0⟩) pythagorasScenario []
      (Section.mk "Theorem"
        [Argument.mk (ArgumentDataType.TextArgumentData "Pythagoras") ⟨11, 1, 2⟩] ⟨0, 0, 0⟩)
      _ [LowerGivenName ++ "?", LowerThenName] rfl rfl rfl rfl (by decide)).1,
    by decide⟩

/-! ## Groups that need a bracketed id -/

theorem getId_required_none (env : Env) (group : Group) (t : DiagnosticTracker)
    (hid : group.Id = none) :
    getId env group true t = (none, t ++ [newError "Expected a [...] item" group.Start]) := by
  simp [getId, hid, bind_apply, pure_apply, Append_apply]

theorem getStringId_required_none (group : Group) (t : DiagnosticTracker)
    (hid : group.Id = none) :
    getStringId group true t = (none, t ++ [newError "Expected a [...] item" group.Start]) := by
  simp [getStringId, hid, bind_apply, pure_apply, Append_apply]

theorem toDescribesGroup_missing_id (env : Env) (group : Group) (t : DiagnosticTracker)
    (hid : group.Id = none) (hstart : startsWithSections group [UpperDescribesName] = true) :
    (toDescribesGroup env group t).1.2 = false ∧
    ∃ more, (toDescribesGroup env group t).2 =
      t ++ newError "Expected a [...] item" group.Start :: more := by
  obtain ⟨more, hmore⟩ := (IdentifySections_appendOnly env group.Sections env.DescribesSections).out
    (t ++ [newError "Expected a [...] item" group.Start])
  unfold toDescribesGroup
  simp only [hstart, Bool.not_true, Bool.false_eq_true, if_false, bind_apply,
    getId_required_none env group t hid]
  cases (IdentifySections env group.Sections env.DescribesSections
    (t ++ [newError "Expected a [...] item" group.Start])).1 <;>
  exact ⟨rfl, more, by simpa [pure_apply] using hmore⟩

theorem toDefinesGroup_missing_id (env : Env) (group : Group) (t : DiagnosticTracker)
    (hid : group.Id = none) (hstart : startsWithSections group [UpperDefinesName] = true) :
    (toDefinesGroup env group t).1.2 = false ∧
    ∃ more, (toDefinesGroup env group t).2 =
      t ++ newError "Expected a [...] item" group.Start :: more := by
  obtain ⟨more, hmore⟩ := (IdentifySections_appendOnly env group.Sections env.DefinesSections).out
    (t ++ [newError "Expected a [...] item" group.Start])
  unfold toDefinesGroup
  simp only [hstart, Bool.not_true, Bool.false_eq_true, if_false, bind_apply,
    getId_required_none env group t hid]
  cases (IdentifySections env group.Sections env.DefinesSections
    (t ++ [newError "Expected a [...] item" group.Start])).1 <;>
  exact ⟨rfl, more, by simpa [pure_apply] using hmore⟩

theorem toStatesGroup_missing_id (env : Env) (group : Group) (t : DiagnosticTracker)
    (hid : group.Id = none) (hstart : startsWithSections group [UpperStatesName] = true) :
    (toStatesGroup env group t).1.2 = false ∧
    ∃ more, (toStatesGroup env group t).2 =
      t ++ newError "Expected a [...] item" group.Start :: more := by
  obtain ⟨more, hmore⟩ := (IdentifySections_appendOnly env group.Sections env.StatesSections).out
    (t ++ [newError "Expected a [...] item" group.Start])
  unfold toStatesGroup
  simp only [hstart, Bool.not_true, Bool.false_eq_true, if_false, bind_apply,
    getId_required_none env group t hid]
  cases (IdentifySections env group.Sections env.StatesSections
    (t ++ [newError "Expected a [...] item" group.Start])).1 <;>
  exact ⟨rfl, more, by simpa [pure_apply] using hmore⟩

theorem toTopicGroup_missing_id (env : Env) (group : Group) (t : DiagnosticTracker)
    (hid : group.Id = none) (hstart : startsWithSections group [UpperTopicName] = true) :
    (toTopicGroup env group t).1.2 = false ∧
    ∃ more, (toTopicGroup env group t).2 =
      t ++ newError "Expected a [...] item" group.Start :: more := by
  obtain ⟨more, hmore⟩ := (IdentifySections_appendOnly env group.Sections env.TopicSections).out
    (t ++ [newError "Expected a [...] item" group.Start])
  unfold toTopicGroup
  simp only [hstart, Bool.not_true, Bool.false_eq_true, if_false, bind_apply,
    getId_required_none env group t hid]
  cases (IdentifySections env group.Sections env.TopicSections
    (t ++ [newError "Expected a [...] item" group.Start])).1 <;>
  exact ⟨rfl, more, by simpa [pure_apply] using hmore⟩

theorem toPersonGroup_missing_id (env : Env) (group : Group) (t : DiagnosticTracker)
    (hid : group.Id = none) (hstart : startsWithSections group [UpperPersonName] = true) :
    (toPersonGroup env group t).1.2 = false ∧
    ∃ more, (toPersonGroup env group t).2 =
      t ++ newError "Expected a [...] item" group.Start :: more := by
  obtain ⟨more, hmore⟩ := (IdentifySections_appendOnly env group.Sections env.PersonSections).out
    (t ++ [newError "Expected a [...] item" group.Start])
  unfold toPersonGroup
  simp only [hstart, Bool.not_true, Bool.false_eq_true, if_false, bind_apply,
    getStringId_required_none group t hid]
  cases (IdentifySections env group.Sections env.PersonSections
    (t ++ [newError "Expected a [...] item" group.Start])).1 <;>
  exact ⟨rfl, more, by simpa [pure_apply] using hmore⟩

theorem toResourceGroup_missing_id (env : Env) (group : Group) (t : DiagnosticTracker)
    (hid : group.Id = none) (hstart : startsWithSections group [UpperResourceName] = true) :
    (toResourceGroup env group t).1.2 = false ∧
    ∃ more, (toResourceGroup env group t).2 =
      t ++ newError "Expected a [...] item" group.Start :: more := by
  obtain ⟨more, hmore⟩ := (IdentifySections_appendOnly env group.Sections env.ResourceSections).out
    (t ++ [newError "Expected a [...] item" group.Start])
  unfold toResourceGroup
  simp only [hstart, Bool.not_true, Bool.false_eq_true, if_false, bind_apply,
    getStringId_required_none group t hid]
  cases (IdentifySections env group.Sections env.ResourceSections
    (t ++ [newError "Expected a [...] item" group.Start])).1 <;>
  exact ⟨rfl, more, by simpa [pure_apply] using hmore⟩

/-- C10: a group without bracketed id whose head section is `Describes`, `Defines`, `States`,
`Topic`, `Person` or `Resource` makes its group parser return `ok = false` and append the
diagnostic `Expected a [...] item` at the start of the group (before whatever the section
identifier appends), whatever the sections of the group are. -/
theorem id_required_groups_reject_missing_id (env : Env) (group : Group)
    (t : DiagnosticTracker) (head : Section) (others : List Section)
    (hid : group.Id = none) (hsec : group.Sections = head :: others) :
    (head.Name = UpperDescribesName →
      (toDescribesGroup env group t).1.2 = false ∧
      ∃ more, (toDescribesGroup env group t).2 =
        t ++ newError "Expected a [...] item" group.Start :: more) ∧
    (head.Name = UpperDefinesName →
      (toDefinesGroup env group t).1.2 = false ∧
      ∃ more, (toDefinesGroup env group t).2 =
        t ++ newError "Expected a [...] item" group.Start :: more) ∧
    (head.Name = UpperStatesName →
      (toStatesGroup env group t).1.2 = false ∧
      ∃ more, (toStatesGroup env group t).2 =
        t ++ newError "Expected a [...] item" group.Start :: more) ∧
    (head.Name = UpperTopicName →
      (toTopicGroup env group t).1.2 = false ∧
      ∃ more, (toTopicGroup env group t).2 =
        t ++ newError "Expected a [...] item" group.Start :: more) ∧
    (head.Name = UpperPersonName →
      (toPersonGroup env group t).1.2 = false ∧
      ∃ more, (toPersonGroup env group t).2 =
        t ++ newError "Expected a [...] item" group.Start :: more) ∧
    (head.Name = UpperResourceName →
      (toResourceGroup env group t).1.2 = false ∧
      ∃ more, (toResourceGroup env group t).2 =
        t ++ newError "Expected a [...] item" group.Start :: more) :=
  ⟨fun h => toDescribesGroup_missing_id env group t hid
      ((startsWithSections_singleton group _).2 ⟨head, others, hsec, h⟩),
    fun h => toDefinesGroup_missing_id env group t hid
      ((startsWithSections_singleton group _).2 ⟨head, others, hsec, h⟩),
    fun h => toStatesGroup_missing_id env group t hid
      ((startsWithSections_singleton group _).2 ⟨head, others, hsec, h⟩),
    fun h => toTopicGroup_missing_id env group t hid
      ((startsWithSections_singleton group _).2 ⟨head, others, hsec, h⟩),
    fun h => toPersonGroup_missing_id env group t hid
      ((startsWithSections_singleton group _).2 ⟨head, others, hsec, h⟩),
    fun h => toResourceGroup_missing_id env group t hid
      ((startsWithSections_singleton group _).2 ⟨head, others, hsec, h⟩)⟩

/-- Witness of C10: one group without id for each of the six heads. -/
theorem id_required_groups_reject_missing_id_witness :
    (toDescribesGroup (scenarioEnv ⟨0⟩) (headOnlyGroup UpperDescribesName) []).1.2 = false ∧
    (toDefinesGroup (scenarioEnv ⟨0⟩) (headOnlyGroup UpperDefinesName) []).1.2 = false ∧
    (toStatesGroup (scenarioEnv ⟨0⟩) (headOnlyGroup UpperStatesName) []).1.2 = false ∧
    (toTopicGroup (scenarioEnv ⟨0⟩) (headOnlyGroup UpperTopicName) []).1.2 = false ∧
    (toPersonGroup (scenarioEnv ⟨0⟩) (headOnlyGroup UpperPersonName) []).1.2 = false ∧
    (toResourceGroup (scenarioEnv ⟨0⟩) (headOnlyGroup UpperResourceName) []).1.2 = false :=
  ⟨((id_required_groups_reject_missing_id (scenarioEnv ⟨0⟩) (headOnlyGroup UpperDescribesName) []
      _ _ rfl rfl).1 rfl).1,
    ((id_required_groups_reject_missing_id (scenarioEnv ⟨0⟩) (headOnlyGroup UpperDefinesName) []
      _ _ rfl rfl).2.1 rfl).1,
    ((id_required_groups_reject_missing_id (scenarioEnv ⟨0⟩) (headOnlyGroup UpperStatesName) []
      _ _ rfl rfl).2.2.1 rfl).1,
    ((id_required_groups_reject_missing_id (scenarioEnv ⟨0⟩) (headOnlyGroup UpperTopicName) []
      _ _ rfl rfl).2.2.2.1 rfl).1,
    ((id_required_groups_reject_missing_id (scenarioEnv ⟨0⟩) (headOnlyGroup UpperPersonName) []
      _ _ rfl rfl).2.2.2.2.1 rfl).1,
    ((id_required_groups_reject_missing_id (scenarioEnv ⟨0⟩) (headOnlyGroup UpperResourceName) []
      _ _ rfl rfl).2.2.2.2.2 rfl).1⟩

/-! ## Wrong argument kinds -/

/-- C19: a wrong argument kind is reported once and replaced by the default. `toTextItem` on
a text argument returns the item with exactly that text and appends nothing; on each other
payload (formulation, argument text, group) it appends exactly one `Phase5ParserOrigin` error
at the start of the argument and returns the empty `TextItem`. `toTarget` on each payload
other than argument text (formulation, text, group) appends exactly one such error at the
start of the argument and returns the empty `Target`. -/
theorem wrong_argument_kind_reported_once (env : Env) (text : String) (group : Group)
    (start : Position) (t : DiagnosticTracker) :
    toTextItem ⟨.TextArgumentData text, start⟩ t = ({ RawText := text }, t)
    ∧ toTextItem ⟨.FormulationArgumentData text, start⟩ t
        = ({ RawText := "" }, t ++ [newError "Expected a \"...\" item" start])
    ∧ toTextItem ⟨.ArgumentTextArgumentData text, start⟩ t
        = ({ RawText := "" }, t ++ [newError "Expected a \"...\" item" start])
    ∧ toTextItem ⟨.Group group, start⟩ t
        = ({ RawText := "" }, t ++ [newError "Expected a \"...\" item" start])
    ∧ toTarget env ⟨.FormulationArgumentData text, start⟩ t
        = ({ RawText := "", Root := none, Label := none },
            t ++ [newError "Expected a name, function, set, tuple, or ':=' declaration" start])
    ∧ toTarget env ⟨.TextArgumentData text, start⟩ t
        = ({ RawText := "", Root := none, Label := none },
            t ++ [newError "Expected a name, function, set, tuple, or ':=' declaration" start])
    ∧ toTarget env ⟨.Group group, start⟩ t
        = ({ RawText := "", Root := none, Label := none },
            t ++ [newError "Expected a name, function, set, tuple, or ':=' declaration" start])
    ∧ (∀ message : String,
        (newError message start).Origin = DiagnosticOrigin.Phase5ParserOrigin
        ∧ (newError message start).Severity = DiagnosticType.Error
        ∧ (newError message start).Position = start) :=
  ⟨rfl, rfl, rfl, rfl, rfl, rfl, rfl, fun _ => ⟨rfl, rfl, rfl⟩⟩

/-! ## The document loop over a concatenated root -/

theorem toDocumentItems_append (env : Env) (xs ys : List TopLevelNodeType)
    (t : DiagnosticTracker) :
    toDocumentItems env (xs ++ ys) t =
      ((toDocumentItems env xs t).1 ++ (toDocumentItems env ys (toDocumentItems env xs t).2).1,
        (toDocumentItems env ys (toDocumentItems env xs t).2).2) := by
  induction xs generalizing t with
  | nil => simp [toDocumentItems, pure_apply]
  | cons node nodes ih =>
    simp only [List.cons_append, toDocumentItems, bind_apply, pure_apply, List.append_eq]
    rw [ih]
    split <;> simp

/-! ## The fields of a ForAll group -/

/-- C20: whenever `toForAllGroup` succeeds, section identification returned a map `sections`,
the fields `ForAll` and `Then` are the conversions of the sections that the map holds under
`forAll` and `then`, and each optional field (`Where`, `SuchThat`) is the conversion of the
section that the map holds under that slot's name, so it is populated if and only if the map
holds a section under that name. The sections are converted in the order `forAll`, `where`,
`suchThat`, `then`, each from the tracker that the one before left. -/
theorem toForAllGroup_fields (env : Env) (toClause : Argument → P Clause) (group : Group)
    (t : DiagnosticTracker) (hok : (toForAllGroup env toClause group t).1.2 = true) :
    ∃ sections : SectionMap,
      (IdentifySections env group.Sections env.ForAllSections t).1 = some sections
      ∧ (toForAllGroup env toClause group t).1.1.ForAll =
          (toForAllSection env (sections.get LowerForAllName)
            (IdentifySections env group.Sections env.ForAllSections t).2).1
      ∧ (toForAllGroup env toClause group t).1.1.Where =
          (ifPresent (sections.find LowerWhereName) (toWhereSection env)
            (toForAllSection env (sections.get LowerForAllName)
              (IdentifySections env group.Sections env.ForAllSections t).2).2).1
      ∧ (toForAllGroup env toClause group t).1.1.SuchThat =
          (ifPresent (sections.find LowerSuchThatName) (toSuchThatSection toClause)
            (ifPresent (sections.find LowerWhereName) (toWhereSection env)
              (toForAllSection env (sections.get LowerForAllName)
                (IdentifySections env group.Sections env.ForAllSections t).2).2).2).1
      ∧ (toForAllGroup env toClause group t).1.1.Then =
          (toThenSection toClause (sections.get LowerThenName)
            (ifPresent (sections.find LowerSuchThatName) (toSuchThatSection toClause)
              (ifPresent (sections.find LowerWhereName) (toWhereSection env)
                (toForAllSection env (sections.get LowerForAllName)
                  (IdentifySections env group.Sections env.ForAllSections t).2).2).2).2).1
      ∧ ((toForAllGroup env toClause group t).1.1.Where.isSome
          ↔ (sections.find LowerWhereName).isSome)
      ∧ ((toForAllGroup env toClause group t).1.1.SuchThat.isSome
          ↔ (sections.find LowerSuchThatName).isSome) := by
  unfold toForAllGroup at hok ⊢
  by_cases hhead : startsWithSections group [LowerForAllName] = true
  · simp only [hhead, Bool.not_true, Bool.false_eq_true, if_false, bind_apply] at hok ⊢
    rcases hid : (IdentifySections env group.Sections env.ForAllSections t).1 with _ | sections
    · simp [hid, pure_apply] at hok
    · refine ⟨sections, rfl, ?_⟩
      simp only [bind_apply, pure_apply]
      refine ⟨trivial, trivial, trivial, trivial, ?_, ?_⟩
      · cases sections.find LowerWhereName <;> simp [ifPresent, bind_apply, pure_apply]
      · cases sections.find LowerSuchThatName <;> simp [ifPresent, bind_apply, pure_apply]
  · simp [hhead, pure_apply] at hok

theorem toForAllGroup_fields_witness :
    (toForAllGroup (scenarioEnv ⟨0⟩) (toClause (scenarioEnv ⟨0⟩)) forAllScenario []).1.2 = true
    ∧ (toForAllGroup (scenarioEnv ⟨0⟩) (toClause (scenarioEnv ⟨0⟩)) forAllScenario
        []).1.1.Where.isSome = true
    ∧ (toForAllGroup (scenarioEnv ⟨0⟩) (toClause (scenarioEnv ⟨0⟩)) forAllScenario
        []).1.1.SuchThat.isSome = false
    ∧ ∃ sections : SectionMap,
      (IdentifySections (scenarioEnv ⟨0⟩) forAllScenario.Sections
        (scenarioEnv ⟨0⟩).ForAllSections []).1 = some sections
      ∧ ((toForAllGroup (scenarioEnv ⟨0⟩) (toClause (scenarioEnv ⟨0⟩)) forAllScenario
            []).1.1.Where.isSome ↔ (sections.find LowerWhereName).isSome)
      ∧ ((toForAllGroup (scenarioEnv ⟨0⟩) (toClause (scenarioEnv ⟨0⟩)) forAllScenario
            []).1.1.SuchThat.isSome ↔ (sections.find LowerSuchThatName).isSome) :=
  ⟨by decide, by decide, by decide,
    (toForAllGroup_fields (scenarioEnv ⟨0⟩) (toClause (scenarioEnv ⟨0⟩)) forAllScenario []
      (by decide)).imp (fun _ h => ⟨h.1, h.2.2.2.2.2.1, h.2.2.2.2.2.2⟩)⟩

/-! ## The diagnostic of a clause that matches no kind -/

/-- C12 (evaluation of the code): for a clause argument that is a group with the head `foo`,
which no clause kind accepts, `toClause` appends one diagnostic and its message is
"Expected a '...', `...`, exists:, existsUnique:, forAll:, if:, or iff: item". Of the twelve
heads of the dispatch the message names exactly `forAll`, `exists`, `existsUnique`, `if` and
`iff`; it does not name `allOf`, `not`, `anyOf`, `oneOf`, `when`, `piecewise` or `given`. -/
theorem toClause_error_names_five_heads (env : Env) (t : DiagnosticTracker) :
    toClause env ⟨ArgumentDataType.Group (headOnlyGroup "foo"), ⟨0, 0, 0⟩⟩ t =
      (Clause.Formulation default,
        t ++ [newError "Expected a '...', `...`, exists:, existsUnique:, forAll:, if:, or iff: item"
          ⟨0, 0, 0⟩])
    ∧ clauseHeads.filter
          (mentions "Expected a '...', `...`, exists:, existsUnique:, forAll:, if:, or iff: item")
        = [LowerForAllName, LowerExistsName, LowerExistsUniqueName, LowerIfName, LowerIffName]
    ∧ clauseHeads.filter (fun head =>
          !mentions "Expected a '...', `...`, exists:, existsUnique:, forAll:, if:, or iff: item"
            head)
        = [LowerAllOfName, LowerNotName, LowerAnyOfName, LowerOneOfName, LowerWhenName,
            LowerPiecewiseName, LowerGivenName] :=
  ⟨rfl, by rfl, by rfl⟩

/-! ## At most one head check passes -/

theorem startsWithSections_head_unique (group : Group) (a b : String)
    (ha : startsWithSections group [a] = true) (hb : startsWithSections group [b] = true) :
    a = b := by
  obtain ⟨head, rest, hsec, hname⟩ := (startsWithSections_singleton group a).1 ha
  obtain ⟨head2, rest2, hsec2, hname2⟩ := (startsWithSections_singleton group b).1 hb
  rw [hsec] at hsec2
  cases hsec2
  rw [← hname, ← hname2]

theorem filter_length_le_one {α : Type} (p : α → Bool) (l : List α) (hl : l.Nodup)
    (hp : ∀ a b, p a = true → p b = true → a = b) : (l.filter p).length ≤ 1 := by
  induction l with
  | nil => simp
  | cons a l ih =>
    rw [List.nodup_cons] at hl
    by_cases ha : p a = true
    · have hnone : l.filter p = [] := by
        rw [List.filter_eq_nil_iff]
        intro b hb hpb
        exact hl.1 (hp a b ha hpb ▸ hb)
      simp [List.filter_cons, ha, hnone]
    · simpa [List.filter_cons, ha] using ih hl.2

theorem topLevelAlternatives_no_head (env : Env) (group : Group) (t : DiagnosticTracker) :
    ∀ alt ∈ topLevelAlternatives env group,
      startsWithSections group [alt.1] = false → alt.2 t = (((), false), t) := by
  intro alt halt hhead
  simp only [topLevelAlternatives, List.mem_cons, List.mem_singleton, List.not_mem_nil,
    or_false] at halt
  rcases halt with rfl | rfl | rfl | rfl | rfl | rfl | rfl | rfl | rfl | rfl <;>
    simp only [] at hhead <;>
    simp [asItem_apply, toDefinesGroup, toDescribesGroup, toStatesGroup, toAxiomGroup,
      toConjectureGroup, toTheoremGroup, toSpecifyGroup, toTopicGroup, toPersonGroup,
      toResourceGroup, hhead, pure_apply]

theorem clauseAlternatives_no_head (env : Env) (toClause : Argument → P Clause) (group : Group)
    (t : DiagnosticTracker) :
    ∀ alt ∈ clauseAlternatives env toClause group,
      startsWithSections group [alt.1] = false → alt.2 t = (((), false), t) := by
  intro alt halt hhead
  simp only [clauseAlternatives, List.mem_cons, List.mem_singleton, List.not_mem_nil,
    or_false] at halt
  rcases halt with rfl | rfl | rfl | rfl | rfl | rfl | rfl | rfl | rfl | rfl | rfl | rfl <;>
    simp only [] at hhead <;>
    simp [asItem_apply, toAllOfGroup, toNotGroup, toAnyOfGroup, toOneOfGroup, toForAllGroup,
      toExistsGroup, toExistsUniqueGroup, toIfGroup, toIffGroup, toWhenGroup, toPiecewiseGroup,
      toGivenGroup, hhead, pure_apply]

/-- C13: only one schema can match a given head. The ten group parsers of top-level dispatch
and the twelve of clause dispatch each start with the check `startsWithSections` against
their own head name, and a parser whose check fails returns `ok = false` and leaves the
tracker as it was. The ten head names are pairwise distinct and so are the twelve, hence for
every phase-4 group at most one of the ten checks and at most one of the twelve checks
passes. -/
theorem at_most_one_head_check_passes (env : Env) (toClause : Argument → P Clause)
    (group : Group) (t : DiagnosticTracker) :
    (topLevelAlternatives env group).map Prod.fst = topLevelHeads
    ∧ (clauseAlternatives env toClause group).map Prod.fst = clauseHeads
    ∧ (∀ alt ∈ topLevelAlternatives env group,
        startsWithSections group [alt.1] = false → alt.2 t = (((), false), t))
    ∧ (∀ alt ∈ clauseAlternatives env toClause group,
        startsWithSections group [alt.1] = false → alt.2 t = (((), false), t))
    ∧ topLevelHeads.Nodup
    ∧ clauseHeads.Nodup
    ∧ (topLevelHeads.filter (fun head => startsWithSections group [head])).length ≤ 1
    ∧ (clauseHeads.filter (fun head => startsWithSections group [head])).length ≤ 1 :=
  ⟨rfl, rfl, topLevelAlternatives_no_head env group t,
    clauseAlternatives_no_head env toClause group t, by decide, by decide,
    filter_length_le_one _ _ (by decide) (startsWithSections_head_unique group),
    filter_length_le_one _ _ (by decide) (startsWithSections_head_unique group)⟩

/-! ## Arguments that a list conversion drops -/

/-- C18 (evaluation of the code): `toJustifiedTypes`, `toPersonTypes` and `toResourceTypes`
skip a text argument without a diagnostic: the result and the tracker are those of the
remaining arguments alone. For the `Justified` section with the arguments `by: "ref"` and
`"stray"` the conversion returns one element for two arguments and appends nothing. The
sibling loops `toDocumentedTypes` and `toSpecifyTypes` append one error at the start of such an
argument. -/
theorem stray_argument_dropped_silently (env : Env) (args : List Argument) (text : String)
    (start : Position) (t : DiagnosticTracker) :
    toJustifiedTypes env (⟨ArgumentDataType.TextArgumentData text, start⟩ :: args) t
        = toJustifiedTypes env args t
    ∧ toPersonTypes env (⟨ArgumentDataType.TextArgumentData text, start⟩ :: args) t
        = toPersonTypes env args t
    ∧ toResourceTypes env (⟨ArgumentDataType.TextArgumentData text, start⟩ :: args) t
        = toResourceTypes env args t
    ∧ justifiedWithStray.Args.length = 2
    ∧ (oneOrMoreJustifiedType (scenarioEnv ⟨0⟩) justifiedWithStray []).1.length = 1
    ∧ (oneOrMoreJustifiedType (scenarioEnv ⟨0⟩) justifiedWithStray []).2 = []
    ∧ (∃ d, (toDocumentedTypes env [⟨ArgumentDataType.TextArgumentData text, start⟩] t)
        = ([], t ++ [d]) ∧ d.Position = start)
    ∧ (∃ d, (toSpecifyTypes env [⟨ArgumentDataType.TextArgumentData text, start⟩] t)
        = ([], t ++ [d]) ∧ d.Position = start) := by
  refine ⟨?_, ?_, ?_, rfl, by decide, by decide, ⟨_, rfl, rfl⟩, ⟨_, rfl, rfl⟩⟩
  · simp [toJustifiedTypes, forEachArgIfOk, toJustifiedTypeFromArg, Argument.Arg, bind_apply,
      pure_apply]
  · simp [toPersonTypes, forEachArgIfOk, toPersonType, Argument.Arg, bind_apply, pure_apply]
  · simp [toResourceTypes, forEachArgIfOk, toResourceType, Argument.Arg, bind_apply, pure_apply]

/-! ## The cardinality of the descriptor sections -/

theorem exactlyOneTextItem_tracker (sec : Section) (t : DiagnosticTracker) :
    (exactlyOneTextItem sec t).2 =
      t ++ (sec.Args.map textItemErrors).flatten ++
        (if sec.Args.length ≠ 1 then [newError "Expected at exactly one item" sec.Start]
          else []) := by
  simp only [exactlyOneTextItem, bind_apply, toTextItems_apply, exactlyOne, List.length_map]
  by_cases h : sec.Args.length = 1
  · simp only [h, ne_eq, not_true_eq_false, if_false, pure_apply, List.append_nil]
    cases sec.Args <;> simp [pure_apply]
  · simp only [h, ne_eq, not_false_eq_true, if_true, Append_apply]
    cases sec.Args <;> simp [pure_apply]

theorem oneOrMoreTextItems_tracker (sec : Section) (t : DiagnosticTracker) :
    (oneOrMoreTextItems sec t).2 =
      t ++ (sec.Args.map textItemErrors).flatten ++
        (if sec.Args.length = 0 then [newError "Expected at least one item" sec.Start]
          else []) := by
  simp only [oneOrMoreTextItems, bind_apply, toTextItems_apply, oneOrMore, List.length_map]
  by_cases h : sec.Args.length = 0
  · simp [h, bind_apply, pure_apply, Append_apply]
  · simp [h, pure_apply]

/-- C16 (counterexample): converting the `editor` section with two text arguments appends no
diagnostic, although its number of arguments is not one. -/
theorem editor_with_two_arguments_not_reported :
    editorWithTwo.Args.length = 2
    ∧ (toEditorSection editorWithTwo []).2 = []
    ∧ (toEditorSection editorWithTwo []).1.Editor =
        [{ RawText := "A. Editor" }, { RawText := "B. Editor" }] :=
  ⟨rfl, rfl, rfl⟩

/-- C16 (amended): the descriptor sections `title`, `url`, `year`, `month`, `edition`,
`volume`, `type`, `homepage`, `description`, `offset`, `overview`, `motivation`, `history`,
`biography`, `content`, `describing`, `proof` (the section `Proof`) and `label` have
cardinality exactly-one:
converting such a section appends, after the errors of its arguments, the cardinality
diagnostic "Expected at exactly one item" at the start of the section exactly when its number
of arguments is not one. The sections `journal`, `publisher`, `institution` and `editor` have
cardinality one-or-more: converting such a section appends the cardinality diagnostic
"Expected at least one item" exactly when it has no argument. -/
theorem descriptor_section_cardinality (sec : Section) (t : DiagnosticTracker) :
    (∀ entry ∈ exactlyOneDescriptors sec,
      (entry.2 t).2 =
        t ++ (sec.Args.map textItemErrors).flatten ++
          (if sec.Args.length ≠ 1 then [newError "Expected at exactly one item" sec.Start]
            else []))
    ∧ (∀ entry ∈ oneOrMoreDescriptors sec,
      (entry.2 t).2 =
        t ++ (sec.Args.map textItemErrors).flatten ++
          (if sec.Args.length = 0 then [newError "Expected at least one item" sec.Start]
            else [])) := by
  constructor
  · intro entry hentry
    simp only [exactlyOneDescriptors, List.mem_cons, List.mem_singleton, List.not_mem_nil,
      or_false] at hentry
    rcases hentry with rfl | rfl | rfl | rfl | rfl | rfl | rfl | rfl | rfl | rfl | rfl | rfl
      | rfl | rfl | rfl | rfl | rfl | rfl <;>
      simp only [discard, bind_apply, pure_apply, toTitleSection, toUlrSection, toYearSection,
        toMonthSection, toEditionSection, toVolumeSection, toTypeSection, toHomepageSection,
        toDescriptionSection, toOffsetSection, toOverviewSection, toMotivationSection,
        toHistorySection, toBiographySection, toContentSection, toDescribingSection,
        toProofSection, toLabelSection, exactlyOneTextItem_tracker]
  · intro entry hentry
    simp only [oneOrMoreDescriptors, List.mem_cons, List.mem_singleton, List.not_mem_nil,
      or_false] at hentry
    rcases hentry with rfl | rfl | rfl | rfl <;>
      simp only [discard, bind_apply, pure_apply, toJournalSection, toPublisherSection,
        toInstitutionSection, toEditorSection, oneOrMoreTextItems_tracker]

/-! ## The id of a group: parsed or opaque -/

theorem getId_some (env : Env) (group : Group) (id : String) (required : Bool)
    (t : DiagnosticTracker) (hid : group.Id = some id) :
    getId env group required t =
      ((env.ParseId id group.Start t).1.map
          (fun node => ({ RawText := id, Root := some node, Label := none } : IdItem)),
        t ++ (env.ParseId id group.Start t).2) := by
  simp only [getId, hid, toIdItem, bind_apply, ParseId, callExternal]
  cases (env.ParseId id group.Start t).1 <;> rfl

theorem getStringId_some (group : Group) (id : String) (required : Bool)
    (t : DiagnosticTracker) (hid : group.Id = some id) :
    getStringId group required t = (some id, t) := by
  simp [getStringId, hid, pure_apply]

theorem toDescribesGroup_id (env : Env) (group : Group) (id : String) (t : DiagnosticTracker)
    (hid : group.Id = some id) (hok : (toDescribesGroup env group t).1.2 = true) :
    (toDescribesGroup env group t).1.1.Id =
        { RawText := id, Root := (env.ParseId id group.Start t).1, Label := none }
      ∧ (env.ParseId id group.Start t).1.isSome = true := by
  unfold toDescribesGroup at hok ⊢
  by_cases hhead : startsWithSections group [UpperDescribesName] = true
  · simp only [hhead, Bool.not_true, Bool.false_eq_true, if_false, bind_apply,
      getId_some env group id true t hid] at hok ⊢
    rcases h1 : (env.ParseId id group.Start t).1 with _ | node
    · rcases h2 : (IdentifySections env group.Sections env.DescribesSections
          (t ++ (env.ParseId id group.Start t).2)).1 with _ | sections <;>
        simp [h1, h2, pure_apply] at hok
    · rcases h2 : (IdentifySections env group.Sections env.DescribesSections
          (t ++ (env.ParseId id group.Start t).2)).1 with _ | sections
      · simp [h1, h2, pure_apply] at hok
      · simp [h1, h2, bind_apply, pure_apply]
  · simp [hhead, pure_apply] at hok

theorem toDefinesGroup_id (env : Env) (group : Group) (id : String) (t : DiagnosticTracker)
    (hid : group.Id = some id) (hok : (toDefinesGroup env group t).1.2 = true) :
    (toDefinesGroup env group t).1.1.Id =
        { RawText := id, Root := (env.ParseId id group.Start t).1, Label := none }
      ∧ (env.ParseId id group.Start t).1.isSome = true := by
  unfold toDefinesGroup at hok ⊢
  by_cases hhead : startsWithSections group [UpperDefinesName] = true
  · simp only [hhead, Bool.not_true, Bool.false_eq_true, if_false, bind_apply,
      getId_some env group id true t hid] at hok ⊢
    rcases h1 : (env.ParseId id group.Start t).1 with _ | node
    · rcases h2 : (IdentifySections env group.Sections env.DefinesSections
          (t ++ (env.ParseId id group.Start t).2)).1 with _ | sections <;>
        simp [h1, h2, pure_apply] at hok
    · rcases h2 : (IdentifySections env group.Sections env.DefinesSections
          (t ++ (env.ParseId id group.Start t).2)).1 with _ | sections
      · simp [h1, h2, pure_apply] at hok
      · simp [h1, h2, bind_apply, pure_apply]
  · simp [hhead, pure_apply] at hok

theorem toStatesGroup_id (env : Env) (group : Group) (id : String) (t : DiagnosticTracker)
    (hid : group.Id = some id) (hok : (toStatesGroup env group t).1.2 = true) :
    (toStatesGroup env group t).1.1.Id =
        { RawText := id, Root := (env.ParseId id group.Start t).1, Label := none }
      ∧ (env.ParseId id group.Start t).1.isSome = true := by
  unfold toStatesGroup at hok ⊢
  by_cases hhead : startsWithSections group [UpperStatesName] = true
  · simp only [hhead, Bool.not_true, Bool.false_eq_true, if_false, bind_apply,
      getId_some env group id true t hid] at hok ⊢
    rcases h1 : (env.ParseId id group.Start t).1 with _ | node
    · rcases h2 : (IdentifySections env group.Sections env.StatesSections
          (t ++ (env.ParseId id group.Start t).2)).1 with _ | sections <;>
        simp [h1, h2, pure_apply] at hok
    · rcases h2 : (IdentifySections env group.Sections env.StatesSections
          (t ++ (env.ParseId id group.Start t).2)).1 with _ | sections
      · simp [h1, h2, pure_apply] at hok
      · simp [h1, h2, bind_apply, pure_apply]
  · simp [hhead, pure_apply] at hok

theorem toTopicGroup_id (env : Env) (group : Group) (id : String) (t : DiagnosticTracker)
    (hid : group.Id = some id) (hok : (toTopicGroup env group t).1.2 = true) :
    (toTopicGroup env group t).1.1.Id =
        { RawText := id, Root := (env.ParseId id group.Start t).1, Label := none }
      ∧ (env.ParseId id group.Start t).1.isSome = true := by
  unfold toTopicGroup at hok ⊢
  by_cases hhead : startsWithSections group [UpperTopicName] = true
  · simp only [hhead, Bool.not_true, Bool.false_eq_true, if_false, bind_apply,
      getId_some env group id true t hid] at hok ⊢
    rcases h1 : (env.ParseId id group.Start t).1 with _ | node
    · rcases h2 : (IdentifySections env group.Sections env.TopicSections
          (t ++ (env.ParseId id group.Start t).2)).1 with _ | sections <;>
        simp [h1, h2, pure_apply] at hok
    · rcases h2 : (IdentifySections env group.Sections env.TopicSections
          (t ++ (env.ParseId id group.Start t).2)).1 with _ | sections
      · simp [h1, h2, pure_apply] at hok
      · simp [h1, h2, bind_apply, pure_apply]
  · simp [hhead, pure_apply] at hok

theorem toPersonGroup_id (env : Env) (group : Group) (id : String) (t : DiagnosticTracker)
    (hid : group.Id = some id) (hok : (toPersonGroup env group t).1.2 = true) :
    (toPersonGroup env group t).1.1.Id = id := by
  unfold toPersonGroup at hok ⊢
  by_cases hhead : startsWithSections group [UpperPersonName] = true
  · simp only [hhead, Bool.not_true, Bool.false_eq_true, if_false, bind_apply,
      getStringId_some group id true t hid] at hok ⊢
    rcases h2 : (IdentifySections env group.Sections env.PersonSections t).1 with _ | sections
    · simp [h2, pure_apply] at hok
    · simp [h2, bind_apply, pure_apply]
  · simp [hhead, pure_apply] at hok

theorem toPersonGroup_parseId (env : Env)
    (parseId : String → Position → DiagnosticTracker → Option FormulationNode × List Diagnostic)
    (group : Group) :
    toPersonGroup { env with ParseId := parseId } group = toPersonGroup env group := by
  cases env; rfl

theorem toResourceGroup_id (env : Env) (group : Group) (id : String) (t : DiagnosticTracker)
    (hid : group.Id = some id) (hok : (toResourceGroup env group t).1.2 = true) :
    (toResourceGroup env group t).1.1.Id = id := by
  unfold toResourceGroup at hok ⊢
  by_cases hhead : startsWithSections group [UpperResourceName] = true
  · simp only [hhead, Bool.not_true, Bool.false_eq_true, if_false, bind_apply,
      getStringId_some group id true t hid] at hok ⊢
    rcases h2 : (IdentifySections env group.Sections env.ResourceSections t).1 with _ | sections
    · simp [h2, pure_apply] at hok
    · simp [h2, bind_apply, pure_apply]
  · simp [hhead, pure_apply] at hok

theorem toResourceGroup_parseId (env : Env)
    (parseId : String → Position → DiagnosticTracker → Option FormulationNode × List Diagnostic)
    (group : Group) :
    toResourceGroup { env with ParseId := parseId } group = toResourceGroup env group := by
  cases env; rfl

/-- C11 (counterexample): the id of a Topic group is fed to the formulation id parser. With an
id parser that rejects the text, `toTopicGroup` on the group `[a topic]` returns `ok = false`
and the tracker holds the diagnostic of the id parser; with an id parser that accepts it, the
Id of the Topic group is an `IdItem` that carries the parsed tree next to the raw text. On the
same environment with the rejecting id parser, the Person group `[a person]` is converted and
its Id is the text `a person`. -/
theorem topic_id_is_parsed_as_formulation_id :
    (toTopicGroup (topicEnv rejectId) topicScenario []).1.2 = false
    ∧ (toTopicGroup (topicEnv rejectId) topicScenario []).2 =
        [{ Severity := DiagnosticType.Error
           Origin := DiagnosticOrigin.FormulationParserOrigin
           Message := "not an id"
           Position := ⟨0, 0, 0⟩ }]
    ∧ (toTopicGroup (topicEnv (fun _ _ _ => (some ⟨7⟩, []))) topicScenario []).1.2 = true
    ∧ (toTopicGroup (topicEnv (fun _ _ _ => (some ⟨7⟩, []))) topicScenario []).1.1.Id =
        { RawText := "a topic", Root := some ⟨7⟩, Label := none }
    ∧ (toTopicGroup (topicEnv (fun _ _ _ => (some ⟨7⟩, []))) topicScenario []).2 = []
    ∧ (toPersonGroup (topicEnv rejectId) personScenario []).1.2 = true
    ∧ (toPersonGroup (topicEnv rejectId) personScenario []).1.1.Id = "a person"
    ∧ (toPersonGroup (topicEnv rejectId) personScenario []).2 = [] :=
  ⟨by decide, by decide, by decide, by decide, by decide, by decide, by decide, by decide⟩

/-- C11 (amended): for Person and Resource groups the id is an opaque string: the Id of the
resulting group is the bracketed id text of the phase-4 group unchanged, and the formulation id
parser is not applied to it (the conversion is the same whatever the id parser is). The ids of
Describes, Defines, States and Topic groups are fed to the formulation id parser: the Id of
the resulting group holds the id text as raw text and the tree that the id parser returned for
it at the start of the group, and the group is only converted when the id parser accepted the
text. -/
theorem group_id_parsed_or_kept_as_text (env : Env)
    (parseId : String → Position → DiagnosticTracker → Option FormulationNode × List Diagnostic)
    (group : Group) (id : String) (t : DiagnosticTracker) (hid : group.Id = some id) :
    ((toPersonGroup env group t).1.2 = true → (toPersonGroup env group t).1.1.Id = id)
    ∧ ((toResourceGroup env group t).1.2 = true → (toResourceGroup env group t).1.1.Id = id)
    ∧ toPersonGroup { env with ParseId := parseId } group = toPersonGroup env group
    ∧ toResourceGroup { env with ParseId := parseId } group = toResourceGroup env group
    ∧ ((toDescribesGroup env group t).1.2 = true →
        (toDescribesGroup env group t).1.1.Id =
            { RawText := id, Root := (env.ParseId id group.Start t).1, Label := none }
          ∧ (env.ParseId id group.Start t).1.isSome = true)
    ∧ ((toDefinesGroup env group t).1.2 = true →
        (toDefinesGroup env group t).1.1.Id =
            { RawText := id, Root := (env.ParseId id group.Start t).1, Label := none }
          ∧ (env.ParseId id group.Start t).1.isSome = true)
    ∧ ((toStatesGroup env group t).1.2 = true →
        (toStatesGroup env group t).1.1.Id =
            { RawText := id, Root := (env.ParseId id group.Start t).1, Label := none }
          ∧ (env.ParseId id group.Start t).1.isSome = true)
    ∧ ((toTopicGroup env group t).1.2 = true →
        (toTopicGroup env group t).1.1.Id =
            { RawText := id, Root := (env.ParseId id group.Start t).1, Label := none }
          ∧ (env.ParseId id group.Start t).1.isSome = true) :=
  ⟨toPersonGroup_id env group id t hid, toResourceGroup_id env group id t hid,
    toPersonGroup_parseId env parseId group, toResourceGroup_parseId env parseId group,
    toDescribesGroup_id env group id t hid, toDefinesGroup_id env group id t hid,
    toStatesGroup_id env group id t hid, toTopicGroup_id env group id t hid⟩

theorem group_id_parsed_or_kept_as_text_witness :
    topicScenario.Id = some "a topic"
    ∧ personScenario.Id = some "a person"
    ∧ (toTopicGroup (topicEnv (fun _ _ _ => (some ⟨7⟩, []))) topicScenario []).1.1.Id =
        { RawText := "a topic", Root := some ⟨7⟩, Label := none }
    ∧ (toPersonGroup (topicEnv (fun _ _ _ => (some ⟨7⟩, []))) personScenario []).1.1.Id
        = "a person" :=
  ⟨rfl, rfl,
    ((group_id_parsed_or_kept_as_text (topicEnv (fun _ _ _ => (some ⟨7⟩, []))) rejectId topicScenario
      "a topic" [] rfl).2.2.2.2.2.2.2 (by decide)).1,
    (group_id_parsed_or_kept_as_text (topicEnv (fun _ _ _ => (some ⟨7⟩, []))) rejectId personScenario
      "a person" [] rfl).1 (by decide)⟩

/-! ## Columns and rows of `GetChars` -/

/-- Two neighbours of the output: the later one, when it is not a newline, is on the row of the
earlier one and its column is larger by the byte length of the earlier one. -/
theorem GetCharsLoop_neighbours (chars : List rune) (pos row column prev : Nat)
    (pre : List ast.Char) (a b : ast.Char) (post : List ast.Char)
    (hout : GetCharsLoop chars pos row column prev = pre ++ a :: b :: post)
    (hb : b.Symbol ≠ '\n') :
    b.Position.Column = a.Position.Column + runeLen a.Symbol
      ∧ b.Position.Row = a.Position.Row
      ∧ b.Position.Offset = a.Position.Offset + runeLen a.Symbol := by
  induction chars generalizing pos row column prev pre with
  | nil => simp [GetCharsLoop] at hout
  | cons c rest ih =>
    cases pre with
    | nil =>
      cases rest with
      | nil => simp [GetCharsLoop] at hout
      | cons c2 rest2 =>
        simp only [GetCharsLoop, List.nil_append, List.cons.injEq] at hout
        obtain ⟨ha, hb2, _⟩ := hout
        subst ha
        subst hb2
        simp only [] at hb
        simp [hb]
    | cons p pre2 =>
      simp only [GetCharsLoop, List.cons_append, List.cons.injEq] at hout
      exact ih _ _ _ _ _ hout.2

/-- A newline of the output has column 0. -/
theorem GetCharsLoop_newline_column (chars : List rune) (pos row column prev : Nat)
    (a : ast.Char) (ha : a ∈ GetCharsLoop chars pos row column prev)
    (hnl : a.Symbol = '\n') : a.Position.Column = 0 := by
  induction chars generalizing pos row column prev with
  | nil => simp [GetCharsLoop] at ha
  | cons c rest ih =>
    simp only [GetCharsLoop, List.mem_cons] at ha
    rcases ha with rfl | ha
    · simp only [] at hnl
      simp [hnl]
    · exact ih _ _ _ _ ha

/-- A newline of the output is on the row after the one of the character before it. -/
theorem GetCharsLoop_newline_row (chars : List rune) (pos row column prev : Nat)
    (pre : List ast.Char) (a b : ast.Char) (post : List ast.Char)
    (hout : GetCharsLoop chars pos row column prev = pre ++ a :: b :: post)
    (hb : b.Symbol = '\n') : b.Position.Row = a.Position.Row + 1 := by
  induction chars generalizing pos row column prev pre with
  | nil => simp [GetCharsLoop] at hout
  | cons c rest ih =>
    cases pre with
    | nil =>
      cases rest with
      | nil => simp [GetCharsLoop] at hout
      | cons c2 rest2 =>
        simp only [GetCharsLoop, List.nil_append, List.cons.injEq] at hout
        obtain ⟨ha, hb2, _⟩ := hout
        subst ha
        subst hb2
        simp only [] at hb
        simp [hb]
    | cons p pre2 =>
      simp only [GetCharsLoop, List.cons_append, List.cons.injEq] at hout
      exact ih _ _ _ _ _ hout.2

/-- Before the first newline the row stays and the column grows by the byte lengths. -/
theorem GetCharsLoop_first_line (chars : List rune) (pos row column prev : Nat)
    (pre : List ast.Char) (a : ast.Char) (post : List ast.Char)
    (hout : GetCharsLoop chars pos row column prev = pre ++ a :: post)
    (hpre : ∀ x ∈ pre, x.Symbol ≠ '\n') (ha : a.Symbol ≠ '\n') :
    a.Position.Column = column + (pos - prev) + (pre.map (fun x => runeLen x.Symbol)).sum
      ∧ a.Position.Row = row
      ∧ a.Position.Offset = pos + (pre.map (fun x => runeLen x.Symbol)).sum := by
  induction chars generalizing pos row column prev pre with
  | nil => simp [GetCharsLoop] at hout
  | cons c rest ih =>
    cases pre with
    | nil =>
      simp only [GetCharsLoop, List.nil_append, List.cons.injEq] at hout
      obtain ⟨h1, _⟩ := hout
      subst h1
      simp only [] at ha
      simp [ha]
    | cons p pre2 =>
      simp only [GetCharsLoop, List.cons_append, List.cons.injEq] at hout
      obtain ⟨h1, h2⟩ := hout
      have hp : p.Symbol ≠ '\n' := hpre p (List.mem_cons_self _ _)
      subst h1
      simp only [] at hp
      have := ih _ _ _ _ pre2 h2 (fun x hx => hpre x (List.mem_cons_of_mem _ hx))
      simp only [hp, if_false] at this
      obtain ⟨i1, i2, i3⟩ := this
      refine ⟨?_, i2, ?_⟩
      · rw [i1]; simp; omega
      · rw [i3]; simp; omega

/-- C14 (counterexample): in the text `éa` the code point `é` takes two bytes; the character
`a` that follows it on the same line has column 2, not 1, although one code point precedes
it. -/
theorem multibyte_code_point_takes_two_columns :
    GetChars "éa" =
      [{ Symbol := 'é', Position := { Offset := 0, Row := 0, Column := 0 } },
        { Symbol := 'a', Position := { Offset := 2, Row := 0, Column := 2 } }] := by
  decide

/-- C14 (amended): `GetChars` measures columns in bytes of the UTF-8 encoding. For every
well-formed text, any two consecutive characters neither of which is a newline are on the same
row and have columns that differ by the byte length of the earlier one, which is exactly 1
when the earlier one is a single-byte character; and when no newline precedes them, the column
of each is the number of bytes that precede it, which is its offset. -/
theorem GetChars_columns_count_bytes (text : String) (pre : List ast.Char) (a b : ast.Char)
    (post : List ast.Char) (hout : GetChars text = pre ++ a :: b :: post)
    (ha : a.Symbol ≠ '\n') (hb : b.Symbol ≠ '\n') :
    b.Position.Row = a.Position.Row
    ∧ b.Position.Column = a.Position.Column + runeLen a.Symbol
    ∧ (a.Symbol.toNat < 0x80 → b.Position.Column = a.Position.Column + 1)
    ∧ ((∀ x ∈ pre, x.Symbol ≠ '\n') →
        a.Position.Column = (pre.map (fun x => runeLen x.Symbol)).sum
        ∧ a.Position.Column = a.Position.Offset
        ∧ b.Position.Column = ((pre ++ [a]).map (fun x => runeLen x.Symbol)).sum
        ∧ b.Position.Column = b.Position.Offset) := by
  have hn := GetCharsLoop_neighbours text.data 0 0 0 0 pre a b post hout hb
  refine ⟨hn.2.1, hn.1, ?_, ?_⟩
  · intro hascii
    rw [hn.1]
    simp [runeLen, hascii]
  · intro hpre
    have hf := GetCharsLoop_first_line text.data 0 0 0 0 pre a (b :: post) hout hpre ha
    simp only [Nat.sub_self, Nat.add_zero, Nat.zero_add] at hf
    refine ⟨hf.1, by rw [hf.1, hf.2.2], ?_, ?_⟩
    · rw [hn.1, hf.1]; simp
    · rw [hn.1, hn.2.2, hf.1, hf.2.2]

theorem GetChars_columns_count_bytes_witness :
    GetChars "éa" =
        [] ++ { Symbol := 'é', Position := { Offset := 0, Row := 0, Column := 0 } } ::
          { Symbol := 'a', Position := { Offset := 2, Row := 0, Column := 2 } } :: []
    ∧ (2 : Nat) = 0 + runeLen 'é' :=
  ⟨by decide,
    (GetChars_columns_count_bytes "éa" []
      { Symbol := 'é', Position := { Offset := 0, Row := 0, Column := 0 } }
      { Symbol := 'a', Position := { Offset := 2, Row := 0, Column := 2 } } []
      (by decide) (by decide) (by decide)).2.1⟩

/-- C15 (evaluation of the code): in the text `a`, newline, `b` the newline itself gets the new
row and column 0, and the character `b` that follows it gets column 1. In every well-formed
text a newline has column 0 and is on the row after the one of the character before it, and a character that
immediately follows a newline and is not a newline is on the row of that newline and has
column 1, while the first character of the text has column 0. -/
theorem character_after_newline_has_column_one :
    GetChars "a\nb" =
      [{ Symbol := 'a', Position := { Offset := 0, Row := 0, Column := 0 } },
        { Symbol := '\n', Position := { Offset := 1, Row := 1, Column := 0 } },
        { Symbol := 'b', Position := { Offset := 2, Row := 1, Column := 1 } }]
    ∧ (∀ (text : String) (pre : List ast.Char) (a b : ast.Char) (post : List ast.Char),
        GetChars text = pre ++ a :: b :: post → a.Symbol = '\n' → b.Symbol ≠ '\n' →
          a.Position.Column = 0 ∧ b.Position.Column = 1 ∧ b.Position.Row = a.Position.Row)
    ∧ (∀ (text : String) (pre : List ast.Char) (a b : ast.Char) (post : List ast.Char),
        GetChars text = pre ++ a :: b :: post → b.Symbol = '\n' →
          b.Position.Column = 0 ∧ b.Position.Row = a.Position.Row + 1)
    ∧ (∀ (text : String) (a : ast.Char) (post : List ast.Char),
        GetChars text = a :: post → a.Position.Column = 0) := by
  refine ⟨by decide, ?_, ?_, ?_⟩
  · intro text pre a b post hout ha hb
    have hn := GetCharsLoop_neighbours text.data 0 0 0 0 pre a b post hout hb
    have hc : a.Position.Column = 0 :=
      GetCharsLoop_newline_column text.data 0 0 0 0 a (by rw [← GetChars, hout]; simp) ha
    refine ⟨hc, ?_, hn.2.1⟩
    rw [hn.1, hc, ha]
    decide
  · intro text pre a b post hout hb
    exact ⟨GetCharsLoop_newline_column text.data 0 0 0 0 b (by rw [← GetChars, hout]; simp) hb,
      GetCharsLoop_newline_row text.data 0 0 0 0 pre a b post hout hb⟩
  · intro text a post hout
    unfold GetChars at hout
    cases hdata : text.data with
    | nil => simp [hdata, GetCharsLoop] at hout
    | cons c rest =>
      simp only [hdata, GetCharsLoop, List.cons.injEq] at hout
      rw [← hout.1]
      simp

/-! ## The methods read the tracker only through the collaborators -/

@[instance] theorem Oblivious.of_pure {α : Type} (a : α) : Oblivious (Pure.pure a : P α) :=
  ⟨fun t => by
    show (a, t) = (a, t ++ [])
    rw [List.append_nil]⟩

@[instance] theorem Oblivious.of_bind {α β : Type} {m : P α} {f : α → P β}
    [hm : Oblivious m] [hf : ∀ a, Oblivious (f a)] : Oblivious (m >>= f) :=
  ⟨fun t => by
    show f (m t).1 (m t).2 = ((f (m []).1 (m []).2).1, t ++ (f (m []).1 (m []).2).2)
    rw [hm.out t]
    rw [(hf (m []).1).out (t ++ (m []).2), (hf (m []).1).out (m []).2, List.append_assoc]⟩

@[instance] theorem Oblivious.of_ite {α : Type} (c : Prop) [Decidable c] (a b : P α)
    [Oblivious a] [Oblivious b] : Oblivious (if c then a else b) := by
  split <;> assumption

@[instance] theorem Append_oblivious (diag : Diagnostic) : Oblivious (Append diag) :=
  ⟨fun _ => rfl⟩

theorem callExternal_oblivious {α : Type} (f : DiagnosticTracker → α × List Diagnostic)
    (hf : ∀ t, f t = f []) : Oblivious (callExternal f) :=
  ⟨fun t => by
    show ((f t).1, t ++ (f t).2) = ((f []).1, t ++ ([] ++ (f []).2))
    rw [hf t, List.nil_append]⟩

@[instance] theorem ParseExpression_oblivious (env : Env) [h : ObliviousEnv env] (text : String)
    (position : Position) : Oblivious (ParseExpression env text position) :=
  callExternal_oblivious _ (h.parseExpression text position)

@[instance] theorem ParseForm_oblivious (env : Env) [h : ObliviousEnv env] (text : String)
    (position : Position) : Oblivious (ParseForm env text position) :=
  callExternal_oblivious _ (h.parseForm text position)

@[instance] theorem ParseId_oblivious (env : Env) [h : ObliviousEnv env] (text : String)
    (position : Position) : Oblivious (ParseId env text position) :=
  callExternal_oblivious _ (h.parseId text position)

@[instance] theorem ParseSignature_oblivious (env : Env) [h : ObliviousEnv env] (text : String)
    (position : Position) : Oblivious (ParseSignature env text position) :=
  callExternal_oblivious _ (h.parseSignature text position)

@[instance] theorem IdentifySections_oblivious (env : Env) [h : ObliviousEnv env]
    (sections : List Section) (names : List String) :
    Oblivious (IdentifySections env sections names) :=
  callExternal_oblivious _ (fun t => by rw [h.identifySections sections t names])

@[instance] theorem forEachArg_oblivious {T : Type} (f : Argument → P T)
    [hf : ∀ arg, Oblivious (f arg)] (args : List Argument) : Oblivious (forEachArg f args) := by
  induction args with
  | nil => unfold forEachArg; infer_instance
  | cons arg args ih => unfold forEachArg; infer_instance

@[instance] theorem forEachArgIfOk_oblivious {T : Type} (f : Argument → P (T × Bool))
    [hf : ∀ arg, Oblivious (f arg)] (args : List Argument) :
    Oblivious (forEachArgIfOk f args) := by
  induction args with
  | nil => unfold forEachArgIfOk; infer_instance
  | cons arg args ih => unfold forEachArgIfOk; infer_instance

@[instance] theorem forEachArgOrError_oblivious {T : Type} (f : Argument → P (T × Bool))
    (orElse : Argument → Diagnostic) [hf : ∀ arg, Oblivious (f arg)] (args : List Argument) :
    Oblivious (forEachArgOrError f orElse args) := by
  induction args with
  | nil => unfold forEachArgOrError; infer_instance
  | cons arg args ih => unfold forEachArgOrError; infer_instance

@[instance] theorem ifPresent_oblivious {T : Type} (sec : Option Section) (toX : Section → P T)
    [hf : ∀ s, Oblivious (toX s)] : Oblivious (ifPresent sec toX) := by
  unfold ifPresent
  split <;> infer_instance

@[instance] theorem firstOk_nil_oblivious {T : Type} [Inhabited T] :
    Oblivious (firstOk ([] : List (P (T × Bool)))) := by
  unfold firstOk; infer_instance

@[instance] theorem firstOk_cons_oblivious {T : Type} [Inhabited T] (alt : P (T × Bool))
    (alts : List (P (T × Bool))) [Oblivious alt] [Oblivious (firstOk alts)] :
    Oblivious (firstOk (alt :: alts)) := by
  unfold firstOk; infer_instance

@[instance] theorem oneOrMore_oblivious {T : Type} (items : List T) (position : Position) :
    Oblivious (oneOrMore items position) := by
  unfold oneOrMore
  repeat (first | infer_instance | refine @Oblivious.of_bind _ _ _ _ ?_ ?_ | intro _ | split)

@[instance] theorem exactlyOne_oblivious {T : Type} (items : List T) (defaultItem : T) (position : Position) :
    Oblivious (exactlyOne items defaultItem position) := by
  unfold exactlyOne
  repeat (first | infer_instance | refine @Oblivious.of_bind _ _ _ _ ?_ ?_ | intro _ | split)

@[instance] theorem verifyNoArgs_oblivious (sec : Section) :
    Oblivious (verifyNoArgs sec) := by
  unfold verifyNoArgs
  repeat (first | infer_instance | refine @Oblivious.of_bind _ _ _ _ ?_ ?_ | intro _ | split)

@[instance] theorem asItem_oblivious {G T : Type} (wrap : G → T) (m : P (G × Bool))
    [Oblivious m] : Oblivious (asItem wrap m) := by
  unfold asItem; infer_instance

@[instance] theorem toFormulation_oblivious (env : Env) [ObliviousEnv env] (arg : Argument) :
    Oblivious (toFormulation env arg) := by
  unfold toFormulation
  repeat (first | infer_instance | refine @Oblivious.of_bind _ _ _ _ ?_ ?_ | intro _ | split)

@[instance] theorem toSpec_oblivious (env : Env) [ObliviousEnv env] (arg : Argument) :
    Oblivious (toSpec env arg) := by
  unfold toSpec
  repeat (first | infer_instance | refine @Oblivious.of_bind _ _ _ _ ?_ ?_ | intro _ | split)

@[instance] theorem toAlias_oblivious (env : Env) [ObliviousEnv env] (arg : Argument) :
    Oblivious (toAlias env arg) := by
  unfold toAlias
  repeat (first | infer_instance | refine @Oblivious.of_bind _ _ _ _ ?_ ?_ | intro _ | split)

@[instance] theorem toTarget_oblivious (env : Env) [ObliviousEnv env] (arg : Argument) :
    Oblivious (toTarget env arg) := by
  unfold toTarget
  repeat (first | infer_instance | refine @Oblivious.of_bind _ _ _ _ ?_ ?_ | intro _ | split)

@[instance] theorem toTextItem_oblivious (arg : Argument) :
    Oblivious (toTextItem arg) := by
  unfold toTextItem
  repeat (first | infer_instance | refine @Oblivious.of_bind _ _ _ _ ?_ ?_ | intro _ | split)

@[instance] theorem toSignatureItem_oblivious (env : Env) [ObliviousEnv env] (arg : Argument) :
    Oblivious (toSignatureItem env arg) := by
  unfold toSignatureItem
  repeat (first | infer_instance | refine @Oblivious.of_bind _ _ _ _ ?_ ?_ | intro _ | split)

@[instance] theorem toIdItem_oblivious (env : Env) [ObliviousEnv env] (text : String) (position : Position) :
    Oblivious (toIdItem env text position) := by
  unfold toIdItem
  repeat (first | infer_instance | refine @Oblivious.of_bind _ _ _ _ ?_ ?_ | intro _ | split)

@[instance] theorem getId_oblivious (env : Env) [ObliviousEnv env] (group : Group) (required : Bool) :
    Oblivious (getId env group required) := by
  unfold getId
  repeat (first | infer_instance | refine @Oblivious.of_bind _ _ _ _ ?_ ?_ | intro _ | split)

@[instance] theorem getStringId_oblivious (group : Group) (required : Bool) :
    Oblivious (getStringId group required) := by
  unfold getStringId
  repeat (first | infer_instance | refine @Oblivious.of_bind _ _ _ _ ?_ ?_ | intro _ | split)

@[instance] theorem toFormulations_oblivious (env : Env) [ObliviousEnv env] (args : List Argument) :
    Oblivious (toFormulations env args) := by
  unfold toFormulations
  repeat (first | infer_instance | refine @Oblivious.of_bind _ _ _ _ ?_ ?_ | intro _ | split)

@[instance] theorem toClauses_oblivious (toClause : Argument → P Clause) (args : List Argument) [∀ arg, Oblivious (toClause arg)] :
    Oblivious (toClauses toClause args) := by
  unfold toClauses
  repeat (first | infer_instance | refine @Oblivious.of_bind _ _ _ _ ?_ ?_ | intro _ | split)

@[instance] theorem toSpecs_oblivious (env : Env) [ObliviousEnv env] (args : List Argument) :
    Oblivious (toSpecs env args) := by
  unfold toSpecs
  repeat (first | infer_instance | refine @Oblivious.of_bind _ _ _ _ ?_ ?_ | intro _ | split)

@[instance] theorem toAliases_oblivious (env : Env) [ObliviousEnv env] (args : List Argument) :
    Oblivious (toAliases env args) := by
  unfold toAliases
  repeat (first | infer_instance | refine @Oblivious.of_bind _ _ _ _ ?_ ?_ | intro _ | split)

@[instance] theorem toTargets_oblivious (env : Env) [ObliviousEnv env] (args : List Argument) :
    Oblivious (toTargets env args) := by
  unfold toTargets
  repeat (first | infer_instance | refine @Oblivious.of_bind _ _ _ _ ?_ ?_ | intro _ | split)

@[instance] theorem toTextItems_oblivious (args : List Argument) :
    Oblivious (toTextItems args) := by
  unfold toTextItems
  repeat (first | infer_instance | refine @Oblivious.of_bind _ _ _ _ ?_ ?_ | intro _ | split)

@[instance] theorem toSignaturesItems_oblivious (env : Env) [ObliviousEnv env] (args : List Argument) :
    Oblivious (toSignaturesItems env args) := by
  unfold toSignaturesItems
  repeat (first | infer_instance | refine @Oblivious.of_bind _ _ _ _ ?_ ?_ | intro _ | split)

@[instance] theorem oneOrMoreClauses_oblivious (toClause : Argument → P Clause) (sec : Section) [∀ arg, Oblivious (toClause arg)] :
    Oblivious (oneOrMoreClauses toClause sec) := by
  unfold oneOrMoreClauses
  repeat (first | infer_instance | refine @Oblivious.of_bind _ _ _ _ ?_ ?_ | intro _ | split)

@[instance] theorem exactlyOneClause_oblivious (toClause : Argument → P Clause) (sec : Section) [∀ arg, Oblivious (toClause arg)] :
    Oblivious (exactlyOneClause toClause sec) := by
  unfold exactlyOneClause
  repeat (first | infer_instance | refine @Oblivious.of_bind _ _ _ _ ?_ ?_ | intro _ | split)

@[instance] theorem exactlyOneFormulation_oblivious (env : Env) [ObliviousEnv env] (sec : Section) :
    Oblivious (exactlyOneFormulation env sec) := by
  unfold exactlyOneFormulation
  repeat (first | infer_instance | refine @Oblivious.of_bind _ _ _ _ ?_ ?_ | intro _ | split)

@[instance] theorem oneOrMoreSpecs_oblivious (env : Env) [ObliviousEnv env] (sec : Section) :
    Oblivious (oneOrMoreSpecs env sec) := by
  unfold oneOrMoreSpecs
  repeat (first | infer_instance | refine @Oblivious.of_bind _ _ _ _ ?_ ?_ | intro _ | split)

@[instance] theorem oneOrMoreAliases_oblivious (env : Env) [ObliviousEnv env] (sec : Section) :
    Oblivious (oneOrMoreAliases env sec) := by
  unfold oneOrMoreAliases
  repeat (first | infer_instance | refine @Oblivious.of_bind _ _ _ _ ?_ ?_ | intro _ | split)

@[instance] theorem exactlyOneAlias_oblivious (env : Env) [ObliviousEnv env] (sec : Section) :
    Oblivious (exactlyOneAlias env sec) := by
  unfold exactlyOneAlias
  repeat (first | infer_instance | refine @Oblivious.of_bind _ _ _ _ ?_ ?_ | intro _ | split)

@[instance] theorem exactlyOneSpec_oblivious (env : Env) [ObliviousEnv env] (sec : Section) :
    Oblivious (exactlyOneSpec env sec) := by
  unfold exactlyOneSpec
  repeat (first | infer_instance | refine @Oblivious.of_bind _ _ _ _ ?_ ?_ | intro _ | split)

@[instance] theorem oneOrMoreTargets_oblivious (env : Env) [ObliviousEnv env] (sec : Section) :
    Oblivious (oneOrMoreTargets env sec) := by
  unfold oneOrMoreTargets
  repeat (first | infer_instance | refine @Oblivious.of_bind _ _ _ _ ?_ ?_ | intro _ | split)

@[instance] theorem oneOrMoreTextItems_oblivious (sec : Section) :
    Oblivious (oneOrMoreTextItems sec) := by
  unfold oneOrMoreTextItems
  repeat (first | infer_instance | refine @Oblivious.of_bind _ _ _ _ ?_ ?_ | intro _ | split)

@[instance] theorem zeroOrMoreTextItems_oblivious (sec : Section) :
    Oblivious (zeroOrMoreTextItems sec) := by
  unfold zeroOrMoreTextItems
  repeat (first | infer_instance | refine @Oblivious.of_bind _ _ _ _ ?_ ?_ | intro _ | split)

@[instance] theorem exactlyOneTarget_oblivious (env : Env) [ObliviousEnv env] (sec : Section) :
    Oblivious (exactlyOneTarget env sec) := by
  unfold exactlyOneTarget
  repeat (first | infer_instance | refine @Oblivious.of_bind _ _ _ _ ?_ ?_ | intro _ | split)

@[instance] theorem oneOrMoreSignatureItems_oblivious (env : Env) [ObliviousEnv env] (sec : Section) :
    Oblivious (oneOrMoreSignatureItems env sec) := by
  unfold oneOrMoreSignatureItems
  repeat (first | infer_instance | refine @Oblivious.of_bind _ _ _ _ ?_ ?_ | intro _ | split)

@[instance] theorem exactlyOneTextItem_oblivious (sec : Section) :
    Oblivious (exactlyOneTextItem sec) := by
  unfold exactlyOneTextItem
  repeat (first | infer_instance | refine @Oblivious.of_bind _ _ _ _ ?_ ?_ | intro _ | split)

@[instance] theorem toAllOfSection_oblivious (toClause : Argument → P Clause) (sec : Section) [∀ arg, Oblivious (toClause arg)] :
    Oblivious (toAllOfSection toClause sec) := by
  unfold toAllOfSection
  repeat (first | infer_instance | refine @Oblivious.of_bind _ _ _ _ ?_ ?_ | intro _ | split)

@[instance] theorem toNotSection_oblivious (toClause : Argument → P Clause) (sec : Section) [∀ arg, Oblivious (toClause arg)] :
    Oblivious (toNotSection toClause sec) := by
  unfold toNotSection
  repeat (first | infer_instance | refine @Oblivious.of_bind _ _ _ _ ?_ ?_ | intro _ | split)

@[instance] theorem toAnyOfSection_oblivious (toClause : Argument → P Clause) (sec : Section) [∀ arg, Oblivious (toClause arg)] :
    Oblivious (toAnyOfSection toClause sec) := by
  unfold toAnyOfSection
  repeat (first | infer_instance | refine @Oblivious.of_bind _ _ _ _ ?_ ?_ | intro _ | split)

@[instance] theorem toOneOfSection_oblivious (toClause : Argument → P Clause) (sec : Section) [∀ arg, Oblivious (toClause arg)] :
    Oblivious (toOneOfSection toClause sec) := by
  unfold toOneOfSection
  repeat (first | infer_instance | refine @Oblivious.of_bind _ _ _ _ ?_ ?_ | intro _ | split)

@[instance] theorem toExistsSection_oblivious (env : Env) [ObliviousEnv env] (sec : Section) :
    Oblivious (toExistsSection env sec) := by
  unfold toExistsSection
  repeat (first | infer_instance | refine @Oblivious.of_bind _ _ _ _ ?_ ?_ | intro _ | split)

@[instance] theorem toWhereSection_oblivious (env : Env) [ObliviousEnv env] (sec : Section) :
    Oblivious (toWhereSection env sec) := by
  unfold toWhereSection
  repeat (first | infer_instance | refine @Oblivious.of_bind _ _ _ _ ?_ ?_ | intro _ | split)

@[instance] theorem toSuchThatSection_oblivious (toClause : Argument → P Clause) (sec : Section) [∀ arg, Oblivious (toClause arg)] :
    Oblivious (toSuchThatSection toClause sec) := by
  unfold toSuchThatSection
  repeat (first | infer_instance | refine @Oblivious.of_bind _ _ _ _ ?_ ?_ | intro _ | split)

@[instance] theorem toExistsUniqueSection_oblivious (env : Env) [ObliviousEnv env] (sec : Section) :
    Oblivious (toExistsUniqueSection env sec) := by
  unfold toExistsUniqueSection
  repeat (first | infer_instance | refine @Oblivious.of_bind _ _ _ _ ?_ ?_ | intro _ | split)

@[instance] theorem toForAllSection_oblivious (env : Env) [ObliviousEnv env] (sec : Section) :
    Oblivious (toForAllSection env sec) := by
  unfold toForAllSection
  repeat (first | infer_instance | refine @Oblivious.of_bind _ _ _ _ ?_ ?_ | intro _ | split)

@[instance] theorem toThenSection_oblivious (toClause : Argument → P Clause) (sec : Section) [∀ arg, Oblivious (toClause arg)] :
    Oblivious (toThenSection toClause sec) := by
  unfold toThenSection
  repeat (first | infer_instance | refine @Oblivious.of_bind _ _ _ _ ?_ ?_ | intro _ | split)

@[instance] theorem toIfSection_oblivious (toClause : Argument → P Clause) (sec : Section) [∀ arg, Oblivious (toClause arg)] :
    Oblivious (toIfSection toClause sec) := by
  unfold toIfSection
  repeat (first | infer_instance | refine @Oblivious.of_bind _ _ _ _ ?_ ?_ | intro _ | split)

@[instance] theorem toIffSection_oblivious (toClause : Argument → P Clause) (sec : Section) [∀ arg, Oblivious (toClause arg)] :
    Oblivious (toIffSection toClause sec) := by
  unfold toIffSection
  repeat (first | infer_instance | refine @Oblivious.of_bind _ _ _ _ ?_ ?_ | intro _ | split)

@[instance] theorem toWhenSection_oblivious (toClause : Argument → P Clause) (sec : Section) [∀ arg, Oblivious (toClause arg)] :
    Oblivious (toWhenSection toClause sec) := by
  unfold toWhenSection
  repeat (first | infer_instance | refine @Oblivious.of_bind _ _ _ _ ?_ ?_ | intro _ | split)

@[instance] theorem toPiecewiseSection_oblivious (sec : Section) :
    Oblivious (toPiecewiseSection sec) := by
  unfold toPiecewiseSection
  repeat (first | infer_instance | refine @Oblivious.of_bind _ _ _ _ ?_ ?_ | intro _ | split)

@[instance] theorem toElseSection_oblivious (toClause : Argument → P Clause) (sec : Section) [∀ arg, Oblivious (toClause arg)] :
    Oblivious (toElseSection toClause sec) := by
  unfold toElseSection
  repeat (first | infer_instance | refine @Oblivious.of_bind _ _ _ _ ?_ ?_ | intro _ | split)

@[instance] theorem piecewiseUnexpected_oblivious (rest : List Section) :
    Oblivious (piecewiseUnexpected rest) := by
  induction rest with
  | nil => unfold piecewiseUnexpected; infer_instance
  | cons sec rest ih => unfold piecewiseUnexpected; infer_instance

theorem piecewiseIfThens_oblivious_aux (toClause : Argument → P Clause)
    [∀ arg, Oblivious (toClause arg)] (n : Nat) :
    ∀ (rest : List Section) (ifThens : List (IfThen Clause)), rest.length ≤ n →
      Oblivious (piecewiseIfThens toClause rest ifThens) := by
  induction n with
  | zero =>
    intro rest ifThens h
    match rest, h with
    | [], _ => unfold piecewiseIfThens; infer_instance
  | succ n ih =>
    intro rest ifThens h
    match rest, h with
    | [], _ => unfold piecewiseIfThens; infer_instance
    | [section1], _ => unfold piecewiseIfThens; infer_instance
    | section1 :: section2 :: rest, h =>
      have hrest : rest.length ≤ n := by
        simp only [List.length_cons] at h; omega
      have := fun ifThens => ih rest ifThens hrest
      unfold piecewiseIfThens
      infer_instance

@[instance] theorem piecewiseIfThens_oblivious (toClause : Argument → P Clause)
    [∀ arg, Oblivious (toClause arg)] (rest : List Section) (ifThens : List (IfThen Clause)) :
    Oblivious (piecewiseIfThens toClause rest ifThens) :=
  piecewiseIfThens_oblivious_aux toClause rest.length rest ifThens (Nat.le_refl _)

@[instance] theorem toPiecewiseGroup_oblivious (toClause : Argument → P Clause) (group : Group)
    [∀ arg, Oblivious (toClause arg)] : Oblivious (toPiecewiseGroup toClause group) := by
  unfold toPiecewiseGroup
  repeat (first | infer_instance | refine @Oblivious.of_bind _ _ _ _ ?_ ?_ | intro _ | split)

@[instance] theorem toGivenSection_oblivious (env : Env) [ObliviousEnv env] (sec : Section) :
    Oblivious (toGivenSection env sec) := by
  unfold toGivenSection
  repeat (first | infer_instance | refine @Oblivious.of_bind _ _ _ _ ?_ ?_ | intro _ | split)

@[instance] theorem toGivenGroup_oblivious (env : Env) [ObliviousEnv env] (toClause : Argument → P Clause) (group : Group) [∀ arg, Oblivious (toClause arg)] :
    Oblivious (toGivenGroup env toClause group) := by
  unfold toGivenGroup
  repeat (first | infer_instance | refine @Oblivious.of_bind _ _ _ _ ?_ ?_ | intro _ | split)

@[instance] theorem toAllOfGroup_oblivious (env : Env) [ObliviousEnv env] (toClause : Argument → P Clause) (group : Group) [∀ arg, Oblivious (toClause arg)] :
    Oblivious (toAllOfGroup env toClause group) := by
  unfold toAllOfGroup
  repeat (first | infer_instance | refine @Oblivious.of_bind _ _ _ _ ?_ ?_ | intro _ | split)

@[instance] theorem toNotGroup_oblivious (env : Env) [ObliviousEnv env] (toClause : Argument → P Clause) (group : Group) [∀ arg, Oblivious (toClause arg)] :
    Oblivious (toNotGroup env toClause group) := by
  unfold toNotGroup
  repeat (first | infer_instance | refine @Oblivious.of_bind _ _ _ _ ?_ ?_ | intro _ | split)

@[instance] theorem toAnyOfGroup_oblivious (env : Env) [ObliviousEnv env] (toClause : Argument → P Clause) (group : Group) [∀ arg, Oblivious (toClause arg)] :
    Oblivious (toAnyOfGroup env toClause group) := by
  unfold toAnyOfGroup
  repeat (first | infer_instance | refine @Oblivious.of_bind _ _ _ _ ?_ ?_ | intro _ | split)

@[instance] theorem toOneOfGroup_oblivious (env : Env) [ObliviousEnv env] (toClause : Argument → P Clause) (group : Group) [∀ arg, Oblivious (toClause arg)] :
    Oblivious (toOneOfGroup env toClause group) := by
  unfold toOneOfGroup
  repeat (first | infer_instance | refine @Oblivious.of_bind _ _ _ _ ?_ ?_ | intro _ | split)

@[instance] theorem toExistsGroup_oblivious (env : Env) [ObliviousEnv env] (toClause : Argument → P Clause) (group : Group) [∀ arg, Oblivious (toClause arg)] :
    Oblivious (toExistsGroup env toClause group) := by
  unfold toExistsGroup
  repeat (first | infer_instance | refine @Oblivious.of_bind _ _ _ _ ?_ ?_ | intro _ | split)

@[instance] theorem toExistsUniqueGroup_oblivious (env : Env) [ObliviousEnv env] (toClause : Argument → P Clause) (group : Group) [∀ arg, Oblivious (toClause arg)] :
    Oblivious (toExistsUniqueGroup env toClause group) := by
  unfold toExistsUniqueGroup
  repeat (first | infer_instance | refine @Oblivious.of_bind _ _ _ _ ?_ ?_ | intro _ | split)

@[instance] theorem toForAllGroup_oblivious (env : Env) [ObliviousEnv env] (toClause : Argument → P Clause) (group : Group) [∀ arg, Oblivious (toClause arg)] :
    Oblivious (toForAllGroup env toClause group) := by
  unfold toForAllGroup
  repeat (first | infer_instance | refine @Oblivious.of_bind _ _ _ _ ?_ ?_ | intro _ | split)

@[instance] theorem toIfGroup_oblivious (env : Env) [ObliviousEnv env] (toClause : Argument → P Clause) (group : Group) [∀ arg, Oblivious (toClause arg)] :
    Oblivious (toIfGroup env toClause group) := by
  unfold toIfGroup
  repeat (first | infer_instance | refine @Oblivious.of_bind _ _ _ _ ?_ ?_ | intro _ | split)

@[instance] theorem toIffGroup_oblivious (env : Env) [ObliviousEnv env] (toClause : Argument → P Clause) (group : Group) [∀ arg, Oblivious (toClause arg)] :
    Oblivious (toIffGroup env toClause group) := by
  unfold toIffGroup
  repeat (first | infer_instance | refine @Oblivious.of_bind _ _ _ _ ?_ ?_ | intro _ | split)

@[instance] theorem toWhenGroup_oblivious (env : Env) [ObliviousEnv env] (toClause : Argument → P Clause) (group : Group) [∀ arg, Oblivious (toClause arg)] :
    Oblivious (toWhenGroup env toClause group) := by
  unfold toWhenGroup
  repeat (first | infer_instance | refine @Oblivious.of_bind _ _ _ _ ?_ ?_ | intro _ | split)

@[instance] theorem toClauseBody_oblivious (env : Env) [ObliviousEnv env] (toClause : Argument → P Clause) (arg : Argument) [∀ arg, Oblivious (toClause arg)] :
    Oblivious (toClauseBody env toClause arg) := by
  unfold toClauseBody
  repeat (first | infer_instance | refine @Oblivious.of_bind _ _ _ _ ?_ ?_ | intro _ | split)

@[instance] theorem toClauseFuel_oblivious (env : Env) [ObliviousEnv env] (fuel : Nat) (arg : Argument) :
    Oblivious (toClauseFuel env fuel arg) := by
  induction fuel generalizing arg with
  | zero => unfold toClauseFuel; infer_instance
  | succ fuel ih => unfold toClauseFuel; infer_instance

@[instance] theorem toClause_oblivious (env : Env) [ObliviousEnv env] (arg : Argument) :
    Oblivious (toClause env arg) := by
  unfold toClause; infer_instance

@[instance] theorem toSymbolSection_oblivious (env : Env) [ObliviousEnv env] (sec : Section) :
    Oblivious (toSymbolSection env sec) := by
  unfold toSymbolSection
  repeat (first | infer_instance | refine @Oblivious.of_bind _ _ _ _ ?_ ?_ | intro _ | split)

@[instance] theorem toWrittenSection_oblivious (sec : Section) :
    Oblivious (toWrittenSection sec) := by
  unfold toWrittenSection
  repeat (first | infer_instance | refine @Oblivious.of_bind _ _ _ _ ?_ ?_ | intro _ | split)

@[instance] theorem toSymbolWrittenGroup_oblivious (env : Env) [ObliviousEnv env] (group : Group) :
    Oblivious (toSymbolWrittenGroup env group) := by
  unfold toSymbolWrittenGroup
  repeat (first | infer_instance | refine @Oblivious.of_bind _ _ _ _ ?_ ?_ | intro _ | split)

@[instance] theorem toConnectionSection_oblivious (sec : Section) :
    Oblivious (toConnectionSection sec) := by
  unfold toConnectionSection
  repeat (first | infer_instance | refine @Oblivious.of_bind _ _ _ _ ?_ ?_ | intro _ | split)

@[instance] theorem toUsingSection_oblivious (env : Env) [ObliviousEnv env] (sec : Section) :
    Oblivious (toUsingSection env sec) := by
  unfold toUsingSection
  repeat (first | infer_instance | refine @Oblivious.of_bind _ _ _ _ ?_ ?_ | intro _ | split)

@[instance] theorem toMeansSection_oblivious (toClause : Argument → P Clause) (sec : Section) [∀ arg, Oblivious (toClause arg)] :
    Oblivious (toMeansSection toClause sec) := by
  unfold toMeansSection
  repeat (first | infer_instance | refine @Oblivious.of_bind _ _ _ _ ?_ ?_ | intro _ | split)

@[instance] theorem toSignifiesSection_oblivious (env : Env) [ObliviousEnv env] (sec : Section) :
    Oblivious (toSignifiesSection env sec) := by
  unfold toSignifiesSection
  repeat (first | infer_instance | refine @Oblivious.of_bind _ _ _ _ ?_ ?_ | intro _ | split)

@[instance] theorem toConnectionViewableSection_oblivious (sec : Section) :
    Oblivious (toConnectionViewableSection sec) := by
  unfold toConnectionViewableSection
  repeat (first | infer_instance | refine @Oblivious.of_bind _ _ _ _ ?_ ?_ | intro _ | split)

@[instance] theorem toConnectionThroughSection_oblivious (env : Env) [ObliviousEnv env] (sec : Section) :
    Oblivious (toConnectionThroughSection env sec) := by
  unfold toConnectionThroughSection
  repeat (first | infer_instance | refine @Oblivious.of_bind _ _ _ _ ?_ ?_ | intro _ | split)

@[instance] theorem toConnectionGroup_oblivious (env : Env) [ObliviousEnv env] (group : Group) :
    Oblivious (toConnectionGroup env group) := by
  unfold toConnectionGroup
  repeat (first | infer_instance | refine @Oblivious.of_bind _ _ _ _ ?_ ?_ | intro _ | split)

@[instance] theorem toProvidesTypeFromGroup_oblivious (env : Env) [ObliviousEnv env] (group : Group) :
    Oblivious (toProvidesTypeFromGroup env group) := by
  unfold toProvidesTypeFromGroup
  repeat (first | infer_instance | refine @Oblivious.of_bind _ _ _ _ ?_ ?_ | intro _ | split)

@[instance] theorem toProvidesTypeFromArg_oblivious (env : Env) [ObliviousEnv env] (arg : Argument) :
    Oblivious (toProvidesTypeFromArg env arg) := by
  unfold toProvidesTypeFromArg
  repeat (first | infer_instance | refine @Oblivious.of_bind _ _ _ _ ?_ ?_ | intro _ | split)

@[instance] theorem toProvidesTypes_oblivious (env : Env) [ObliviousEnv env] (args : List Argument) :
    Oblivious (toProvidesTypes env args) := by
  unfold toProvidesTypes
  repeat (first | infer_instance | refine @Oblivious.of_bind _ _ _ _ ?_ ?_ | intro _ | split)

@[instance] theorem oneOrMoreProvidesType_oblivious (env : Env) [ObliviousEnv env] (sec : Section) :
    Oblivious (oneOrMoreProvidesType env sec) := by
  unfold oneOrMoreProvidesType
  repeat (first | infer_instance | refine @Oblivious.of_bind _ _ _ _ ?_ ?_ | intro _ | split)

@[instance] theorem toProvidesSection_oblivious (env : Env) [ObliviousEnv env] (sec : Section) :
    Oblivious (toProvidesSection env sec) := by
  unfold toProvidesSection
  repeat (first | infer_instance | refine @Oblivious.of_bind _ _ _ _ ?_ ?_ | intro _ | split)

@[instance] theorem toWrittenGroup_oblivious (env : Env) [ObliviousEnv env] (group : Group) :
    Oblivious (toWrittenGroup env group) := by
  unfold toWrittenGroup
  repeat (first | infer_instance | refine @Oblivious.of_bind _ _ _ _ ?_ ?_ | intro _ | split)

@[instance] theorem toCalledSection_oblivious (sec : Section) :
    Oblivious (toCalledSection sec) := by
  unfold toCalledSection
  repeat (first | infer_instance | refine @Oblivious.of_bind _ _ _ _ ?_ ?_ | intro _ | split)

@[instance] theorem toCalledGroup_oblivious (env : Env) [ObliviousEnv env] (group : Group) :
    Oblivious (toCalledGroup env group) := by
  unfold toCalledGroup
  repeat (first | infer_instance | refine @Oblivious.of_bind _ _ _ _ ?_ ?_ | intro _ | split)

@[instance] theorem toWritingSection_oblivious (env : Env) [ObliviousEnv env] (sec : Section) :
    Oblivious (toWritingSection env sec) := by
  unfold toWritingSection
  repeat (first | infer_instance | refine @Oblivious.of_bind _ _ _ _ ?_ ?_ | intro _ | split)

@[instance] theorem toWritingAsSection_oblivious (sec : Section) :
    Oblivious (toWritingAsSection sec) := by
  unfold toWritingAsSection
  repeat (first | infer_instance | refine @Oblivious.of_bind _ _ _ _ ?_ ?_ | intro _ | split)

@[instance] theorem toWritingGroup_oblivious (env : Env) [ObliviousEnv env] (group : Group) :
    Oblivious (toWritingGroup env group) := by
  unfold toWritingGroup
  repeat (first | infer_instance | refine @Oblivious.of_bind _ _ _ _ ?_ ?_ | intro _ | split)

@[instance] theorem toOverviewSection_oblivious (sec : Section) :
    Oblivious (toOverviewSection sec) := by
  unfold toOverviewSection
  repeat (first | infer_instance | refine @Oblivious.of_bind _ _ _ _ ?_ ?_ | intro _ | split)

@[instance] theorem toOverviewGroup_oblivious (env : Env) [ObliviousEnv env] (group : Group) :
    Oblivious (toOverviewGroup env group) := by
  unfold toOverviewGroup
  repeat (first | infer_instance | refine @Oblivious.of_bind _ _ _ _ ?_ ?_ | intro _ | split)

@[instance] theorem toMotivationSection_oblivious (sec : Section) :
    Oblivious (toMotivationSection sec) := by
  unfold toMotivationSection
  repeat (first | infer_instance | refine @Oblivious.of_bind _ _ _ _ ?_ ?_ | intro _ | split)

@[instance] theorem toMotivationGroup_oblivious (env : Env) [ObliviousEnv env] (group : Group) :
    Oblivious (toMotivationGroup env group) := by
  unfold toMotivationGroup
  repeat (first | infer_instance | refine @Oblivious.of_bind _ _ _ _ ?_ ?_ | intro _ | split)

@[instance] theorem toHistorySection_oblivious (sec : Section) :
    Oblivious (toHistorySection sec) := by
  unfold toHistorySection
  repeat (first | infer_instance | refine @Oblivious.of_bind _ _ _ _ ?_ ?_ | intro _ | split)

@[instance] theorem toHistoryGroup_oblivious (env : Env) [ObliviousEnv env] (group : Group) :
    Oblivious (toHistoryGroup env group) := by
  unfold toHistoryGroup
  repeat (first | infer_instance | refine @Oblivious.of_bind _ _ _ _ ?_ ?_ | intro _ | split)

@[instance] theorem toExampleSection_oblivious (sec : Section) :
    Oblivious (toExampleSection sec) := by
  unfold toExampleSection
  repeat (first | infer_instance | refine @Oblivious.of_bind _ _ _ _ ?_ ?_ | intro _ | split)

@[instance] theorem toExampleGroup_oblivious (env : Env) [ObliviousEnv env] (group : Group) :
    Oblivious (toExampleGroup env group) := by
  unfold toExampleGroup
  repeat (first | infer_instance | refine @Oblivious.of_bind _ _ _ _ ?_ ?_ | intro _ | split)

@[instance] theorem toRelatedSection_oblivious (env : Env) [ObliviousEnv env] (sec : Section) :
    Oblivious (toRelatedSection env sec) := by
  unfold toRelatedSection
  repeat (first | infer_instance | refine @Oblivious.of_bind _ _ _ _ ?_ ?_ | intro _ | split)

@[instance] theorem toRelatedGroup_oblivious (env : Env) [ObliviousEnv env] (group : Group) :
    Oblivious (toRelatedGroup env group) := by
  unfold toRelatedGroup
  repeat (first | infer_instance | refine @Oblivious.of_bind _ _ _ _ ?_ ?_ | intro _ | split)

@[instance] theorem toDiscovererSection_oblivious (sec : Section) :
    Oblivious (toDiscovererSection sec) := by
  unfold toDiscovererSection
  repeat (first | infer_instance | refine @Oblivious.of_bind _ _ _ _ ?_ ?_ | intro _ | split)

@[instance] theorem toDiscovererGroup_oblivious (env : Env) [ObliviousEnv env] (group : Group) :
    Oblivious (toDiscovererGroup env group) := by
  unfold toDiscovererGroup
  repeat (first | infer_instance | refine @Oblivious.of_bind _ _ _ _ ?_ ?_ | intro _ | split)

@[instance] theorem toDescribingSection_oblivious (sec : Section) :
    Oblivious (toDescribingSection sec) := by
  unfold toDescribingSection
  repeat (first | infer_instance | refine @Oblivious.of_bind _ _ _ _ ?_ ?_ | intro _ | split)

@[instance] theorem toContentSection_oblivious (sec : Section) :
    Oblivious (toContentSection sec) := by
  unfold toContentSection
  repeat (first | infer_instance | refine @Oblivious.of_bind _ _ _ _ ?_ ?_ | intro _ | split)

@[instance] theorem toDescribingGroup_oblivious (env : Env) [ObliviousEnv env] (group : Group) :
    Oblivious (toDescribingGroup env group) := by
  unfold toDescribingGroup
  repeat (first | infer_instance | refine @Oblivious.of_bind _ _ _ _ ?_ ?_ | intro _ | split)

@[instance] theorem toNoteType_oblivious (env : Env) [ObliviousEnv env] (arg : Argument) :
    Oblivious (toNoteType env arg) := by
  unfold toNoteType
  repeat (first | infer_instance | refine @Oblivious.of_bind _ _ _ _ ?_ ?_ | intro _ | split)

@[instance] theorem toNoteTypes_oblivious (env : Env) [ObliviousEnv env] (args : List Argument) :
    Oblivious (toNoteTypes env args) := by
  unfold toNoteTypes
  repeat (first | infer_instance | refine @Oblivious.of_bind _ _ _ _ ?_ ?_ | intro _ | split)

@[instance] theorem oneOrMoreNoteTypes_oblivious (env : Env) [ObliviousEnv env] (sec : Section) :
    Oblivious (oneOrMoreNoteTypes env sec) := by
  unfold oneOrMoreNoteTypes
  repeat (first | infer_instance | refine @Oblivious.of_bind _ _ _ _ ?_ ?_ | intro _ | split)

@[instance] theorem toNoteSection_oblivious (env : Env) [ObliviousEnv env] (sec : Section) :
    Oblivious (toNoteSection env sec) := by
  unfold toNoteSection
  repeat (first | infer_instance | refine @Oblivious.of_bind _ _ _ _ ?_ ?_ | intro _ | split)

@[instance] theorem toNoteGroup_oblivious (env : Env) [ObliviousEnv env] (group : Group) :
    Oblivious (toNoteGroup env group) := by
  unfold toNoteGroup
  repeat (first | infer_instance | refine @Oblivious.of_bind _ _ _ _ ?_ ?_ | intro _ | split)

@[instance] theorem toDocumentedType_oblivious (env : Env) [ObliviousEnv env] (arg : Argument) :
    Oblivious (toDocumentedType env arg) := by
  unfold toDocumentedType
  repeat (first | infer_instance | refine @Oblivious.of_bind _ _ _ _ ?_ ?_ | intro _ | split)

@[instance] theorem toDocumentedTypes_oblivious (env : Env) [ObliviousEnv env] (args : List Argument) :
    Oblivious (toDocumentedTypes env args) := by
  unfold toDocumentedTypes; infer_instance

@[instance] theorem oneOrMoreDocumentedTypes_oblivious (env : Env) [ObliviousEnv env] (sec : Section) :
    Oblivious (oneOrMoreDocumentedTypes env sec) := by
  unfold oneOrMoreDocumentedTypes
  repeat (first | infer_instance | refine @Oblivious.of_bind _ _ _ _ ?_ ?_ | intro _ | split)

@[instance] theorem toDocumentedSection_oblivious (env : Env) [ObliviousEnv env] (sec : Section) :
    Oblivious (toDocumentedSection env sec) := by
  unfold toDocumentedSection
  repeat (first | infer_instance | refine @Oblivious.of_bind _ _ _ _ ?_ ?_ | intro _ | split)

@[instance] theorem toAliasesSection_oblivious (env : Env) [ObliviousEnv env] (sec : Section) :
    Oblivious (toAliasesSection env sec) := by
  unfold toAliasesSection
  repeat (first | infer_instance | refine @Oblivious.of_bind _ _ _ _ ?_ ?_ | intro _ | split)

@[instance] theorem toLabelSection_oblivious (sec : Section) :
    Oblivious (toLabelSection sec) := by
  unfold toLabelSection
  repeat (first | infer_instance | refine @Oblivious.of_bind _ _ _ _ ?_ ?_ | intro _ | split)

@[instance] theorem toBySection_oblivious (sec : Section) :
    Oblivious (toBySection sec) := by
  unfold toBySection
  repeat (first | infer_instance | refine @Oblivious.of_bind _ _ _ _ ?_ ?_ | intro _ | split)

@[instance] theorem toLabelGroup_oblivious (env : Env) [ObliviousEnv env] (group : Group) :
    Oblivious (toLabelGroup env group) := by
  unfold toLabelGroup
  repeat (first | infer_instance | refine @Oblivious.of_bind _ _ _ _ ?_ ?_ | intro _ | split)

@[instance] theorem toByGroup_oblivious (env : Env) [ObliviousEnv env] (group : Group) :
    Oblivious (toByGroup env group) := by
  unfold toByGroup
  repeat (first | infer_instance | refine @Oblivious.of_bind _ _ _ _ ?_ ?_ | intro _ | split)

@[instance] theorem toJustifiedTypeFromGroup_oblivious (env : Env) [ObliviousEnv env] (group : Group) :
    Oblivious (toJustifiedTypeFromGroup env group) := by
  unfold toJustifiedTypeFromGroup
  repeat (first | infer_instance | refine @Oblivious.of_bind _ _ _ _ ?_ ?_ | intro _ | split)

@[instance] theorem toJustifiedTypeFromArg_oblivious (env : Env) [ObliviousEnv env] (arg : Argument) :
    Oblivious (toJustifiedTypeFromArg env arg) := by
  unfold toJustifiedTypeFromArg
  repeat (first | infer_instance | refine @Oblivious.of_bind _ _ _ _ ?_ ?_ | intro _ | split)

@[instance] theorem toJustifiedTypes_oblivious (env : Env) [ObliviousEnv env] (args : List Argument) :
    Oblivious (toJustifiedTypes env args) := by
  unfold toJustifiedTypes
  repeat (first | infer_instance | refine @Oblivious.of_bind _ _ _ _ ?_ ?_ | intro _ | split)

@[instance] theorem oneOrMoreJustifiedType_oblivious (env : Env) [ObliviousEnv env] (sec : Section) :
    Oblivious (oneOrMoreJustifiedType env sec) := by
  unfold oneOrMoreJustifiedType
  repeat (first | infer_instance | refine @Oblivious.of_bind _ _ _ _ ?_ ?_ | intro _ | split)

@[instance] theorem toJustifiedSection_oblivious (env : Env) [ObliviousEnv env] (sec : Section) :
    Oblivious (toJustifiedSection env sec) := by
  unfold toJustifiedSection
  repeat (first | infer_instance | refine @Oblivious.of_bind _ _ _ _ ?_ ?_ | intro _ | split)

@[instance] theorem toReferencesSection_oblivious (sec : Section) :
    Oblivious (toReferencesSection sec) := by
  unfold toReferencesSection
  repeat (first | infer_instance | refine @Oblivious.of_bind _ _ _ _ ?_ ?_ | intro _ | split)

@[instance] theorem toMetaIdSection_oblivious (sec : Section) :
    Oblivious (toMetaIdSection sec) := by
  unfold toMetaIdSection
  repeat (first | infer_instance | refine @Oblivious.of_bind _ _ _ _ ?_ ?_ | intro _ | split)

@[instance] theorem toDescribesSection_oblivious (env : Env) [ObliviousEnv env] (sec : Section) :
    Oblivious (toDescribesSection env sec) := by
  unfold toDescribesSection
  repeat (first | infer_instance | refine @Oblivious.of_bind _ _ _ _ ?_ ?_ | intro _ | split)

@[instance] theorem toWithSection_oblivious (env : Env) [ObliviousEnv env] (sec : Section) :
    Oblivious (toWithSection env sec) := by
  unfold toWithSection
  repeat (first | infer_instance | refine @Oblivious.of_bind _ _ _ _ ?_ ?_ | intro _ | split)

@[instance] theorem toExtendsSection_oblivious (toClause : Argument → P Clause) (sec : Section) [∀ arg, Oblivious (toClause arg)] :
    Oblivious (toExtendsSection toClause sec) := by
  unfold toExtendsSection
  repeat (first | infer_instance | refine @Oblivious.of_bind _ _ _ _ ?_ ?_ | intro _ | split)

@[instance] theorem toSatisfiesSection_oblivious (toClause : Argument → P Clause) (sec : Section) [∀ arg, Oblivious (toClause arg)] :
    Oblivious (toSatisfiesSection toClause sec) := by
  unfold toSatisfiesSection
  repeat (first | infer_instance | refine @Oblivious.of_bind _ _ _ _ ?_ ?_ | intro _ | split)

@[instance] theorem toDescribesGroup_oblivious (env : Env) [ObliviousEnv env] (group : Group) :
    Oblivious (toDescribesGroup env group) := by
  unfold toDescribesGroup
  repeat (first | infer_instance | refine @Oblivious.of_bind _ _ _ _ ?_ ?_ | intro _ | split)

@[instance] theorem toDefinesSection_oblivious (env : Env) [ObliviousEnv env] (sec : Section) :
    Oblivious (toDefinesSection env sec) := by
  unfold toDefinesSection
  repeat (first | infer_instance | refine @Oblivious.of_bind _ _ _ _ ?_ ?_ | intro _ | split)

@[instance] theorem toSpecifiesSection_oblivious (toClause : Argument → P Clause) (sec : Section) [∀ arg, Oblivious (toClause arg)] :
    Oblivious (toSpecifiesSection toClause sec) := by
  unfold toSpecifiesSection
  repeat (first | infer_instance | refine @Oblivious.of_bind _ _ _ _ ?_ ?_ | intro _ | split)

@[instance] theorem toDefinesGroup_oblivious (env : Env) [ObliviousEnv env] (group : Group) :
    Oblivious (toDefinesGroup env group) := by
  unfold toDefinesGroup
  repeat (first | infer_instance | refine @Oblivious.of_bind _ _ _ _ ?_ ?_ | intro _ | split)

@[instance] theorem toStatesSection_oblivious (sec : Section) :
    Oblivious (toStatesSection sec) := by
  unfold toStatesSection
  repeat (first | infer_instance | refine @Oblivious.of_bind _ _ _ _ ?_ ?_ | intro _ | split)

@[instance] theorem toThatSection_oblivious (toClause : Argument → P Clause) (sec : Section) [∀ arg, Oblivious (toClause arg)] :
    Oblivious (toThatSection toClause sec) := by
  unfold toThatSection
  repeat (first | infer_instance | refine @Oblivious.of_bind _ _ _ _ ?_ ?_ | intro _ | split)

@[instance] theorem toStatesGroup_oblivious (env : Env) [ObliviousEnv env] (group : Group) :
    Oblivious (toStatesGroup env group) := by
  unfold toStatesGroup
  repeat (first | infer_instance | refine @Oblivious.of_bind _ _ _ _ ?_ ?_ | intro _ | split)

@[instance] theorem toAxiomSection_oblivious (sec : Section) :
    Oblivious (toAxiomSection sec) := by
  unfold toAxiomSection
  repeat (first | infer_instance | refine @Oblivious.of_bind _ _ _ _ ?_ ?_ | intro _ | split)

@[instance] theorem toAxiomGroup_oblivious (env : Env) [ObliviousEnv env] (group : Group) :
    Oblivious (toAxiomGroup env group) := by
  unfold toAxiomGroup
  repeat (first | infer_instance | refine @Oblivious.of_bind _ _ _ _ ?_ ?_ | intro _ | split)

@[instance] theorem toConjectureSection_oblivious (sec : Section) :
    Oblivious (toConjectureSection sec) := by
  unfold toConjectureSection
  repeat (first | infer_instance | refine @Oblivious.of_bind _ _ _ _ ?_ ?_ | intro _ | split)

@[instance] theorem toConjectureGroup_oblivious (env : Env) [ObliviousEnv env] (group : Group) :
    Oblivious (toConjectureGroup env group) := by
  unfold toConjectureGroup
  repeat (first | infer_instance | refine @Oblivious.of_bind _ _ _ _ ?_ ?_ | intro _ | split)

@[instance] theorem toTheoremSection_oblivious (sec : Section) :
    Oblivious (toTheoremSection sec) := by
  unfold toTheoremSection
  repeat (first | infer_instance | refine @Oblivious.of_bind _ _ _ _ ?_ ?_ | intro _ | split)

@[instance] theorem toProofSection_oblivious (sec : Section) :
    Oblivious (toProofSection sec) := by
  unfold toProofSection
  repeat (first | infer_instance | refine @Oblivious.of_bind _ _ _ _ ?_ ?_ | intro _ | split)

@[instance] theorem toTheoremGroup_oblivious (env : Env) [ObliviousEnv env] (group : Group) :
    Oblivious (toTheoremGroup env group) := by
  unfold toTheoremGroup
  repeat (first | infer_instance | refine @Oblivious.of_bind _ _ _ _ ?_ ?_ | intro _ | split)

@[instance] theorem toZeroSection_oblivious (sec : Section) :
    Oblivious (toZeroSection sec) := by
  unfold toZeroSection
  repeat (first | infer_instance | refine @Oblivious.of_bind _ _ _ _ ?_ ?_ | intro _ | split)

@[instance] theorem toZeroGroup_oblivious (env : Env) [ObliviousEnv env] (group : Group) :
    Oblivious (toZeroGroup env group) := by
  unfold toZeroGroup
  repeat (first | infer_instance | refine @Oblivious.of_bind _ _ _ _ ?_ ?_ | intro _ | split)

@[instance] theorem toPositiveIntSection_oblivious (env : Env) [ObliviousEnv env] (sec : Section) :
    Oblivious (toPositiveIntSection env sec) := by
  unfold toPositiveIntSection
  repeat (first | infer_instance | refine @Oblivious.of_bind _ _ _ _ ?_ ?_ | intro _ | split)

@[instance] theorem toPositiveIntGroup_oblivious (env : Env) [ObliviousEnv env] (group : Group) :
    Oblivious (toPositiveIntGroup env group) := by
  unfold toPositiveIntGroup
  repeat (first | infer_instance | refine @Oblivious.of_bind _ _ _ _ ?_ ?_ | intro _ | split)

@[instance] theorem toNegativeIntSection_oblivious (env : Env) [ObliviousEnv env] (sec : Section) :
    Oblivious (toNegativeIntSection env sec) := by
  unfold toNegativeIntSection
  repeat (first | infer_instance | refine @Oblivious.of_bind _ _ _ _ ?_ ?_ | intro _ | split)

@[instance] theorem toNegativeIntGroup_oblivious (env : Env) [ObliviousEnv env] (group : Group) :
    Oblivious (toNegativeIntGroup env group) := by
  unfold toNegativeIntGroup
  repeat (first | infer_instance | refine @Oblivious.of_bind _ _ _ _ ?_ ?_ | intro _ | split)

@[instance] theorem toPositiveFloatSection_oblivious (env : Env) [ObliviousEnv env] (sec : Section) :
    Oblivious (toPositiveFloatSection env sec) := by
  unfold toPositiveFloatSection
  repeat (first | infer_instance | refine @Oblivious.of_bind _ _ _ _ ?_ ?_ | intro _ | split)

@[instance] theorem toPositiveFloatGroup_oblivious (env : Env) [ObliviousEnv env] (group : Group) :
    Oblivious (toPositiveFloatGroup env group) := by
  unfold toPositiveFloatGroup
  repeat (first | infer_instance | refine @Oblivious.of_bind _ _ _ _ ?_ ?_ | intro _ | split)

@[instance] theorem toNegativeFloatSection_oblivious (env : Env) [ObliviousEnv env] (sec : Section) :
    Oblivious (toNegativeFloatSection env sec) := by
  unfold toNegativeFloatSection
  repeat (first | infer_instance | refine @Oblivious.of_bind _ _ _ _ ?_ ?_ | intro _ | split)

@[instance] theorem toNegativeFloatGroup_oblivious (env : Env) [ObliviousEnv env] (group : Group) :
    Oblivious (toNegativeFloatGroup env group) := by
  unfold toNegativeFloatGroup
  repeat (first | infer_instance | refine @Oblivious.of_bind _ _ _ _ ?_ ?_ | intro _ | split)

@[instance] theorem toSpecifyType_oblivious (env : Env) [ObliviousEnv env] (arg : Argument) :
    Oblivious (toSpecifyType env arg) := by
  unfold toSpecifyType
  repeat (first | infer_instance | refine @Oblivious.of_bind _ _ _ _ ?_ ?_ | intro _ | split)

@[instance] theorem toSpecifyTypes_oblivious (env : Env) [ObliviousEnv env] (args : List Argument) :
    Oblivious (toSpecifyTypes env args) := by
  unfold toSpecifyTypes
  repeat (first | infer_instance | refine @Oblivious.of_bind _ _ _ _ ?_ ?_ | intro _ | split)

@[instance] theorem oneOrMoreSpecifyTypes_oblivious (env : Env) [ObliviousEnv env] (sec : Section) :
    Oblivious (oneOrMoreSpecifyTypes env sec) := by
  unfold oneOrMoreSpecifyTypes
  repeat (first | infer_instance | refine @Oblivious.of_bind _ _ _ _ ?_ ?_ | intro _ | split)

@[instance] theorem toTopLevelSpecifySection_oblivious (env : Env) [ObliviousEnv env] (sec : Section) :
    Oblivious (toTopLevelSpecifySection env sec) := by
  unfold toTopLevelSpecifySection
  repeat (first | infer_instance | refine @Oblivious.of_bind _ _ _ _ ?_ ?_ | intro _ | split)

@[instance] theorem toSpecifyGroup_oblivious (env : Env) [ObliviousEnv env] (group : Group) :
    Oblivious (toSpecifyGroup env group) := by
  unfold toSpecifyGroup
  repeat (first | infer_instance | refine @Oblivious.of_bind _ _ _ _ ?_ ?_ | intro _ | split)

@[instance] theorem toTopicSection_oblivious (sec : Section) :
    Oblivious (toTopicSection sec) := by
  unfold toTopicSection
  repeat (first | infer_instance | refine @Oblivious.of_bind _ _ _ _ ?_ ?_ | intro _ | split)

@[instance] theorem toTopicGroup_oblivious (env : Env) [ObliviousEnv env] (group : Group) :
    Oblivious (toTopicGroup env group) := by
  unfold toTopicGroup
  repeat (first | infer_instance | refine @Oblivious.of_bind _ _ _ _ ?_ ?_ | intro _ | split)

@[instance] theorem toTitleSection_oblivious (sec : Section) :
    Oblivious (toTitleSection sec) := by
  unfold toTitleSection
  repeat (first | infer_instance | refine @Oblivious.of_bind _ _ _ _ ?_ ?_ | intro _ | split)

@[instance] theorem toTitleGroup_oblivious (env : Env) [ObliviousEnv env] (group : Group) :
    Oblivious (toTitleGroup env group) := by
  unfold toTitleGroup
  repeat (first | infer_instance | refine @Oblivious.of_bind _ _ _ _ ?_ ?_ | intro _ | split)

@[instance] theorem toAuthorSection_oblivious (sec : Section) :
    Oblivious (toAuthorSection sec) := by
  unfold toAuthorSection
  repeat (first | infer_instance | refine @Oblivious.of_bind _ _ _ _ ?_ ?_ | intro _ | split)

@[instance] theorem toAuthorGroup_oblivious (env : Env) [ObliviousEnv env] (group : Group) :
    Oblivious (toAuthorGroup env group) := by
  unfold toAuthorGroup
  repeat (first | infer_instance | refine @Oblivious.of_bind _ _ _ _ ?_ ?_ | intro _ | split)

@[instance] theorem toOffsetSection_oblivious (sec : Section) :
    Oblivious (toOffsetSection sec) := by
  unfold toOffsetSection
  repeat (first | infer_instance | refine @Oblivious.of_bind _ _ _ _ ?_ ?_ | intro _ | split)

@[instance] theorem toOffsetGroup_oblivious (env : Env) [ObliviousEnv env] (group : Group) :
    Oblivious (toOffsetGroup env group) := by
  unfold toOffsetGroup
  repeat (first | infer_instance | refine @Oblivious.of_bind _ _ _ _ ?_ ?_ | intro _ | split)

@[instance] theorem toUlrSection_oblivious (sec : Section) :
    Oblivious (toUlrSection sec) := by
  unfold toUlrSection
  repeat (first | infer_instance | refine @Oblivious.of_bind _ _ _ _ ?_ ?_ | intro _ | split)

@[instance] theorem toUrlGroup_oblivious (env : Env) [ObliviousEnv env] (group : Group) :
    Oblivious (toUrlGroup env group) := by
  unfold toUrlGroup
  repeat (first | infer_instance | refine @Oblivious.of_bind _ _ _ _ ?_ ?_ | intro _ | split)

@[instance] theorem toHomepageSection_oblivious (sec : Section) :
    Oblivious (toHomepageSection sec) := by
  unfold toHomepageSection
  repeat (first | infer_instance | refine @Oblivious.of_bind _ _ _ _ ?_ ?_ | intro _ | split)

@[instance] theorem toHomepageGroup_oblivious (env : Env) [ObliviousEnv env] (group : Group) :
    Oblivious (toHomepageGroup env group) := by
  unfold toHomepageGroup
  repeat (first | infer_instance | refine @Oblivious.of_bind _ _ _ _ ?_ ?_ | intro _ | split)

@[instance] theorem toTypeSection_oblivious (sec : Section) :
    Oblivious (toTypeSection sec) := by
  unfold toTypeSection
  repeat (first | infer_instance | refine @Oblivious.of_bind _ _ _ _ ?_ ?_ | intro _ | split)

@[instance] theorem toTypeGroup_oblivious (env : Env) [ObliviousEnv env] (group : Group) :
    Oblivious (toTypeGroup env group) := by
  unfold toTypeGroup
  repeat (first | infer_instance | refine @Oblivious.of_bind _ _ _ _ ?_ ?_ | intro _ | split)

@[instance] theorem toEditionSection_oblivious (sec : Section) :
    Oblivious (toEditionSection sec) := by
  unfold toEditionSection
  repeat (first | infer_instance | refine @Oblivious.of_bind _ _ _ _ ?_ ?_ | intro _ | split)

@[instance] theorem toEditionGroup_oblivious (env : Env) [ObliviousEnv env] (group : Group) :
    Oblivious (toEditionGroup env group) := by
  unfold toEditionGroup
  repeat (first | infer_instance | refine @Oblivious.of_bind _ _ _ _ ?_ ?_ | intro _ | split)

@[instance] theorem toEditorSection_oblivious (sec : Section) :
    Oblivious (toEditorSection sec) := by
  unfold toEditorSection
  repeat (first | infer_instance | refine @Oblivious.of_bind _ _ _ _ ?_ ?_ | intro _ | split)

@[instance] theorem toEditorGroup_oblivious (env : Env) [ObliviousEnv env] (group : Group) :
    Oblivious (toEditorGroup env group) := by
  unfold toEditorGroup
  repeat (first | infer_instance | refine @Oblivious.of_bind _ _ _ _ ?_ ?_ | intro _ | split)

@[instance] theorem toInstitutionSection_oblivious (sec : Section) :
    Oblivious (toInstitutionSection sec) := by
  unfold toInstitutionSection
  repeat (first | infer_instance | refine @Oblivious.of_bind _ _ _ _ ?_ ?_ | intro _ | split)

@[instance] theorem toInstitutionGroup_oblivious (env : Env) [ObliviousEnv env] (group : Group) :
    Oblivious (toInstitutionGroup env group) := by
  unfold toInstitutionGroup
  repeat (first | infer_instance | refine @Oblivious.of_bind _ _ _ _ ?_ ?_ | intro _ | split)

@[instance] theorem toJournalSection_oblivious (sec : Section) :
    Oblivious (toJournalSection sec) := by
  unfold toJournalSection
  repeat (first | infer_instance | refine @Oblivious.of_bind _ _ _ _ ?_ ?_ | intro _ | split)

@[instance] theorem toJournalGroup_oblivious (env : Env) [ObliviousEnv env] (group : Group) :
    Oblivious (toJournalGroup env group) := by
  unfold toJournalGroup
  repeat (first | infer_instance | refine @Oblivious.of_bind _ _ _ _ ?_ ?_ | intro _ | split)

@[instance] theorem toPublisherSection_oblivious (sec : Section) :
    Oblivious (toPublisherSection sec) := by
  unfold toPublisherSection
  repeat (first | infer_instance | refine @Oblivious.of_bind _ _ _ _ ?_ ?_ | intro _ | split)

@[instance] theorem toPublisherGroup_oblivious (env : Env) [ObliviousEnv env] (group : Group) :
    Oblivious (toPublisherGroup env group) := by
  unfold toPublisherGroup
  repeat (first | infer_instance | refine @Oblivious.of_bind _ _ _ _ ?_ ?_ | intro _ | split)

@[instance] theorem toVolumeSection_oblivious (sec : Section) :
    Oblivious (toVolumeSection sec) := by
  unfold toVolumeSection
  repeat (first | infer_instance | refine @Oblivious.of_bind _ _ _ _ ?_ ?_ | intro _ | split)

@[instance] theorem toVolumeGroup_oblivious (env : Env) [ObliviousEnv env] (group : Group) :
    Oblivious (toVolumeGroup env group) := by
  unfold toVolumeGroup
  repeat (first | infer_instance | refine @Oblivious.of_bind _ _ _ _ ?_ ?_ | intro _ | split)

@[instance] theorem toMonthSection_oblivious (sec : Section) :
    Oblivious (toMonthSection sec) := by
  unfold toMonthSection
  repeat (first | infer_instance | refine @Oblivious.of_bind _ _ _ _ ?_ ?_ | intro _ | split)

@[instance] theorem toMonthGroup_oblivious (env : Env) [ObliviousEnv env] (group : Group) :
    Oblivious (toMonthGroup env group) := by
  unfold toMonthGroup
  repeat (first | infer_instance | refine @Oblivious.of_bind _ _ _ _ ?_ ?_ | intro _ | split)

@[instance] theorem toYearSection_oblivious (sec : Section) :
    Oblivious (toYearSection sec) := by
  unfold toYearSection
  repeat (first | infer_instance | refine @Oblivious.of_bind _ _ _ _ ?_ ?_ | intro _ | split)

@[instance] theorem toYearGroup_oblivious (env : Env) [ObliviousEnv env] (group : Group) :
    Oblivious (toYearGroup env group) := by
  unfold toYearGroup
  repeat (first | infer_instance | refine @Oblivious.of_bind _ _ _ _ ?_ ?_ | intro _ | split)

@[instance] theorem toDescriptionSection_oblivious (sec : Section) :
    Oblivious (toDescriptionSection sec) := by
  unfold toDescriptionSection
  repeat (first | infer_instance | refine @Oblivious.of_bind _ _ _ _ ?_ ?_ | intro _ | split)

@[instance] theorem toDescriptionGroup_oblivious (env : Env) [ObliviousEnv env] (group : Group) :
    Oblivious (toDescriptionGroup env group) := by
  unfold toDescriptionGroup
  repeat (first | infer_instance | refine @Oblivious.of_bind _ _ _ _ ?_ ?_ | intro _ | split)

@[instance] theorem toResourceType_oblivious (env : Env) [ObliviousEnv env] (arg : Argument) :
    Oblivious (toResourceType env arg) := by
  unfold toResourceType
  repeat (first | infer_instance | refine @Oblivious.of_bind _ _ _ _ ?_ ?_ | intro _ | split)

@[instance] theorem toResourceTypes_oblivious (env : Env) [ObliviousEnv env] (args : List Argument) :
    Oblivious (toResourceTypes env args) := by
  unfold toResourceTypes
  repeat (first | infer_instance | refine @Oblivious.of_bind _ _ _ _ ?_ ?_ | intro _ | split)

@[instance] theorem oneOrMoreResourceTypes_oblivious (env : Env) [ObliviousEnv env] (sec : Section) :
    Oblivious (oneOrMoreResourceTypes env sec) := by
  unfold oneOrMoreResourceTypes
  repeat (first | infer_instance | refine @Oblivious.of_bind _ _ _ _ ?_ ?_ | intro _ | split)

@[instance] theorem toResourceSection_oblivious (env : Env) [ObliviousEnv env] (sec : Section) :
    Oblivious (toResourceSection env sec) := by
  unfold toResourceSection
  repeat (first | infer_instance | refine @Oblivious.of_bind _ _ _ _ ?_ ?_ | intro _ | split)

@[instance] theorem toResourceGroup_oblivious (env : Env) [ObliviousEnv env] (group : Group) :
    Oblivious (toResourceGroup env group) := by
  unfold toResourceGroup
  repeat (first | infer_instance | refine @Oblivious.of_bind _ _ _ _ ?_ ?_ | intro _ | split)

@[instance] theorem toNameSection_oblivious (sec : Section) :
    Oblivious (toNameSection sec) := by
  unfold toNameSection
  repeat (first | infer_instance | refine @Oblivious.of_bind _ _ _ _ ?_ ?_ | intro _ | split)

@[instance] theorem toNameGroup_oblivious (env : Env) [ObliviousEnv env] (group : Group) :
    Oblivious (toNameGroup env group) := by
  unfold toNameGroup
  repeat (first | infer_instance | refine @Oblivious.of_bind _ _ _ _ ?_ ?_ | intro _ | split)

@[instance] theorem toBiographySection_oblivious (sec : Section) :
    Oblivious (toBiographySection sec) := by
  unfold toBiographySection
  repeat (first | infer_instance | refine @Oblivious.of_bind _ _ _ _ ?_ ?_ | intro _ | split)

@[instance] theorem toBiographyGroup_oblivious (env : Env) [ObliviousEnv env] (group : Group) :
    Oblivious (toBiographyGroup env group) := by
  unfold toBiographyGroup
  repeat (first | infer_instance | refine @Oblivious.of_bind _ _ _ _ ?_ ?_ | intro _ | split)

@[instance] theorem toPersonType_oblivious (env : Env) [ObliviousEnv env] (arg : Argument) :
    Oblivious (toPersonType env arg) := by
  unfold toPersonType
  repeat (first | infer_instance | refine @Oblivious.of_bind _ _ _ _ ?_ ?_ | intro _ | split)

@[instance] theorem toPersonTypes_oblivious (env : Env) [ObliviousEnv env] (args : List Argument) :
    Oblivious (toPersonTypes env args) := by
  unfold toPersonTypes
  repeat (first | infer_instance | refine @Oblivious.of_bind _ _ _ _ ?_ ?_ | intro _ | split)

@[instance] theorem oneOrMorePersonTypes_oblivious (env : Env) [ObliviousEnv env] (sec : Section) :
    Oblivious (oneOrMorePersonTypes env sec) := by
  unfold oneOrMorePersonTypes
  repeat (first | infer_instance | refine @Oblivious.of_bind _ _ _ _ ?_ ?_ | intro _ | split)

@[instance] theorem toPersonSection_oblivious (env : Env) [ObliviousEnv env] (sec : Section) :
    Oblivious (toPersonSection env sec) := by
  unfold toPersonSection
  repeat (first | infer_instance | refine @Oblivious.of_bind _ _ _ _ ?_ ?_ | intro _ | split)

@[instance] theorem toPersonGroup_oblivious (env : Env) [ObliviousEnv env] (group : Group) :
    Oblivious (toPersonGroup env group) := by
  unfold toPersonGroup
  repeat (first | infer_instance | refine @Oblivious.of_bind _ _ _ _ ?_ ?_ | intro _ | split)

@[instance] theorem toTopLevelItemType_oblivious (env : Env) [ObliviousEnv env] (item : TopLevelNodeType) :
    Oblivious (toTopLevelItemType env item) := by
  unfold toTopLevelItemType
  repeat (first | infer_instance | refine @Oblivious.of_bind _ _ _ _ ?_ ?_ | intro _ | split)

@[instance] theorem toDocumentItems_oblivious (env : Env) [ObliviousEnv env] (nodes : List TopLevelNodeType) :
    Oblivious (toDocumentItems env nodes) := by
  induction nodes with
  | nil => unfold toDocumentItems; infer_instance
  | cons node nodes ih => unfold toDocumentItems; infer_instance


@[instance] theorem scenarioEnv_oblivious (node : FormulationNode) :
    ObliviousEnv (scenarioEnv node) :=
  ⟨fun _ _ _ => rfl, fun _ _ _ => rfl, fun _ _ _ => rfl, fun _ _ _ => rfl, fun _ _ _ => rfl⟩

/-- C17: phase 5 converts the top-level nodes one after the other and never aborts on a bad
one. For all lists of top-level nodes `xs` and `ys`, the items of the document for the root
`xs ++ ys` are the items for `xs` followed by the items for `ys`, and the diagnostics appended
for `xs ++ ys` are those appended for `xs` followed by those appended for `ys`, where the
conversion of `ys` starts from the tracker that the conversion of `xs` left. A root of one
node yields that node's item when it is convertible and no item otherwise, so the items are an
order-preserving image of the convertible nodes. When the collaborators of the parser do not
read the tracker, the nodes are converted independently: the items and the appended
diagnostics for `xs ++ ys` from any tracker are those that `xs` alone and `ys` alone give from
the empty tracker, in this order. -/
theorem Parse_concatenated_root (env : Env) (xs ys : List TopLevelNodeType)
    (node : TopLevelNodeType) (t : DiagnosticTracker) :
    (Parse env ⟨xs ++ ys⟩ t).1.1.Items =
        (Parse env ⟨xs⟩ t).1.1.Items ++ (Parse env ⟨ys⟩ (Parse env ⟨xs⟩ t).2).1.1.Items
    ∧ (∃ forXs forYs,
        (Parse env ⟨xs⟩ t).2 = t ++ forXs
        ∧ (Parse env ⟨ys⟩ (t ++ forXs)).2 = (t ++ forXs) ++ forYs
        ∧ (Parse env ⟨xs ++ ys⟩ t).2 = t ++ (forXs ++ forYs))
    ∧ (Parse env ⟨[node]⟩ t).1.1.Items =
        (if (toTopLevelItemType env node t).1.2 then [(toTopLevelItemType env node t).1.1]
          else [])
    ∧ (Parse env ⟨[node]⟩ t).2 = (toTopLevelItemType env node t).2
    ∧ (ObliviousEnv env →
        (Parse env ⟨xs ++ ys⟩ t).1.1.Items =
            (Parse env ⟨xs⟩ []).1.1.Items ++ (Parse env ⟨ys⟩ []).1.1.Items
        ∧ (Parse env ⟨xs ++ ys⟩ t).2 = t ++ ((Parse env ⟨xs⟩ []).2 ++ (Parse env ⟨ys⟩ []).2)) := by
  obtain ⟨forXs, hx⟩ := (toDocumentItems_appendOnly env xs).out t
  obtain ⟨forYs, hy⟩ := (toDocumentItems_appendOnly env ys).out (t ++ forXs)
  refine ⟨?_, ⟨forXs, forYs, ?_, ?_, ?_⟩, ?_, ?_, ?_⟩
  · simp [Parse, toDocument_apply, toDocumentItems_append]
  · simpa [Parse, toDocument_apply] using hx
  · simpa [Parse, toDocument_apply] using hy
  · simp [Parse, toDocument_apply, toDocumentItems_append, hx, hy, List.append_assoc]
  · simp [Parse, toDocument_apply, toDocumentItems, bind_apply, pure_apply]
  · simp [Parse, toDocument_apply, toDocumentItems, bind_apply, pure_apply]
  · intro henv
    have hxs := (toDocumentItems_oblivious env xs).out
    have hys := (toDocumentItems_oblivious env ys).out
    simp only [Parse, toDocument_apply, toDocumentItems_append]
    rw [hxs t, hys (t ++ (toDocumentItems env xs []).2)]
    simp [List.append_assoc]

theorem Parse_concatenated_root_witness :
    ObliviousEnv (scenarioEnv ⟨0⟩)
    ∧ (Parse (scenarioEnv ⟨0⟩)
        ⟨[TopLevelNodeType.Group (headOnlyGroup "foo")] ++
          [TopLevelNodeType.Group (headOnlyGroup "Theorem")]⟩ []).2
      = [] ++ ((Parse (scenarioEnv ⟨0⟩) ⟨[TopLevelNodeType.Group (headOnlyGroup "foo")]⟩ []).2
        ++ (Parse (scenarioEnv ⟨0⟩)
            ⟨[TopLevelNodeType.Group (headOnlyGroup "Theorem")]⟩ []).2)
    ∧ (Parse (scenarioEnv ⟨0⟩) ⟨[TopLevelNodeType.Group (headOnlyGroup "foo")]⟩ []).2
      = [newError "Invalid top level item" ⟨0, 0, 0⟩] :=
  ⟨scenarioEnv_oblivious ⟨0⟩,
    ((Parse_concatenated_root (scenarioEnv ⟨0⟩) [TopLevelNodeType.Group (headOnlyGroup "foo")]
      [TopLevelNodeType.Group (headOnlyGroup "Theorem")]
      (TopLevelNodeType.Group (headOnlyGroup "foo")) []).2.2.2.2
        (scenarioEnv_oblivious ⟨0⟩)).2,
    by decide⟩

/-! ## `exactlyOne` on every list -/

/-- C27: for every list, `exactlyOne` appends exactly one diagnostic (the error "Expected at
exactly one item" at the supplied position) when the length of the list is not 1 and none when
it is 1; it returns the supplied default when the list is empty and the first element of the
list otherwise, also when the list has two or more elements. -/
theorem exactlyOne_on_every_list {T : Type} (items : List T) (defaultItem : T)
    (position : Position) (t : DiagnosticTracker) :
    (exactlyOne items defaultItem position t).2 =
        t ++ (if items.length = 1 then []
          else [newError "Expected at exactly one item" position])
    ∧ (items = [] → (exactlyOne items defaultItem position t).1 = defaultItem)
    ∧ (∀ (first : T) (others : List T), items = first :: others →
        (exactlyOne items defaultItem position t).1 = first)
    ∧ (exactlyOne items defaultItem position t).1 = (items.head?).getD defaultItem := by
  rcases items with _ | ⟨first, _ | ⟨second, others⟩⟩
  · refine ⟨rfl, fun _ => rfl, ?_, rfl⟩
    intro first others h
    cases h
  · refine ⟨?_, ?_, ?_, rfl⟩
    · show t = t ++ []
      rw [List.append_nil]
    · intro h
      cases h
    · intro first2 others h
      cases h
      rfl
  · refine ⟨rfl, ?_, ?_, rfl⟩
    · intro h
      cases h
    · intro first2 others2 h
      cases h
      rfl

/-! ## The arguments of a `Provides` section -/

/-- C22 (counterexample): `toProvidesTypeFromArg` returns `ok = true` for a formulation
argument, which is not a nested group: it is converted to an alias. -/
theorem formulation_argument_provides_alias :
    toProvidesTypeFromArg (scenarioEnv ⟨0⟩)
        ⟨ArgumentDataType.FormulationArgumentData "f(x) :=> x + 1", ⟨9, 1, 2⟩⟩ []
      = ((ProvidesType.Alias { RawText := "f(x) :=> x + 1", Root := some ⟨0⟩, Label := none },
          true), []) := by
  rfl

/-- C22 (amended): `toProvidesTypeFromArg` returns `ok = true` for every formulation argument,
which it converts to an alias, and otherwise only for an argument that is a nested group
headed `symbol` or `connection`; it returns `ok = false` for every argument of any other
shape: without a diagnostic for a text or argument-text argument, and with the diagnostic
"Unrecognized argument for Provides" at the start of the group for a group with another
head. -/
theorem toProvidesTypeFromArg_ok (env : Env) (arg : Argument) (t : DiagnosticTracker) :
    (∀ text, arg.Arg = ArgumentDataType.FormulationArgumentData text →
      toProvidesTypeFromArg env arg t =
        ((ProvidesType.Alias (toAlias env arg t).1, true), (toAlias env arg t).2))
    ∧ ((toProvidesTypeFromArg env arg t).1.2 = true →
        (∃ text, arg.Arg = ArgumentDataType.FormulationArgumentData text)
        ∨ (∃ group, arg.Arg = ArgumentDataType.Group group
            ∧ (startsWithSections group [LowerSymbolName] = true
              ∨ startsWithSections group [LowerConnectionName] = true)))
    ∧ (∀ text, arg.Arg = ArgumentDataType.TextArgumentData text
          ∨ arg.Arg = ArgumentDataType.ArgumentTextArgumentData text →
        toProvidesTypeFromArg env arg t = ((ProvidesType.nil, false), t))
    ∧ (∀ group, arg.Arg = ArgumentDataType.Group group →
        startsWithSections group [LowerSymbolName] = false →
        startsWithSections group [LowerConnectionName] = false →
        toProvidesTypeFromArg env arg t =
          ((ProvidesType.nil, false),
            t ++ [newError ("Unrecognized argument for " ++ UpperProvidesName ++ ":\n" ++
              "Expected one of:\n\n" ++ LowerOperationsName ++ ":\n\n" ++ LowerMembersName ++
              ":\n") group.Start])) := by
  have hgroup : ∀ group, startsWithSections group [LowerSymbolName] = false →
      startsWithSections group [LowerConnectionName] = false →
      toProvidesTypeFromGroup env group t =
        ((ProvidesType.nil, false),
          t ++ [newError ("Unrecognized argument for " ++ UpperProvidesName ++ ":\n" ++
            "Expected one of:\n\n" ++ LowerOperationsName ++ ":\n\n" ++ LowerMembersName ++
            ":\n") group.Start]) := by
    intro group h1 h2
    simp [toProvidesTypeFromGroup, firstOk, asItem, toSymbolWrittenGroup, toConnectionGroup,
      h1, h2, bind_apply, pure_apply, Append_apply]
  obtain ⟨data, start⟩ := arg
  refine ⟨?_, ?_, ?_, ?_⟩
  · intro text h
    simp only [Argument.Arg] at h
    subst h
    rfl
  · intro hok
    cases data with
    | FormulationArgumentData text => exact Or.inl ⟨text, rfl⟩
    | ArgumentTextArgumentData text =>
      simp [toProvidesTypeFromArg, Argument.Arg, pure_apply] at hok
    | TextArgumentData text =>
      simp [toProvidesTypeFromArg, Argument.Arg, pure_apply] at hok
    | Group group =>
      refine Or.inr ⟨group, rfl, ?_⟩
      by_cases h1 : startsWithSections group [LowerSymbolName] = true
      · exact Or.inl h1
      · by_cases h2 : startsWithSections group [LowerConnectionName] = true
        · exact Or.inr h2
        · exfalso
          have := hgroup group (by simpa using h1) (by simpa using h2)
          simp only [toProvidesTypeFromArg, Argument.Arg] at hok
          rw [this] at hok
          simp at hok
  · intro text h
    simp only [Argument.Arg] at h
    rcases h with h | h <;> subst h <;> rfl
  · intro group h h1 h2
    simp only [Argument.Arg] at h
    subst h
    simpa [toProvidesTypeFromArg, Argument.Arg] using hgroup group h1 h2

/-! ## Top-level dispatch -/

theorem startsWithSections_no_head (group : Group) (heads : List String)
    (hgroup : group.Sections = [] ∨
      ∃ head rest, group.Sections = head :: rest ∧ head.Name ∉ heads) :
    ∀ name ∈ heads, startsWithSections group [name] = false := by
  intro name hname
  cases hstarts : startsWithSections group [name] with
  | false => rfl
  | true =>
    obtain ⟨head, rest, hsec, hhead⟩ := (startsWithSections_singleton group name).1 hstarts
    rcases hgroup with hnil | ⟨head2, rest2, hsec2, hnot⟩
    · rw [hnil] at hsec
      cases hsec
    · rw [hsec2] at hsec
      cases hsec
      exact absurd (hhead ▸ hname) hnot

/-- C23: top-level dispatch. A text block is always converted to a `TextBlockItem` that carries
the same text, with `ok = true` and no diagnostic. A group with no sections, or whose first
section name is none of the ten top-level heads (Defines, Describes, States, Axiom,
Conjecture, Theorem, Specify, Topic, Person, Resource), yields no item (`nil` with
`ok = false`, and no item in the document) and exactly one diagnostic, the
`Phase5ParserOrigin` error `Invalid top level item` at the start of the group. -/
theorem top_level_dispatch (env : Env) (block : TextBlock) (group : Group)
    (t : DiagnosticTracker)
    (hgroup : group.Sections = [] ∨
      ∃ head rest, group.Sections = head :: rest ∧ head.Name ∉ topLevelHeads) :
    toTopLevelItemType env (TopLevelNodeType.TextBlock block) t =
        ((TopLevelItemType.TextBlockItem { Text := block.Text }, true), t)
    ∧ toTopLevelItemType env (TopLevelNodeType.Group group) t =
        ((TopLevelItemType.nil, false), t ++ [newError "Invalid top level item" group.Start])
    ∧ (newError "Invalid top level item" group.Start).Origin
        = DiagnosticOrigin.Phase5ParserOrigin
    ∧ (newError "Invalid top level item" group.Start).Severity = DiagnosticType.Error
    ∧ (Parse env ⟨[TopLevelNodeType.Group group]⟩ t).1.1.Items = []
    ∧ (Parse env ⟨[TopLevelNodeType.Group group]⟩ t).2 =
        t ++ [newError "Invalid top level item" group.Start] := by
  have hno := startsWithSections_no_head group topLevelHeads hgroup
  have h1 := hno UpperDefinesName (by decide)
  have h2 := hno UpperDescribesName (by decide)
  have h3 := hno UpperStatesName (by decide)
  have h4 := hno UpperAxiomName (by decide)
  have h5 := hno UpperConjectureName (by decide)
  have h6 := hno UpperTheoremName (by decide)
  have h7 := hno UpperSpecifyName (by decide)
  have h8 := hno UpperTopicName (by decide)
  have h9 := hno UpperPersonName (by decide)
  have h10 := hno UpperResourceName (by decide)
  have hitem : toTopLevelItemType env (TopLevelNodeType.Group group) t =
      ((TopLevelItemType.nil, false), t ++ [newError "Invalid top level item" group.Start]) := by
    simp [toTopLevelItemType, firstOk, asItem, toDefinesGroup, toDescribesGroup, toStatesGroup,
      toAxiomGroup, toConjectureGroup, toTheoremGroup, toSpecifyGroup, toTopicGroup,
      toPersonGroup, toResourceGroup, h1, h2, h3, h4, h5, h6, h7, h8, h9, h10, bind_apply,
      pure_apply, Append_apply, TopLevelNodeType.Start]
  refine ⟨rfl, hitem, rfl, rfl, ?_, ?_⟩
  · simp [Parse, toDocument_apply, toDocumentItems, bind_apply, pure_apply, hitem]
  · simp [Parse, toDocument_apply, toDocumentItems, bind_apply, pure_apply, hitem]

theorem top_level_dispatch_witness :
    ((headOnlyGroup "foo").Sections = [] ∨
      ∃ head rest, (headOnlyGroup "foo").Sections = head :: rest ∧ head.Name ∉ topLevelHeads)
    ∧ toTopLevelItemType (scenarioEnv ⟨0⟩) (TopLevelNodeType.Group (headOnlyGroup "foo")) [] =
        ((TopLevelItemType.nil, false), [] ++ [newError "Invalid top level item" ⟨0, 0, 0⟩]) :=
  ⟨Or.inr ⟨_, _, rfl, by decide⟩,
    (top_level_dispatch (scenarioEnv ⟨0⟩) ⟨"text", ⟨0, 0, 0⟩⟩ (headOnlyGroup "foo") []
      (Or.inr ⟨_, _, rfl, by decide⟩)).2.1⟩

/-! ## Sections after the `else` of a piecewise group -/

/-- C28: for a piecewise group whose sections are `piecewise`, zero or more (`if`, `then`)
pairs, `else`, and then further sections `trailing`, at least one, `toPiecewiseGroup` returns
`ok = false`, and the last diagnostics it appended are, in the order of the trailing sections,
one `Unexpected section '<name>'` per trailing section, positioned at the start of that
section. -/
theorem toPiecewiseGroup_trailing_sections (toClause : Argument → P Clause)
    [∀ arg, AppendOnly (toClause arg)] (group : Group) (t : DiagnosticTracker)
    (section0 elseSec : Section) (body trailing : List Section) (pairs : Nat)
    (hsec : group.Sections = section0 :: (body ++ elseSec :: trailing))
    (hname : section0.Name = LowerPiecewiseName)
    (hbody : body.map Section.Name = (List.replicate pairs [LowerIfName, LowerThenName]).flatten)
    (helse : elseSec.Name = LowerElseName)
    (htrailing : trailing ≠ []) :
    (toPiecewiseGroup toClause group t).1.2 = false
    ∧ ∃ earlier, (toPiecewiseGroup toClause group t).2 =
        t ++ earlier ++ trailing.map (fun sec =>
          newError ("Unexpected section '" ++ sec.Name ++ "'") sec.Start) := by
  obtain ⟨a0, h0⟩ := (toPiecewiseSection_appendOnly section0).out t
  have hloop := piecewiseIfThens_pairs toClause pairs body (elseSec :: trailing) []
    (toPiecewiseSection section0 t).2 hbody (Or.inr ⟨elseSec, trailing, rfl, helse⟩)
  obtain ⟨a1, h1⟩ := (piecewiseIfThens_appendOnly toClause (body ++ elseSec :: trailing) []).out
    (toPiecewiseSection section0 t).2
  rw [hloop] at h1
  simp only at h1
  obtain ⟨a2, h2⟩ := (toElseSection_appendOnly toClause elseSec).out
    (convertIfThens toClause body (toPiecewiseSection section0 t).2).2
  have hgroup := toPiecewiseGroup_loop_some toClause group t _ section0
    (body ++ elseSec :: trailing) _ (elseSec :: trailing) hsec hname hloop
  rw [hgroup]
  rcases trailing with _ | ⟨other, others⟩
  · exact absurd rfl htrailing
  · simp only [helse, if_true]
    refine ⟨trivial, a0 ++ a1 ++ a2, ?_⟩
    rw [h2, h1, h0]
    simp [List.append_assoc]

theorem toPiecewiseGroup_trailing_sections_witness :
    (toPiecewiseGroup (toClause (scenarioEnv ⟨0⟩)) piecewiseWithTrailing []).1.2 = false
    ∧ (toPiecewiseGroup (toClause (scenarioEnv ⟨0⟩)) piecewiseWithTrailing []).2 =
        [newError "Unexpected section 'foo'" ⟨48, 7, 0⟩,
          newError "Unexpected section 'if'" ⟨53, 8, 0⟩]
    ∧ ∃ earlier, (toPiecewiseGroup (toClause (scenarioEnv ⟨0⟩)) piecewiseWithTrailing []).2 =
        [] ++ earlier ++ [Section.mk "foo" [] ⟨48, 7, 0⟩, Section.mk "if" [] ⟨53, 8, 0⟩].map
          (fun sec => newError ("Unexpected section '" ++ sec.Name ++ "'") sec.Start) :=
  ⟨by decide, by decide,
    (toPiecewiseGroup_trailing_sections (toClause (scenarioEnv ⟨0⟩)) piecewiseWithTrailing []
      (Section.mk "piecewise" [] ⟨0, 0, 0⟩)
      (Section.mk "else" [Argument.mk (ArgumentDataType.FormulationArgumentData "-x") ⟨43, 6, 2⟩]
        ⟨36, 5, 0⟩)
      [Section.mk "if" [Argument.mk (ArgumentDataType.FormulationArgumentData "x > 0") ⟨17, 2, 2⟩]
          ⟨11, 1, 0⟩,
        Section.mk "then" [Argument.mk (ArgumentDataType.FormulationArgumentData "x") ⟨32, 4, 2⟩]
          ⟨25, 3, 0⟩]
      [Section.mk "foo" [] ⟨48, 7, 0⟩, Section.mk "if" [] ⟨53, 8, 0⟩] 1
      rfl rfl (by decide) rfl (List.cons_ne_nil _ _)).2⟩

/-! ## Offsets and rows of `GetChars` -/

section StampsInstances

variable {Q : Diagnostic → Prop}

@[instance] theorem Stamps.stamps_pure {α : Type} (a : α) : Stamps Q (Pure.pure a : P α) :=
  ⟨fun t => ⟨[], (List.append_nil t).symm, fun _ h => by cases h⟩⟩

@[instance] theorem Stamps.stamps_bind {α β : Type} {m : P α} {f : α → P β}
    [hm : Stamps Q m] [hf : ∀ a, Stamps Q (f a)] : Stamps Q (m >>= f) :=
  ⟨fun t => by
    obtain ⟨d1, h1, q1⟩ := hm.out t
    obtain ⟨d2, h2, q2⟩ := (hf (m t).1).out (m t).2
    refine ⟨d1 ++ d2, ?_, ?_⟩
    · show (f (m t).1 (m t).2).2 = t ++ (d1 ++ d2)
      rw [h2, h1, List.append_assoc]
    · intro d hd
      rcases List.mem_append.1 hd with hd | hd
      · exact q1 d hd
      · exact q2 d hd⟩

@[instance] theorem Stamps.stamps_ite {α : Type} (c : Prop) [Decidable c] (a b : P α)
    [Stamps Q a] [Stamps Q b] : Stamps Q (if c then a else b) := by
  split <;> assumption

@[instance] theorem Append_stamps (message : String) (position : Position) :
    Stamps Q (Append (newError message position)) :=
  ⟨fun _ => ⟨[newError message position], rfl, fun d hd => by
    rw [List.mem_singleton] at hd
    exact Or.inr ⟨message, position, hd⟩⟩⟩

@[instance] theorem Append_toClauseError_stamps (arg : Argument) :
    Stamps Q (Append (toClauseError arg)) := by
  unfold toClauseError; infer_instance

theorem callExternal_stamps {α : Type} (f : DiagnosticTracker → α × List Diagnostic)
    (hf : ∀ t, ∀ d ∈ (f t).2, Q d) : Stamps Q (callExternal f) :=
  ⟨fun t => ⟨(f t).2, rfl, fun d hd => Or.inl (hf t d hd)⟩⟩

@[instance] theorem ParseExpression_stamps (env : Env) [h : StampsEnv Q env] (text : String)
    (position : Position) : Stamps Q (ParseExpression env text position) :=
  callExternal_stamps _ (h.parseExpression text position)

@[instance] theorem ParseForm_stamps (env : Env) [h : StampsEnv Q env] (text : String)
    (position : Position) : Stamps Q (ParseForm env text position) :=
  callExternal_stamps _ (h.parseForm text position)

@[instance] theorem ParseId_stamps (env : Env) [h : StampsEnv Q env] (text : String)
    (position : Position) : Stamps Q (ParseId env text position) :=
  callExternal_stamps _ (h.parseId text position)

@[instance] theorem ParseSignature_stamps (env : Env) [h : StampsEnv Q env] (text : String)
    (position : Position) : Stamps Q (ParseSignature env text position) :=
  callExternal_stamps _ (h.parseSignature text position)

@[instance] theorem IdentifySections_stamps (env : Env) [h : StampsEnv Q env]
    (sections : List Section) (names : List String) :
    Stamps Q (IdentifySections env sections names) :=
  callExternal_stamps _ (fun t => h.identifySections sections t names)

@[instance] theorem forEachArg_stamps {T : Type} (f : Argument → P T)
    [hf : ∀ arg, Stamps Q (f arg)] (args : List Argument) : Stamps Q (forEachArg f args) := by
  induction args with
  | nil => unfold forEachArg; infer_instance
  | cons arg args ih => unfold forEachArg; infer_instance

@[instance] theorem forEachArgIfOk_stamps {T : Type} (f : Argument → P (T × Bool))
    [hf : ∀ arg, Stamps Q (f arg)] (args : List Argument) :
    Stamps Q (forEachArgIfOk f args) := by
  induction args with
  | nil => unfold forEachArgIfOk; infer_instance
  | cons arg args ih => unfold forEachArgIfOk; infer_instance

@[instance] theorem forEachArgOrError_stamps {T : Type} (f : Argument → P (T × Bool))
    (orElse : Argument → Diagnostic) [hf : ∀ arg, Stamps Q (f arg)]
    [ho : ∀ arg, Stamps Q (Append (orElse arg))] (args : List Argument) :
    Stamps Q (forEachArgOrError f orElse args) := by
  induction args with
  | nil => unfold forEachArgOrError; infer_instance
  | cons arg args ih => unfold forEachArgOrError; infer_instance

@[instance] theorem ifPresent_stamps {T : Type} (sec : Option Section) (toX : Section → P T)
    [hf : ∀ s, Stamps Q (toX s)] : Stamps Q (ifPresent sec toX) := by
  unfold ifPresent
  split <;> infer_instance

@[instance] theorem firstOk_nil_stamps {T : Type} [Inhabited T] :
    Stamps Q (firstOk ([] : List (P (T × Bool)))) := by
  unfold firstOk; infer_instance

@[instance] theorem firstOk_cons_stamps {T : Type} [Inhabited T] (alt : P (T × Bool))
    (alts : List (P (T × Bool))) [Stamps Q alt] [Stamps Q (firstOk alts)] :
    Stamps Q (firstOk (alt :: alts)) := by
  unfold firstOk; infer_instance

@[instance] theorem oneOrMore_stamps {T : Type} (items : List T) (position : Position) :
    Stamps Q (oneOrMore items position) := by
  unfold oneOrMore
  repeat (first | infer_instance | refine @Stamps.stamps_bind Q _ _ _ _ ?_ ?_ | intro _ | split)

@[instance] theorem exactlyOne_stamps {T : Type} (items : List T) (defaultItem : T) (position : Position) :
    Stamps Q (exactlyOne items defaultItem position) := by
  unfold exactlyOne
  repeat (first | infer_instance | refine @Stamps.stamps_bind Q _ _ _ _ ?_ ?_ | intro _ | split)

@[instance] theorem verifyNoArgs_stamps (sec : Section) :
    Stamps Q (verifyNoArgs sec) := by
  unfold verifyNoArgs
  repeat (first | infer_instance | refine @Stamps.stamps_bind Q _ _ _ _ ?_ ?_ | intro _ | split)

@[instance] theorem asItem_stamps {G T : Type} (wrap : G → T) (m : P (G × Bool))
    [Stamps Q m] : Stamps Q (asItem wrap m) := by
  unfold asItem; infer_instance

@[instance] theorem toFormulation_stamps (env : Env) [StampsEnv Q env] (arg : Argument) :
    Stamps Q (toFormulation env arg) := by
  unfold toFormulation
  repeat (first | infer_instance | refine @Stamps.stamps_bind Q _ _ _ _ ?_ ?_ | intro _ | split)

@[instance] theorem toSpec_stamps (env : Env) [StampsEnv Q env] (arg : Argument) :
    Stamps Q (toSpec env arg) := by
  unfold toSpec
  repeat (first | infer_instance | refine @Stamps.stamps_bind Q _ _ _ _ ?_ ?_ | intro _ | split)

@[instance] theorem toAlias_stamps (env : Env) [StampsEnv Q env] (arg : Argument) :
    Stamps Q (toAlias env arg) := by
  unfold toAlias
  repeat (first | infer_instance | refine @Stamps.stamps_bind Q _ _ _ _ ?_ ?_ | intro _ | split)

@[instance] theorem toTarget_stamps (env : Env) [StampsEnv Q env] (arg : Argument) :
    Stamps Q (toTarget env arg) := by
  unfold toTarget
  repeat (first | infer_instance | refine @Stamps.stamps_bind Q _ _ _ _ ?_ ?_ | intro _ | split)

@[instance] theorem toTextItem_stamps (arg : Argument) :
    Stamps Q (toTextItem arg) := by
  unfold toTextItem
  repeat (first | infer_instance | refine @Stamps.stamps_bind Q _ _ _ _ ?_ ?_ | intro _ | split)

@[instance] theorem toSignatureItem_stamps (env : Env) [StampsEnv Q env] (arg : Argument) :
    Stamps Q (toSignatureItem env arg) := by
  unfold toSignatureItem
  repeat (first | infer_instance | refine @Stamps.stamps_bind Q _ _ _ _ ?_ ?_ | intro _ | split)

@[instance] theorem toIdItem_stamps (env : Env) [StampsEnv Q env] (text : String) (position : Position) :
    Stamps Q (toIdItem env text position) := by
  unfold toIdItem
  repeat (first | infer_instance | refine @Stamps.stamps_bind Q _ _ _ _ ?_ ?_ | intro _ | split)

@[instance] theorem getId_stamps (env : Env) [StampsEnv Q env] (group : Group) (required : Bool) :
    Stamps Q (getId env group required) := by
  unfold getId
  repeat (first | infer_instance | refine @Stamps.stamps_bind Q _ _ _ _ ?_ ?_ | intro _ | split)

@[instance] theorem getStringId_stamps (group : Group) (required : Bool) :
    Stamps Q (getStringId group required) := by
  unfold getStringId
  repeat (first | infer_instance | refine @Stamps.stamps_bind Q _ _ _ _ ?_ ?_ | intro _ | split)

@[instance] theorem toFormulations_stamps (env : Env) [StampsEnv Q env] (args : List Argument) :
    Stamps Q (toFormulations env args) := by
  unfold toFormulations
  repeat (first | infer_instance | refine @Stamps.stamps_bind Q _ _ _ _ ?_ ?_ | intro _ | split)

@[instance] theorem toClauses_stamps (toClause : Argument → P Clause) (args : List Argument) [∀ arg, Stamps Q (toClause arg)] :
    Stamps Q (toClauses toClause args) := by
  unfold toClauses
  repeat (first | infer_instance | refine @Stamps.stamps_bind Q _ _ _ _ ?_ ?_ | intro _ | split)

@[instance] theorem toSpecs_stamps (env : Env) [StampsEnv Q env] (args : List Argument) :
    Stamps Q (toSpecs env args) := by
  unfold toSpecs
  repeat (first | infer_instance | refine @Stamps.stamps_bind Q _ _ _ _ ?_ ?_ | intro _ | split)

@[instance] theorem toAliases_stamps (env : Env) [StampsEnv Q env] (args : List Argument) :
    Stamps Q (toAliases env args) := by
  unfold toAliases
  repeat (first | infer_instance | refine @Stamps.stamps_bind Q _ _ _ _ ?_ ?_ | intro _ | split)

@[instance] theorem toTargets_stamps (env : Env) [StampsEnv Q env] (args : List Argument) :
    Stamps Q (toTargets env args) := by
  unfold toTargets
  repeat (first | infer_instance | refine @Stamps.stamps_bind Q _ _ _ _ ?_ ?_ | intro _ | split)

@[instance] theorem toTextItems_stamps (args : List Argument) :
    Stamps Q (toTextItems args) := by
  unfold toTextItems
  repeat (first | infer_instance | refine @Stamps.stamps_bind Q _ _ _ _ ?_ ?_ | intro _ | split)

@[instance] theorem toSignaturesItems_stamps (env : Env) [StampsEnv Q env] (args : List Argument) :
    Stamps Q (toSignaturesItems env args) := by
  unfold toSignaturesItems
  repeat (first | infer_instance | refine @Stamps.stamps_bind Q _ _ _ _ ?_ ?_ | intro _ | split)

@[instance] theorem oneOrMoreClauses_stamps (toClause : Argument → P Clause) (sec : Section) [∀ arg, Stamps Q (toClause arg)] :
    Stamps Q (oneOrMoreClauses toClause sec) := by
  unfold oneOrMoreClauses
  repeat (first | infer_instance | refine @Stamps.stamps_bind Q _ _ _ _ ?_ ?_ | intro _ | split)

@[instance] theorem exactlyOneClause_stamps (toClause : Argument → P Clause) (sec : Section) [∀ arg, Stamps Q (toClause arg)] :
    Stamps Q (exactlyOneClause toClause sec) := by
  unfold exactlyOneClause
  repeat (first | infer_instance | refine @Stamps.stamps_bind Q _ _ _ _ ?_ ?_ | intro _ | split)

@[instance] theorem exactlyOneFormulation_stamps (env : Env) [StampsEnv Q env] (sec : Section) :
    Stamps Q (exactlyOneFormulation env sec) := by
  unfold exactlyOneFormulation
  repeat (first | infer_instance | refine @Stamps.stamps_bind Q _ _ _ _ ?_ ?_ | intro _ | split)

@[instance] theorem oneOrMoreSpecs_stamps (env : Env) [StampsEnv Q env] (sec : Section) :
    Stamps Q (oneOrMoreSpecs env sec) := by
  unfold oneOrMoreSpecs
  repeat (first | infer_instance | refine @Stamps.stamps_bind Q _ _ _ _ ?_ ?_ | intro _ | split)

@[instance] theorem oneOrMoreAliases_stamps (env : Env) [StampsEnv Q env] (sec : Section) :
    Stamps Q (oneOrMoreAliases env sec) := by
  unfold oneOrMoreAliases
  repeat (first | infer_instance | refine @Stamps.stamps_bind Q _ _ _ _ ?_ ?_ | intro _ | split)

@[instance] theorem exactlyOneAlias_stamps (env : Env) [StampsEnv Q env] (sec : Section) :
    Stamps Q (exactlyOneAlias env sec) := by
  unfold exactlyOneAlias
  repeat (first | infer_instance | refine @Stamps.stamps_bind Q _ _ _ _ ?_ ?_ | intro _ | split)

@[instance] theorem exactlyOneSpec_stamps (env : Env) [StampsEnv Q env] (sec : Section) :
    Stamps Q (exactlyOneSpec env sec) := by
  unfold exactlyOneSpec
  repeat (first | infer_instance | refine @Stamps.stamps_bind Q _ _ _ _ ?_ ?_ | intro _ | split)

@[instance] theorem oneOrMoreTargets_stamps (env : Env) [StampsEnv Q env] (sec : Section) :
    Stamps Q (oneOrMoreTargets env sec) := by
  unfold oneOrMoreTargets
  repeat (first | infer_instance | refine @Stamps.stamps_bind Q _ _ _ _ ?_ ?_ | intro _ | split)

@[instance] theorem oneOrMoreTextItems_stamps (sec : Section) :
    Stamps Q (oneOrMoreTextItems sec) := by
  unfold oneOrMoreTextItems
  repeat (first | infer_instance | refine @Stamps.stamps_bind Q _ _ _ _ ?_ ?_ | intro _ | split)

@[instance] theorem zeroOrMoreTextItems_stamps (sec : Section) :
    Stamps Q (zeroOrMoreTextItems sec) := by
  unfold zeroOrMoreTextItems
  repeat (first | infer_instance | refine @Stamps.stamps_bind Q _ _ _ _ ?_ ?_ | intro _ | split)

@[instance] theorem exactlyOneTarget_stamps (env : Env) [StampsEnv Q env] (sec : Section) :
    Stamps Q (exactlyOneTarget env sec) := by
  unfold exactlyOneTarget
  repeat (first | infer_instance | refine @Stamps.stamps_bind Q _ _ _ _ ?_ ?_ | intro _ | split)

@[instance] theorem oneOrMoreSignatureItems_stamps (env : Env) [StampsEnv Q env] (sec : Section) :
    Stamps Q (oneOrMoreSignatureItems env sec) := by
  unfold oneOrMoreSignatureItems
  repeat (first | infer_instance | refine @Stamps.stamps_bind Q _ _ _ _ ?_ ?_ | intro _ | split)

@[instance] theorem exactlyOneTextItem_stamps (sec : Section) :
    Stamps Q (exactlyOneTextItem sec) := by
  unfold exactlyOneTextItem
  repeat (first | infer_instance | refine @Stamps.stamps_bind Q _ _ _ _ ?_ ?_ | intro _ | split)

@[instance] theorem toAllOfSection_stamps (toClause : Argument → P Clause) (sec : Section) [∀ arg, Stamps Q (toClause arg)] :
    Stamps Q (toAllOfSection toClause sec) := by
  unfold toAllOfSection
  repeat (first | infer_instance | refine @Stamps.stamps_bind Q _ _ _ _ ?_ ?_ | intro _ | split)

@[instance] theorem toNotSection_stamps (toClause : Argument → P Clause) (sec : Section) [∀ arg, Stamps Q (toClause arg)] :
    Stamps Q (toNotSection toClause sec) := by
  unfold toNotSection
  repeat (first | infer_instance | refine @Stamps.stamps_bind Q _ _ _ _ ?_ ?_ | intro _ | split)

@[instance] theorem toAnyOfSection_stamps (toClause : Argument → P Clause) (sec : Section) [∀ arg, Stamps Q (toClause arg)] :
    Stamps Q (toAnyOfSection toClause sec) := by
  unfold toAnyOfSection
  repeat (first | infer_instance | refine @Stamps.stamps_bind Q _ _ _ _ ?_ ?_ | intro _ | split)

@[instance] theorem toOneOfSection_stamps (toClause : Argument → P Clause) (sec : Section) [∀ arg, Stamps Q (toClause arg)] :
    Stamps Q (toOneOfSection toClause sec) := by
  unfold toOneOfSection
  repeat (first | infer_instance | refine @Stamps.stamps_bind Q _ _ _ _ ?_ ?_ | intro _ | split)

@[instance] theorem toExistsSection_stamps (env : Env) [StampsEnv Q env] (sec : Section) :
    Stamps Q (toExistsSection env sec) := by
  unfold toExistsSection
  repeat (first | infer_instance | refine @Stamps.stamps_bind Q _ _ _ _ ?_ ?_ | intro _ | split)

@[instance] theorem toWhereSection_stamps (env : Env) [StampsEnv Q env] (sec : Section) :
    Stamps Q (toWhereSection env sec) := by
  unfold toWhereSection
  repeat (first | infer_instance | refine @Stamps.stamps_bind Q _ _ _ _ ?_ ?_ | intro _ | split)

@[instance] theorem toSuchThatSection_stamps (toClause : Argument → P Clause) (sec : Section) [∀ arg, Stamps Q (toClause arg)] :
    Stamps Q (toSuchThatSection toClause sec) := by
  unfold toSuchThatSection
  repeat (first | infer_instance | refine @Stamps.stamps_bind Q _ _ _ _ ?_ ?_ | intro _ | split)

@[instance] theorem toExistsUniqueSection_stamps (env : Env) [StampsEnv Q env] (sec : Section) :
    Stamps Q (toExistsUniqueSection env sec) := by
  unfold toExistsUniqueSection
  repeat (first | infer_instance | refine @Stamps.stamps_bind Q _ _ _ _ ?_ ?_ | intro _ | split)

@[instance] theorem toForAllSection_stamps (env : Env) [StampsEnv Q env] (sec : Section) :
    Stamps Q (toForAllSection env sec) := by
  unfold toForAllSection
  repeat (first | infer_instance | refine @Stamps.stamps_bind Q _ _ _ _ ?_ ?_ | intro _ | split)

@[instance] theorem toThenSection_stamps (toClause : Argument → P Clause) (sec : Section) [∀ arg, Stamps Q (toClause arg)] :
    Stamps Q (toThenSection toClause sec) := by
  unfold toThenSection
  repeat (first | infer_instance | refine @Stamps.stamps_bind Q _ _ _ _ ?_ ?_ | intro _ | split)

@[instance] theorem toIfSection_stamps (toClause : Argument → P Clause) (sec : Section) [∀ arg, Stamps Q (toClause arg)] :
    Stamps Q (toIfSection toClause sec) := by
  unfold toIfSection
  repeat (first | infer_instance | refine @Stamps.stamps_bind Q _ _ _ _ ?_ ?_ | intro _ | split)

@[instance] theorem toIffSection_stamps (toClause : Argument → P Clause) (sec : Section) [∀ arg, Stamps Q (toClause arg)] :
    Stamps Q (toIffSection toClause sec) := by
  unfold toIffSection
  repeat (first | infer_instance | refine @Stamps.stamps_bind Q _ _ _ _ ?_ ?_ | intro _ | split)

@[instance] theorem toWhenSection_stamps (toClause : Argument → P Clause) (sec : Section) [∀ arg, Stamps Q (toClause arg)] :
    Stamps Q (toWhenSection toClause sec) := by
  unfold toWhenSection
  repeat (first | infer_instance | refine @Stamps.stamps_bind Q _ _ _ _ ?_ ?_ | intro _ | split)

@[instance] theorem toPiecewiseSection_stamps (sec : Section) :
    Stamps Q (toPiecewiseSection sec) := by
  unfold toPiecewiseSection
  repeat (first | infer_instance | refine @Stamps.stamps_bind Q _ _ _ _ ?_ ?_ | intro _ | split)

@[instance] theorem toElseSection_stamps (toClause : Argument → P Clause) (sec : Section) [∀ arg, Stamps Q (toClause arg)] :
    Stamps Q (toElseSection toClause sec) := by
  unfold toElseSection
  repeat (first | infer_instance | refine @Stamps.stamps_bind Q _ _ _ _ ?_ ?_ | intro _ | split)

@[instance] theorem piecewiseUnexpected_stamps (rest : List Section) :
    Stamps Q (piecewiseUnexpected rest) := by
  induction rest with
  | nil => unfold piecewiseUnexpected; infer_instance
  | cons sec rest ih => unfold piecewiseUnexpected; infer_instance

theorem piecewiseIfThens_stamps_aux (toClause : Argument → P Clause)
    [∀ arg, Stamps Q (toClause arg)] (n : Nat) :
    ∀ (rest : List Section) (ifThens : List (IfThen Clause)), rest.length ≤ n →
      Stamps Q (piecewiseIfThens toClause rest ifThens) := by
  induction n with
  | zero =>
    intro rest ifThens h
    match rest, h with
    | [], _ => unfold piecewiseIfThens; infer_instance
  | succ n ih =>
    intro rest ifThens h
    match rest, h with
    | [], _ => unfold piecewiseIfThens; infer_instance
    | [section1], _ => unfold piecewiseIfThens; infer_instance
    | section1 :: section2 :: rest, h =>
      have hrest : rest.length ≤ n := by
        simp only [List.length_cons] at h; omega
      have := fun ifThens => ih rest ifThens hrest
      unfold piecewiseIfThens
      infer_instance

@[instance] theorem piecewiseIfThens_stamps (toClause : Argument → P Clause)
    [∀ arg, Stamps Q (toClause arg)] (rest : List Section) (ifThens : List (IfThen Clause)) :
    Stamps Q (piecewiseIfThens toClause rest ifThens) :=
  piecewiseIfThens_stamps_aux toClause rest.length rest ifThens (Nat.le_refl _)

@[instance] theorem toPiecewiseGroup_stamps (toClause : Argument → P Clause) (group : Group)
    [∀ arg, Stamps Q (toClause arg)] : Stamps Q (toPiecewiseGroup toClause group) := by
  unfold toPiecewiseGroup
  repeat (first | infer_instance | refine @Stamps.stamps_bind Q _ _ _ _ ?_ ?_ | intro _ | split)

@[instance] theorem toGivenSection_stamps (env : Env) [StampsEnv Q env] (sec : Section) :
    Stamps Q (toGivenSection env sec) := by
  unfold toGivenSection
  repeat (first | infer_instance | refine @Stamps.stamps_bind Q _ _ _ _ ?_ ?_ | intro _ | split)

@[instance] theorem toGivenGroup_stamps (env : Env) [StampsEnv Q env] (toClause : Argument → P Clause) (group : Group) [∀ arg, Stamps Q (toClause arg)] :
    Stamps Q (toGivenGroup env toClause group) := by
  unfold toGivenGroup
  repeat (first | infer_instance | refine @Stamps.stamps_bind Q _ _ _ _ ?_ ?_ | intro _ | split)

@[instance] theorem toAllOfGroup_stamps (env : Env) [StampsEnv Q env] (toClause : Argument → P Clause) (group : Group) [∀ arg, Stamps Q (toClause arg)] :
    Stamps Q (toAllOfGroup env toClause group) := by
  unfold toAllOfGroup
  repeat (first | infer_instance | refine @Stamps.stamps_bind Q _ _ _ _ ?_ ?_ | intro _ | split)

@[instance] theorem toNotGroup_stamps (env : Env) [StampsEnv Q env] (toClause : Argument → P Clause) (group : Group) [∀ arg, Stamps Q (toClause arg)] :
    Stamps Q (toNotGroup env toClause group) := by
  unfold toNotGroup
  repeat (first | infer_instance | refine @Stamps.stamps_bind Q _ _ _ _ ?_ ?_ | intro _ | split)

@[instance] theorem toAnyOfGroup_stamps (env : Env) [StampsEnv Q env] (toClause : Argument → P Clause) (group : Group) [∀ arg, Stamps Q (toClause arg)] :
    Stamps Q (toAnyOfGroup env toClause group) := by
  unfold toAnyOfGroup
  repeat (first | infer_instance | refine @Stamps.stamps_bind Q _ _ _ _ ?_ ?_ | intro _ | split)

@[instance] theorem toOneOfGroup_stamps (env : Env) [StampsEnv Q env] (toClause : Argument → P Clause) (group : Group) [∀ arg, Stamps Q (toClause arg)] :
    Stamps Q (toOneOfGroup env toClause group) := by
  unfold toOneOfGroup
  repeat (first | infer_instance | refine @Stamps.stamps_bind Q _ _ _ _ ?_ ?_ | intro _ | split)

@[instance] theorem toExistsGroup_stamps (env : Env) [StampsEnv Q env] (toClause : Argument → P Clause) (group : Group) [∀ arg, Stamps Q (toClause arg)] :
    Stamps Q (toExistsGroup env toClause group) := by
  unfold toExistsGroup
  repeat (first | infer_instance | refine @Stamps.stamps_bind Q _ _ _ _ ?_ ?_ | intro _ | split)

@[instance] theorem toExistsUniqueGroup_stamps (env : Env) [StampsEnv Q env] (toClause : Argument → P Clause) (group : Group) [∀ arg, Stamps Q (toClause arg)] :
    Stamps Q (toExistsUniqueGroup env toClause group) := by
  unfold toExistsUniqueGroup
  repeat (first | infer_instance | refine @Stamps.stamps_bind Q _ _ _ _ ?_ ?_ | intro _ | split)

@[instance] theorem toForAllGroup_stamps (env : Env) [StampsEnv Q env] (toClause : Argument → P Clause) (group : Group) [∀ arg, Stamps Q (toClause arg)] :
    Stamps Q (toForAllGroup env toClause group) := by
  unfold toForAllGroup
  repeat (first | infer_instance | refine @Stamps.stamps_bind Q _ _ _ _ ?_ ?_ | intro _ | split)

@[instance] theorem toIfGroup_stamps (env : Env) [StampsEnv Q env] (toClause : Argument → P Clause) (group : Group) [∀ arg, Stamps Q (toClause arg)] :
    Stamps Q (toIfGroup env toClause group) := by
  unfold toIfGroup
  repeat (first | infer_instance | refine @Stamps.stamps_bind Q _ _ _ _ ?_ ?_ | intro _ | split)

@[instance] theorem toIffGroup_stamps (env : Env) [StampsEnv Q env] (toClause : Argument → P Clause) (group : Group) [∀ arg, Stamps Q (toClause arg)] :
    Stamps Q (toIffGroup env toClause group) := by
  unfold toIffGroup
  repeat (first | infer_instance | refine @Stamps.stamps_bind Q _ _ _ _ ?_ ?_ | intro _ | split)

@[instance] theorem toWhenGroup_stamps (env : Env) [StampsEnv Q env] (toClause : Argument → P Clause) (group : Group) [∀ arg, Stamps Q (toClause arg)] :
    Stamps Q (toWhenGroup env toClause group) := by
  unfold toWhenGroup
  repeat (first | infer_instance | refine @Stamps.stamps_bind Q _ _ _ _ ?_ ?_ | intro _ | split)

@[instance] theorem toClauseBody_stamps (env : Env) [StampsEnv Q env] (toClause : Argument → P Clause) (arg : Argument) [∀ arg, Stamps Q (toClause arg)] :
    Stamps Q (toClauseBody env toClause arg) := by
  unfold toClauseBody
  repeat (first | infer_instance | refine @Stamps.stamps_bind Q _ _ _ _ ?_ ?_ | intro _ | split)

@[instance] theorem toClauseFuel_stamps (env : Env) [StampsEnv Q env] (fuel : Nat) (arg : Argument) :
    Stamps Q (toClauseFuel env fuel arg) := by
  induction fuel generalizing arg with
  | zero => unfold toClauseFuel; infer_instance
  | succ fuel ih => unfold toClauseFuel; infer_instance

@[instance] theorem toClause_stamps (env : Env) [StampsEnv Q env] (arg : Argument) :
    Stamps Q (toClause env arg) := by
  unfold toClause; infer_instance

@[instance] theorem toSymbolSection_stamps (env : Env) [StampsEnv Q env] (sec : Section) :
    Stamps Q (toSymbolSection env sec) := by
  unfold toSymbolSection
  repeat (first | infer_instance | refine @Stamps.stamps_bind Q _ _ _ _ ?_ ?_ | intro _ | split)

@[instance] theorem toWrittenSection_stamps (sec : Section) :
    Stamps Q (toWrittenSection sec) := by
  unfold toWrittenSection
  repeat (first | infer_instance | refine @Stamps.stamps_bind Q _ _ _ _ ?_ ?_ | intro _ | split)

@[instance] theorem toSymbolWrittenGroup_stamps (env : Env) [StampsEnv Q env] (group : Group) :
    Stamps Q (toSymbolWrittenGroup env group) := by
  unfold toSymbolWrittenGroup
  repeat (first | infer_instance | refine @Stamps.stamps_bind Q _ _ _ _ ?_ ?_ | intro _ | split)

@[instance] theorem toConnectionSection_stamps (sec : Section) :
    Stamps Q (toConnectionSection sec) := by
  unfold toConnectionSection
  repeat (first | infer_instance | refine @Stamps.stamps_bind Q _ _ _ _ ?_ ?_ | intro _ | split)

@[instance] theorem toUsingSection_stamps (env : Env) [StampsEnv Q env] (sec : Section) :
    Stamps Q (toUsingSection env sec) := by
  unfold toUsingSection
  repeat (first | infer_instance | refine @Stamps.stamps_bind Q _ _ _ _ ?_ ?_ | intro _ | split)

@[instance] theorem toMeansSection_stamps (toClause : Argument → P Clause) (sec : Section) [∀ arg, Stamps Q (toClause arg)] :
    Stamps Q (toMeansSection toClause sec) := by
  unfold toMeansSection
  repeat (first | infer_instance | refine @Stamps.stamps_bind Q _ _ _ _ ?_ ?_ | intro _ | split)

@[instance] theorem toSignifiesSection_stamps (env : Env) [StampsEnv Q env] (sec : Section) :
    Stamps Q (toSignifiesSection env sec) := by
  unfold toSignifiesSection
  repeat (first | infer_instance | refine @Stamps.stamps_bind Q _ _ _ _ ?_ ?_ | intro _ | split)

@[instance] theorem toConnectionViewableSection_stamps (sec : Section) :
    Stamps Q (toConnectionViewableSection sec) := by
  unfold toConnectionViewableSection
  repeat (first | infer_instance | refine @Stamps.stamps_bind Q _ _ _ _ ?_ ?_ | intro _ | split)

@[instance] theorem toConnectionThroughSection_stamps (env : Env) [StampsEnv Q env] (sec : Section) :
    Stamps Q (toConnectionThroughSection env sec) := by
  unfold toConnectionThroughSection
  repeat (first | infer_instance | refine @Stamps.stamps_bind Q _ _ _ _ ?_ ?_ | intro _ | split)

@[instance] theorem toConnectionGroup_stamps (env : Env) [StampsEnv Q env] (group : Group) :
    Stamps Q (toConnectionGroup env group) := by
  unfold toConnectionGroup
  repeat (first | infer_instance | refine @Stamps.stamps_bind Q _ _ _ _ ?_ ?_ | intro _ | split)

@[instance] theorem toProvidesTypeFromGroup_stamps (env : Env) [StampsEnv Q env] (group : Group) :
    Stamps Q (toProvidesTypeFromGroup env group) := by
  unfold toProvidesTypeFromGroup
  repeat (first | infer_instance | refine @Stamps.stamps_bind Q _ _ _ _ ?_ ?_ | intro _ | split)

@[instance] theorem toProvidesTypeFromArg_stamps (env : Env) [StampsEnv Q env] (arg : Argument) :
    Stamps Q (toProvidesTypeFromArg env arg) := by
  unfold toProvidesTypeFromArg
  repeat (first | infer_instance | refine @Stamps.stamps_bind Q _ _ _ _ ?_ ?_ | intro _ | split)

@[instance] theorem toProvidesTypes_stamps (env : Env) [StampsEnv Q env] (args : List Argument) :
    Stamps Q (toProvidesTypes env args) := by
  unfold toProvidesTypes
  repeat (first | infer_instance | refine @Stamps.stamps_bind Q _ _ _ _ ?_ ?_ | intro _ | split)

@[instance] theorem oneOrMoreProvidesType_stamps (env : Env) [StampsEnv Q env] (sec : Section) :
    Stamps Q (oneOrMoreProvidesType env sec) := by
  unfold oneOrMoreProvidesType
  repeat (first | infer_instance | refine @Stamps.stamps_bind Q _ _ _ _ ?_ ?_ | intro _ | split)

@[instance] theorem toProvidesSection_stamps (env : Env) [StampsEnv Q env] (sec : Section) :
    Stamps Q (toProvidesSection env sec) := by
  unfold toProvidesSection
  repeat (first | infer_instance | refine @Stamps.stamps_bind Q _ _ _ _ ?_ ?_ | intro _ | split)

@[instance] theorem toWrittenGroup_stamps (env : Env) [StampsEnv Q env] (group : Group) :
    Stamps Q (toWrittenGroup env group) := by
  unfold toWrittenGroup
  repeat (first | infer_instance | refine @Stamps.stamps_bind Q _ _ _ _ ?_ ?_ | intro _ | split)

@[instance] theorem toCalledSection_stamps (sec : Section) :
    Stamps Q (toCalledSection sec) := by
  unfold toCalledSection
  repeat (first | infer_instance | refine @Stamps.stamps_bind Q _ _ _ _ ?_ ?_ | intro _ | split)

@[instance] theorem toCalledGroup_stamps (env : Env) [StampsEnv Q env] (group : Group) :
    Stamps Q (toCalledGroup env group) := by
  unfold toCalledGroup
  repeat (first | infer_instance | refine @Stamps.stamps_bind Q _ _ _ _ ?_ ?_ | intro _ | split)

@[instance] theorem toWritingSection_stamps (env : Env) [StampsEnv Q env] (sec : Section) :
    Stamps Q (toWritingSection env sec) := by
  unfold toWritingSection
  repeat (first | infer_instance | refine @Stamps.stamps_bind Q _ _ _ _ ?_ ?_ | intro _ | split)

@[instance] theorem toWritingAsSection_stamps (sec : Section) :
    Stamps Q (toWritingAsSection sec) := by
  unfold toWritingAsSection
  repeat (first | infer_instance | refine @Stamps.stamps_bind Q _ _ _ _ ?_ ?_ | intro _ | split)

@[instance] theorem toWritingGroup_stamps (env : Env) [StampsEnv Q env] (group : Group) :
    Stamps Q (toWritingGroup env group) := by
  unfold toWritingGroup
  repeat (first | infer_instance | refine @Stamps.stamps_bind Q _ _ _ _ ?_ ?_ | intro _ | split)

@[instance] theorem toOverviewSection_stamps (sec : Section) :
    Stamps Q (toOverviewSection sec) := by
  unfold toOverviewSection
  repeat (first | infer_instance | refine @Stamps.stamps_bind Q _ _ _ _ ?_ ?_ | intro _ | split)

@[instance] theorem toOverviewGroup_stamps (env : Env) [StampsEnv Q env] (group : Group) :
    Stamps Q (toOverviewGroup env group) := by
  unfold toOverviewGroup
  repeat (first | infer_instance | refine @Stamps.stamps_bind Q _ _ _ _ ?_ ?_ | intro _ | split)

@[instance] theorem toMotivationSection_stamps (sec : Section) :
    Stamps Q (toMotivationSection sec) := by
  unfold toMotivationSection
  repeat (first | infer_instance | refine @Stamps.stamps_bind Q _ _ _ _ ?_ ?_ | intro _ | split)

@[instance] theorem toMotivationGroup_stamps (env : Env) [StampsEnv Q env] (group : Group) :
    Stamps Q (toMotivationGroup env group) := by
  unfold toMotivationGroup
  repeat (first | infer_instance | refine @Stamps.stamps_bind Q _ _ _ _ ?_ ?_ | intro _ | split)

@[instance] theorem toHistorySection_stamps (sec : Section) :
    Stamps Q (toHistorySection sec) := by
  unfold toHistorySection
  repeat (first | infer_instance | refine @Stamps.stamps_bind Q _ _ _ _ ?_ ?_ | intro _ | split)

@[instance] theorem toHistoryGroup_stamps (env : Env) [StampsEnv Q env] (group : Group) :
    Stamps Q (toHistoryGroup env group) := by
  unfold toHistoryGroup
  repeat (first | infer_instance | refine @Stamps.stamps_bind Q _ _ _ _ ?_ ?_ | intro _ | split)

@[instance] theorem toExampleSection_stamps (sec : Section) :
    Stamps Q (toExampleSection sec) := by
  unfold toExampleSection
  repeat (first | infer_instance | refine @Stamps.stamps_bind Q _ _ _ _ ?_ ?_ | intro _ | split)

@[instance] theorem toExampleGroup_stamps (env : Env) [StampsEnv Q env] (group : Group) :
    Stamps Q (toExampleGroup env group) := by
  unfold toExampleGroup
  repeat (first | infer_instance | refine @Stamps.stamps_bind Q _ _ _ _ ?_ ?_ | intro _ | split)

@[instance] theorem toRelatedSection_stamps (env : Env) [StampsEnv Q env] (sec : Section) :
    Stamps Q (toRelatedSection env sec) := by
  unfold toRelatedSection
  repeat (first | infer_instance | refine @Stamps.stamps_bind Q _ _ _ _ ?_ ?_ | intro _ | split)

@[instance] theorem toRelatedGroup_stamps (env : Env) [StampsEnv Q env] (group : Group) :
    Stamps Q (toRelatedGroup env group) := by
  unfold toRelatedGroup
  repeat (first | infer_instance | refine @Stamps.stamps_bind Q _ _ _ _ ?_ ?_ | intro _ | split)

@[instance] theorem toDiscovererSection_stamps (sec : Section) :
    Stamps Q (toDiscovererSection sec) := by
  unfold toDiscovererSection
  repeat (first | infer_instance | refine @Stamps.stamps_bind Q _ _ _ _ ?_ ?_ | intro _ | split)

@[instance] theorem toDiscovererGroup_stamps (env : Env) [StampsEnv Q env] (group : Group) :
    Stamps Q (toDiscovererGroup env group) := by
  unfold toDiscovererGroup
  repeat (first | infer_instance | refine @Stamps.stamps_bind Q _ _ _ _ ?_ ?_ | intro _ | split)

@[instance] theorem toDescribingSection_stamps (sec : Section) :
    Stamps Q (toDescribingSection sec) := by
  unfold toDescribingSection
  repeat (first | infer_instance | refine @Stamps.stamps_bind Q _ _ _ _ ?_ ?_ | intro _ | split)

@[instance] theorem toContentSection_stamps (sec : Section) :
    Stamps Q (toContentSection sec) := by
  unfold toContentSection
  repeat (first | infer_instance | refine @Stamps.stamps_bind Q _ _ _ _ ?_ ?_ | intro _ | split)

@[instance] theorem toDescribingGroup_stamps (env : Env) [StampsEnv Q env] (group : Group) :
    Stamps Q (toDescribingGroup env group) := by
  unfold toDescribingGroup
  repeat (first | infer_instance | refine @Stamps.stamps_bind Q _ _ _ _ ?_ ?_ | intro _ | split)

@[instance] theorem toNoteType_stamps (env : Env) [StampsEnv Q env] (arg : Argument) :
    Stamps Q (toNoteType env arg) := by
  unfold toNoteType
  repeat (first | infer_instance | refine @Stamps.stamps_bind Q _ _ _ _ ?_ ?_ | intro _ | split)

@[instance] theorem toNoteTypes_stamps (env : Env) [StampsEnv Q env] (args : List Argument) :
    Stamps Q (toNoteTypes env args) := by
  unfold toNoteTypes
  repeat (first | infer_instance | refine @Stamps.stamps_bind Q _ _ _ _ ?_ ?_ | intro _ | split)

@[instance] theorem oneOrMoreNoteTypes_stamps (env : Env) [StampsEnv Q env] (sec : Section) :
    Stamps Q (oneOrMoreNoteTypes env sec) := by
  unfold oneOrMoreNoteTypes
  repeat (first | infer_instance | refine @Stamps.stamps_bind Q _ _ _ _ ?_ ?_ | intro _ | split)

@[instance] theorem toNoteSection_stamps (env : Env) [StampsEnv Q env] (sec : Section) :
    Stamps Q (toNoteSection env sec) := by
  unfold toNoteSection
  repeat (first | infer_instance | refine @Stamps.stamps_bind Q _ _ _ _ ?_ ?_ | intro _ | split)

@[instance] theorem toNoteGroup_stamps (env : Env) [StampsEnv Q env] (group : Group) :
    Stamps Q (toNoteGroup env group) := by
  unfold toNoteGroup
  repeat (first | infer_instance | refine @Stamps.stamps_bind Q _ _ _ _ ?_ ?_ | intro _ | split)

@[instance] theorem toDocumentedType_stamps (env : Env) [StampsEnv Q env] (arg : Argument) :
    Stamps Q (toDocumentedType env arg) := by
  unfold toDocumentedType
  repeat (first | infer_instance | refine @Stamps.stamps_bind Q _ _ _ _ ?_ ?_ | intro _ | split)

@[instance] theorem toDocumentedTypes_stamps (env : Env) [StampsEnv Q env] (args : List Argument) :
    Stamps Q (toDocumentedTypes env args) := by
  unfold toDocumentedTypes; infer_instance

@[instance] theorem oneOrMoreDocumentedTypes_stamps (env : Env) [StampsEnv Q env] (sec : Section) :
    Stamps Q (oneOrMoreDocumentedTypes env sec) := by
  unfold oneOrMoreDocumentedTypes
  repeat (first | infer_instance | refine @Stamps.stamps_bind Q _ _ _ _ ?_ ?_ | intro _ | split)

@[instance] theorem toDocumentedSection_stamps (env : Env) [StampsEnv Q env] (sec : Section) :
    Stamps Q (toDocumentedSection env sec) := by
  unfold toDocumentedSection
  repeat (first | infer_instance | refine @Stamps.stamps_bind Q _ _ _ _ ?_ ?_ | intro _ | split)

@[instance] theorem toAliasesSection_stamps (env : Env) [StampsEnv Q env] (sec : Section) :
    Stamps Q (toAliasesSection env sec) := by
  unfold toAliasesSection
  repeat (first | infer_instance | refine @Stamps.stamps_bind Q _ _ _ _ ?_ ?_ | intro _ | split)

@[instance] theorem toLabelSection_stamps (sec : Section) :
    Stamps Q (toLabelSection sec) := by
  unfold toLabelSection
  repeat (first | infer_instance | refine @Stamps.stamps_bind Q _ _ _ _ ?_ ?_ | intro _ | split)

@[instance] theorem toBySection_stamps (sec : Section) :
    Stamps Q (toBySection sec) := by
  unfold toBySection
  repeat (first | infer_instance | refine @Stamps.stamps_bind Q _ _ _ _ ?_ ?_ | intro _ | split)

@[instance] theorem toLabelGroup_stamps (env : Env) [StampsEnv Q env] (group : Group) :
    Stamps Q (toLabelGroup env group) := by
  unfold toLabelGroup
  repeat (first | infer_instance | refine @Stamps.stamps_bind Q _ _ _ _ ?_ ?_ | intro _ | split)

@[instance] theorem toByGroup_stamps (env : Env) [StampsEnv Q env] (group : Group) :
    Stamps Q (toByGroup env group) := by
  unfold toByGroup
  repeat (first | infer_instance | refine @Stamps.stamps_bind Q _ _ _ _ ?_ ?_ | intro _ | split)

@[instance] theorem toJustifiedTypeFromGroup_stamps (env : Env) [StampsEnv Q env] (group : Group) :
    Stamps Q (toJustifiedTypeFromGroup env group) := by
  unfold toJustifiedTypeFromGroup
  repeat (first | infer_instance | refine @Stamps.stamps_bind Q _ _ _ _ ?_ ?_ | intro _ | split)

@[instance] theorem toJustifiedTypeFromArg_stamps (env : Env) [StampsEnv Q env] (arg : Argument) :
    Stamps Q (toJustifiedTypeFromArg env arg) := by
  unfold toJustifiedTypeFromArg
  repeat (first | infer_instance | refine @Stamps.stamps_bind Q _ _ _ _ ?_ ?_ | intro _ | split)

@[instance] theorem toJustifiedTypes_stamps (env : Env) [StampsEnv Q env] (args : List Argument) :
    Stamps Q (toJustifiedTypes env args) := by
  unfold toJustifiedTypes
  repeat (first | infer_instance | refine @Stamps.stamps_bind Q _ _ _ _ ?_ ?_ | intro _ | split)

@[instance] theorem oneOrMoreJustifiedType_stamps (env : Env) [StampsEnv Q env] (sec : Section) :
    Stamps Q (oneOrMoreJustifiedType env sec) := by
  unfold oneOrMoreJustifiedType
  repeat (first | infer_instance | refine @Stamps.stamps_bind Q _ _ _ _ ?_ ?_ | intro _ | split)

@[instance] theorem toJustifiedSection_stamps (env : Env) [StampsEnv Q env] (sec : Section) :
    Stamps Q (toJustifiedSection env sec) := by
  unfold toJustifiedSection
  repeat (first | infer_instance | refine @Stamps.stamps_bind Q _ _ _ _ ?_ ?_ | intro _ | split)

@[instance] theorem toReferencesSection_stamps (sec : Section) :
    Stamps Q (toReferencesSection sec) := by
  unfold toReferencesSection
  repeat (first | infer_instance | refine @Stamps.stamps_bind Q _ _ _ _ ?_ ?_ | intro _ | split)

@[instance] theorem toMetaIdSection_stamps (sec : Section) :
    Stamps Q (toMetaIdSection sec) := by
  unfold toMetaIdSection
  repeat (first | infer_instance | refine @Stamps.stamps_bind Q _ _ _ _ ?_ ?_ | intro _ | split)

@[instance] theorem toDescribesSection_stamps (env : Env) [StampsEnv Q env] (sec : Section) :
    Stamps Q (toDescribesSection env sec) := by
  unfold toDescribesSection
  repeat (first | infer_instance | refine @Stamps.stamps_bind Q _ _ _ _ ?_ ?_ | intro _ | split)

@[instance] theorem toWithSection_stamps (env : Env) [StampsEnv Q env] (sec : Section) :
    Stamps Q (toWithSection env sec) := by
  unfold toWithSection
  repeat (first | infer_instance | refine @Stamps.stamps_bind Q _ _ _ _ ?_ ?_ | intro _ | split)

@[instance] theorem toExtendsSection_stamps (toClause : Argument → P Clause) (sec : Section) [∀ arg, Stamps Q (toClause arg)] :
    Stamps Q (toExtendsSection toClause sec) := by
  unfold toExtendsSection
  repeat (first | infer_instance | refine @Stamps.stamps_bind Q _ _ _ _ ?_ ?_ | intro _ | split)

@[instance] theorem toSatisfiesSection_stamps (toClause : Argument → P Clause) (sec : Section) [∀ arg, Stamps Q (toClause arg)] :
    Stamps Q (toSatisfiesSection toClause sec) := by
  unfold toSatisfiesSection
  repeat (first | infer_instance | refine @Stamps.stamps_bind Q _ _ _ _ ?_ ?_ | intro _ | split)

@[instance] theorem toDescribesGroup_stamps (env : Env) [StampsEnv Q env] (group : Group) :
    Stamps Q (toDescribesGroup env group) := by
  unfold toDescribesGroup
  repeat (first | infer_instance | refine @Stamps.stamps_bind Q _ _ _ _ ?_ ?_ | intro _ | split)

@[instance] theorem toDefinesSection_stamps (env : Env) [StampsEnv Q env] (sec : Section) :
    Stamps Q (toDefinesSection env sec) := by
  unfold toDefinesSection
  repeat (first | infer_instance | refine @Stamps.stamps_bind Q _ _ _ _ ?_ ?_ | intro _ | split)

@[instance] theorem toSpecifiesSection_stamps (toClause : Argument → P Clause) (sec : Section) [∀ arg, Stamps Q (toClause arg)] :
    Stamps Q (toSpecifiesSection toClause sec) := by
  unfold toSpecifiesSection
  repeat (first | infer_instance | refine @Stamps.stamps_bind Q _ _ _ _ ?_ ?_ | intro _ | split)

@[instance] theorem toDefinesGroup_stamps (env : Env) [StampsEnv Q env] (group : Group) :
    Stamps Q (toDefinesGroup env group) := by
  unfold toDefinesGroup
  repeat (first | infer_instance | refine @Stamps.stamps_bind Q _ _ _ _ ?_ ?_ | intro _ | split)

@[instance] theorem toStatesSection_stamps (sec : Section) :
    Stamps Q (toStatesSection sec) := by
  unfold toStatesSection
  repeat (first | infer_instance | refine @Stamps.stamps_bind Q _ _ _ _ ?_ ?_ | intro _ | split)

@[instance] theorem toThatSection_stamps (toClause : Argument → P Clause) (sec : Section) [∀ arg, Stamps Q (toClause arg)] :
    Stamps Q (toThatSection toClause sec) := by
  unfold toThatSection
  repeat (first | infer_instance | refine @Stamps.stamps_bind Q _ _ _ _ ?_ ?_ | intro _ | split)

@[instance] theorem toStatesGroup_stamps (env : Env) [StampsEnv Q env] (group : Group) :
    Stamps Q (toStatesGroup env group) := by
  unfold toStatesGroup
  repeat (first | infer_instance | refine @Stamps.stamps_bind Q _ _ _ _ ?_ ?_ | intro _ | split)

@[instance] theorem toAxiomSection_stamps (sec : Section) :
    Stamps Q (toAxiomSection sec) := by
  unfold toAxiomSection
  repeat (first | infer_instance | refine @Stamps.stamps_bind Q _ _ _ _ ?_ ?_ | intro _ | split)

@[instance] theorem toAxiomGroup_stamps (env : Env) [StampsEnv Q env] (group : Group) :
    Stamps Q (toAxiomGroup env group) := by
  unfold toAxiomGroup
  repeat (first | infer_instance | refine @Stamps.stamps_bind Q _ _ _ _ ?_ ?_ | intro _ | split)

@[instance] theorem toConjectureSection_stamps (sec : Section) :
    Stamps Q (toConjectureSection sec) := by
  unfold toConjectureSection
  repeat (first | infer_instance | refine @Stamps.stamps_bind Q _ _ _ _ ?_ ?_ | intro _ | split)

@[instance] theorem toConjectureGroup_stamps (env : Env) [StampsEnv Q env] (group : Group) :
    Stamps Q (toConjectureGroup env group) := by
  unfold toConjectureGroup
  repeat (first | infer_instance | refine @Stamps.stamps_bind Q _ _ _ _ ?_ ?_ | intro _ | split)

@[instance] theorem toTheoremSection_stamps (sec : Section) :
    Stamps Q (toTheoremSection sec) := by
  unfold toTheoremSection
  repeat (first | infer_instance | refine @Stamps.stamps_bind Q _ _ _ _ ?_ ?_ | intro _ | split)

@[instance] theorem toProofSection_stamps (sec : Section) :
    Stamps Q (toProofSection sec) := by
  unfold toProofSection
  repeat (first | infer_instance | refine @Stamps.stamps_bind Q _ _ _ _ ?_ ?_ | intro _ | split)

@[instance] theorem toTheoremGroup_stamps (env : Env) [StampsEnv Q env] (group : Group) :
    Stamps Q (toTheoremGroup env group) := by
  unfold toTheoremGroup
  repeat (first | infer_instance | refine @Stamps.stamps_bind Q _ _ _ _ ?_ ?_ | intro _ | split)

@[instance] theorem toZeroSection_stamps (sec : Section) :
    Stamps Q (toZeroSection sec) := by
  unfold toZeroSection
  repeat (first | infer_instance | refine @Stamps.stamps_bind Q _ _ _ _ ?_ ?_ | intro _ | split)

@[instance] theorem toZeroGroup_stamps (env : Env) [StampsEnv Q env] (group : Group) :
    Stamps Q (toZeroGroup env group) := by
  unfold toZeroGroup
  repeat (first | infer_instance | refine @Stamps.stamps_bind Q _ _ _ _ ?_ ?_ | intro _ | split)

@[instance] theorem toPositiveIntSection_stamps (env : Env) [StampsEnv Q env] (sec : Section) :
    Stamps Q (toPositiveIntSection env sec) := by
  unfold toPositiveIntSection
  repeat (first | infer_instance | refine @Stamps.stamps_bind Q _ _ _ _ ?_ ?_ | intro _ | split)

@[instance] theorem toPositiveIntGroup_stamps (env : Env) [StampsEnv Q env] (group : Group) :
    Stamps Q (toPositiveIntGroup env group) := by
  unfold toPositiveIntGroup
  repeat (first | infer_instance | refine @Stamps.stamps_bind Q _ _ _ _ ?_ ?_ | intro _ | split)

@[instance] theorem toNegativeIntSection_stamps (env : Env) [StampsEnv Q env] (sec : Section) :
    Stamps Q (toNegativeIntSection env sec) := by
  unfold toNegativeIntSection
  repeat (first | infer_instance | refine @Stamps.stamps_bind Q _ _ _ _ ?_ ?_ | intro _ | split)

@[instance] theorem toNegativeIntGroup_stamps (env : Env) [StampsEnv Q env] (group : Group) :
    Stamps Q (toNegativeIntGroup env group) := by
  unfold toNegativeIntGroup
  repeat (first | infer_instance | refine @Stamps.stamps_bind Q _ _ _ _ ?_ ?_ | intro _ | split)

@[instance] theorem toPositiveFloatSection_stamps (env : Env) [StampsEnv Q env] (sec : Section) :
    Stamps Q (toPositiveFloatSection env sec) := by
  unfold toPositiveFloatSection
  repeat (first | infer_instance | refine @Stamps.stamps_bind Q _ _ _ _ ?_ ?_ | intro _ | split)

@[instance] theorem toPositiveFloatGroup_stamps (env : Env) [StampsEnv Q env] (group : Group) :
    Stamps Q (toPositiveFloatGroup env group) := by
  unfold toPositiveFloatGroup
  repeat (first | infer_instance | refine @Stamps.stamps_bind Q _ _ _ _ ?_ ?_ | intro _ | split)

@[instance] theorem toNegativeFloatSection_stamps (env : Env) [StampsEnv Q env] (sec : Section) :
    Stamps Q (toNegativeFloatSection env sec) := by
  unfold toNegativeFloatSection
  repeat (first | infer_instance | refine @Stamps.stamps_bind Q _ _ _ _ ?_ ?_ | intro _ | split)

@[instance] theorem toNegativeFloatGroup_stamps (env : Env) [StampsEnv Q env] (group : Group) :
    Stamps Q (toNegativeFloatGroup env group) := by
  unfold toNegativeFloatGroup
  repeat (first | infer_instance | refine @Stamps.stamps_bind Q _ _ _ _ ?_ ?_ | intro _ | split)

@[instance] theorem toSpecifyType_stamps (env : Env) [StampsEnv Q env] (arg : Argument) :
    Stamps Q (toSpecifyType env arg) := by
  unfold toSpecifyType
  repeat (first | infer_instance | refine @Stamps.stamps_bind Q _ _ _ _ ?_ ?_ | intro _ | split)

@[instance] theorem toSpecifyTypes_stamps (env : Env) [StampsEnv Q env] (args : List Argument) :
    Stamps Q (toSpecifyTypes env args) := by
  unfold toSpecifyTypes
  repeat (first | infer_instance | refine @Stamps.stamps_bind Q _ _ _ _ ?_ ?_ | intro _ | split)

@[instance] theorem oneOrMoreSpecifyTypes_stamps (env : Env) [StampsEnv Q env] (sec : Section) :
    Stamps Q (oneOrMoreSpecifyTypes env sec) := by
  unfold oneOrMoreSpecifyTypes
  repeat (first | infer_instance | refine @Stamps.stamps_bind Q _ _ _ _ ?_ ?_ | intro _ | split)

@[instance] theorem toTopLevelSpecifySection_stamps (env : Env) [StampsEnv Q env] (sec : Section) :
    Stamps Q (toTopLevelSpecifySection env sec) := by
  unfold toTopLevelSpecifySection
  repeat (first | infer_instance | refine @Stamps.stamps_bind Q _ _ _ _ ?_ ?_ | intro _ | split)

@[instance] theorem toSpecifyGroup_stamps (env : Env) [StampsEnv Q env] (group : Group) :
    Stamps Q (toSpecifyGroup env group) := by
  unfold toSpecifyGroup
  repeat (first | infer_instance | refine @Stamps.stamps_bind Q _ _ _ _ ?_ ?_ | intro _ | split)

@[instance] theorem toTopicSection_stamps (sec : Section) :
    Stamps Q (toTopicSection sec) := by
  unfold toTopicSection
  repeat (first | infer_instance | refine @Stamps.stamps_bind Q _ _ _ _ ?_ ?_ | intro _ | split)

@[instance] theorem toTopicGroup_stamps (env : Env) [StampsEnv Q env] (group : Group) :
    Stamps Q (toTopicGroup env group) := by
  unfold toTopicGroup
  repeat (first | infer_instance | refine @Stamps.stamps_bind Q _ _ _ _ ?_ ?_ | intro _ | split)

@[instance] theorem toTitleSection_stamps (sec : Section) :
    Stamps Q (toTitleSection sec) := by
  unfold toTitleSection
  repeat (first | infer_instance | refine @Stamps.stamps_bind Q _ _ _ _ ?_ ?_ | intro _ | split)

@[instance] theorem toTitleGroup_stamps (env : Env) [StampsEnv Q env] (group : Group) :
    Stamps Q (toTitleGroup env group) := by
  unfold toTitleGroup
  repeat (first | infer_instance | refine @Stamps.stamps_bind Q _ _ _ _ ?_ ?_ | intro _ | split)

@[instance] theorem toAuthorSection_stamps (sec : Section) :
    Stamps Q (toAuthorSection sec) := by
  unfold toAuthorSection
  repeat (first | infer_instance | refine @Stamps.stamps_bind Q _ _ _ _ ?_ ?_ | intro _ | split)

@[instance] theorem toAuthorGroup_stamps (env : Env) [StampsEnv Q env] (group : Group) :
    Stamps Q (toAuthorGroup env group) := by
  unfold toAuthorGroup
  repeat (first | infer_instance | refine @Stamps.stamps_bind Q _ _ _ _ ?_ ?_ | intro _ | split)

@[instance] theorem toOffsetSection_stamps (sec : Section) :
    Stamps Q (toOffsetSection sec) := by
  unfold toOffsetSection
  repeat (first | infer_instance | refine @Stamps.stamps_bind Q _ _ _ _ ?_ ?_ | intro _ | split)

@[instance] theorem toOffsetGroup_stamps (env : Env) [StampsEnv Q env] (group : Group) :
    Stamps Q (toOffsetGroup env group) := by
  unfold toOffsetGroup
  repeat (first | infer_instance | refine @Stamps.stamps_bind Q _ _ _ _ ?_ ?_ | intro _ | split)

@[instance] theorem toUlrSection_stamps (sec : Section) :
    Stamps Q (toUlrSection sec) := by
  unfold toUlrSection
  repeat (first | infer_instance | refine @Stamps.stamps_bind Q _ _ _ _ ?_ ?_ | intro _ | split)

@[instance] theorem toUrlGroup_stamps (env : Env) [StampsEnv Q env] (group : Group) :
    Stamps Q (toUrlGroup env group) := by
  unfold toUrlGroup
  repeat (first | infer_instance | refine @Stamps.stamps_bind Q _ _ _ _ ?_ ?_ | intro _ | split)

@[instance] theorem toHomepageSection_stamps (sec : Section) :
    Stamps Q (toHomepageSection sec) := by
  unfold toHomepageSection
  repeat (first | infer_instance | refine @Stamps.stamps_bind Q _ _ _ _ ?_ ?_ | intro _ | split)

@[instance] theorem toHomepageGroup_stamps (env : Env) [StampsEnv Q env] (group : Group) :
    Stamps Q (toHomepageGroup env group) := by
  unfold toHomepageGroup
  repeat (first | infer_instance | refine @Stamps.stamps_bind Q _ _ _ _ ?_ ?_ | intro _ | split)

@[instance] theorem toTypeSection_stamps (sec : Section) :
    Stamps Q (toTypeSection sec) := by
  unfold toTypeSection
  repeat (first | infer_instance | refine @Stamps.stamps_bind Q _ _ _ _ ?_ ?_ | intro _ | split)

@[instance] theorem toTypeGroup_stamps (env : Env) [StampsEnv Q env] (group : Group) :
    Stamps Q (toTypeGroup env group) := by
  unfold toTypeGroup
  repeat (first | infer_instance | refine @Stamps.stamps_bind Q _ _ _ _ ?_ ?_ | intro _ | split)

@[instance] theorem toEditionSection_stamps (sec : Section) :
    Stamps Q (toEditionSection sec) := by
  unfold toEditionSection
  repeat (first | infer_instance | refine @Stamps.stamps_bind Q _ _ _ _ ?_ ?_ | intro _ | split)

@[instance] theorem toEditionGroup_stamps (env : Env) [StampsEnv Q env] (group : Group) :
    Stamps Q (toEditionGroup env group) := by
  unfold toEditionGroup
  repeat (first | infer_instance | refine @Stamps.stamps_bind Q _ _ _ _ ?_ ?_ | intro _ | split)

@[instance] theorem toEditorSection_stamps (sec : Section) :
    Stamps Q (toEditorSection sec) := by
  unfold toEditorSection
  repeat (first | infer_instance | refine @Stamps.stamps_bind Q _ _ _ _ ?_ ?_ | intro _ | split)

@[instance] theorem toEditorGroup_stamps (env : Env) [StampsEnv Q env] (group : Group) :
    Stamps Q (toEditorGroup env group) := by
  unfold toEditorGroup
  repeat (first | infer_instance | refine @Stamps.stamps_bind Q _ _ _ _ ?_ ?_ | intro _ | split)

@[instance] theorem toInstitutionSection_stamps (sec : Section) :
    Stamps Q (toInstitutionSection sec) := by
  unfold toInstitutionSection
  repeat (first | infer_instance | refine @Stamps.stamps_bind Q _ _ _ _ ?_ ?_ | intro _ | split)

@[instance] theorem toInstitutionGroup_stamps (env : Env) [StampsEnv Q env] (group : Group) :
    Stamps Q (toInstitutionGroup env group) := by
  unfold toInstitutionGroup
  repeat (first | infer_instance | refine @Stamps.stamps_bind Q _ _ _ _ ?_ ?_ | intro _ | split)

@[instance] theorem toJournalSection_stamps (sec : Section) :
    Stamps Q (toJournalSection sec) := by
  unfold toJournalSection
  repeat (first | infer_instance | refine @Stamps.stamps_bind Q _ _ _ _ ?_ ?_ | intro _ | split)

@[instance] theorem toJournalGroup_stamps (env : Env) [StampsEnv Q env] (group : Group) :
    Stamps Q (toJournalGroup env group) := by
  unfold toJournalGroup
  repeat (first | infer_instance | refine @Stamps.stamps_bind Q _ _ _ _ ?_ ?_ | intro _ | split)

@[instance] theorem toPublisherSection_stamps (sec : Section) :
    Stamps Q (toPublisherSection sec) := by
  unfold toPublisherSection
  repeat (first | infer_instance | refine @Stamps.stamps_bind Q _ _ _ _ ?_ ?_ | intro _ | split)

@[instance] theorem toPublisherGroup_stamps (env : Env) [StampsEnv Q env] (group : Group) :
    Stamps Q (toPublisherGroup env group) := by
  unfold toPublisherGroup
  repeat (first | infer_instance | refine @Stamps.stamps_bind Q _ _ _ _ ?_ ?_ | intro _ | split)

@[instance] theorem toVolumeSection_stamps (sec : Section) :
    Stamps Q (toVolumeSection sec) := by
  unfold toVolumeSection
  repeat (first | infer_instance | refine @Stamps.stamps_bind Q _ _ _ _ ?_ ?_ | intro _ | split)

@[instance] theorem toVolumeGroup_stamps (env : Env) [StampsEnv Q env] (group : Group) :
    Stamps Q (toVolumeGroup env group) := by
  unfold toVolumeGroup
  repeat (first | infer_instance | refine @Stamps.stamps_bind Q _ _ _ _ ?_ ?_ | intro _ | split)

@[instance] theorem toMonthSection_stamps (sec : Section) :
    Stamps Q (toMonthSection sec) := by
  unfold toMonthSection
  repeat (first | infer_instance | refine @Stamps.stamps_bind Q _ _ _ _ ?_ ?_ | intro _ | split)

@[instance] theorem toMonthGroup_stamps (env : Env) [StampsEnv Q env] (group : Group) :
    Stamps Q (toMonthGroup env group) := by
  unfold toMonthGroup
  repeat (first | infer_instance | refine @Stamps.stamps_bind Q _ _ _ _ ?_ ?_ | intro _ | split)

@[instance] theorem toYearSection_stamps (sec : Section) :
    Stamps Q (toYearSection sec) := by
  unfold toYearSection
  repeat (first | infer_instance | refine @Stamps.stamps_bind Q _ _ _ _ ?_ ?_ | intro _ | split)

@[instance] theorem toYearGroup_stamps (env : Env) [StampsEnv Q env] (group : Group) :
    Stamps Q (toYearGroup env group) := by
  unfold toYearGroup
  repeat (first | infer_instance | refine @Stamps.stamps_bind Q _ _ _ _ ?_ ?_ | intro _ | split)

@[instance] theorem toDescriptionSection_stamps (sec : Section) :
    Stamps Q (toDescriptionSection sec) := by
  unfold toDescriptionSection
  repeat (first | infer_instance | refine @Stamps.stamps_bind Q _ _ _ _ ?_ ?_ | intro _ | split)

@[instance] theorem toDescriptionGroup_stamps (env : Env) [StampsEnv Q env] (group : Group) :
    Stamps Q (toDescriptionGroup env group) := by
  unfold toDescriptionGroup
  repeat (first | infer_instance | refine @Stamps.stamps_bind Q _ _ _ _ ?_ ?_ | intro _ | split)

@[instance] theorem toResourceType_stamps (env : Env) [StampsEnv Q env] (arg : Argument) :
    Stamps Q (toResourceType env arg) := by
  unfold toResourceType
  repeat (first | infer_instance | refine @Stamps.stamps_bind Q _ _ _ _ ?_ ?_ | intro _ | split)

@[instance] theorem toResourceTypes_stamps (env : Env) [StampsEnv Q env] (args : List Argument) :
    Stamps Q (toResourceTypes env args) := by
  unfold toResourceTypes
  repeat (first | infer_instance | refine @Stamps.stamps_bind Q _ _ _ _ ?_ ?_ | intro _ | split)

@[instance] theorem oneOrMoreResourceTypes_stamps (env : Env) [StampsEnv Q env] (sec : Section) :
    Stamps Q (oneOrMoreResourceTypes env sec) := by
  unfold oneOrMoreResourceTypes
  repeat (first | infer_instance | refine @Stamps.stamps_bind Q _ _ _ _ ?_ ?_ | intro _ | split)

@[instance] theorem toResourceSection_stamps (env : Env) [StampsEnv Q env] (sec : Section) :
    Stamps Q (toResourceSection env sec) := by
  unfold toResourceSection
  repeat (first | infer_instance | refine @Stamps.stamps_bind Q _ _ _ _ ?_ ?_ | intro _ | split)

@[instance] theorem toResourceGroup_stamps (env : Env) [StampsEnv Q env] (group : Group) :
    Stamps Q (toResourceGroup env group) := by
  unfold toResourceGroup
  repeat (first | infer_instance | refine @Stamps.stamps_bind Q _ _ _ _ ?_ ?_ | intro _ | split)

@[instance] theorem toNameSection_stamps (sec : Section) :
    Stamps Q (toNameSection sec) := by
  unfold toNameSection
  repeat (first | infer_instance | refine @Stamps.stamps_bind Q _ _ _ _ ?_ ?_ | intro _ | split)

@[instance] theorem toNameGroup_stamps (env : Env) [StampsEnv Q env] (group : Group) :
    Stamps Q (toNameGroup env group) := by
  unfold toNameGroup
  repeat (first | infer_instance | refine @Stamps.stamps_bind Q _ _ _ _ ?_ ?_ | intro _ | split)

@[instance] theorem toBiographySection_stamps (sec : Section) :
    Stamps Q (toBiographySection sec) := by
  unfold toBiographySection
  repeat (first | infer_instance | refine @Stamps.stamps_bind Q _ _ _ _ ?_ ?_ | intro _ | split)

@[instance] theorem toBiographyGroup_stamps (env : Env) [StampsEnv Q env] (group : Group) :
    Stamps Q (toBiographyGroup env group) := by
  unfold toBiographyGroup
  repeat (first | infer_instance | refine @Stamps.stamps_bind Q _ _ _ _ ?_ ?_ | intro _ | split)

@[instance] theorem toPersonType_stamps (env : Env) [StampsEnv Q env] (arg : Argument) :
    Stamps Q (toPersonType env arg) := by
  unfold toPersonType
  repeat (first | infer_instance | refine @Stamps.stamps_bind Q _ _ _ _ ?_ ?_ | intro _ | split)

@[instance] theorem toPersonTypes_stamps (env : Env) [StampsEnv Q env] (args : List Argument) :
    Stamps Q (toPersonTypes env args) := by
  unfold toPersonTypes
  repeat (first | infer_instance | refine @Stamps.stamps_bind Q _ _ _ _ ?_ ?_ | intro _ | split)

@[instance] theorem oneOrMorePersonTypes_stamps (env : Env) [StampsEnv Q env] (sec : Section) :
    Stamps Q (oneOrMorePersonTypes env sec) := by
  unfold oneOrMorePersonTypes
  repeat (first | infer_instance | refine @Stamps.stamps_bind Q _ _ _ _ ?_ ?_ | intro _ | split)

@[instance] theorem toPersonSection_stamps (env : Env) [StampsEnv Q env] (sec : Section) :
    Stamps Q (toPersonSection env sec) := by
  unfold toPersonSection
  repeat (first | infer_instance | refine @Stamps.stamps_bind Q _ _ _ _ ?_ ?_ | intro _ | split)

@[instance] theorem toPersonGroup_stamps (env : Env) [StampsEnv Q env] (group : Group) :
    Stamps Q (toPersonGroup env group) := by
  unfold toPersonGroup
  repeat (first | infer_instance | refine @Stamps.stamps_bind Q _ _ _ _ ?_ ?_ | intro _ | split)

@[instance] theorem toTopLevelItemType_stamps (env : Env) [StampsEnv Q env] (item : TopLevelNodeType) :
    Stamps Q (toTopLevelItemType env item) := by
  unfold toTopLevelItemType
  repeat (first | infer_instance | refine @Stamps.stamps_bind Q _ _ _ _ ?_ ?_ | intro _ | split)

@[instance] theorem toDocumentItems_stamps (env : Env) [StampsEnv Q env] (nodes : List TopLevelNodeType) :
    Stamps Q (toDocumentItems env nodes) := by
  induction nodes with
  | nil => unfold toDocumentItems; infer_instance
  | cons node nodes ih => unfold toDocumentItems; infer_instance


end StampsInstances

/-- C26: every diagnostic that phase 5 itself appends is built by `newError`, which gives it
severity `Error` and origin `Phase5ParserOrigin` and exactly the message and the position it
was created with. For every root: when each diagnostic that the collaborators (the formulation
parser and the section identifier) append satisfies `Q`, every diagnostic that `Parse` appends
either satisfies `Q` or is such an error. -/
theorem phase5_diagnostics_are_errors_of_phase5 (Q : Diagnostic → Prop) (env : Env)
    (root : Root) (t : DiagnosticTracker) (message : String) (position : Position) :
    newError message position =
        { Severity := DiagnosticType.Error
          Origin := DiagnosticOrigin.Phase5ParserOrigin
          Message := message
          Position := position }
    ∧ (StampsEnv Q env →
        ∃ appended, (Parse env root t).2 = t ++ appended ∧
          ∀ d ∈ appended, Q d ∨
            (d.Severity = DiagnosticType.Error ∧ d.Origin = DiagnosticOrigin.Phase5ParserOrigin
              ∧ d = newError d.Message d.Position)) := by
  refine ⟨rfl, fun henv => ?_⟩
  obtain ⟨appended, happ, hq⟩ := (toDocumentItems_stamps env root.Nodes (Q := Q)).out t
  refine ⟨appended, by simpa [Parse, toDocument_apply] using happ, fun d hd => ?_⟩
  rcases hq d hd with h | ⟨m, p, rfl⟩
  · exact Or.inl h
  · exact Or.inr ⟨rfl, rfl, rfl⟩

/-! ## The index-checked models never abort -/

theorem checked_bind_apply {α β : Type} (m : Checked α) (f : α → Checked β)
    (t : DiagnosticTracker) :
    (m >>= f) t = match m t with
      | Except.ok r => f r.1 r.2
      | Except.error e => Except.error e := rfl

theorem checked_pure_apply {α : Type} (a : α) (t : DiagnosticTracker) :
    (pure a : Checked α) t = Except.ok (a, t) := rfl

theorem checked_lift_bind {α β : Type} (m : P α) (f : α → Checked β) (t : DiagnosticTracker) :
    (Checked.lift m >>= f) t = f (m t).1 (m t).2 := rfl

theorem sliceIndex_drop {α : Type} (xs : List α) (i : Nat) (x : α) (rest : List α)
    (h : xs.drop i = x :: rest) :
    sliceIndex xs i = Except.ok x ∧ xs.drop (i + 1) = rest ∧ i < xs.length := by
  have hlt : i < xs.length := by
    by_contra hge
    rw [List.drop_eq_nil_of_le (by omega)] at h
    cases h
  have hget : xs[i]? = some x := by
    have := List.getElem?_drop (L := xs) (i := i) (j := 0)
    rw [h] at this
    simpa using this.symm
  refine ⟨by simp [sliceIndex, hget], ?_, hlt⟩
  have : xs.drop (i + 1) = (xs.drop i).drop 1 := by
    rw [List.drop_drop]
  rw [this, h]
  rfl

theorem index_drop {α : Type} (xs : List α) (i : Nat) (x : α) (rest : List α)
    (h : xs.drop i = x :: rest) (t : DiagnosticTracker) :
    index xs i t = Except.ok (x, t) := by
  simp [index, (sliceIndex_drop xs i x rest h).1, Except.map]

theorem exactlyOneChecked_eq {T : Type} (items : List T) (defaultItem : T)
    (position : Position) (t : DiagnosticTracker) :
    exactlyOneChecked items defaultItem position t =
      Except.ok (exactlyOne items defaultItem position t) := by
  rcases items with _ | ⟨first, _ | ⟨second, others⟩⟩ <;> rfl

theorem startsWithSectionsLoop_eq (group : Group) (names : List String) :
    ∀ i : Nat, i + names.length ≤ group.Sections.length →
      startsWithSectionsLoop group i names =
        Except.ok ((List.zip (group.Sections.drop i) names).all
          (fun pair => pair.1.Name == pair.2)) := by
  induction names with
  | nil => intro i _; simp [startsWithSectionsLoop]
  | cons name names ih =>
    intro i hi
    simp only [List.length_cons] at hi
    rcases hdrop : group.Sections.drop i with _ | ⟨sec, rest⟩
    · have := List.drop_eq_nil_iff.1 hdrop
      omega
    · obtain ⟨h1, h2, _⟩ := sliceIndex_drop _ _ _ _ hdrop
      simp only [startsWithSectionsLoop, h1, List.zip_cons_cons, List.all_cons]
      by_cases hname : sec.Name = name
      · simp [hname, ih (i + 1) (by omega), h2]
      · simp [hname]

theorem startsWithSectionsChecked_eq (group : Group) (names : List String) :
    startsWithSectionsChecked group names = Except.ok (startsWithSections group names) := by
  unfold startsWithSectionsChecked startsWithSections
  split
  · rfl
  · rw [startsWithSectionsLoop_eq group names 0 (by omega)]
    simp

theorem unexpectedLoop_eq (sections : List Section) :
    ∀ (fuel i : Nat) (t : DiagnosticTracker), i ≤ sections.length →
      sections.length - i < fuel →
      iterate (unexpectedIteration sections) fuel i t =
        Except.ok ((), (piecewiseUnexpected (sections.drop i) t).2) := by
  intro fuel
  induction fuel with
  | zero => intro i t _ h; omega
  | succ fuel ih =>
    intro i t hi hfuel
    rcases hdrop : sections.drop i with _ | ⟨sec, rest⟩
    · have hlen := List.drop_eq_nil_iff.1 hdrop
      have hnot : ¬ i < sections.length := by omega
      simp [iterate, unexpectedIteration, hnot, checked_bind_apply, checked_pure_apply,
        piecewiseUnexpected, pure_apply]
    · obtain ⟨_, hnext, hlt⟩ := sliceIndex_drop _ _ _ _ hdrop
      have hidx := index_drop _ _ _ _ hdrop
      simp only [iterate, unexpectedIteration, hlt, decide_True, Bool.not_true,
        Bool.false_eq_true, if_false, checked_bind_apply, hidx, Checked.lift,
        checked_pure_apply]
      rw [ih (i + 1) _ (by omega) (by omega), hnext]
      simp [piecewiseUnexpected, bind_apply]

theorem piecewiseLoop_eq (toClause : Argument → P Clause) (sections : List Section) :
    ∀ (fuel i : Nat) (ifThens : List (IfThen Clause)) (t : DiagnosticTracker),
      i ≤ sections.length → sections.length - i < fuel →
      iterate (piecewiseIteration toClause sections) fuel (i, ifThens) t =
        Except.ok
          ((piecewiseIfThens toClause (sections.drop i) ifThens t).1.map
              (fun found => (sections.length - found.2.length, found.1)),
            (piecewiseIfThens toClause (sections.drop i) ifThens t).2) := by
  intro fuel
  induction fuel with
  | zero => intro i _ t _ h; omega
  | succ fuel ih =>
    intro i ifThens t hi hfuel
    rcases hdrop : sections.drop i with _ | ⟨section1, _ | ⟨section2, rest⟩⟩
    · have hlen := List.drop_eq_nil_iff.1 hdrop
      have hnot : ¬ i < sections.length := by omega
      have hieq : sections.length = i := by omega
      simp [iterate, piecewiseIteration, hnot, checked_bind_apply, checked_pure_apply,
        piecewiseIfThens, pure_apply, hieq]
    · obtain ⟨_, hnext, hlt⟩ := sliceIndex_drop _ _ _ _ hdrop
      have hidx := index_drop _ _ _ _ hdrop
      have hlen : sections.length = i + 1 := by
        have := List.drop_eq_nil_iff.1 hnext
        omega
      have hge : i + 1 ≥ sections.length := by omega
      simp only [iterate, piecewiseIteration, hlt, decide_True, Bool.not_true,
        Bool.false_eq_true, if_false, checked_bind_apply, hidx, piecewiseIfThens]
      by_cases h1 : section1.Name = LowerElseName
      · simp [h1, checked_pure_apply, pure_apply, hlen]
      · by_cases h2 : section1.Name = LowerIfName
        · have hne : ¬ (LowerIfName = LowerElseName) := by decide
          simp [h2, hne, hge, checked_pure_apply, pure_apply, checked_bind_apply, Checked.lift,
            bind_apply]
        · simp [h1, h2, checked_pure_apply, pure_apply, checked_bind_apply, Checked.lift,
            bind_apply]
    · obtain ⟨_, hnext, hlt⟩ := sliceIndex_drop _ _ _ _ hdrop
      have hidx := index_drop _ _ _ _ hdrop
      obtain ⟨_, hnext2, hlt2⟩ := sliceIndex_drop _ _ _ _ hnext
      have hidx2 := index_drop _ _ _ _ hnext
      have hlen : (sections.drop i).length = sections.length - i := List.length_drop _ _
      rw [hdrop] at hlen
      simp only [List.length_cons] at hlen
      have hnge : ¬ i + 1 ≥ sections.length := by omega
      simp only [iterate, piecewiseIteration, hlt, decide_True, Bool.not_true,
        Bool.false_eq_true, if_false, checked_bind_apply, hidx, piecewiseIfThens]
      by_cases h1 : section1.Name = LowerElseName
      · have : sections.length - (rest.length + 1 + 1) = i := by omega
        simp [h1, checked_pure_apply, pure_apply, this]
      · by_cases h2 : section1.Name = LowerIfName
        · have hne : ¬ (LowerIfName = LowerElseName) := by decide
          simp only [h2, hne, hnge, beq_iff_eq, bne_self_eq_false, Bool.false_eq_true, if_false,
            checked_bind_apply, hidx2]
          by_cases h3 : section2.Name = LowerThenName
          · simp only [h3, bne_self_eq_false, Bool.false_eq_true, if_false, checked_bind_apply,
              Checked.lift, checked_pure_apply, bind_apply]
            rw [ih (i + 1 + 1) _ _ (by omega) (by omega), hnext2]
          · simp [h3, checked_pure_apply, pure_apply, checked_bind_apply, Checked.lift,
              bind_apply]
        · simp [h1, h2, checked_pure_apply, pure_apply, checked_bind_apply, Checked.lift,
            bind_apply]

theorem toPiecewiseGroupChecked_eq (fuel : Nat) (toClause : Argument → P Clause)
    (group : Group) (t : DiagnosticTracker) (hfuel : group.Sections.length < fuel) :
    toPiecewiseGroupChecked fuel toClause group t =
      Except.ok (toPiecewiseGroup toClause group t) := by
  unfold toPiecewiseGroupChecked toPiecewiseGroup
  rw [startsWithSectionsChecked_eq]
  simp only []
  by_cases hstarts : startsWithSections group [LowerPiecewiseName] = true
  swap
  · simp [hstarts, checked_pure_apply, pure_apply]
  simp only [hstarts, Bool.not_true, Bool.false_eq_true, if_false]
  rcases hsec : group.Sections with _ | ⟨section0, rest⟩
  · simp [checked_pure_apply, pure_apply]
  have hidx0 : ∀ t, index (section0 :: rest) 0 t = Except.ok (section0, t) :=
    fun t => index_drop (section0 :: rest) 0 section0 rest rfl t
  simp only [List.length_cons, Nat.add_one_ne_zero, if_false, checked_bind_apply, hidx0]
  by_cases hname : section0.Name = LowerPiecewiseName
  swap
  · simp [hname, checked_pure_apply, pure_apply]
  simp only [hname, bne_self_eq_false, Bool.false_eq_true, if_false, checked_bind_apply, hidx0,
    Checked.lift, bind_apply]
  rw [hsec] at hfuel
  simp only [List.length_cons] at hfuel
  rw [piecewiseLoop_eq toClause (section0 :: rest) fuel 1 [] _ (by simp)
    (by simp only [List.length_cons]; omega)]
  simp only [List.drop_succ_cons, List.drop_zero]
  rcases hloop : piecewiseIfThens toClause rest [] (toPiecewiseSection section0 t).2
    with ⟨_ | ⟨ifThens, left⟩, after⟩
  · simp [checked_pure_apply, pure_apply]
  obtain ⟨pairs, body, hbody, _, _⟩ := piecewiseIfThens_some toClause rest [] _ ifThens left after hloop
  have hleft : (section0 :: rest).drop ((section0 :: rest).length - left.length) = left := by
    rw [hbody]
    have : (section0 :: (body ++ left)).length - left.length = (section0 :: body).length := by
      simp only [List.length_cons, List.length_append]
      omega
    rw [this]
    exact @List.drop_left' _ (section0 :: body) left _ rfl
  have hle : left.length ≤ rest.length := by rw [hbody]; simp
  simp only [Option.map_some', List.length_cons]
  rcases left with _ | ⟨sec, others⟩
  · simp only [List.length_nil, Nat.sub_zero] at hleft ⊢
    have hnot : ¬ (rest.length + 1 < rest.length + 1) := by omega
    simp only [piecewiseElseChecked, List.length_cons, hnot, decide_False, Bool.not_false,
      if_true, checked_pure_apply, checked_bind_apply]
    rw [unexpectedLoop_eq (section0 :: rest) fuel (rest.length + 1) _ (by simp)
      (by simp only [List.length_cons]; omega)]
    simp [hleft, piecewiseUnexpected, pure_apply, bind_apply, checked_pure_apply]
  · simp only [List.length_cons] at hleft hle ⊢
    have hlt : rest.length + 1 - (others.length + 1) < rest.length + 1 := by omega
    have hidx := index_drop _ _ _ _ hleft
    obtain ⟨_, hnext, _⟩ := sliceIndex_drop _ _ _ _ hleft
    simp only [piecewiseElseChecked, List.length_cons, hlt, decide_True, Bool.not_true,
      Bool.false_eq_true, if_false, checked_bind_apply, hidx]
    by_cases helse : sec.Name = LowerElseName
    · simp only [helse, beq_self_eq_true, if_true, checked_bind_apply, hidx, Checked.lift,
        checked_pure_apply, bind_apply, pure_apply]
      rw [unexpectedLoop_eq (section0 :: rest) fuel _ _
        (by simp only [List.length_cons]; omega) (by simp only [List.length_cons]; omega)]
      simp only [hnext, piecewiseUnexpected_apply]
      rcases others with _ | ⟨other, more⟩
      · simp [checked_pure_apply, pure_apply, bind_apply]
      · have hpos : 0 < rest.length := by
          simp only [List.length_cons] at hle; omega
        have : rest.length + 1 - (more.length + 1 + 1) + 1 < rest.length + 1 := by
          simp only [List.length_cons] at hle; omega
        simp [checked_pure_apply, pure_apply, bind_apply, this, hpos]
    · simp only [helse, beq_iff_eq, if_false, checked_pure_apply, checked_bind_apply, pure_apply,
        bind_apply]
      rw [unexpectedLoop_eq (section0 :: rest) fuel _ _
        (by simp only [List.length_cons]; omega) (by simp only [List.length_cons]; omega)]
      simp only [hleft, piecewiseUnexpected_apply]
      have hlt2 : rest.length - others.length < rest.length + 1 := by omega
      simp [checked_pure_apply, pure_apply, bind_apply, hlt2]

theorem getIdChecked_eq (env : Env) (group : Group) (required : Bool) (t : DiagnosticTracker) :
    getIdChecked env group required t = Except.ok (getId env group required t) := by
  unfold getIdChecked getId
  rcases group.Id with _ | id
  · cases required <;> rfl
  · cases required <;> rfl

theorem toDescribesGroupChecked_eq (env : Env) (group : Group) (t : DiagnosticTracker) :
    toDescribesGroupChecked env group t = Except.ok (toDescribesGroup env group t) := by
  unfold toDescribesGroupChecked toDescribesGroup
  rw [startsWithSectionsChecked_eq]
  simp only []
  by_cases hstarts : startsWithSections group [UpperDescribesName] = true
  swap
  · simp [hstarts, checked_pure_apply, pure_apply]
  simp only [hstarts, Bool.not_true, Bool.false_eq_true, if_false, checked_bind_apply,
    getIdChecked_eq, Checked.lift, bind_apply]
  rcases (getId env group true t).1 with _ | id <;>
    rcases (IdentifySections env group.Sections _ (getId env group true t).2).1
      with _ | sections <;>
    simp [checked_pure_apply, pure_apply, checked_bind_apply, bind_apply, deref, Checked.lift]

theorem toDefinesGroupChecked_eq (env : Env) (group : Group) (t : DiagnosticTracker) :
    toDefinesGroupChecked env group t = Except.ok (toDefinesGroup env group t) := by
  unfold toDefinesGroupChecked toDefinesGroup
  rw [startsWithSectionsChecked_eq]
  simp only []
  by_cases hstarts : startsWithSections group [UpperDefinesName] = true
  swap
  · simp [hstarts, checked_pure_apply, pure_apply]
  simp only [hstarts, Bool.not_true, Bool.false_eq_true, if_false, checked_bind_apply,
    getIdChecked_eq, Checked.lift, bind_apply]
  rcases (getId env group true t).1 with _ | id <;>
    rcases (IdentifySections env group.Sections _ (getId env group true t).2).1
      with _ | sections <;>
    simp [checked_pure_apply, pure_apply, checked_bind_apply, bind_apply, deref, Checked.lift]

theorem toStatesGroupChecked_eq (env : Env) (group : Group) (t : DiagnosticTracker) :
    toStatesGroupChecked env group t = Except.ok (toStatesGroup env group t) := by
  unfold toStatesGroupChecked toStatesGroup
  rw [startsWithSectionsChecked_eq]
  simp only []
  by_cases hstarts : startsWithSections group [UpperStatesName] = true
  swap
  · simp [hstarts, checked_pure_apply, pure_apply]
  simp only [hstarts, Bool.not_true, Bool.false_eq_true, if_false, checked_bind_apply,
    getIdChecked_eq, Checked.lift, bind_apply]
  rcases (getId env group true t).1 with _ | id <;>
    rcases (IdentifySections env group.Sections _ (getId env group true t).2).1
      with _ | sections <;>
    simp [checked_pure_apply, pure_apply, checked_bind_apply, bind_apply, deref, Checked.lift]

theorem toTopicGroupChecked_eq (env : Env) (group : Group) (t : DiagnosticTracker) :
    toTopicGroupChecked env group t = Except.ok (toTopicGroup env group t) := by
  unfold toTopicGroupChecked toTopicGroup
  rw [startsWithSectionsChecked_eq]
  simp only []
  by_cases hstarts : startsWithSections group [UpperTopicName] = true
  swap
  · simp [hstarts, checked_pure_apply, pure_apply]
  simp only [hstarts, Bool.not_true, Bool.false_eq_true, if_false, checked_bind_apply,
    getIdChecked_eq, Checked.lift, bind_apply]
  rcases (getId env group true t).1 with _ | id <;>
    rcases (IdentifySections env group.Sections _ (getId env group true t).2).1
      with _ | sections <;>
    simp [checked_pure_apply, pure_apply, checked_bind_apply, bind_apply, deref, Checked.lift]

theorem toResourceGroupChecked_eq (env : Env) (group : Group) (t : DiagnosticTracker) :
    toResourceGroupChecked env group t = Except.ok (toResourceGroup env group t) := by
  unfold toResourceGroupChecked toResourceGroup
  rw [startsWithSectionsChecked_eq]
  simp only []
  by_cases hstarts : startsWithSections group [UpperResourceName] = true
  swap
  · simp [hstarts, checked_pure_apply, pure_apply]
  simp only [hstarts, Bool.not_true, Bool.false_eq_true, if_false, checked_bind_apply,
    getIdChecked_eq, Checked.lift, bind_apply]
  rcases (getStringId group true t).1 with _ | id <;>
    rcases (IdentifySections env group.Sections _ (getStringId group true t).2).1
      with _ | sections <;>
    simp [checked_pure_apply, pure_apply, checked_bind_apply, bind_apply, deref, Checked.lift]

theorem toPersonGroupChecked_eq (env : Env) (group : Group) (t : DiagnosticTracker) :
    toPersonGroupChecked env group t = Except.ok (toPersonGroup env group t) := by
  unfold toPersonGroupChecked toPersonGroup
  rw [startsWithSectionsChecked_eq]
  simp only []
  by_cases hstarts : startsWithSections group [UpperPersonName] = true
  swap
  · simp [hstarts, checked_pure_apply, pure_apply]
  simp only [hstarts, Bool.not_true, Bool.false_eq_true, if_false, checked_bind_apply,
    getIdChecked_eq, Checked.lift, bind_apply]
  rcases (getStringId group true t).1 with _ | id <;>
    rcases (IdentifySections env group.Sections _ (getStringId group true t).2).1
      with _ | sections <;>
    simp [checked_pure_apply, pure_apply, checked_bind_apply, bind_apply, deref, Checked.lift]

theorem piecewiseIteration_increases (toClause : Argument → P Clause) (sections : List Section)
    (state next : Nat × List (IfThen Clause)) (t after : DiagnosticTracker)
    (h : piecewiseIteration toClause sections state t = Except.ok (Iteration.again next, after)) :
    state.1 < next.1 ∧ next.1 ≤ sections.length := by
  unfold piecewiseIteration at h
  by_cases hlt : state.1 < sections.length
  swap
  · simp [hlt, checked_pure_apply] at h
  simp only [hlt, decide_True, Bool.not_true, Bool.false_eq_true, if_false,
    checked_bind_apply] at h
  rcases h1 : index sections state.1 t with e | ⟨section1, t1⟩
  · simp [h1] at h
  simp only [h1] at h
  by_cases hne : section1.Name = LowerElseName
  · simp [hne, checked_pure_apply] at h
  by_cases hif : section1.Name = LowerIfName
  swap
  · simp [hne, hif, checked_pure_apply, checked_bind_apply, Checked.lift] at h
  have hne2 : ¬ (LowerIfName = LowerElseName) := by decide
  by_cases hge : state.1 + 1 ≥ sections.length
  · simp [hne2, hif, hge, checked_pure_apply, checked_bind_apply, Checked.lift] at h
  simp only [hif, hne2, hge, beq_iff_eq, bne_self_eq_false, Bool.false_eq_true, if_false,
    checked_bind_apply] at h
  rcases h2 : index sections (state.1 + 1) t1 with e | ⟨section2, t2⟩
  · simp [h2] at h
  simp only [h2] at h
  by_cases hthen : section2.Name = LowerThenName
  swap
  · simp [hthen, checked_pure_apply, checked_bind_apply, Checked.lift] at h
  simp only [hthen, bne_self_eq_false, Bool.false_eq_true, if_false, checked_bind_apply,
    Checked.lift, checked_pure_apply, Except.ok.injEq, Prod.mk.injEq, Iteration.again.injEq] at h
  obtain ⟨hnext, _⟩ := h
  rw [← hnext]
  simp only
  omega

theorem unexpectedIteration_increases (sections : List Section) (i next : Nat)
    (t after : DiagnosticTracker)
    (h : unexpectedIteration sections i t = Except.ok (Iteration.again next, after)) :
    i < next ∧ next ≤ sections.length := by
  unfold unexpectedIteration at h
  by_cases hlt : i < sections.length
  swap
  · simp [hlt, checked_pure_apply] at h
  simp only [hlt, decide_True, Bool.not_true, Bool.false_eq_true, if_false,
    checked_bind_apply] at h
  rcases h1 : index sections i t with e | ⟨sec, t1⟩
  · simp [h1] at h
  simp only [h1, Checked.lift, checked_pure_apply, Except.ok.injEq, Prod.mk.injEq,
    Iteration.again.injEq] at h
  omega

/-- C24: phase 5 has no fatal condition. With every slice access and every dereference of a
pointer that may be `nil` kept as the source has them, for every input (groups with zero
sections and sections with zero arguments included) the methods end with a result, never with
an index out of range or a `nil` dereference, and the result is the one of the total models
that `Parse` is built from: the access `items[0]` in `exactlyOne`, the accesses
`group.Sections[i]` in `startsWithSections`, the accesses `sections[0]` and `sections[i]` in
`toPiecewiseGroup`, the dereference `*group.Id` in `getId`, and the dereference `*id` in
the six group parsers that require an id are all guarded. -/
theorem no_fatal_condition {T : Type} (env : Env) (toClause : Argument → P Clause)
    (group : Group) (names : List String) (items : List T) (defaultItem : T)
    (position : Position) (required : Bool) (t : DiagnosticTracker) :
    exactlyOneChecked items defaultItem position t =
        Except.ok (exactlyOne items defaultItem position t)
    ∧ startsWithSectionsChecked group names = Except.ok (startsWithSections group names)
    ∧ toPiecewiseGroupChecked (group.Sections.length + 1) toClause group t =
        Except.ok (toPiecewiseGroup toClause group t)
    ∧ getIdChecked env group required t = Except.ok (getId env group required t)
    ∧ toDescribesGroupChecked env group t = Except.ok (toDescribesGroup env group t)
    ∧ toDefinesGroupChecked env group t = Except.ok (toDefinesGroup env group t)
    ∧ toStatesGroupChecked env group t = Except.ok (toStatesGroup env group t)
    ∧ toTopicGroupChecked env group t = Except.ok (toTopicGroup env group t)
    ∧ toResourceGroupChecked env group t = Except.ok (toResourceGroup env group t)
    ∧ toPersonGroupChecked env group t = Except.ok (toPersonGroup env group t) :=
  ⟨exactlyOneChecked_eq items defaultItem position t,
    startsWithSectionsChecked_eq group names,
    toPiecewiseGroupChecked_eq _ toClause group t (Nat.lt_succ_self _),
    getIdChecked_eq env group required t,
    toDescribesGroupChecked_eq env group t,
    toDefinesGroupChecked_eq env group t,
    toStatesGroupChecked_eq env group t,
    toTopicGroupChecked_eq env group t,
    toResourceGroupChecked_eq env group t,
    toPersonGroupChecked_eq env group t⟩

/-- C25: `Parse` terminates on every finite phase-4 tree. `Parse` returns a result for every
root. The recursion of `toClause` only descends into strictly smaller nested groups: the body
of the method calls the method only on arguments of the group inside its argument, which is
nested less deep than the argument, so that unrolling the recursion more often than the
argument is deep gives the same result as the method. Each iteration of the two loops of
`toPiecewiseGroup` that does not leave the loop strictly increases the index and keeps it
within the number of sections, so that with more iterations allowed than the group has
sections both loops end. -/
theorem parse_terminates (env : Env) (convert : Argument → P Clause) (root : Root)
    (arg : Argument) (group : Group) (sections : List Section) (fuel : Nat)
    (t : DiagnosticTracker) :
    (∃ doc ok after, Parse env root t = ((doc, ok), after))
    ∧ (arg.depth < fuel → toClauseFuel env fuel arg = toClause env arg)
    ∧ toClause env arg = toClauseBody env (toClause env) arg
    ∧ (∀ data, arg.Arg = ArgumentDataType.Group data → data.depth < arg.depth)
    ∧ (∀ f g : Argument → P Clause,
        (∀ data, arg.Arg = ArgumentDataType.Group data → AgreeBelow data.depth f g) →
          toClauseBody env f arg = toClauseBody env g arg)
    ∧ (∀ (state next : Nat × List (IfThen Clause)) (after : DiagnosticTracker),
        piecewiseIteration convert sections state t = Except.ok (Iteration.again next, after) →
          state.1 < next.1 ∧ next.1 ≤ sections.length)
    ∧ (∀ (i next : Nat) (after : DiagnosticTracker),
        unexpectedIteration sections i t = Except.ok (Iteration.again next, after) →
          i < next ∧ next ≤ sections.length)
    ∧ (group.Sections.length < fuel →
        toPiecewiseGroupChecked fuel convert group t =
          Except.ok (toPiecewiseGroup convert group t)) := by
  refine ⟨⟨_, _, _, rfl⟩, ?_, toClause_unfold env arg, ?_, ?_, ?_, ?_, ?_⟩
  · intro hfuel
    exact toClauseFuel_enough env fuel arg hfuel
  · intro data hdata
    have := argument_depth_group arg data hdata
    omega
  · intro f g h
    exact toClauseBody_congr env f g arg h
  · intro state next after h
    exact piecewiseIteration_increases convert sections state next t after h
  · intro i next after h
    exact unexpectedIteration_increases sections i next t after h
  · intro hfuel
    exact toPiecewiseGroupChecked_eq fuel convert group t hfuel

theorem parse_terminates_witness :
    (∃ next after,
      piecewiseIteration (toClause (scenarioEnv ⟨0⟩)) piecewiseScenario.Sections (1, []) [] =
        Except.ok (Iteration.again next, after) ∧ next.1 = 3)
    ∧ piecewiseScenario.Sections.length < 5
    ∧ toPiecewiseGroupChecked 5 (toClause (scenarioEnv ⟨0⟩)) piecewiseScenario [] =
        Except.ok (toPiecewiseGroup (toClause (scenarioEnv ⟨0⟩)) piecewiseScenario []) :=
  ⟨⟨_, _, rfl, rfl⟩, by decide,
    (parse_terminates (scenarioEnv ⟨0⟩) (toClause (scenarioEnv ⟨0⟩)) ⟨[]⟩
      ⟨ArgumentDataType.Group piecewiseScenario, ⟨0, 0, 0⟩⟩ piecewiseScenario
      piecewiseScenario.Sections 5 []).2.2.2.2.2.2.2 (by decide)⟩

/-! ## What `CloneNode` clones -/

mutual
theorem cloneScopes_spec : ∀ (node : MlgNode) (arena : ScopeArena),
    (cloneScopes node arena).1.withoutScopes = node.withoutScopes
    ∧ (cloneScopes node arena).1.scopes = List.range' arena.length node.scopes.length
    ∧ ∃ added, (cloneScopes node arena).2 = arena ++ added
        ∧ added.length = node.scopes.length
  | .mk scope fields children, arena => by
    obtain ⟨h1, h2, added, h3, h4⟩ := forEachCloneScopes_spec children (ScopeClone scope arena).2
    simp only [cloneScopes, MlgNode.withoutScopes, MlgNode.scopes, h1, h2, h3, List.length_cons]
    refine ⟨trivial, ?_, arena.getD scope 0 :: added, ?_, ?_⟩
    · simp [ScopeClone, List.range'_succ]
    · simp [ScopeClone]
    · simp [h4]
theorem forEachCloneScopes_spec : ∀ (nodes : List MlgNode) (arena : ScopeArena),
    withoutScopesAll (forEachCloneScopes nodes arena).1 = withoutScopesAll nodes
    ∧ scopesOfAll (forEachCloneScopes nodes arena).1
        = List.range' arena.length (scopesOfAll nodes).length
    ∧ ∃ added, (forEachCloneScopes nodes arena).2 = arena ++ added
        ∧ added.length = (scopesOfAll nodes).length
  | [], arena => by
    simp [forEachCloneScopes, withoutScopesAll, scopesOfAll]
  | node :: rest, arena => by
    obtain ⟨h1, h2, added1, h3, h4⟩ := cloneScopes_spec node arena
    obtain ⟨k1, k2, added2, k3, k4⟩ := forEachCloneScopes_spec rest (cloneScopes node arena).2
    simp only [forEachCloneScopes, withoutScopesAll, scopesOfAll, h1, k1, h2, k2,
      List.length_append]
    refine ⟨trivial, ?_, added1 ++ added2, ?_, ?_⟩
    · rw [h3, List.length_append, h4]
      simp
      omega
    · rw [k3, h3, List.append_assoc]
    · simp [h4, k4]
end

/-- C21 (evaluation of the code): `CloneNode` on a node without children returns the node with
the scope handle it had and allocates no scope, so the root of the clone shares its scope
object with the original. In general the clone equals the node apart from scope handles, the
root of the clone keeps the scope handle of the original, every node below the root gets a
fresh scope object, allocated exactly once in the order of the visit, and the scope objects
that existed before are left as they were. -/
theorem CloneNode_shares_root_scope (node : MlgNode) (arena : ScopeArena) :
    CloneNode (MlgNode.mk 0 7 []) [42] = (MlgNode.mk 0 7 [], [42])
    ∧ (CloneNode node arena).1.Scope = node.Scope
    ∧ (CloneNode node arena).1.withoutScopes = node.withoutScopes
    ∧ scopesOfAll (CloneNode node arena).1.Children
        = List.range' arena.length (scopesOfAll node.Children).length
    ∧ (∃ added, (CloneNode node arena).2 = arena ++ added
        ∧ added.length = (scopesOfAll node.Children).length)
    ∧ (cloneScopes node arena).1.Scope = arena.length := by
  obtain ⟨scope, fields, children⟩ := node
  obtain ⟨h1, h2, added, h3, h4⟩ := forEachCloneScopes_spec children arena
  refine ⟨rfl, rfl, ?_, ?_, ⟨added, ?_, ?_⟩, ?_⟩
  · simp [CloneNode, MlgNode.withoutScopes, h1]
  · simpa [CloneNode, MlgNode.Children] using h2
  · simpa [CloneNode] using h3
  · simpa [MlgNode.Children] using h4
  · simp [cloneScopes, MlgNode.Scope, ScopeClone]

/-! ## `startsWithSections` and `endsWithSection` -/

theorem zip_all_names_iff_leading :
    ∀ (sections : List Section) (names : List String), names.length ≤ sections.length →
      ((List.zip sections names).all (fun pair => pair.1.Name == pair.2) = true ↔
        names <+: sections.map Section.Name)
  | _, [], _ => by simp
  | [], _ :: _, h => by simp at h
  | sec :: sections, name :: names, h => by
    have ih := zip_all_names_iff_leading sections names (by simpa using h)
    simp only [List.zip_cons_cons, List.all_cons, Bool.and_eq_true, beq_iff_eq, List.map_cons,
      List.cons_prefix_cons, ih]
    constructor
    · rintro ⟨h1, h2⟩
      exact ⟨h1.symm, h2⟩
    · rintro ⟨h1, h2⟩
      exact ⟨h1.symm, h2⟩

/-- C38: `startsWithSections group names` is true if and only if `names` is a prefix of the
sequence of the names of the group's sections; so it is true for the empty list of names and
false whenever there are more names than sections. `endsWithSection group name` is true if and
only if the group has at least one section and its last section is named `name`. -/
theorem startsWithSections_iff_leading_names (group : Group) :
    (∀ names : List String,
      startsWithSections group names = true ↔ names <+: group.Sections.map Section.Name)
    ∧ startsWithSections group [] = true
    ∧ (∀ names : List String, group.Sections.length < names.length →
        startsWithSections group names = false)
    ∧ (∀ name : String, endsWithSection group name = true ↔
        ∃ (earlier : List Section) (last : Section),
          group.Sections = earlier ++ [last] ∧ last.Name = name) := by
  refine ⟨?_, ?_, ?_, ?_⟩
  · intro names
    unfold startsWithSections
    by_cases h : names.length > group.Sections.length
    · simp only [h, if_true, Bool.false_eq_true, false_iff]
      intro hp
      have := hp.length_le
      simp only [List.length_map] at this
      omega
    · simp only [h, if_false]
      exact zip_all_names_iff_leading _ _ (by omega)
  · simp [startsWithSections]
  · intro names h
    simp [startsWithSections, h]
  · intro name
    unfold endsWithSection
    rcases List.eq_nil_or_concat group.Sections with hnil | ⟨earlier, last, hcons⟩
    · simp [hnil]
    · have hlen : ¬ (group.Sections.length = 0) := by simp [hcons]
      simp only [hlen, dite_false, beq_iff_eq]
      have hget : group.Sections.get ⟨group.Sections.length - 1, by omega⟩ = last := by
        simp [hcons]
      rw [hget]
      constructor
      · intro h
        exact ⟨earlier, last, by simpa using hcons, h⟩
      · rintro ⟨earlier2, last2, h2, hname⟩
        rw [hcons] at h2
        have : last = last2 := by
          have := congrArg List.getLast? h2
          simpa using this
        rw [this]
        exact hname

/-! ## `join` and `sectionNamesToString` -/

theorem join_data_cons (part : String) (parts : List String) (h : parts ≠ []) :
    (join (part :: parts)).data = part.data ++ ':' :: '\n' :: (join parts).data := by
  cases parts with
  | nil => exact absurd rfl h
  | cons next parts =>
    simp only [join, strings.Join, String.data_append, List.append_assoc]
    rfl

theorem join_data_singleton (part : String) : (join [part]).data = part.data ++ [':'] := by
  simp only [join, strings.Join, String.data_append]

theorem join_data_getLast (parts : List String) : (join parts).data.getLast? = some ':' := by
  simp only [join, String.data_append]
  exact List.getLast?_concat _

theorem join_eq_interspersed : ∀ parts : List String, parts ≠ [] →
    join parts = String.join (List.intersperse "\n" (parts.map (fun name => name ++ ":")))
  | [], h => absurd rfl h
  | [part], _ => by
    apply String.ext
    rw [join_data_singleton]
    simp [String.data_join, String.data_append]
  | part :: next :: parts, _ => by
    apply String.ext
    rw [join_data_cons part (next :: parts) (List.cons_ne_nil _ _),
      join_eq_interspersed (next :: parts) (List.cons_ne_nil _ _)]
    simp only [List.map_cons, List.intersperse, String.data_join, String.data_append,
      List.flatten_cons, List.append_assoc]
    rfl

theorem join_count_newlines : ∀ parts : List String, parts ≠ [] →
    (join parts).data.count '\n' =
      (parts.length - 1) + (parts.map (fun name => name.data.count '\n')).sum
  | [], h => absurd rfl h
  | [part], _ => by
    rw [join_data_singleton]
    simp [List.count_append, List.count_cons]
  | part :: next :: parts, _ => by
    rw [join_data_cons part (next :: parts) (List.cons_ne_nil _ _)]
    have ih := join_count_newlines (next :: parts) (List.cons_ne_nil _ _)
    simp only [List.count_append, List.count_cons, ih, List.length_cons, List.map_cons,
      List.sum_cons]
    simp
    omega

theorem sum_eq_zero_of_all_zero : ∀ (xs : List Nat), (∀ x ∈ xs, x = 0) → xs.sum = 0
  | [], _ => rfl
  | x :: xs, h => by
    simp only [List.sum_cons, h x (List.mem_cons_self _ _),
      sum_eq_zero_of_all_zero xs (fun y hy => h y (List.mem_cons_of_mem _ hy))]

/-- C34: `join ["a", "b"]` is `"a:\nb:"`. For every list `parts` the result of `join` ends with
a colon. For every non-empty list, the result is the names each followed by a colon, with a
newline between neighbours; it holds `len(parts) - 1` newlines more than the names themselves
do, so exactly `len(parts) - 1` when the parts are section names, which hold no newline. -/
theorem join_names_with_colons :
    join ["a", "b"] = "a:\nb:"
    ∧ (∀ parts : List String, (join parts).data.getLast? = some ':')
    ∧ (∀ parts : List String, parts ≠ [] →
        join parts = String.join (List.intersperse "\n" (parts.map (fun name => name ++ ":"))))
    ∧ (∀ parts : List String, parts ≠ [] →
        (join parts).data.count '\n' =
          (parts.length - 1) + (parts.map (fun name => name.data.count '\n')).sum)
    ∧ (∀ parts : List String, parts ≠ [] → (∀ name ∈ parts, '\n' ∉ name.data) →
        (join parts).data.count '\n' = parts.length - 1) := by
  refine ⟨by decide, join_data_getLast, join_eq_interspersed, join_count_newlines, ?_⟩
  intro parts hparts hnames
  rw [join_count_newlines parts hparts, sum_eq_zero_of_all_zero]
  · rfl
  · intro x hx
    obtain ⟨name, hname, rfl⟩ := List.mem_map.mp hx
    exact List.count_eq_zero.mpr (hnames name hname)

theorem sectionNamesToString_loop (n : Nat) :
    ∀ (names : List String) (i : Nat) (result : String), i + names.length = n →
      (names.enumFrom i).foldl (fun result entry =>
        let result := result ++ (entry.2 ++ ":")
        if (entry.1 : Int) ≠ (n : Int) - 1 then result ++ "\n" else result) result =
      result ++ (if names = [] then "" else join names)
  | [], _, result, _ => by
    apply String.ext
    simp [String.data_append]
  | [name], i, result, h => by
    have hi : ((i : Int) ≠ (n : Int) - 1) = False := by
      simp only [List.length_singleton] at h
      simp only [ne_eq, eq_iff_iff, iff_false, not_not]
      omega
    apply String.ext
    simp only [List.enumFrom_cons, List.enumFrom_nil, List.foldl_cons, List.foldl_nil, hi,
      if_false, String.data_append, List.cons_ne_nil, join_data_singleton]
  | name :: next :: names, i, result, h => by
    have hi : ((i : Int) ≠ (n : Int) - 1) = True := by
      simp only [List.length_cons] at h
      simp only [ne_eq, eq_iff_iff, iff_true]
      omega
    have ih := sectionNamesToString_loop n (next :: names) (i + 1)
      (result ++ (name ++ ":") ++ "\n") (by simp only [List.length_cons] at h ⊢; omega)
    rw [List.enumFrom_cons, List.foldl_cons]
    simp only [hi, if_true]
    rw [ih]
    apply String.ext
    simp only [List.cons_ne_nil, if_false, String.data_append,
      join_data_cons name (next :: names) (List.cons_ne_nil _ _), List.append_assoc]
    rfl

/-- C39, as the code has it: on the empty list of names the two renderings differ,
`sectionNamesToString` gives the empty string and `join` gives a colon. -/
theorem renderings_differ_on_no_names :
    sectionNamesToString [] = "" ∧ join [] = ":" ∧ sectionNamesToString [] ≠ join [] := by
  decide

/-- C39, amended: for every non-empty list of names, `sectionNamesToString names` of the
phase-5 parser equals `join names` of the completions command. -/
theorem sectionNamesToString_eq_join (names : List String) (h : names ≠ []) :
    sectionNamesToString names = join names := by
  unfold sectionNamesToString
  rw [List.enum, sectionNamesToString_loop names.length names 0 "" (by simp)]
  simp only [h, if_false]
  apply String.ext
  simp [String.data_append]

theorem sectionNamesToString_eq_join_witness :
    ["a", "b"] ≠ [] ∧ sectionNamesToString ["a", "b"] = "a:\nb:"
    ∧ sectionNamesToString ["a", "b"] = join ["a", "b"] :=
  ⟨by decide, by decide, sectionNamesToString_eq_join ["a", "b"] (by decide)⟩

/-! ## The check summary -/

theorem printDiagnostic_no_summary (debug : Bool) (index : Nat) (diag : FileDiagnostic) :
    ∀ call ∈ printDiagnostic debug index diag, call.isSummary = false := by
  intro call hcall
  unfold printDiagnostic at hcall
  simp only [List.mem_append, List.mem_singleton] at hcall
  rcases hcall with h | h
  · split at h
    · simp only [List.mem_singleton] at h
      rw [h]
      rfl
    · simp at h
  · rw [h]
    split <;> rfl

/-- C37: the last call that `printCheckStats` makes on the logger is the summary, and no
earlier call is a `Failure` or a `Success`. The summary is a `Failure` if `numErrors > 0` and a
`Success` otherwise, whatever the number of warnings. Its text is
`Processed N <files> and found E <errors> and W <warnings>`, where each noun is singular if
and only if its count is exactly 1. -/
theorem printCheckStats_summary (numErrors numWarnings numFilesProcessed : Int) (debug : Bool)
    (diagnostics : List FileDiagnostic) :
    ∃ (earlier : List LoggerCall) (filesText errorText warningText : String),
      printCheckStats numErrors numWarnings numFilesProcessed debug diagnostics =
        earlier ++ [(if 0 < numErrors then LoggerCall.Failure else LoggerCall.Success)
          (summaryText numFilesProcessed filesText numErrors errorText numWarnings warningText)]
      ∧ (∀ call ∈ earlier, call.isSummary = false)
      ∧ (filesText = "file" ∨ filesText = "files")
      ∧ (filesText = "file" ↔ numFilesProcessed = 1)
      ∧ (errorText = "error" ∨ errorText = "errors")
      ∧ (errorText = "error" ↔ numErrors = 1)
      ∧ (warningText = "warning" ∨ warningText = "warnings")
      ∧ (warningText = "warning" ↔ numWarnings = 1) := by
  refine ⟨(diagnostics.enum.map (fun entry => printDiagnostic debug entry.1 entry.2)).flatten ++
      (if numErrors > 0 then [LoggerCall.Log ""] else []),
    if numFilesProcessed = 1 then "file" else "files",
    if numErrors = 1 then "error" else "errors",
    if numWarnings = 1 then "warning" else "warnings", ?_, ?_, ?_, ?_, ?_, ?_, ?_, ?_⟩
  · unfold printCheckStats
    simp only [gt_iff_lt]
    by_cases h : 0 < numErrors
    · simp only [h, if_true]
    · simp only [h, if_false]
  · intro call hcall
    simp only [List.mem_append, List.mem_flatten, List.mem_map] at hcall
    rcases hcall with ⟨calls, ⟨entry, -, rfl⟩, hmem⟩ | h
    · exact printDiagnostic_no_summary debug entry.1 entry.2 call hmem
    · split at h
      · simp only [List.mem_singleton] at h
        rw [h]
        rfl
      · simp at h
  · by_cases h : numFilesProcessed = 1 <;> simp [h]
  · by_cases h : numFilesProcessed = 1 <;> simp [h]
  · by_cases h : numErrors = 1 <;> simp [h]
  · by_cases h : numErrors = 1 <;> simp [h]
  · by_cases h : numWarnings = 1 <;> simp [h]
  · by_cases h : numWarnings = 1 <;> simp [h]

/-! ## One element per argument -/

theorem forEachArg_length {T : Type} (f : Argument → P T) :
    ∀ (args : List Argument) (t : DiagnosticTracker),
      (forEachArg f args t).1.length = args.length
  | [], _ => rfl
  | arg :: args, t => by
    simp only [forEachArg, bind_apply, pure_apply, List.length_cons,
      forEachArg_length f args (f arg t).2]

theorem forEachArg_element {T : Type} (f : Argument → P T) :
    ∀ (args : List Argument) (t : DiagnosticTracker) (i : Nat),
      (forEachArg f args t).1[i]? =
        (args[i]?).map (fun arg => (f arg (forEachArg f (args.take i) t).2).1)
  | [], _, _ => by simp [forEachArg, pure_apply]
  | arg :: args, t, 0 => by
    simp [forEachArg, bind_apply, pure_apply]
  | arg :: args, t, i + 1 => by
    simp only [forEachArg, bind_apply, pure_apply, List.getElem?_cons_succ, List.take_succ_cons,
      forEachArg_element f args (f arg t).2 i]

theorem forEachArg_onePerArgument {T : Type} (f : Argument → P T) :
    OnePerArgument f (forEachArg f) :=
  fun args t => ⟨rfl, forEachArg_length f args t, forEachArg_element f args t⟩

theorem oneOrMore_after_forEachArg {T : Type} (f : Argument → P T) (sec : Section)
    (t : DiagnosticTracker) :
    ((forEachArg f sec.Args >>= fun items => oneOrMore items sec.Start) t).2 =
      (forEachArg f sec.Args t).2 ++
        (if sec.Args.length = 0 then [newError "Expected at least one item" sec.Start]
          else []) := by
  simp only [bind_apply, oneOrMore, forEachArg_length]
  by_cases h : sec.Args.length = 0
  · simp [h, bind_apply, pure_apply, Append_apply]
  · simp [h, pure_apply]

theorem exactlyOne_after_forEachArg {T : Type} (f : Argument → P T) (defaultItem : T)
    (sec : Section) (t : DiagnosticTracker) :
    ((forEachArg f sec.Args >>= fun items => exactlyOne items defaultItem sec.Start) t).2 =
      (forEachArg f sec.Args t).2 ++
        (if sec.Args.length = 1 then []
          else [newError "Expected at exactly one item" sec.Start]) := by
  have hlen := forEachArg_length f sec.Args t
  simp only [bind_apply, exactlyOne]
  by_cases h : sec.Args.length = 1
  · have h2 : (forEachArg f sec.Args t).1.length = 1 := by rw [hlen, h]
    simp only [h2, h, ne_eq, not_true_eq_false, if_false, if_true, pure_apply, List.append_nil]
    cases (forEachArg f sec.Args t).1 <;> simp [pure_apply]
  · have h2 : ¬ (forEachArg f sec.Args t).1.length = 1 := by rw [hlen]; exact h
    simp only [h2, h, ne_eq, not_false_eq_true, if_true, if_false, Append_apply]
    cases (forEachArg f sec.Args t).1 <;> simp [pure_apply]

/-- C31: each of the converters `toClauses`, `toTargets`, `toSpecs`, `toAliases`,
`toTextItems`, `toFormulations` and `toSignaturesItems` returns exactly one element per
argument, in order, whatever the arguments are: element `i` is the conversion of argument `i`.
So each one-or-more section built on them appends `Expected at least one item`, after the
diagnostics of the conversions, if and only if the section has zero arguments, and each
exactly-one section appends `Expected at exactly one item` if and only if the section does not
have exactly one argument. -/
theorem converters_one_item_per_argument (env : Env) (toClause : Argument → P Clause) :
    (OnePerArgument toClause (toClauses toClause)
      ∧ OnePerArgument (toTarget env) (toTargets env)
      ∧ OnePerArgument (toSpec env) (toSpecs env)
      ∧ OnePerArgument (toAlias env) (toAliases env)
      ∧ OnePerArgument toTextItem toTextItems
      ∧ OnePerArgument (toFormulation env) (toFormulations env)
      ∧ OnePerArgument (toSignatureItem env) (toSignaturesItems env))
    ∧ (AtLeastOneCheck (toClauses toClause) (oneOrMoreClauses toClause)
      ∧ AtLeastOneCheck (toSpecs env) (oneOrMoreSpecs env)
      ∧ AtLeastOneCheck (toAliases env) (oneOrMoreAliases env)
      ∧ AtLeastOneCheck (toTargets env) (oneOrMoreTargets env)
      ∧ AtLeastOneCheck toTextItems oneOrMoreTextItems
      ∧ AtLeastOneCheck (toSignaturesItems env) (oneOrMoreSignatureItems env))
    ∧ (ExactlyOneCheck (toClauses toClause) (exactlyOneClause toClause)
      ∧ ExactlyOneCheck (toFormulations env) (exactlyOneFormulation env)
      ∧ ExactlyOneCheck (toAliases env) (exactlyOneAlias env)
      ∧ ExactlyOneCheck (toSpecs env) (exactlyOneSpec env)
      ∧ ExactlyOneCheck (toTargets env) (exactlyOneTarget env)
      ∧ ExactlyOneCheck (toSignaturesItems env) (exactlyOneSignatureItem env)
      ∧ ExactlyOneCheck toTextItems exactlyOneTextItem) :=
  ⟨⟨forEachArg_onePerArgument _, forEachArg_onePerArgument _, forEachArg_onePerArgument _,
      forEachArg_onePerArgument _, forEachArg_onePerArgument _, forEachArg_onePerArgument _,
      forEachArg_onePerArgument _⟩,
    ⟨fun sec t => oneOrMore_after_forEachArg _ sec t,
      fun sec t => oneOrMore_after_forEachArg _ sec t,
      fun sec t => oneOrMore_after_forEachArg _ sec t,
      fun sec t => oneOrMore_after_forEachArg _ sec t,
      fun sec t => oneOrMore_after_forEachArg _ sec t,
      fun sec t => oneOrMore_after_forEachArg _ sec t⟩,
    ⟨fun sec t => exactlyOne_after_forEachArg _ _ sec t,
      fun sec t => exactlyOne_after_forEachArg _ _ sec t,
      fun sec t => exactlyOne_after_forEachArg _ _ sec t,
      fun sec t => exactlyOne_after_forEachArg _ _ sec t,
      fun sec t => exactlyOne_after_forEachArg _ _ sec t,
      fun sec t => exactlyOne_after_forEachArg _ _ sec t,
      fun sec t => exactlyOne_after_forEachArg _ _ sec t⟩⟩

/-! ## A group that is accepted with a diagnostic -/

theorem verifyNoArgs_apply (sec : Section) (t : DiagnosticTracker) :
    verifyNoArgs sec t =
      ((), t ++ (if sec.Args.length > 0 then [newError "Expected no arguments" sec.Start]
        else [])) := by
  unfold verifyNoArgs
  by_cases h : sec.Args.length > 0
  · simp only [h, if_true, Append_apply]
  · simp only [h, if_false, pure_apply, List.append_nil]

/-- C32: for a piecewise group with well-formed section names (`piecewise`, then `pairs` times
`if` and `then`, then `else` or not), `verifyNoArgs` on the head section appends exactly one
error `Expected no arguments` at the start of that section when the section has at least one
argument and nothing when it has none; `toPiecewiseGroup` keeps that diagnostic and still
returns `ok = true` with the populated group: one `IfThen` entry per pair, the pairs converted
in order after the check, and `Else` populated exactly when the `else` section is there. -/
theorem piecewise_head_arguments_reported_yet_ok (toClause : Argument → P Clause)
    [∀ arg, AppendOnly (toClause arg)] (group : Group) (t : DiagnosticTracker)
    (pairs : Nat) (withElse : Bool)
    (hnames : group.Sections.map Section.Name = piecewiseNames pairs withElse) :
    (verifyNoArgs (group.Sections.headD default) t).2 =
        t ++ (if (group.Sections.headD default).Args.length > 0
          then [newError "Expected no arguments" (group.Sections.headD default).Start]
          else [])
    ∧ (toPiecewiseGroup toClause group t).1.2 = true
    ∧ (toPiecewiseGroup toClause group t).1.1.IfThen.length = pairs
    ∧ (toPiecewiseGroup toClause group t).1.1.IfThen =
        (convertIfThens toClause ((group.Sections.drop 1).take (2 * pairs))
          (verifyNoArgs (group.Sections.headD default) t).2).1
    ∧ (toPiecewiseGroup toClause group t).1.1.Else.isSome = withElse
    ∧ ∃ later, (toPiecewiseGroup toClause group t).2 =
        t ++ (if (group.Sections.headD default).Args.length > 0
          then [newError "Expected no arguments" (group.Sections.headD default).Start]
          else []) ++ later := by
  obtain ⟨section0, body, tail, hsec, hname, hbody, hlen, htail⟩ :=
    piecewiseNames_split _ pairs withElse hnames
  have htail2 : tail = [] ∨ ∃ sec after, tail = sec :: after ∧ sec.Name = LowerElseName := by
    rcases htail with ⟨-, rfl⟩ | ⟨-, sec, rfl, hs⟩
    · exact Or.inl rfl
    · exact Or.inr ⟨sec, [], rfl, hs⟩
  have hsection : (toPiecewiseSection section0 t).2 = (verifyNoArgs section0 t).2 := rfl
  have hloop := piecewiseIfThens_pairs toClause pairs body tail []
    (toPiecewiseSection section0 t).2 hbody htail2
  have hres := toPiecewiseGroup_loop_some toClause group t _ section0 (body ++ tail) _ tail
    hsec hname hloop
  have htake : ((group.Sections.drop 1).take (2 * pairs)) = body := by
    rw [hsec, ← hlen]; simp
  have hhead : group.Sections.headD default = section0 := by rw [hsec]; rfl
  obtain ⟨a1, h1⟩ := (piecewiseIfThens_appendOnly toClause (body ++ tail) []).out
    (toPiecewiseSection section0 t).2
  rw [hloop] at h1
  simp only at h1
  rw [hhead, htake, ← hsection]
  have hv : (toPiecewiseSection section0 t).2 =
      t ++ (if section0.Args.length > 0 then [newError "Expected no arguments" section0.Start]
        else []) := by
    rw [hsection, verifyNoArgs_apply]
  refine ⟨hv, ?_⟩
  rcases htail with ⟨hw, rfl⟩ | ⟨hw, sec, rfl, hs⟩
  · rw [hres]
    simp only [List.nil_append]
    refine ⟨trivial, ?_, ?_, ?_, a1, ?_⟩
    · exact convertIfThens_length toClause pairs body _ hlen
    · simp
    · simp [hw]
    · rw [h1, hv]
  · obtain ⟨a2, h2⟩ := (toElseSection_appendOnly toClause sec).out
      (convertIfThens toClause body (toPiecewiseSection section0 t).2).2
    rw [hres]
    simp only [hs, if_true, List.nil_append]
    refine ⟨trivial, ?_, ?_, ?_, a1 ++ a2, ?_⟩
    · exact convertIfThens_length toClause pairs body _ hlen
    · simp
    · simp [hw]
    · rw [h2, h1, hv]
      simp [List.append_assoc]

theorem piecewise_head_arguments_reported_yet_ok_witness :
    piecewiseWithHeadArgument.Sections.map Section.Name = piecewiseNames 1 true
    ∧ (toPiecewiseGroup (toClause (scenarioEnv ⟨0⟩)) piecewiseWithHeadArgument []).1.2 = true
    ∧ (toPiecewiseGroup (toClause (scenarioEnv ⟨0⟩)) piecewiseWithHeadArgument []).2 =
        [newError "Expected no arguments" ⟨0, 0, 0⟩]
    ∧ (toPiecewiseGroup (toClause (scenarioEnv ⟨0⟩)) piecewiseScenario []).2 = []
    ∧ ∃ later, (toPiecewiseGroup (toClause (scenarioEnv ⟨0⟩)) piecewiseWithHeadArgument []).2 =
        [] ++ (if (piecewiseWithHeadArgument.Sections.headD default).Args.length > 0
          then [newError "Expected no arguments"
            (piecewiseWithHeadArgument.Sections.headD default).Start]
          else []) ++ later :=
  ⟨by decide, by decide, by decide, by decide,
    (piecewise_head_arguments_reported_yet_ok (toClause (scenarioEnv ⟨0⟩))
      piecewiseWithHeadArgument [] 1 true (by decide)).2.2.2.2.2⟩

/-! ## The References of a Topic group -/

theorem toTopicGroup_references (env : Env) (group : Group) (t : DiagnosticTracker)
    (hok : (toTopicGroup env group t).1.2 = true) :
    ∃ sections : SectionMap,
      (IdentifySections env group.Sections env.TopicSections (getId env group true t).2).1 =
        some sections
      ∧ (toTopicGroup env group t).1.1.References =
        (sections.find UpperJustifiedName).map (fun sec =>
          (toReferencesSection sec
            (toContentSection (sections.get LowerContentName)
              (toTopicSection (sections.get UpperTopicName)
                (IdentifySections env group.Sections env.TopicSections
                  (getId env group true t).2).2).2).2).1) := by
  unfold toTopicGroup at hok ⊢
  by_cases hhead : startsWithSections group [UpperTopicName] = true
  · simp only [hhead, Bool.not_true, Bool.false_eq_true, if_false, bind_apply] at hok ⊢
    rcases h1 : (getId env group true t).1 with _ | id
    · rcases h2 : (IdentifySections env group.Sections env.TopicSections
          (getId env group true t).2).1 with _ | sections <;>
        simp [h1, h2, pure_apply] at hok
    · rcases h2 : (IdentifySections env group.Sections env.TopicSections
          (getId env group true t).2).1 with _ | sections
      · simp [h1, h2, pure_apply] at hok
      · refine ⟨sections, rfl, ?_⟩
        simp only [bind_apply, pure_apply, ifPresent]
        cases sections.find UpperJustifiedName <;> rfl
  · simp [hhead, pure_apply] at hok

/-- C33, as the code has it: `toTopicGroup` reads the References of a Topic group from the
entry `Justified` of the identified sections, not from the entry `References`. On the group
`[a topic]`, `Topic:`, `content: "text"`, `References: "a reference"` the identifier returns
the `References` section, the group is accepted without a diagnostic, and the References
field of the result is not populated. In general, for every Topic group that `toTopicGroup`
accepts, the References field is what `toReferencesSection` builds from the entry `Justified`
when the identifier returned one, and is not populated otherwise. -/
theorem topic_references_read_from_justified :
    ((IdentifySections topicReferencesEnv topicWithReferences.Sections
        topicReferencesEnv.TopicSections []).1.bind
          (fun sections => sections.find UpperReferencesName)) =
      some (Section.mk "References"
        [Argument.mk (ArgumentDataType.TextArgumentData "a reference") ⟨45, 3, 12⟩] ⟨33, 3, 0⟩)
    ∧ (toTopicGroup topicReferencesEnv topicWithReferences []).1.2 = true
    ∧ (toTopicGroup topicReferencesEnv topicWithReferences []).2 = []
    ∧ (toTopicGroup topicReferencesEnv topicWithReferences []).1.1.References.isSome = false
    ∧ (toTopicGroup topicReferencesEnv topicWithReferences []).1.1.Content.Content =
        { RawText := "text" }
    ∧ ∀ (env : Env) (group : Group) (t : DiagnosticTracker),
        (toTopicGroup env group t).1.2 = true →
        ∃ sections : SectionMap,
          (IdentifySections env group.Sections env.TopicSections (getId env group true t).2).1 =
            some sections
          ∧ (toTopicGroup env group t).1.1.References =
            (sections.find UpperJustifiedName).map (fun sec =>
              (toReferencesSection sec
                (toContentSection (sections.get LowerContentName)
                  (toTopicSection (sections.get UpperTopicName)
                    (IdentifySections env group.Sections env.TopicSections
                      (getId env group true t).2).2).2).2).1) :=
  ⟨rfl, by decide, by decide, by decide, rfl, toTopicGroup_references⟩

/-! ## The workspace -/

theorem loadEntry_storeEntry {K V : Type} [DecidableEq K] (key other : K) (value : V) :
    ∀ entries : List (K × V),
      loadEntry other (storeEntry key value entries) =
        if other = key then some value else loadEntry other entries
  | [] => by
    by_cases h : key = other
    · simp [storeEntry, loadEntry, h]
    · have h2 : ¬ other = key := fun h3 => h h3.symm
      simp [storeEntry, loadEntry, h, h2]
  | entry :: rest => by
    have ih := loadEntry_storeEntry key other value rest
    by_cases h1 : entry.1 = key
    · by_cases h2 : key = other
      · subst h2
        simp [storeEntry, loadEntry, h1]
      · have h3 : ¬ other = key := fun h4 => h2 h4.symm
        have h5 : ¬ entry.1 = other := fun h6 => h2 (h1 ▸ h6)
        simp [storeEntry, loadEntry, h1, h2, h3, h5]
    · by_cases h2 : entry.1 = other
      · have h3 : ¬ other = key := fun h4 => h1 (h2.trans h4)
        simp [storeEntry, loadEntry, h1, h2, h3]
      · simp [storeEntry, loadEntry, h1, h2, ih]

theorem keys_storeEntry {K V : Type} [DecidableEq K] (key : K) (value : V) :
    ∀ entries : List (K × V),
      (storeEntry key value entries).map Prod.fst =
        if key ∈ entries.map Prod.fst then entries.map Prod.fst
        else entries.map Prod.fst ++ [key]
  | [] => by simp [storeEntry]
  | entry :: rest => by
    have ih := keys_storeEntry key value rest
    by_cases h1 : entry.1 = key
    · simp [storeEntry, h1]
    · have h2 : ¬ key = entry.1 := fun h3 => h1 h3.symm
      by_cases h4 : key ∈ rest.map Prod.fst
      · simp only [h4, if_true] at ih
        simp only [storeEntry, h1, if_false, List.map_cons, ih, List.mem_cons, h4, or_true,
          if_true]
      · simp only [h4, if_false] at ih
        simp only [storeEntry, h1, if_false, List.map_cons, ih, List.mem_cons, h4, h2,
          or_self, List.cons_append]

theorem storeEntry_new {K V : Type} [DecidableEq K] (key : K) (value : V) :
    ∀ entries : List (K × V), key ∉ entries.map Prod.fst →
      storeEntry key value entries = entries ++ [(key, value)]
  | [], _ => rfl
  | entry :: rest, h => by
    have h1 : ¬ entry.1 = key := fun h2 => h (by simp [h2])
    have h3 : key ∉ rest.map Prod.fst := by
      intro h4
      apply h
      rw [List.map_cons]
      exact List.mem_cons_of_mem _ h4
    simp [storeEntry, h1, storeEntry_new key value rest h3]

theorem keys_nodup_storeEntry {K V : Type} [DecidableEq K] (key : K) (value : V)
    (entries : List (K × V)) (h : (entries.map Prod.fst).Nodup) :
    ((storeEntry key value entries).map Prod.fst).Nodup := by
  rw [keys_storeEntry]
  by_cases h1 : key ∈ entries.map Prod.fst
  · simp only [h1, if_true]
    exact h
  · simp only [h1, if_false]
    exact List.Nodup.append h (List.nodup_singleton _) (by simpa using h1)

theorem mem_keys_storeEntry {K V : Type} [DecidableEq K] (key other : K) (value : V)
    (entries : List (K × V)) :
    other ∈ (storeEntry key value entries).map Prod.fst ↔
      other = key ∨ other ∈ entries.map Prod.fst := by
  rw [keys_storeEntry]
  by_cases h1 : key ∈ entries.map Prod.fst
  · simp only [h1, if_true]
    constructor
    · exact Or.inr
    · rintro (rfl | h)
      · exact h1
      · exact h
  · simp only [h1, if_false, List.mem_append, List.mem_singleton]
    exact Or.comm

theorem loadEntry_eq_some_iff {K V : Type} [DecidableEq K] (key : K) (value : V) :
    ∀ entries : List (K × V), (entries.map Prod.fst).Nodup →
      (loadEntry key entries = some value ↔ (key, value) ∈ entries)
  | [], _ => by simp [loadEntry]
  | entry :: rest, h => by
    simp only [List.map_cons, List.nodup_cons] at h
    have ih := loadEntry_eq_some_iff key value rest h.2
    by_cases h1 : entry.1 = key
    · simp only [loadEntry, h1, if_true, Option.some.injEq, List.mem_cons]
      constructor
      · intro h2
        exact Or.inl (by rw [← h1, ← h2])
      · rintro (h2 | h2)
        · rw [← h2]
        · exfalso
          apply h.1
          rw [h1]
          exact List.mem_map.mpr ⟨(key, value), h2, rfl⟩
    · simp only [loadEntry, h1, if_false, ih, List.mem_cons]
      constructor
      · exact Or.inr
      · rintro (h2 | h2)
        · exfalso
          apply h1
          rw [← h2]
        · exact h2

theorem loadEntry_perm {K V : Type} [DecidableEq K] (key : K) (first second : List (K × V))
    (hperm : first.Perm second) (h : (second.map Prod.fst).Nodup) :
    loadEntry key first = loadEntry key second := by
  have h1 : (first.map Prod.fst).Nodup := ((hperm.map Prod.fst).nodup_iff).mpr h
  apply Option.ext
  intro value
  simp only [Option.mem_def]
  rw [loadEntry_eq_some_iff key value first h1, loadEntry_eq_some_iff key value second h,
    hperm.mem_iff]

theorem foldl_store_visit (visit : List (ast.Path × List Diagnostic)) :
    ∀ (seen : List (ast.Path × List Diagnostic)), ((seen ++ visit).map Prod.fst).Nodup →
      (visit.foldl (fun (diagnostics : GoMap ast.Path (List Diagnostic)) entry =>
        diagnostics.store entry.1 entry.2) { entries := seen }).entries = seen ++ visit := by
  induction visit with
  | nil => intro seen _; simp
  | cons entry visit ih =>
    intro seen h
    have hnew : entry.1 ∉ seen.map Prod.fst := by
      intro hmem
      rw [List.map_append, List.map_cons] at h
      have := (List.nodup_append.mp h).2.2
      exact this hmem (List.mem_cons_self _ _)
    rw [List.foldl_cons]
    simp only [GoMap.store, storeEntry_new entry.1 entry.2 seen hnew]
    have h2 : ((seen ++ [(entry.1, entry.2)] ++ visit).map Prod.fst).Nodup := by
      simpa [List.append_assoc] using h
    have := ih (seen ++ [(entry.1, entry.2)]) h2
    simpa [List.append_assoc] using this

theorem addDocuments_concat (ParseDocument : String → Document × List Diagnostic)
    (adds : List (ast.Path × String)) (add : ast.Path × String) :
    addDocuments ParseDocument (adds ++ [add]) =
      (addDocuments ParseDocument adds).AddDocument ParseDocument add.1 add.2 := by
  simp [addDocuments, List.foldl_append]

theorem addDocuments_keys (ParseDocument : String → Document × List Diagnostic)
    (adds : List (ast.Path × String)) :
    (addDocuments ParseDocument adds).documents.keys =
        (addDocuments ParseDocument adds).diagnosticsAtAdd.keys
    ∧ (addDocuments ParseDocument adds).documents.keys.Nodup
    ∧ ∀ path, path ∈ (addDocuments ParseDocument adds).documents.keys ↔
        path ∈ adds.map Prod.fst := by
  induction adds using List.reverseRecOn with
  | nil => exact ⟨rfl, List.nodup_nil, fun path => Iff.rfl⟩
  | append_singleton adds add ih =>
    obtain ⟨h1, h2, h3⟩ := ih
    rw [addDocuments_concat]
    simp only [GoMap.keys, workspace.AddDocument, GoMap.store] at h1 h2 h3 ⊢
    refine ⟨?_, ?_, ?_⟩
    · rw [keys_storeEntry, keys_storeEntry, h1]
    · exact keys_nodup_storeEntry _ _ _ h2
    · intro path
      rw [mem_keys_storeEntry, h3 path]
      simp only [List.map_append, List.map_cons, List.map_nil, List.mem_append,
        List.mem_singleton]
      exact Or.comm

theorem addDocuments_count (ParseDocument : String → Document × List Diagnostic)
    (adds : List (ast.Path × String)) :
    (addDocuments ParseDocument adds).DocumentCount = (adds.map Prod.fst).toFinset.card := by
  obtain ⟨-, h2, h3⟩ := addDocuments_keys ParseDocument adds
  have h4 : (addDocuments ParseDocument adds).documents.keys.toFinset =
      (adds.map Prod.fst).toFinset := by
    ext path
    simp only [List.mem_toFinset]
    exact h3 path
  rw [← h4, List.toFinset_card_of_nodup h2]
  simp [workspace.DocumentCount, GoMap.len, GoMap.keys]

theorem addDocuments_diagnostics (ParseDocument : String → Document × List Diagnostic)
    (adds : List (ast.Path × String)) (path : ast.Path) :
    (addDocuments ParseDocument adds).diagnosticsAtAdd.load path =
      (adds.reverse.find? (fun add => add.1 = path)).map
        (fun add => (ParseDocument add.2).2) := by
  induction adds using List.reverseRecOn with
  | nil => rfl
  | append_singleton adds add ih =>
    rw [addDocuments_concat]
    simp only [GoMap.load, workspace.AddDocument, GoMap.store] at ih ⊢
    rw [loadEntry_storeEntry, ih, List.reverse_append, List.reverse_singleton,
      List.singleton_append, List.find?_cons]
    by_cases h : path = add.1
    · simp [h]
    · have h2 : ¬ add.1 = path := fun h3 => h h3.symm
      simp [h, h2]

/-- C35: a new workspace has `DocumentCount` 0. After any sequence of `AddDocument` calls the
count is the number of distinct paths added, the map of documents and the map of diagnostics
hold the same keys, each once, and these are the paths added. So adding a path that was
already added leaves the count as it is, and the document of that path is then the one parsed
from the new content. -/
theorem DocumentCount_counts_distinct_paths
    (ParseDocument : String → Document × List Diagnostic) :
    NewWorkspace.DocumentCount = 0
    ∧ ∀ adds : List (ast.Path × String),
      (addDocuments ParseDocument adds).DocumentCount = (adds.map Prod.fst).toFinset.card
      ∧ (∀ path : ast.Path, path ∈ (addDocuments ParseDocument adds).documents.keys ↔
          path ∈ (addDocuments ParseDocument adds).diagnosticsAtAdd.keys)
      ∧ (∀ path : ast.Path, path ∈ (addDocuments ParseDocument adds).documents.keys ↔
          path ∈ adds.map Prod.fst)
      ∧ (addDocuments ParseDocument adds).documents.keys.Nodup
      ∧ (addDocuments ParseDocument adds).diagnosticsAtAdd.keys.Nodup
      ∧ (addDocuments ParseDocument adds).diagnosticsAtAdd.len =
          (addDocuments ParseDocument adds).documents.len
      ∧ ∀ (path : ast.Path) (content : String), path ∈ adds.map Prod.fst →
          ((addDocuments ParseDocument adds).AddDocument ParseDocument path
              content).DocumentCount = (addDocuments ParseDocument adds).DocumentCount
          ∧ ((addDocuments ParseDocument adds).AddDocument ParseDocument path
              content).documents.load path = some (ParseDocument content).1 := by
  refine ⟨rfl, ?_⟩
  intro adds
  obtain ⟨h1, h2, h3⟩ := addDocuments_keys ParseDocument adds
  refine ⟨addDocuments_count ParseDocument adds, ?_, h3, h2, h1 ▸ h2, ?_, ?_⟩
  · intro path
    rw [h1]
  · have := congrArg List.length h1
    simpa [GoMap.keys, GoMap.len] using this.symm
  · intro path content hpath
    refine ⟨?_, ?_⟩
    · rw [← addDocuments_concat ParseDocument adds (path, content), addDocuments_count,
        addDocuments_count]
      congr 1
      ext other
      simp only [List.map_append, List.map_cons, List.map_nil, List.mem_toFinset,
        List.mem_append, List.mem_singleton]
      constructor
      · rintro (h | rfl)
        · exact h
        · exact hpath
      · exact Or.inl
    · simp [workspace.AddDocument, GoMap.load, GoMap.store, loadEntry_storeEntry]

/-- C36: after any sequence of `AddDocument` calls, in whatever order the loop of `Check`
visits the entries of the stored map, the result of `Check` holds exactly one entry per path
that was added, and the entry of a path holds the diagnostics that the most recent
`AddDocument` for that path produced; the workspace after the call is the workspace before
it. -/
theorem Check_returns_latest_diagnostics (ParseDocument : String → Document × List Diagnostic)
    (adds : List (ast.Path × String)) (visit : List (ast.Path × List Diagnostic))
    (hvisit : visit.Perm (addDocuments ParseDocument adds).diagnosticsAtAdd.entries) :
    ((addDocuments ParseDocument adds).Check visit).2 = addDocuments ParseDocument adds
    ∧ ((addDocuments ParseDocument adds).Check visit).1.Diagnostics.keys.Nodup
    ∧ (∀ path : ast.Path,
        path ∈ ((addDocuments ParseDocument adds).Check visit).1.Diagnostics.keys ↔
          path ∈ adds.map Prod.fst)
    ∧ ((addDocuments ParseDocument adds).Check visit).1.Diagnostics.len =
        (adds.map Prod.fst).toFinset.card
    ∧ ∀ path : ast.Path,
        ((addDocuments ParseDocument adds).Check visit).1.Diagnostics.load path =
          (adds.reverse.find? (fun add => add.1 = path)).map
            (fun add => (ParseDocument add.2).2) := by
  obtain ⟨h1, h2, h3⟩ := addDocuments_keys ParseDocument adds
  have hstored : ((addDocuments ParseDocument adds).diagnosticsAtAdd.entries.map
      Prod.fst).Nodup := by
    have := h1 ▸ h2
    simpa [GoMap.keys] using this
  have hnodup : (visit.map Prod.fst).Nodup := ((hvisit.map Prod.fst).nodup_iff).mpr hstored
  have hentries : ((addDocuments ParseDocument adds).Check visit).1.Diagnostics.entries =
      visit := by
    have := foldl_store_visit visit [] (by simpa using hnodup)
    simpa [workspace.Check, GoMap.make] using this
  refine ⟨rfl, ?_, ?_, ?_, ?_⟩
  · simpa [GoMap.keys, hentries] using hnodup
  · intro path
    rw [← h3 path, h1]
    simp only [GoMap.keys, hentries]
    exact (hvisit.map Prod.fst).mem_iff
  · rw [← addDocuments_count ParseDocument adds, workspace.DocumentCount]
    have hlen := congrArg List.length h1
    simp only [GoMap.keys, List.length_map] at hlen
    simp only [GoMap.len, hentries, hvisit.length_eq, hlen]
  · intro path
    rw [← addDocuments_diagnostics]
    simp only [GoMap.load, hentries]
    exact loadEntry_perm path _ _ hvisit hstored

theorem Check_returns_latest_diagnostics_witness :
    visitBackwards.Perm (addDocuments echoDocument addTwice).diagnosticsAtAdd.entries
    ∧ ((addDocuments echoDocument addTwice).Check visitBackwards).1.Diagnostics.len = 2
    ∧ ((addDocuments echoDocument addTwice).Check visitBackwards).1.Diagnostics.load "a.math" =
        some [newError "second" ⟨0, 0, 0⟩]
    ∧ ((addDocuments echoDocument addTwice).Check visitBackwards).1.Diagnostics.load "b.math" =
        some [newError "other" ⟨0, 0, 0⟩]
    ∧ (addDocuments echoDocument addTwice).DocumentCount = 2
    ∧ ∀ path : ast.Path,
        ((addDocuments echoDocument addTwice).Check visitBackwards).1.Diagnostics.load path =
          (addTwice.reverse.find? (fun add => add.1 = path)).map
            (fun add => (echoDocument add.2).2) :=
  ⟨List.Perm.swap _ _ _, by decide, by decide, by decide, by decide,
    (Check_returns_latest_diagnostics echoDocument addTwice visitBackwards
      (List.Perm.swap _ _ _)).2.2.2.2⟩

/-! ## `GetChars` on the bytes of a text -/

theorem appended_by {α : Type} (m : P α) [h : AppendOnly m] (t : DiagnosticTracker) :
    ∃ appended : List Diagnostic, (m t).2 = t ++ appended :=
  h.out t

theorem toThenSection_no_clauses (toClause : Argument → P Clause) (sec : Section)
    (t : DiagnosticTracker) (h : (toThenSection toClause sec t).1.Clauses = []) :
    (toThenSection toClause sec t).2 =
      t ++ [newError "Expected at least one item" sec.Start] := by
  have hlen := forEachArg_length toClause sec.Args t
  simp only [toThenSection, oneOrMoreClauses, toClauses, bind_apply, pure_apply, oneOrMore]
    at h ⊢
  by_cases h0 : (forEachArg toClause sec.Args t).1.length = 0
  · have hargs : sec.Args = [] := List.length_eq_zero.mp (by rw [← hlen]; exact h0)
    simp only [h0, if_true, bind_apply, Append_apply, pure_apply]
    rw [hargs]
    rfl
  · exfalso
    simp only [h0, if_false, pure_apply] at h
    exact h0 (by rw [h]; rfl)

theorem toTheoremGroup_then_slot (env : Env) (group : Group) (t : DiagnosticTracker)
    (sections : SectionMap)
    (hstart : startsWithSections group [UpperTheoremName] = true)
    (hident : (IdentifySections env group.Sections env.TheoremSections
      (getId env group false t).2).1 = some sections) :
    ∃ (pre post : List Diagnostic),
      (toTheoremGroup env group t).1.2 = true
      ∧ (toTheoremGroup env group t).1.1.Then =
        (toThenSection (toClause env) (sections.get LowerThenName) (t ++ pre)).1
      ∧ (toTheoremGroup env group t).2 =
        (toThenSection (toClause env) (sections.get LowerThenName) (t ++ pre)).2 ++ post := by
  obtain ⟨a0, h0⟩ := appended_by (getId env group false) t
  obtain ⟨a1, h1⟩ := appended_by (IdentifySections env group.Sections env.TheoremSections)
    (getId env group false t).2
  unfold toTheoremGroup
  simp only [hstart, Bool.not_true, Bool.false_eq_true, if_false, bind_apply, hident]
  generalize (IdentifySections env group.Sections env.TheoremSections
    (getId env group false t).2).2 = k1 at h1 ⊢
  rw [h0] at h1
  obtain ⟨a2, h2⟩ := appended_by (toTheoremSection (sections.get UpperTheoremName)) k1
  generalize (toTheoremSection (sections.get UpperTheoremName) k1).2 = k2 at h2 ⊢
  obtain ⟨a3, h3⟩ := appended_by
    (ifPresent (sections.find LowerGivenName) (toGivenSection env)) k2
  generalize (ifPresent (sections.find LowerGivenName) (toGivenSection env) k2).2 = k3 at h3 ⊢
  obtain ⟨a4, h4⟩ := appended_by
    (ifPresent (sections.find LowerWhereName) (toWhereSection env)) k3
  generalize (ifPresent (sections.find LowerWhereName) (toWhereSection env) k3).2 = k4 at h4 ⊢
  obtain ⟨a5, h5⟩ := appended_by
    (ifPresent (sections.find LowerIfName) (toIfSection (toClause env))) k4
  generalize (ifPresent (sections.find LowerIfName) (toIfSection (toClause env)) k4).2 = k5
    at h5 ⊢
  obtain ⟨a6, h6⟩ := appended_by
    (ifPresent (sections.find LowerIffName) (toIffSection (toClause env))) k5
  generalize (ifPresent (sections.find LowerIffName) (toIffSection (toClause env)) k5).2 = k6
    at h6 ⊢
  have hk6 : k6 = t ++ (a0 ++ a1 ++ a2 ++ a3 ++ a4 ++ a5 ++ a6) := by
    rw [h6, h5, h4, h3, h2, h1]
    simp only [List.append_assoc]
  subst hk6
  obtain ⟨b1, g1⟩ := appended_by (ifPresent (sections.find UpperProofName) toProofSection)
    (toThenSection (toClause env) (sections.get LowerThenName)
      (t ++ (a0 ++ a1 ++ a2 ++ a3 ++ a4 ++ a5 ++ a6))).2
  generalize (ifPresent (sections.find UpperProofName) toProofSection
    (toThenSection (toClause env) (sections.get LowerThenName)
      (t ++ (a0 ++ a1 ++ a2 ++ a3 ++ a4 ++ a5 ++ a6))).2).2 = j1 at g1 ⊢
  obtain ⟨b2, g2⟩ := appended_by
    (ifPresent (sections.find UpperDocumentedName) (toDocumentedSection env)) j1
  generalize (ifPresent (sections.find UpperDocumentedName) (toDocumentedSection env) j1).2 = j2
    at g2 ⊢
  obtain ⟨b3, g3⟩ := appended_by
    (ifPresent (sections.find UpperReferencesName) toReferencesSection) j2
  generalize (ifPresent (sections.find UpperReferencesName) toReferencesSection j2).2 = j3
    at g3 ⊢
  obtain ⟨b4, g4⟩ := appended_by
    (ifPresent (sections.find UpperAliasesName) (toAliasesSection env)) j3
  generalize (ifPresent (sections.find UpperAliasesName) (toAliasesSection env) j3).2 = j4
    at g4 ⊢
  obtain ⟨b5, g5⟩ := appended_by
    (ifPresent (sections.find UpperIdQuestionName) toMetaIdSection) j4
  generalize (ifPresent (sections.find UpperIdQuestionName) toMetaIdSection j4).2 = j5
    at g5 ⊢
  refine ⟨a0 ++ a1 ++ a2 ++ a3 ++ a4 ++ a5 ++ a6, b1 ++ b2 ++ b3 ++ b4 ++ b5, rfl, rfl, ?_⟩
  show j5 = _
  rw [g5, g4, g3, g2, g1]
  simp only [List.append_assoc]

theorem theoremWithoutThen_dispatch (env : Env) (start : Position) (t : DiagnosticTracker) :
    toTopLevelItemType env (TopLevelNodeType.Group (theoremWithoutThen start)) t =
      if (toTheoremGroup env (theoremWithoutThen start) t).1.2 = true then
        ((TopLevelItemType.TheoremGroup (toTheoremGroup env (theoremWithoutThen start) t).1.1,
          true), (toTheoremGroup env (theoremWithoutThen start) t).2)
      else
        ((TopLevelItemType.nil, false),
          (toTheoremGroup env (theoremWithoutThen start) t).2 ++
            [newError "Invalid top level item" start]) := by
  have h1 : toDefinesGroup env (theoremWithoutThen start) t = ((default, false), t) := rfl
  have h2 : toDescribesGroup env (theoremWithoutThen start) t = ((default, false), t) := rfl
  have h3 : toStatesGroup env (theoremWithoutThen start) t = ((default, false), t) := rfl
  have h4 : toAxiomGroup env (theoremWithoutThen start) t = ((default, false), t) := rfl
  have h5 : toConjectureGroup env (theoremWithoutThen start) t = ((default, false), t) := rfl
  have h6 : ∀ k, toSpecifyGroup env (theoremWithoutThen start) k = ((default, false), k) :=
    fun _ => rfl
  have h7 : ∀ k, toTopicGroup env (theoremWithoutThen start) k = ((default, false), k) :=
    fun _ => rfl
  have h8 : ∀ k, toPersonGroup env (theoremWithoutThen start) k = ((default, false), k) :=
    fun _ => rfl
  have h9 : ∀ k, toResourceGroup env (theoremWithoutThen start) k = ((default, false), k) :=
    fun _ => rfl
  simp only [toTopLevelItemType, bind_apply, firstOk_cons_apply, asItem_apply, h1, h2, h3, h4,
    h5, h6, h7, h8, h9]
  by_cases hok : (toTheoremGroup env (theoremWithoutThen start) t).1.2 = true
  · simp [hok, pure_apply]
  · simp [hok, pure_apply, firstOk, Append_apply, bind_apply]
    rfl

theorem theoremWithoutThen_parsed (env : Env) (start : Position) (t : DiagnosticTracker) :
    Parse env ⟨[TopLevelNodeType.Group (theoremWithoutThen start)]⟩ t =
      if (toTheoremGroup env (theoremWithoutThen start) t).1.2 = true then
        (({ Items := [TopLevelItemType.TheoremGroup
              (toTheoremGroup env (theoremWithoutThen start) t).1.1] },
            decide ((toTheoremGroup env (theoremWithoutThen start) t).2.length = t.length)),
          (toTheoremGroup env (theoremWithoutThen start) t).2)
      else
        (({ Items := [] }, false),
          (toTheoremGroup env (theoremWithoutThen start) t).2 ++
            [newError "Invalid top level item" start]) := by
  simp only [Parse, toDocument_apply, toDocumentItems, bind_apply, pure_apply,
    theoremWithoutThen_dispatch]
  by_cases hok : (toTheoremGroup env (theoremWithoutThen start) t).1.2 = true
  · simp [hok]
  · obtain ⟨a, ha⟩ := appended_by (toTheoremGroup env (theoremWithoutThen start)) t
    simp [hok, ha]

theorem theoremWithoutThen_identified (env : Env) (start : Position) (t : DiagnosticTracker) :
    IdentifySections env (theoremWithoutThen start).Sections env.TheoremSections
        (getId env (theoremWithoutThen start) false t).2 =
      ((env.IdentifySections (theoremWithoutThen start).Sections t env.TheoremSections).1.map
          (resolveSections (theoremWithoutThen start).Sections),
        t ++ (env.IdentifySections (theoremWithoutThen start).Sections t env.TheoremSections).2)
      := rfl

theorem theoremWithoutThen_rejected (env : Env) (start : Position) (t : DiagnosticTracker)
    (h : (env.IdentifySections (theoremWithoutThen start).Sections t env.TheoremSections).1
      = none) :
    Parse env ⟨[TopLevelNodeType.Group (theoremWithoutThen start)]⟩ t =
      (({ Items := [] }, false),
        t ++ (env.IdentifySections (theoremWithoutThen start).Sections t env.TheoremSections).2
          ++ [newError "Invalid top level item" start]) := by
  have hthm : toTheoremGroup env (theoremWithoutThen start) t =
      ((default, false),
        t ++ (env.IdentifySections (theoremWithoutThen start).Sections t
          env.TheoremSections).2) := by
    have hstart : startsWithSections (theoremWithoutThen start) [UpperTheoremName] = true := rfl
    unfold toTheoremGroup
    simp only [hstart, Bool.not_true, Bool.false_eq_true, if_false]
    rw [bind_apply, bind_apply, theoremWithoutThen_identified, h]
    rfl
  rw [theoremWithoutThen_parsed, hthm]
  simp

theorem theoremWithoutThen_accepted (env : Env) (start : Position) (t : DiagnosticTracker)
    (picks : List (String × Nat))
    (h : (env.IdentifySections (theoremWithoutThen start).Sections t env.TheoremSections).1
      = some picks) :
    ∃ (pre post : List Diagnostic),
      (Parse env ⟨[TopLevelNodeType.Group (theoremWithoutThen start)]⟩ t).1.1.Items =
        [TopLevelItemType.TheoremGroup (toTheoremGroup env (theoremWithoutThen start) t).1.1]
      ∧ (toTheoremGroup env (theoremWithoutThen start) t).1.1.Then =
        (toThenSection (toClause env)
          ((resolveSections (theoremWithoutThen start).Sections picks).get LowerThenName)
          (t ++ pre)).1
      ∧ (Parse env ⟨[TopLevelNodeType.Group (theoremWithoutThen start)]⟩ t).2 =
        (toThenSection (toClause env)
          ((resolveSections (theoremWithoutThen start).Sections picks).get LowerThenName)
          (t ++ pre)).2 ++ post := by
  have hident : (IdentifySections env (theoremWithoutThen start).Sections env.TheoremSections
      (getId env (theoremWithoutThen start) false t).2).1 =
        some (resolveSections (theoremWithoutThen start).Sections picks) := by
    rw [theoremWithoutThen_identified, h]
    rfl
  obtain ⟨pre, post, h1, h2, h3⟩ := toTheoremGroup_then_slot env (theoremWithoutThen start) t _
    rfl hident
  refine ⟨pre, post, ?_, h2, ?_⟩
  · rw [theoremWithoutThen_parsed]
    simp [h1]
  · rw [theoremWithoutThen_parsed]
    simp [h1, h3]

/-- C6, as the code has it: whatever the section identifier does, scenario S2 does not end as
the claim says. For every environment, start position and tracker, phase 5 does not both append
exactly one diagnostic whose message names `then` and leave a `TheoremGroup` with an empty
`then` among the items of the document: when the identifier rejects the group, the document holds no item, and
when it accepts the group, an empty `then` comes with the diagnostic
`Expected at least one item` of the one-or-more check, which does not name `then`. With an
identifier that rejects a group with a missing required section, the document is empty and the
diagnostic of the identifier is followed by `Invalid top level item`; with the identifier of
the spec, it is followed by `Expected at least one item`. -/
theorem theoremWithoutThen_never_as_claimed :
    (∀ (env : Env) (start : Position) (t : DiagnosticTracker),
      ¬ ∃ (d : Diagnostic) (grp : TheoremGroup),
        (Parse env ⟨[TopLevelNodeType.Group (theoremWithoutThen start)]⟩ t).2 = t ++ [d]
        ∧ mentions d.Message LowerThenName = true
        ∧ TopLevelItemType.TheoremGroup grp ∈
          (Parse env ⟨[TopLevelNodeType.Group (theoremWithoutThen start)]⟩ t).1.1.Items
        ∧ grp.Then.Clauses = [])
    ∧ Parse strictEnv ⟨[TopLevelNodeType.Group (theoremWithoutThen ⟨0, 0, 0⟩)]⟩ [] =
        (({ Items := [] }, false),
          [missingSection LowerThenName ⟨0, 0, 0⟩,
            newError "Invalid top level item" ⟨0, 0, 0⟩])
    ∧ (Parse (scenarioEnv ⟨0⟩)
        ⟨[TopLevelNodeType.Group (theoremWithoutThen ⟨0, 0, 0⟩)]⟩ []).2 =
        [missingSection LowerThenName ⟨0, 0, 0⟩,
          newError "Expected at least one item" ⟨0, 0, 0⟩] := by
  refine ⟨?_, rfl, by decide⟩
  rintro env start t ⟨d, grp, htr, hment, hitems, hthen⟩
  rcases hres : (env.IdentifySections (theoremWithoutThen start).Sections t
      env.TheoremSections).1 with _ | picks
  · rw [theoremWithoutThen_rejected env start t hres] at hitems
    simp at hitems
  · obtain ⟨pre, post, hi, hth, htk⟩ := theoremWithoutThen_accepted env start t picks hres
    rw [hi] at hitems
    simp only [List.mem_singleton, TopLevelItemType.TheoremGroup.injEq] at hitems
    have hcl : (toThenSection (toClause env)
        ((resolveSections (theoremWithoutThen start).Sections picks).get LowerThenName)
        (t ++ pre)).1.Clauses = [] := by
      rw [← hth, ← hitems]
      exact hthen
    rw [htk, toThenSection_no_clauses _ _ _ hcl, List.append_assoc, List.append_assoc] at htr
    have hrest := List.append_cancel_left htr
    have hlen := congrArg List.length hrest
    simp only [List.length_append, List.length_cons, List.length_nil] at hlen
    have hpre : pre = [] := List.length_eq_zero.mp (by omega)
    subst hpre
    simp only [List.nil_append, List.cons_append, List.cons.injEq] at hrest
    rw [← hrest.1] at hment
    have hno : mentions "Expected at least one item" LowerThenName = false := by decide
    exact absurd (hno ▸ hment : false = true) (by decide)

/-- C6, amended: for a document whose only node is the group `Theorem:` followed by just
`given: x`, the outcome follows the section identifier, for every identifier. When the
identifier rejects the group, the document holds no item and phase 5 appends, after the
diagnostics of the identifier, exactly one diagnostic, the error `Invalid top level item` of
origin `Phase5ParserOrigin` at the start of the group, and returns `ok = false`. When the
identifier accepts the group and files no section under `then`, the document holds one
`TheoremGroup`, whose `then` is the default empty value. -/
theorem theoremWithoutThen_follows_identifier (env : Env) (start : Position)
    (t : DiagnosticTracker) :
    ((env.IdentifySections (theoremWithoutThen start).Sections t env.TheoremSections).1 = none →
      Parse env ⟨[TopLevelNodeType.Group (theoremWithoutThen start)]⟩ t =
        (({ Items := [] }, false),
          t ++ (env.IdentifySections (theoremWithoutThen start).Sections t
            env.TheoremSections).2 ++ [newError "Invalid top level item" start])
      ∧ (newError "Invalid top level item" start).Origin = DiagnosticOrigin.Phase5ParserOrigin
      ∧ (newError "Invalid top level item" start).Severity = DiagnosticType.Error
      ∧ (newError "Invalid top level item" start).Position = (theoremWithoutThen start).Start)
    ∧ (∀ picks : List (String × Nat),
      (env.IdentifySections (theoremWithoutThen start).Sections t env.TheoremSections).1
        = some picks →
      (resolveSections (theoremWithoutThen start).Sections picks).find LowerThenName = none →
      ∃ grp : TheoremGroup,
        (Parse env ⟨[TopLevelNodeType.Group (theoremWithoutThen start)]⟩ t).1.1.Items =
          [TopLevelItemType.TheoremGroup grp]
        ∧ grp.Then.Clauses = []) := by
  refine ⟨fun h => ⟨theoremWithoutThen_rejected env start t h, rfl, rfl, rfl⟩, ?_⟩
  intro picks h hnone
  obtain ⟨pre, post, hi, hth, -⟩ := theoremWithoutThen_accepted env start t picks h
  refine ⟨_, hi, ?_⟩
  rw [hth]
  have hget : (resolveSections (theoremWithoutThen start).Sections picks).get LowerThenName
      = default := by
    simp only [SectionMap.get, hnone]
    rfl
  rw [hget]
  rfl

theorem theoremWithoutThen_follows_identifier_witness :
    (strictEnv.IdentifySections (theoremWithoutThen ⟨3, 1, 0⟩).Sections []
        strictEnv.TheoremSections).1 = none
    ∧ Parse strictEnv ⟨[TopLevelNodeType.Group (theoremWithoutThen ⟨3, 1, 0⟩)]⟩ [] =
        (({ Items := [] }, false),
          [] ++ (strictEnv.IdentifySections (theoremWithoutThen ⟨3, 1, 0⟩).Sections []
            strictEnv.TheoremSections).2 ++ [newError "Invalid top level item" ⟨3, 1, 0⟩])
    ∧ (strictEnv.IdentifySections (theoremWithoutThen ⟨3, 1, 0⟩).Sections []
        strictEnv.TheoremSections).2 = [missingSection LowerThenName ⟨3, 1, 0⟩]
    ∧ ((scenarioEnv ⟨0⟩).IdentifySections (theoremWithoutThen ⟨3, 1, 0⟩).Sections []
        (scenarioEnv ⟨0⟩).TheoremSections).1 = some [(UpperTheoremName, 0), (LowerGivenName, 1)]
    ∧ ∃ grp : TheoremGroup,
        (Parse (scenarioEnv ⟨0⟩)
          ⟨[TopLevelNodeType.Group (theoremWithoutThen ⟨3, 1, 0⟩)]⟩ []).1.1.Items =
          [TopLevelItemType.TheoremGroup grp]
        ∧ grp.Then.Clauses = [] :=
  ⟨rfl, ((theoremWithoutThen_follows_identifier strictEnv ⟨3, 1, 0⟩ []).1 rfl).1, rfl, rfl,
    (theoremWithoutThen_follows_identifier (scenarioEnv ⟨0⟩) ⟨3, 1, 0⟩ []).2
      [(UpperTheoremName, 0), (LowerGivenName, 1)] rfl rfl⟩

end Mathlingua
